import Mathlib

/-! Nabto client C++ wrapper: futures, stream reads and CoAP response accessors.

A shallow embedding of `cpp_wrapper/nabto_client.cpp` (release 4.0).

The wrapper sits on top of the Nabto client C library, which is shipped as a
binary: its futures, streams and CoAP requests are visible only through the
declarations of `nabto_client.h`.  The state of that library is therefore part
of the `World` below as plain data (what `nabto_client_future_error_code`
reports for a future handle, whether a future is resolved, which callback is
registered on it), and the moments at which the library acts on its own
(resolving a future, invoking a registered callback) are explicit steps.

C++ objects live in a heap addressed by natural numbers.  A `std::shared_ptr`
is the address of the object it points to; the number of owners of a future
wrapper is kept next to it so that the destructor runs exactly when the last
owner goes away.

The later sections embed the tcptunnel example programs
(`examples/tcptunnel/src/tunnel_client.cpp` and
`examples/tcptunnel/src/tcptunnel_device.cpp`) as sequential programs over the
answers of the library, the user and the file system, the default IAM
configuration of the device, and the CoAP content-format enumerations of the
client and device headers.
-/

namespace Nabto

/-! ## Values -/

/-- Source: `typedef int NabtoClientError;` -/
abbrev NabtoClientError := Int

/-- Source: `uint8_t` -/
abbrev Byte := Fin 256

/-- Class `Status` (declared in `nabto_client.hpp`): it carries one error code. -/
structure Status where
  errorCode_ : NabtoClientError
deriving DecidableEq

/-- Source: `bool Status::ok() const { return errorCode_ == 0; }` -/
def Status.ok (s : Status) : Bool := s.errorCode_ == 0

/-- Source: `const Status& Status::OK = Status(0);` -/
def Status.OK : Status := ⟨0⟩

/-- Source: `NabtoException(ec)`: the exception every failing wrapper call throws. -/
structure NabtoException where
  ec : NabtoClientError
deriving DecidableEq

/-- Class `BufferOut`: a `std::vector<uint8_t>`. -/
structure BufferOut where
  data_ : List Byte
deriving DecidableEq

/-- Source: `BufferOut(size_t capacity) : data_(capacity)`: `capacity` zero bytes. -/
def BufferOut.ofCapacity (capacity : Nat) : BufferOut := ⟨List.replicate capacity 0⟩

/-- Source: `BufferOut(const uint8_t* data, size_t dataLength)`:
`data_ = std::vector<uint8_t>(data, data + dataLength)`.  The memory at `data`
is given as the list of bytes found there. -/
def BufferOut.ofData (data : List Byte) (dataLength : Nat) : BufferOut := ⟨data.take dataLength⟩

/-- Source: `uint8_t* data() { return data_.data(); }` -/
def BufferOut.data (b : BufferOut) : List Byte := b.data_

/-- Source: `size_t size() { return data_.size(); }` -/
def BufferOut.size (b : BufferOut) : Nat := b.data_.length

/-- Source: `void resize(size_t n) { data_.resize(n); }`: the first `n` elements are
kept, and a vector shorter than `n` is filled up with zero bytes. -/
def BufferOut.resize (b : BufferOut) (n : Nat) : BufferOut :=
  ⟨b.data_.take n ++ List.replicate (n - b.data_.length) 0⟩

/-- A `std::shared_ptr<FutureCallback>`.  The wrapper itself makes one callback,
the lambda `[](Status){ /* do nothing */ }` of the destructors; every other
callback comes from the caller and is known by an identifier. -/
inductive FutureCallback
  | doNothing
  | user (id : Nat)
deriving DecidableEq

/-- What can be observed of a run: the calls into the C library that act on a
future, and the invocations of callbacks of the caller. -/
inductive Event
  /-- Source: `nabto_client_future_wait(future)` has returned. -/
  | future_wait (future : Nat)
  /-- Source: `nabto_client_future_set_callback(future, &doCallback, data)`. -/
  | future_set_callback (future : Nat) (data : Nat)
  /-- Source: `nabto_client_future_free(future)`, called by the destructor of the
  wrapper at address `self`. -/
  | future_free (self : Nat) (future : Nat)
  /-- The callback `id` of the caller was run with `status`. -/
  | run (id : Nat) (status : Status)
deriving DecidableEq

/-- Source: `cb->run(status)`: the do-nothing lambda leaves no observation. -/
def FutureCallback.run (cb : FutureCallback) (status : Status) : List Event :=
  match cb with
  | .doNothing => []
  | .user id => [Event.run id status]

/-! ## Future wrappers -/

/-- The fields in which the three future wrappers differ. -/
inductive Payload
  /-- Source: `FutureBufferImpl`: `std::shared_ptr<BufferOut> data_` and
  `std::shared_ptr<size_t> transferred_`. -/
  | buffer (data_ : Nat) (transferred_ : Nat)
  /-- Source: `FutureMdnsResultImpl`: `std::shared_ptr<MdnsResult> result_`. -/
  | mdns (result_ : Nat)
  /-- Source: `FutureVoidImpl`: `std::shared_ptr<Buffer> data_`, null when the wrapper
  was made by the constructor that takes only the future. -/
  | void (data_ : Option Nat)
deriving DecidableEq

/-- The classes `FutureBufferImpl`, `FutureMdnsResultImpl` and `FutureVoidImpl`.
They have the same fields `future_`, `selfReference_`, `cb_` and `ended_` and the
same code for the destructor, `waitForResult`, `doCallback` and `callback`; they
differ in the fields gathered in `Payload` and in what `getResult` returns. -/
structure FutureImpl where
  /-- Source: `NabtoClientFuture* future_`: the handle of the future of the C library. -/
  future_ : Nat
  payload : Payload
  /-- Source: `selfReference_`: null, or the address of the object itself. -/
  selfReference_ : Option Nat
  /-- Source: `cb_`: null until `callback` is called. -/
  cb_ : Option FutureCallback
  /-- Source: `bool ended_ = false;` -/
  ended_ : Bool
deriving DecidableEq

/-- The constructors of the three classes: they set `future_` and the payload
and leave `selfReference_` and `cb_` null and `ended_` false. -/
def FutureImpl.new (future : Nat) (payload : Payload) : FutureImpl :=
  { future_ := future, payload := payload, selfReference_ := none, cb_ := none, ended_ := false }

/-- A future wrapper in the heap.  `owners` counts the `std::shared_ptr`s to it
other than its own `selfReference_`; once destroyed the object stays in the heap,
flagged, with the values its fields had when the destructor ran. -/
structure Obj where
  val : FutureImpl
  owners : Nat
  destroyed : Bool
deriving DecidableEq

/-- A read that `nabto_client_stream_read_all` or `nabto_client_stream_read_some`
was asked for: where the library has to put the bytes and the count. -/
structure ReadOp where
  /-- true for `read_all`, false for `read_some` -/
  all : Bool
  stream : Nat
  /-- Source: `void* buffer`: the address of the `BufferOut` whose storage is written -/
  buffer : Nat
  bufferLength : Nat
  /-- Source: `size_t* readLength` -/
  readLength : Nat
deriving DecidableEq

/-- The state of a run: the C library as the wrapper can observe it, the heap
of the wrapper, and the observations so far. -/
structure World where
  /-- What `nabto_client_future_error_code` returns for a future handle. -/
  error_code : Nat → NabtoClientError
  /-- Whether the library has resolved the future. -/
  resolved : Nat → Bool
  /-- The `data` pointer of the callback registered on a future, if any. -/
  registered : Nat → Option Nat
  /-- The read behind a future that a stream read returned. -/
  reads : Nat → Option ReadOp
  /-- The `BufferOut` objects, by address. -/
  buffers : Nat → BufferOut
  /-- The `size_t` objects made by `std::make_shared<size_t>()`, by address. -/
  sizes : Nat → Nat
  /-- The future wrappers, by address. -/
  objs : Nat → Option Obj
  /-- The next unused address or handle. -/
  next : Nat
  trace : List Event

/-- The world before anything was made; `ec0` is what the library reports for
the futures it has not resolved. -/
def World.init (ec0 : Nat → NabtoClientError) : World :=
  { error_code := ec0, resolved := fun _ => false, registered := fun _ => none,
    reads := fun _ => none, buffers := fun _ => ⟨[]⟩, sizes := fun _ => 0,
    objs := fun _ => none, next := 0, trace := [] }

/-- The wrapper at address `this`, when there is one and it is not destroyed. -/
def World.live (w : World) (this : Nat) : Option Obj :=
  match w.objs this with
  | some o => if o.destroyed then none else some o
  | none => none

/-- Store `o` at address `this`. -/
def World.setObj (w : World) (this : Nat) (o : Obj) : World :=
  { w with objs := Function.update w.objs this (some o) }

/-- Append observations. -/
def World.emit (w : World) (es : List Event) : World :=
  { w with trace := w.trace ++ es }

/-! ## The C library, as declared in `nabto_client.h` -/

/-- Source: `NabtoClientError nabto_client_future_error_code(NabtoClientFuture* future)` -/
def nabto_client_future_error_code (w : World) (future : Nat) : NabtoClientError :=
  w.error_code future

/-- Source: `void nabto_client_future_wait(NabtoClientFuture* future)`: "Wait until a
future is resolved."  The call returns only in a world in which the future is
resolved; `none` stands for a call that is still blocked. -/
def nabto_client_future_wait (w : World) (future : Nat) : Option World :=
  if w.resolved future then some (w.emit [Event.future_wait future]) else none

/-- Source: `nabto_client_future_set_callback(future, callback, data)`: "Set a callback
to be called when the future resolves".  The wrappers always pass `&doCallback`. -/
def nabto_client_future_set_callback (w : World) (future : Nat) (data : Nat) : World :=
  { w with registered := Function.update w.registered future (some data),
           trace := w.trace ++ [Event.future_set_callback future data] }

/-- Source: `void nabto_client_future_free(NabtoClientFuture* future)`, called from the
destructor of the wrapper at `self`. -/
def nabto_client_future_free (w : World) (self : Nat) (future : Nat) : World :=
  w.emit [Event.future_free self future]

/-! ## Methods of the future wrappers -/

/-- What `getResult` returns: `data_` for a `FutureBufferImpl`, `result_` for a
`FutureMdnsResultImpl`, nothing for a `FutureVoidImpl`. -/
inductive Result
  | buffer (data : Nat)
  | mdns (result : Nat)
  | void
deriving DecidableEq

/-- Source: `getResult()` of the three classes:
```
auto ec = nabto_client_future_error_code(future_);
if (ec) { throw NabtoException(ec); }
data_->resize(*transferred_); return data_;   // FutureBufferImpl
return result_;                               // FutureMdnsResultImpl
                                              // FutureVoidImpl: nothing more
```
`none` when there is no live wrapper at `this`. -/
def getResult (w : World) (this : Nat) : Option (Except NabtoException Result × World) :=
  match w.live this with
  | none => none
  | some o =>
    let ec := nabto_client_future_error_code w o.val.future_
    if ec ≠ 0 then some (Except.error ⟨ec⟩, w)
    else
      match o.val.payload with
      | .buffer data_ transferred_ =>
        some (Except.ok (Result.buffer data_),
          { w with buffers :=
              Function.update w.buffers data_ ((w.buffers data_).resize (w.sizes transferred_)) })
      | .mdns result_ => some (Except.ok (Result.mdns result_), w)
      | .void _ => some (Except.ok Result.void, w)

/-- Source: `waitForResult()` of the three classes:
```
nabto_client_future_wait(future_);
ended_ = true;
return getResult();
```
`none` when there is no live wrapper at `this` or the wait does not return. -/
def waitForResult (w : World) (this : Nat) : Option (Except NabtoException Result × World) :=
  match w.live this with
  | none => none
  | some o =>
    match nabto_client_future_wait w o.val.future_ with
    | none => none
    | some w1 =>
      let w2 := w1.setObj this { o with val := { o.val with ended_ := true } }
      getResult w2 this


/-- Method `callback(cb)` of the three classes:
```
cb_ = cb;
selfReference_ = shared_from_this();
nabto_client_future_set_callback(future_, &doCallback, this);
```
-/
def callback (w : World) (this : Nat) (cb : FutureCallback) : Option World :=
  match w.live this with
  | none => none
  | some o =>
    let w1 := w.setObj this { o with val := { o.val with cb_ := some cb, selfReference_ := some this } }
    some (nabto_client_future_set_callback w1 o.val.future_ this)

/-- The destructors `~FutureBufferImpl()`, `~FutureMdnsResultImpl()` and
`~FutureVoidImpl()`:
```
if (!ended_) {
    auto c = std::make_shared<FutureBufferImpl>(future_, data_, transferred_);
    c->callback(std::make_shared<CallbackFunction>([](Status){ /* do nothing */ }));
} else {
    nabto_client_future_free(future_);
}
```
The object is flagged destroyed from the start: the body calls nothing on it.
At the closing brace of the first branch the local `c` goes away; the fresh
wrapper then has no owner but the `selfReference_` that `callback` has set. -/
def destructor (w : World) (this : Nat) : Option World :=
  match w.live this with
  | none => none
  | some o =>
    let w0 := w.setObj this { o with destroyed := true }
    if !o.val.ended_ then
      let c := w0.next
      let w1 := ({ w0 with next := c + 1 } : World).setObj c
        { val := FutureImpl.new o.val.future_ o.val.payload, owners := 1, destroyed := false }
      match callback w1 c FutureCallback.doNothing with
      | none => none
      | some w2 =>
        match w2.live c with
        | none => none
        | some oc => some (w2.setObj c { oc with owners := oc.owners - 1 })
    else
      some (nabto_client_future_free w0 this o.val.future_)

/-- The static `doCallback(NabtoClientFuture* future, void* data)` of the three
classes:
```
FutureBufferImpl* self = (FutureBufferImpl*)data;
self->ended_ = true;
auto ec = nabto_client_future_error_code(self->future_);
self->cb_->run(Status(ec));
self->selfReference_ = nullptr;
```
Clearing `selfReference_` releases the wrapper when it held its last reference,
and then its destructor runs.  `none` when `data` is no live wrapper or `cb_` is
null. -/
def doCallback (w : World) (_future : Nat) (data : Nat) : Option World :=
  match w.live data with
  | none => none
  | some o =>
    match o.val.cb_ with
    | none => none
    | some cb =>
      let ec := nabto_client_future_error_code w o.val.future_
      let w1 := (w.setObj data
        { o with val := { o.val with ended_ := true, selfReference_ := none } }).emit (cb.run ⟨ec⟩)
      if o.val.selfReference_.isSome && o.owners == 0 then destructor w1 data else some w1

/-- The caller lets go of one `std::shared_ptr` to the wrapper at `this`; the
destructor runs when that was the last reference. -/
def drop (w : World) (this : Nat) : Option World :=
  match w.live this with
  | none => none
  | some o =>
    if o.owners = 0 then none
    else
      let w1 := w.setObj this { o with owners := o.owners - 1 }
      if o.owners = 1 ∧ o.val.selfReference_ = none then destructor w1 this else some w1

/-- The caller copies a `std::shared_ptr` to the wrapper at `this` (it has
one to copy). -/
def share (w : World) (this : Nat) : Option World :=
  match w.live this with
  | none => none
  | some o => if o.owners = 0 then none else some (w.setObj this { o with owners := o.owners + 1 })

/-! ## Calls that make a future -/

/-- Any call of the C library that returns a `NabtoClientFuture*` and has no
out-parameter (`nabto_client_connection_connect`, `nabto_client_stream_open`,
`nabto_client_stream_write`, `nabto_client_coap_execute`, ...): the handle is
new. -/
def future_from_library (w : World) : Nat × World :=
  (w.next, { w with next := w.next + 1 })

/-- The library calls `nabto_client_stream_read_all(stream, buffer, bufferLength, readLength)`
and `nabto_client_stream_read_some(...)`: a new future, behind which the library
keeps where to put the bytes and the count. -/
def nabto_client_stream_read (w : World) (op : ReadOp) : Nat × World :=
  (w.next, { w with next := w.next + 1, reads := Function.update w.reads w.next (some op) })

/-- Allocation `std::make_shared<FutureBufferImpl>(future, data, transferred)` and
its siblings: the new wrapper is owned by the one `std::shared_ptr` returned. -/
def makeFuture (w : World) (future : Nat) (payload : Payload) : Nat × World :=
  (w.next, ({ w with next := w.next + 1 } : World).setObj w.next
    { val := FutureImpl.new future payload, owners := 1, destroyed := false })

/-- The body shared by `StreamImpl::readAll(size_t n)` and `StreamImpl::readSome(size_t max)`:
```
auto data = std::make_shared<BufferOut>(n);
auto transferred = std::make_shared<size_t>();
auto future = std::make_shared<FutureBufferImpl>(
    nabto_client_stream_read_all(stream_, data->data(), data->size(), transferred.get()),
    data, transferred);
return future;
```
-/
def StreamImpl.read (all : Bool) (w : World) (stream_ : Nat) (n : Nat) : Nat × World :=
  let data := w.next
  let w1 : World := { w with next := data + 1,
                             buffers := Function.update w.buffers data (BufferOut.ofCapacity n) }
  let transferred := w1.next
  let w2 : World := { w1 with next := transferred + 1,
                              sizes := Function.update w1.sizes transferred 0 }
  let (future, w3) := nabto_client_stream_read w2
    { all := all, stream := stream_, buffer := data, bufferLength := (w2.buffers data).size,
      readLength := transferred }
  makeFuture w3 future (Payload.buffer data transferred)

/-- Method `StreamImpl::readAll(size_t n)`; the result is the address of the
`FutureBufferImpl`. -/
def StreamImpl.readAll (w : World) (stream_ : Nat) (n : Nat) : Nat × World :=
  StreamImpl.read true w stream_ n

/-- Method `StreamImpl::readSome(size_t max)`. -/
def StreamImpl.readSome (w : World) (stream_ : Nat) (max : Nat) : Nat × World :=
  StreamImpl.read false w stream_ max

/-- Every method that returns `std::make_shared<FutureVoidImpl>(...)`:
`ConnectionImpl::connect`, `ConnectionImpl::close`, `StreamImpl::open`,
`StreamImpl::close`, `CoapImpl::execute`, `TcpTunnelImpl::open` (with `data`
null) and `StreamImpl::write(data)` (which keeps `data`). -/
def makeFutureVoid (w : World) (data : Option Nat) : Nat × World :=
  let (future, w1) := future_from_library w
  makeFuture w1 future (Payload.void data)

/-- Method `MdnsResolverImpl::getResult()`:
```
auto result = nabto_client_experimental_mdns_result_new(context_);
auto resultWrapper = std::make_shared<MdnsResultImpl>(result);
auto future = nabto_client_experimental_mdns_resolver_get_result(resolver_, result);
return std::make_shared<FutureMdnsResultImpl>(future, resultWrapper);
```
One address stands for the result and its `MdnsResultImpl`. -/
def MdnsResolverImpl.getResult (w : World) : Nat × World :=
  let result := w.next
  let w1 : World := { w with next := result + 1 }
  let (future, w2) := future_from_library w1
  makeFuture w2 future (Payload.mdns result)

/-! ## What the library does on its own -/

/-- Bytes written into the storage of a vector from its start: the vector
keeps its size. -/
def BufferOut.write (b : BufferOut) (written : List Byte) : BufferOut :=
  ⟨(written ++ b.data_.drop written.length).take b.data_.length⟩

/-- The library resolves a future with error code `ec`.  Behind a stream read
it first writes `written` (no more than `bufferLength` bytes) into the buffer
and `count` into `*readLength`.  A future is resolved once. -/
def resolve (w : World) (future : Nat) (ec : NabtoClientError) (written : List Byte)
    (count : Nat) : Option World :=
  if w.resolved future then none
  else
    let done (w1 : World) : World :=
      { w1 with resolved := Function.update w1.resolved future true,
                error_code := Function.update w1.error_code future ec }
    match w.reads future with
    | none => some (done w)
    | some op =>
      if written.length ≤ op.bufferLength then
        some (done { w with
          buffers := Function.update w.buffers op.buffer ((w.buffers op.buffer).write written),
          sizes := Function.update w.sizes op.readLength count })
      else none

/-- The library invokes the callback registered on a future, which it does
when the future is resolved ("Set a callback to be called when the future
resolves"): it calls `doCallback(future, data)`. -/
def fire (w : World) (future : Nat) : Option World :=
  if w.resolved future then
    match w.registered future with
    | some data => doCallback w future data
    | none => none
  else none

/-! ## Runs -/

/-- One step of a run: a call of the application or an act of the library. -/
inductive Op
  | readAll (stream n : Nat)
  | readSome (stream max : Nat)
  | makeFutureVoid (data : Option Nat)
  | mdnsGetResult
  | waitForResult (this : Nat)
  | getResult (this : Nat)
  | callback (this : Nat) (cb : FutureCallback)
  | share (this : Nat)
  | drop (this : Nat)
  | resolve (future : Nat) (ec : NabtoClientError) (written : List Byte) (count : Nat)
  | fire (future : Nat)

/-- The world after one step; `none` when the step cannot be taken (a blocked
wait, a call on a destroyed wrapper, a second resolution). -/
def step (w : World) : Op → Option World
  | .readAll stream n => some (StreamImpl.readAll w stream n).2
  | .readSome stream max => some (StreamImpl.readSome w stream max).2
  | .makeFutureVoid data => some (makeFutureVoid w data).2
  | .mdnsGetResult => some (MdnsResolverImpl.getResult w).2
  | .waitForResult this => (waitForResult w this).map Prod.snd
  | .getResult this => (getResult w this).map Prod.snd
  | .callback this cb => callback w this cb
  | .share this => share w this
  | .drop this => drop w this
  | .resolve future ec written count => resolve w future ec written count
  | .fire future => fire w future

/-- The world after a sequence of steps. -/
def run (w : World) : List Op → Option World
  | [] => some w
  | op :: ops => (step w op).bind fun w1 => run w1 ops

/-- The worlds a run can reach from the empty world, whatever the library
reports for futures it has not resolved. -/
inductive Reachable : World → Prop
  | init (ec0 : Nat → NabtoClientError) : Reachable (World.init ec0)
  | step {w w1 : World} (op : Op) : Reachable w → step w op = some w1 → Reachable w1


/-! ## CoAP response accessors

The three accessors of `CoapImpl` each make one call into the C library and
turn its answer into a return value or an exception.  The answer of the library
is the argument of the functions below. -/

/-- A `NabtoClientBuffer` of the library: `nabto_client_buffer_data` gives the
memory at `data`, `nabto_client_buffer_size` gives `size`. -/
structure NabtoClientBuffer where
  data : List Byte
  size : Nat
deriving DecidableEq

/-- Source: `nabto_client_buffer_data(buffer)` -/
def nabto_client_buffer_data (buffer : NabtoClientBuffer) : List Byte := buffer.data

/-- Source: `nabto_client_buffer_size(buffer)` -/
def nabto_client_buffer_size (buffer : NabtoClientBuffer) : Nat := buffer.size

/-- Conversion of a `uint16_t` to the `int` the accessors return. -/
def uint16_to_int (v : Nat) : Int := ((v % 65536 : Nat) : Int)

/-- Method `CoapImpl::getResponseStatusCode()`:
```
ec = nabto_client_coap_get_response_status_code(request_, &statusCode);
if (ec) { throw NabtoException(ec); }
return statusCode;
```
`ec` is what the call returned and `statusCode` what it left in the `uint16_t`. -/
def CoapImpl.getResponseStatusCode (ec : NabtoClientError) (statusCode : Nat) :
    Except NabtoException Int :=
  if ec ≠ 0 then Except.error ⟨ec⟩ else Except.ok (uint16_to_int statusCode)

/-- Method `CoapImpl::getResponseContentFormat()`:
```
ec = nabto_client_coap_get_response_content_format(request_, &contentFormat);
if (ec == NABTO_CLIENT_COAP_NO_CONTENT_FORMAT) {
    return -1;
} else if (ec) {
    throw NabtoException(ec);
}
return contentFormat;
```
The constant `NABTO_CLIENT_COAP_NO_CONTENT_FORMAT` is defined in no file of the
release and is the first argument. -/
def CoapImpl.getResponseContentFormat (NABTO_CLIENT_COAP_NO_CONTENT_FORMAT : NabtoClientError)
    (ec : NabtoClientError) (contentFormat : Nat) : Except NabtoException Int :=
  if ec = NABTO_CLIENT_COAP_NO_CONTENT_FORMAT then Except.ok (-1)
  else if ec ≠ 0 then Except.error ⟨ec⟩
  else Except.ok (uint16_to_int contentFormat)

/-- Method `CoapImpl::getResponsePayload()`:
```
NabtoClientBuffer* buffer = nabto_client_coap_get_response_payload(request_);
if (buffer == NULL) { return nullptr; }
auto ret = std::make_shared<BufferOut>(
    reinterpret_cast<const uint8_t*>(nabto_client_buffer_data(buffer)),
    nabto_client_buffer_size(buffer));
nabto_client_buffer_free(buffer);
return ret;
```
`buffer` is what the call returned, `none` for `NULL`. -/
def CoapImpl.getResponsePayload (buffer : Option NabtoClientBuffer) :
    Except NabtoException (Option BufferOut) :=
  match buffer with
  | none => Except.ok none
  | some b => Except.ok (some (BufferOut.ofData (nabto_client_buffer_data b) (nabto_client_buffer_size b)))

/-! ## Worlds used as concrete inputs -/

/-- A `FutureVoidImpl` (at address 1, on future 0) that the library has resolved
with error code 7. -/
def exampleFailedVoid : World :=
  ((resolve (makeFutureVoid (World.init fun _ => 3) none).2 0 7 [] 0).getD (World.init fun _ => 3))

/-- A `readAll(4)` on stream 0 (buffer at address 0, count at 1, future 2,
wrapper at 3) whose future the library has resolved with the non-zero code 5
after writing the two bytes 10, 20 and the count 2. -/
def exampleShortRead : World :=
  (resolve (StreamImpl.readAll (World.init fun _ => 3) 0 4).2 2 5 [10, 20] 2).getD
    (World.init fun _ => 3)

/-- The same read resolved with code 0. -/
def exampleGoodRead : World :=
  (resolve (StreamImpl.readAll (World.init fun _ => 3) 0 4).2 2 0 [10, 20] 2).getD
    (World.init fun _ => 3)

/-- Calling `getResult` on the wrapper at `this` once more, `n` times over. -/
def getResultAgain (w : World) (this : Nat) : Nat → Option (Except NabtoException Result × World)
  | 0 => getResult w this
  | n + 1 => (getResultAgain w this n).bind fun out => getResult out.2 this

/-- The holder that a destructor leaves behind for a wrapper `o` it found not
ended: the same future and payload, the do-nothing callback, a reference to
itself (it lives at address `c`), no other owner. -/
def holderFor (o : Obj) (c : Nat) : Obj :=
  { val := { future_ := o.val.future_, payload := o.val.payload, selfReference_ := some c,
             cb_ := some FutureCallback.doNothing, ended_ := false },
    owners := 0, destroyed := false }

/-- A pending `readAll(4)` on the empty world: buffer at address 0, count at 1,
future 2, wrapper at 3, owned by the caller. -/
def examplePendingRead : World := (StreamImpl.readAll (World.init fun _ => 3) 0 4).2

/-- A `FutureVoidImpl` (at address 1, on future 0) on which the caller has
registered the callback 9 and which the library has then resolved with code 7. -/
def exampleRegistered : World :=
  (run (World.init fun _ => 3)
    [Op.makeFutureVoid none, Op.callback 1 (FutureCallback.user 9), Op.resolve 0 7 [] 0]).getD
    (World.init fun _ => 3)

/-- What holds of every world a run can reach: addresses from `next` on are
unused; a wrapper marked ended has a resolved future; the `data` pointer of a
registered callback is a wrapper on that very future. -/
structure WellFormed (w : World) : Prop where
  fresh : ∀ a, w.next ≤ a → w.objs a = none
  ended_resolved : ∀ a o, w.objs a = some o → o.val.ended_ = true →
    w.resolved o.val.future_ = true
  registered_future : ∀ f a, w.registered f = some a →
    ∃ o, w.objs a = some o ∧ o.val.future_ = f

/-- How one step may change the wrappers: a wrapper keeps its address and its
future, its `ended_` flag is not cleared, and the flag is newly set only on a
wrapper for which `P` holds and whose future is resolved afterwards; a wrapper
that appears is at a new address and not ended. -/
structure Evolves (P : Nat → Prop) (w w1 : World) : Prop where
  next_le : w.next ≤ w1.next
  resolved_mono : ∀ f, w.resolved f = true → w1.resolved f = true
  kept : ∀ a o, w.objs a = some o →
    ∃ o1, w1.objs a = some o1 ∧ o1.val.future_ = o.val.future_ ∧
      (o.val.ended_ = true → o1.val.ended_ = true) ∧
      (o.val.ended_ = false → o1.val.ended_ = true →
        P a ∧ w1.resolved o.val.future_ = true)
  made : ∀ a o1, w.objs a = none → w1.objs a = some o1 →
    w.next ≤ a ∧ a < w1.next ∧ o1.val.ended_ = false
  registered : ∀ f a, w1.registered f = some a →
    w.registered f = some a ∨ ∃ o1, w1.objs a = some o1 ∧ o1.val.future_ = f

/-- The two steps at which a wrapper at address `a` may come to be marked ended:
`waitForResult` on it, and the library firing the callback registered for it. -/
def EndsAt (w : World) (op : Op) (a : Nat) : Prop :=
  op = Op.waitForResult a ∨ ∃ f, op = Op.fire f ∧ w.registered f = some a

/-- The world after `waitForResult` on the wrapper of `exampleFailedVoid`. -/
def exampleWaited : World :=
  (step exampleFailedVoid (Op.waitForResult 1)).getD (World.init fun _ => 3)

/-! ## Connection: setters, fingerprints, streams and CoAP requests

As for the CoAP accessors, the answer of the one call each method makes into
the C library is an argument of the method. -/

/-- Method `ConnectionImpl::setProductId(const std::string& productId)`:
```
NabtoClientError ec = nabto_client_connection_set_product_id(connection_, productId.c_str());
if (ec) { throw NabtoException(ec); }
```
-/
def ConnectionImpl.setProductId (ec : NabtoClientError) : Except NabtoException Unit :=
  if ec ≠ 0 then Except.error ⟨ec⟩ else Except.ok ()

/-- Method `ConnectionImpl::setDeviceId(const std::string& deviceId)`:
```
NabtoClientError ec = nabto_client_connection_set_device_id(connection_, deviceId.c_str());
if (ec) { throw NabtoException(ec); }
```
-/
def ConnectionImpl.setDeviceId (ec : NabtoClientError) : Except NabtoException Unit :=
  if ec ≠ 0 then Except.error ⟨ec⟩ else Except.ok ()

/-- Method `ConnectionImpl::setServerKey(const std::string& serverKey)`:
```
NabtoClientError ec = nabto_client_connection_set_server_key(connection_, serverKey.c_str());
if (ec) { throw NabtoException(ec); }
```
-/
def ConnectionImpl.setServerKey (ec : NabtoClientError) : Except NabtoException Unit :=
  if ec ≠ 0 then Except.error ⟨ec⟩ else Except.ok ()

/-- Method `ConnectionImpl::setApplicationName(const std::string& applicationName)`:
```
NabtoClientError ec = nabto_client_connection_set_application_name(connection_, applicationName.c_str());
if (ec) { throw NabtoException(ec); }
```
-/
def ConnectionImpl.setApplicationName (ec : NabtoClientError) : Except NabtoException Unit :=
  if ec ≠ 0 then Except.error ⟨ec⟩ else Except.ok ()

/-- Method `ConnectionImpl::setApplicationVersion(const std::string& applicationVersion)`:
```
NabtoClientError ec = nabto_client_connection_set_application_version(connection_, applicationVersion.c_str());
if (ec) { throw NabtoException(ec); }
```
-/
def ConnectionImpl.setApplicationVersion (ec : NabtoClientError) : Except NabtoException Unit :=
  if ec ≠ 0 then Except.error ⟨ec⟩ else Except.ok ()

/-- Method `ConnectionImpl::setServerUrl(const std::string& serverUrl)`:
```
NabtoClientError ec = nabto_client_connection_set_server_url(connection_, serverUrl.c_str());
if (ec) { throw NabtoException(ec); }
```
-/
def ConnectionImpl.setServerUrl (ec : NabtoClientError) : Except NabtoException Unit :=
  if ec ≠ 0 then Except.error ⟨ec⟩ else Except.ok ()

/-- Method `ConnectionImpl::setPrivateKey(const std::string& privateKey)`:
```
NabtoClientError ec = nabto_client_connection_set_private_key(connection_, privateKey.c_str());
if (ec) { throw NabtoException(ec); }
```
-/
def ConnectionImpl.setPrivateKey (ec : NabtoClientError) : Except NabtoException Unit :=
  if ec ≠ 0 then Except.error ⟨ec⟩ else Except.ok ()

/-- Method `ConnectionImpl::getDeviceFingerprintHex()`:
```
char fp[32];
auto ec = nabto_client_connection_get_device_fingerprint_hex(connection_, fp);
if (ec) { throw NabtoException(ec); }
return std::string(fp, 32);
```
`fp` is the array as the call left it; a `std::string` is its list of
characters. -/
def ConnectionImpl.getDeviceFingerprintHex (ec : NabtoClientError) (fp : Fin 32 → Byte) :
    Except NabtoException (List Byte) :=
  if ec ≠ 0 then Except.error ⟨ec⟩ else Except.ok (List.ofFn fp)

/-- Method `ConnectionImpl::getClientFingerprintHex()`:
```
char fp[32];
auto ec = nabto_client_connection_get_client_fingerprint_hex(connection_, fp);
if (ec) { throw NabtoException(ec); }
return std::string(fp, 32);
```
-/
def ConnectionImpl.getClientFingerprintHex (ec : NabtoClientError) (fp : Fin 32 → Byte) :
    Except NabtoException (List Byte) :=
  if ec ≠ 0 then Except.error ⟨ec⟩ else Except.ok (List.ofFn fp)

/-- Class `StreamImpl`: its one field, `NabtoClientStream* stream_`, with
`none` for `NULL`. -/
structure StreamImpl where
  stream_ : Option Nat
deriving DecidableEq

/-- Constructor `StreamImpl(NabtoClientConnection* connection)`:
```
stream_ = nabto_client_stream_new(connection);
```
The argument is what `nabto_client_stream_new` returned ("NULL if the stream
could not be created, non NULL otherwise"). -/
def StreamImpl.new (stream_new : Option Nat) : StreamImpl := ⟨stream_new⟩

/-- Method `ConnectionImpl::createStream()`:
```
return std::make_shared<StreamImpl>(connection_);
```
The result is the `std::shared_ptr<Stream>`, `none` for a null pointer;
`std::make_shared` never gives a null pointer. -/
def ConnectionImpl.createStream (stream_new : Option Nat) : Option StreamImpl :=
  some (StreamImpl.new stream_new)

/-- Class `CoapImpl`: its one field, `NabtoClientCoap* request_`. -/
structure CoapImpl where
  request_ : Nat
deriving DecidableEq

/-- The static `CoapImpl::create(connection, method, path)`:
```
auto request_ = nabto_client_coap_new(connection, method.c_str(), path.c_str());
if (!request_) { return nullptr; }
return std::make_shared<CoapImpl>(request_);
```
The argument is what `nabto_client_coap_new` returned. -/
def CoapImpl.create (coap_new : Option Nat) : Option CoapImpl :=
  match coap_new with
  | none => none
  | some request_ => some ⟨request_⟩

/-- Method `ConnectionImpl::createCoap(method, path)`:
```
return CoapImpl::create(connection_, method, path);
```
-/
def ConnectionImpl.createCoap (coap_new : Option Nat) : Option CoapImpl :=
  CoapImpl.create coap_new

/-! ## Log severities -/

/-- The enumeration `NabtoClientLogSeverity` of `nabto_client.h` (the same in
releases 2.0 and rc1), its enumerators in the order of the declaration:
```
typedef enum NabtoClientLogSeverity_ {
    NABTO_CLIENT_LOG_SEVERITY_ERROR,
    NABTO_CLIENT_LOG_SEVERITY_WARN,
    NABTO_CLIENT_LOG_SEVERITY_INFO,
    NABTO_CLIENT_LOG_SEVERITY_DEBUG,
    NABTO_CLIENT_LOG_SEVERITY_TRACE,
} NabtoClientLogSeverity;
```
-/
inductive NabtoClientLogSeverity
  | NABTO_CLIENT_LOG_SEVERITY_ERROR
  | NABTO_CLIENT_LOG_SEVERITY_WARN
  | NABTO_CLIENT_LOG_SEVERITY_INFO
  | NABTO_CLIENT_LOG_SEVERITY_DEBUG
  | NABTO_CLIENT_LOG_SEVERITY_TRACE
deriving DecidableEq

/-- The enumerators of `NabtoClientLogSeverity` as the declaration lists them. -/
def NabtoClientLogSeverity.enumerators : List NabtoClientLogSeverity :=
  [.NABTO_CLIENT_LOG_SEVERITY_ERROR, .NABTO_CLIENT_LOG_SEVERITY_WARN,
   .NABTO_CLIENT_LOG_SEVERITY_INFO, .NABTO_CLIENT_LOG_SEVERITY_DEBUG,
   .NABTO_CLIENT_LOG_SEVERITY_TRACE]

/-- The value C gives an enumerator declared without an initialiser: 0 for the
first, one more than its predecessor for each other, which is its place in the
declaration. -/
def NabtoClientLogSeverity.value (s : NabtoClientLogSeverity) : Nat :=
  NabtoClientLogSeverity.enumerators.indexOf s

/-- The level names that `nabto_client_log_set_level` takes, as its comment
lists them: "error", "warn", "info", "debug", "trace". -/
def logLevelNames : List String := ["error", "warn", "info", "debug", "trace"]

/-- Modelled from the spec: the level a name selects.  The function
`nabto_client_log_set_level` is declared in `nabto_client.h` and defined in no
file of the release; the spec has "log verbosity selectable by level name
(`error|warn|info|debug|trace`)", the names standing in the order of the
severities. -/
def logLevelOfName (name : String) : Option NabtoClientLogSeverity :=
  NabtoClientLogSeverity.enumerators.get? (logLevelNames.indexOf name)

/-- Modelled from the spec: whether a message of severity `s` is logged when
`level` is selected.  The filter is in the library; its header says "Each
severity level includes all the less severe levels" and the spec
"monotonically more verbose going right". -/
def logLevelIncludes (level s : NabtoClientLogSeverity) : Bool :=
  decide (s.value ≤ level.value)

/-! ## The connection core, modelled from the spec

The core behind the C API (connection establishment, streams, completions) is
in no file of the release: the library is shipped as a binary and the headers
only declare its entry points.  What follows is written from the spec. -/

/-- Modelled from the spec: the result of a Completion.  The core is not in
the release; §7 of the spec gives the error kinds ("`InvalidState`,
`OperationInProgress`, `NoChannels`/`NotConnected`, `Eof`, `Aborted`, `Timeout`,
`NoData`, `NotImplemented`, `Unknown`"), and a Completion that succeeds resolves
`Ok`. -/
inductive ErrorKind
  | Ok
  | InvalidState
  | OperationInProgress
  | NoChannels
  | NotConnected
  | Eof
  | Aborted
  | Timeout
  | NoData
  | NotImplemented
  | Unknown
deriving DecidableEq

/-- The values of the error constants of the C API.  The headers declare them
`extern const NabtoClientError` and give no value; the wrapper takes 0 for
success (`Status::ok`), so the constant for `Ok` is 0 and the others are not. -/
structure ErrorCodes where
  code : ErrorKind → NabtoClientError
  ok_zero : code ErrorKind.Ok = 0
  error_nonzero : ∀ k, k ≠ ErrorKind.Ok → code k ≠ 0

/-- The configuration fields for which `ConnectionImpl` has a setter. -/
inductive ConfigField
  | productId
  | deviceId
  | serverKey
  | applicationName
  | applicationVersion
  | serverUrl
  | privateKey
deriving DecidableEq

/-- Modelled from the spec: the configuration a Connection aggregates, §3:
"product id, device id, server endpoint, credentials, application name/version,
candidate list, direct-only flag", and the local enable flag of §6.  The
credentials are the server key and the private key. -/
structure Configuration where
  productId : Option String
  deviceId : Option String
  serverKey : Option String
  applicationName : Option String
  applicationVersion : Option String
  serverUrl : Option String
  privateKey : Option String
  candidates : List (String × Nat)
  directOnly : Bool
  localEnabled : Bool
deriving DecidableEq

/-- Modelled from the spec: the configuration of a Connection just created:
nothing is set, local discovery is enabled. -/
def Configuration.empty : Configuration :=
  { productId := none, deviceId := none, serverKey := none, applicationName := none,
    applicationVersion := none, serverUrl := none, privateKey := none, candidates := [],
    directOnly := false, localEnabled := true }

/-- Modelled from the spec: writing one configuration field. -/
def Configuration.set (cfg : Configuration) (field : ConfigField) (value : String) :
    Configuration :=
  match field with
  | .productId => { cfg with productId := some value }
  | .deviceId => { cfg with deviceId := some value }
  | .serverKey => { cfg with serverKey := some value }
  | .applicationName => { cfg with applicationName := some value }
  | .applicationVersion => { cfg with applicationVersion := some value }
  | .serverUrl => { cfg with serverUrl := some value }
  | .privateKey => { cfg with privateKey := some value }

/-- Modelled from the spec: the "required configuration (identity, credentials,
endpoint)" of §4.2 is present: product id and device id, server key and private
key, server endpoint. -/
def Configuration.complete (cfg : Configuration) : Bool :=
  cfg.productId.isSome && cfg.deviceId.isSome && cfg.serverKey.isSome &&
    cfg.privateKey.isSome && cfg.serverUrl.isSome

/-- Modelled from the spec: §3, "`ConnectionState ∈ {Unconfigured, Connecting,
Connected, Closing, Closed}`". -/
inductive ConnectionState
  | Unconfigured
  | Connecting
  | Connected
  | Closing
  | Closed
deriving DecidableEq

/-- Modelled from the spec: §3, a Channel is "typed `{Local, Relay,
DirectCandidate}`". -/
inductive ChannelKind
  | Local
  | Relay
  | DirectCandidate
deriving DecidableEq

/-- Modelled from the spec: §3, "`ChannelState ∈ {Attempting, Established,
Upgrading, Failed}`". -/
inductive ChannelState
  | Attempting
  | Established
  | Upgrading
  | Failed
deriving DecidableEq

/-- Modelled from the spec: §3, a Channel is "one transport attempt"; `active`
says that it is the one "selected for data". -/
structure Channel where
  kind : ChannelKind
  state : ChannelState
  active : Bool
deriving DecidableEq

/-- Modelled from the spec: §3, a Connection: its configuration, its state and
its Channels.  Every Completion it hands out has a number; `resolutions` lists
the resolution events of these Completions in the order they happened. -/
structure Connection where
  config : Configuration
  state : ConnectionState
  channels : List Channel
  /-- the Completion of the connect that started the attempts -/
  connectCompletion : Option Nat
  /-- the Completion of the close in progress -/
  closeCompletion : Option Nat
  nextCompletion : Nat
  resolutions : List (Nat × ErrorKind)
deriving DecidableEq

/-- Modelled from the spec: a Connection as the caller creates it. -/
def Connection.new : Connection :=
  { config := Configuration.empty, state := ConnectionState.Unconfigured, channels := [],
    connectCompletion := none, closeCompletion := none, nextCompletion := 0, resolutions := [] }

/-- Modelled from the spec: the Completion `h` resolves with `r`. -/
def Connection.resolve (c : Connection) (h : Nat) (r : ErrorKind) : Connection :=
  { c with resolutions := c.resolutions ++ [(h, r)] }

/-- Modelled from the spec: a configuration setter of the core (the functions
`nabto_client_connection_set_product_id` and its siblings are declared in
`nabto_client.h` only).  §3: "Configuration fields are write-once: mutating
after `Connecting` begins fails with an invalid-state error." -/
def Connection.set (c : Connection) (field : ConfigField) (value : String) :
    ErrorKind × Connection :=
  if c.state = ConnectionState.Unconfigured then
    (ErrorKind.Ok, { c with config := c.config.set field value })
  else (ErrorKind.InvalidState, c)

/-- Modelled from the spec: the direct-only and local flags are configuration
and follow the same rule as the other fields. -/
def Connection.set_flags (c : Connection) (directOnly localEnabled : Bool) :
    ErrorKind × Connection :=
  if c.state = ConnectionState.Unconfigured then
    (ErrorKind.Ok,
      { c with config := { c.config with directOnly := directOnly, localEnabled := localEnabled } })
  else (ErrorKind.InvalidState, c)

/-- Modelled from the spec: §4.2, a candidate counts only if it was "explicitly
added before `connect()`". -/
def Connection.add_direct_candidate (c : Connection) (host : String) (port : Nat) :
    ErrorKind × Connection :=
  if c.state = ConnectionState.Unconfigured then
    (ErrorKind.Ok,
      { c with config := { c.config with candidates := c.config.candidates ++ [(host, port)] } })
  else (ErrorKind.InvalidState, c)

/-- Modelled from the spec: §4.2, the Channel attempts `connect()` spawns "per
the configuration": Local "if enabled", Relay "if a server endpoint and
credentials are configured" (neither when only direct candidates are wanted),
and one DirectCandidate for "each candidate (host, port)". -/
def Connection.spawn (cfg : Configuration) : List Channel :=
  (if cfg.localEnabled && !cfg.directOnly then
    [{ kind := ChannelKind.Local, state := ChannelState.Attempting, active := false }] else []) ++
  (if cfg.serverUrl.isSome && cfg.serverKey.isSome && cfg.privateKey.isSome && !cfg.directOnly then
    [{ kind := ChannelKind.Relay, state := ChannelState.Attempting, active := false }] else []) ++
  cfg.candidates.map fun _ =>
    { kind := ChannelKind.DirectCandidate, state := ChannelState.Attempting, active := false }

/-- Modelled from the spec: §4.2, "If all Channels reach `Failed` before any
succeeds, connect resolves with a no-channels error"; the failure is terminal. -/
def Connection.settle (c : Connection) : Connection :=
  if c.state = ConnectionState.Connecting ∧
      c.channels.all (fun ch => decide (ch.state = ChannelState.Failed)) = true then
    match c.connectCompletion with
    | some h =>
      let c1 : Connection := { c with state := ConnectionState.Closed }
      c1.resolve h ErrorKind.NoChannels
    | none => c
  else c

/-- Modelled from the spec: §4.2, `connect()`.  It hands out a new Completion.
"If required configuration (identity, credentials, endpoint) is missing, connect
fails synchronously-equivalent (resolves immediately) with an invalid-state
error without attempting any channel"; a connect outside `Unconfigured` is not
legal in that phase and fails the same way.  Otherwise "`connect()` transitions
`Unconfigured → Connecting`, spawns independent Channel attempts". -/
def Connection.connect (c : Connection) : Nat × Connection :=
  let h := c.nextCompletion
  let c1 : Connection := { c with nextCompletion := h + 1 }
  if c.state ≠ ConnectionState.Unconfigured then (h, c1.resolve h ErrorKind.InvalidState)
  else if c.config.complete = false then (h, c1.resolve h ErrorKind.InvalidState)
  else
    let c2 : Connection :=
      { c1 with state := ConnectionState.Connecting, connectCompletion := some h,
                channels := Connection.spawn c.config }
    (h, Connection.settle c2)

/-- Modelled from the spec: §4.2, the attempt at index `i` reaches
`Established`.  "the **first** Channel to reach `Established` becomes the active
Channel and resolves the connect Completion `Ok`; all other in-flight attempts
are abandoned (not necessarily cancelled instantly, but their results are
discarded)": a later attempt finds the Connection no longer `Connecting` and
touches neither the active Channel nor the Completion. -/
def Connection.established (c : Connection) (i : Nat) : Connection :=
  match c.channels[i]? with
  | none => c
  | some ch =>
    if ch.state = ChannelState.Attempting then
      if c.state = ConnectionState.Connecting then
        match c.connectCompletion with
        | none => c
        | some h =>
          let winner : Channel := { ch with state := ChannelState.Established, active := true }
          let c1 : Connection :=
            { c with channels := c.channels.set i winner, state := ConnectionState.Connected }
          c1.resolve h ErrorKind.Ok
      else
        { c with channels := c.channels.set i { ch with state := ChannelState.Established } }
    else c

/-- Modelled from the spec: an attempt (first attempt or upgrade) at index `i`
fails. -/
def Connection.failed (c : Connection) (i : Nat) : Connection :=
  match c.channels[i]? with
  | none => c
  | some ch =>
    if ch.state = ChannelState.Attempting ∨ ch.state = ChannelState.Upgrading then
      Connection.settle { c with channels := c.channels.set i { ch with state := ChannelState.Failed } }
    else c

/-- Modelled from the spec: §4.2, post-connect upgrade: "if the active Channel
was `Relay`, a background attempt to establish a `DirectCandidate`/peer-to-peer
path" starts. -/
def Connection.begin_upgrade (c : Connection) : Connection :=
  if c.state = ConnectionState.Connected ∧
      c.channels.any (fun ch => ch.active && decide (ch.kind = ChannelKind.Relay)) = true then
    let attempt : Channel :=
      { kind := ChannelKind.DirectCandidate, state := ChannelState.Upgrading, active := false }
    { c with channels := c.channels ++ [attempt] }
  else c

/-- Modelled from the spec: §4.2, the upgrade attempt at index `i` is
established: it "may silently replace the active Channel once established; this
transition ... never re-resolves the original connect Completion". -/
def Connection.upgraded (c : Connection) (i : Nat) : Connection :=
  match c.channels[i]? with
  | none => c
  | some ch =>
    if ch.state = ChannelState.Upgrading ∧ c.state = ConnectionState.Connected ∧
        c.channels.any (fun ch => ch.active && decide (ch.kind = ChannelKind.Relay)) = true then
      let others := c.channels.map fun old => { old with active := false }
      { c with channels := others.set i { ch with state := ChannelState.Established, active := true } }
    else c

/-- Modelled from the spec: §4.2, "`close()` transitions `Connected → Closing →
Closed`"; it hands out its own Completion, and a close in another state is not
legal in that phase. -/
def Connection.close (c : Connection) : Nat × Connection :=
  let h := c.nextCompletion
  let c1 : Connection := { c with nextCompletion := h + 1 }
  if c.state = ConnectionState.Connected then
    (h, { c1 with state := ConnectionState.Closing, closeCompletion := some h })
  else (h, c1.resolve h ErrorKind.InvalidState)

/-- Modelled from the spec: §4.2, the teardown of a close completes: the active
Channel is torn down and "its own Completion resolves `Ok` only once teardown
completes". -/
def Connection.closed (c : Connection) : Connection :=
  if c.state = ConnectionState.Closing then
    match c.closeCompletion with
    | none => c
    | some h =>
      let torn := c.channels.map fun old => { old with active := false }
      let c1 : Connection := { c with state := ConnectionState.Closed, channels := torn }
      c1.resolve h ErrorKind.Ok
  else c

/-- Modelled from the spec: what can happen to a Connection: the calls of the
application and the events the dispatcher delivers. -/
inductive ConnectionEvent
  | set (field : ConfigField) (value : String)
  | set_flags (directOnly localEnabled : Bool)
  | add_direct_candidate (host : String) (port : Nat)
  | connect
  | close
  | established (i : Nat)
  | failed (i : Nat)
  | begin_upgrade
  | upgraded (i : Nat)
  | closed

/-- Modelled from the spec: the Connection after one event. -/
def Connection.step (c : Connection) : ConnectionEvent → Connection
  | .set field value => (c.set field value).2
  | .set_flags directOnly localEnabled => (c.set_flags directOnly localEnabled).2
  | .add_direct_candidate host port => (c.add_direct_candidate host port).2
  | .connect => c.connect.2
  | .close => c.close.2
  | .established i => c.established i
  | .failed i => c.failed i
  | .begin_upgrade => c.begin_upgrade
  | .upgraded i => c.upgraded i
  | .closed => c.closed

/-- Modelled from the spec: the Connection after a sequence of events. -/
def Connection.run (c : Connection) : List ConnectionEvent → Connection
  | [] => c
  | e :: es => (c.step e).run es

/-- Modelled from the spec: the states a Connection can reach from its
creation. -/
inductive Connection.Reachable : Connection → Prop
  | new : Connection.Reachable Connection.new
  | step {c : Connection} (e : ConnectionEvent) :
      Connection.Reachable c → Connection.Reachable (c.step e)

/-- The setter of `ConnectionImpl` for a configuration field. -/
def ConnectionImpl.set (field : ConfigField) (ec : NabtoClientError) :
    Except NabtoException Unit :=
  match field with
  | .productId => ConnectionImpl.setProductId ec
  | .deviceId => ConnectionImpl.setDeviceId ec
  | .serverKey => ConnectionImpl.setServerKey ec
  | .applicationName => ConnectionImpl.setApplicationName ec
  | .applicationVersion => ConnectionImpl.setApplicationVersion ec
  | .serverUrl => ConnectionImpl.setServerUrl ec
  | .privateKey => ConnectionImpl.setPrivateKey ec

/-- Modelled from the spec: whether the Channel at index `i` is the active
one. -/
def Connection.activeAt (channels : List Channel) (i : Nat) : Bool :=
  match channels[i]? with
  | some ch => ch.active
  | none => false

/-- Modelled from the spec: the invariants of §3 and §4.2 a reachable
Connection keeps: "a Connection's active Channel is unique at any instant";
no Channel is active before the commit, and none exists before `connect()`;
every Completion resolves at most once, and the Completion of a connect or
close in progress is not yet resolved. -/
structure Connection.Sound (c : Connection) : Prop where
  active_unique : ∀ i j, Connection.activeAt c.channels i = true →
    Connection.activeAt c.channels j = true → i = j
  idle_inactive : c.state = ConnectionState.Unconfigured ∨ c.state = ConnectionState.Connecting →
    ∀ i, Connection.activeAt c.channels i = false
  unconfigured_no_channels : c.state = ConnectionState.Unconfigured → c.channels = []
  resolved_once : (c.resolutions.map Prod.fst).Nodup
  resolved_below : ∀ h, h ∈ c.resolutions.map Prod.fst → h < c.nextCompletion
  connecting_pending : c.state = ConnectionState.Connecting →
    ∃ h, c.connectCompletion = some h ∧ h < c.nextCompletion ∧
      h ∉ c.resolutions.map Prod.fst
  closing_pending : c.state = ConnectionState.Closing →
    ∃ h, c.closeCompletion = some h ∧ h < c.nextCompletion ∧
      h ∉ c.resolutions.map Prod.fst

/-- Error constants used for concrete inputs: 0 for `Ok`, and the place of
the kind in the list of §7 for the others. -/
def exampleCodes : ErrorCodes :=
  { code := fun k =>
      match k with
      | .Ok => 0
      | .InvalidState => 1
      | .OperationInProgress => 2
      | .NoChannels => 3
      | .NotConnected => 4
      | .Eof => 5
      | .Aborted => 6
      | .Timeout => 7
      | .NoData => 8
      | .NotImplemented => 9
      | .Unknown => 10,
    ok_zero := rfl,
    error_nonzero := by
      intro k hk
      cases k <;> first | exact absurd rfl hk | decide }

/-- The events that configure a Connection completely. -/
def exampleSetup : List ConnectionEvent :=
  [ConnectionEvent.set ConfigField.productId "pr-12345678",
   ConnectionEvent.set ConfigField.deviceId "de-12345678",
   ConnectionEvent.set ConfigField.serverKey "sk-12345678",
   ConnectionEvent.set ConfigField.privateKey "key",
   ConnectionEvent.set ConfigField.serverUrl "https://pr-12345678.clients.nabto.net"]

/-- A configured Connection on which `connect()` was called: a Local attempt
(index 0) and a Relay attempt (index 1) are in flight, the connect Completion
is number 0. -/
def exampleConnecting : Connection :=
  Connection.new.run (exampleSetup ++ [ConnectionEvent.connect])

/-- The Connection `exampleConnecting` after the Relay attempt and then the Local
attempt reached `Established`. -/
def exampleRaced : Connection :=
  exampleConnecting.run [ConnectionEvent.established 1, ConnectionEvent.established 0]

/-- A Connection with a product id and nothing else configured. -/
def exampleHalfConfigured : Connection :=
  Connection.new.run [ConnectionEvent.set ConfigField.productId "pr-12345678"]

/-! ## The Completion primitive, modelled from the spec -/

/-- Modelled from the spec: §3, a CompletionHandle has "`state ∈ {Pending,
Resolved}`".  The futures of the C API are in no file of the release. -/
inductive CompletionState
  | Pending
  | Resolved
deriving DecidableEq

/-- Modelled from the spec: §3, a CompletionHandle "holds `result:
Optional<ErrorKind>`, `state ∈ {Pending, Resolved}`, an optional registered
callback" (known by a number). -/
structure CompletionHandle where
  result : Option ErrorKind
  state : CompletionState
  callback : Option Nat
deriving DecidableEq

/-- Modelled from the spec: the operation behind a handle, as the dispatcher
carries it out: it finishes at the time `finishAt` of the dispatcher's clock
with `outcome`. -/
structure Operation where
  finishAt : Nat
  outcome : ErrorKind
deriving DecidableEq

/-- Modelled from the spec: a Completion in time: the clock, the handle, the
operation still under way (none once it has finished), and the invocations of
the registered callback so far. -/
structure Completion where
  now : Nat
  handle : CompletionHandle
  operation : Option Operation
  invoked : List (Nat × ErrorKind)
deriving DecidableEq

/-- Modelled from the spec: §4.1, "`create()` returns a Pending handle", here
for an operation the dispatcher has scheduled. -/
def Completion.create (now : Nat) (op : Operation) : Completion :=
  { now := now, handle := { result := none, state := CompletionState.Pending, callback := none },
    operation := some op, invoked := [] }

/-- Modelled from the spec: the one resolution event of a handle: it becomes
Resolved with its result, and the registered callback, if any, is invoked. -/
def Completion.resolve (c : Completion) (r : ErrorKind) : Completion :=
  match c.handle.state with
  | .Resolved => c
  | .Pending =>
    { c with
      handle := { c.handle with result := some r, state := CompletionState.Resolved },
      operation := none,
      invoked := c.invoked ++ (match c.handle.callback with
        | some cb => [(cb, r)]
        | none => []) }

/-- Modelled from the spec: the dispatcher runs until time `t`: an operation
that finishes by then resolves its handle. -/
def Completion.advance (c : Completion) (t : Nat) : Completion :=
  let c1 : Completion := { c with now := max c.now t }
  match c.operation with
  | some op => if op.finishAt ≤ t then c1.resolve op.outcome else c1
  | none => c1

/-- Modelled from the spec: §4.1, "`ready()` is always legal and non-blocking,
returning Pending" (`none`) "or the final result". -/
def Completion.ready (c : Completion) : Option ErrorKind :=
  match c.handle.state with
  | .Resolved => c.handle.result
  | .Pending => none

/-- Modelled from the spec: §4.1, "`wait()` — blocks the calling thread until
Resolved, returns the result".  `none` when the call never returns. -/
def Completion.wait (c : Completion) : Option (ErrorKind × Completion) :=
  match c.handle.state with
  | .Resolved => c.handle.result.map fun r => (r, c)
  | .Pending =>
    match c.operation with
    | some op => some (op.outcome, c.advance (max c.now op.finishAt))
    | none => none

/-- Modelled from the spec: what `timed_wait` returns: the result, or "a
distinguished "not yet resolved" status". -/
inductive WaitStatus
  | NotYetResolved
  | Result (r : ErrorKind)
deriving DecidableEq

/-- Modelled from the spec: §4.1, "`timed_wait(duration)` — blocks up to
`duration`; returns a distinguished "not yet resolved" status if the deadline
elapses (the handle remains Pending and may still be waited on or polled
later)"; §5, "Timed waits do not cancel the underlying operation — they only
stop waiting."  The call returns when the handle resolves or at the deadline,
whichever comes first. -/
def Completion.timed_wait (c : Completion) (duration : Nat) : WaitStatus × Completion :=
  match c.handle.state with
  | .Resolved =>
    match c.handle.result with
    | some r => (WaitStatus.Result r, c)
    | none => (WaitStatus.NotYetResolved, c)
  | .Pending =>
    match c.operation with
    | some op =>
      if op.finishAt ≤ c.now + duration then
        (WaitStatus.Result op.outcome, c.advance (max c.now op.finishAt))
      else (WaitStatus.NotYetResolved, { c with now := c.now + duration })
    | none => (WaitStatus.NotYetResolved, { c with now := c.now + duration })

/-- A read started at time 0 that the dispatcher finishes at time 50 with
`Eof`. -/
def exampleCompletion : Completion :=
  Completion.create 0 { finishAt := 50, outcome := ErrorKind.Eof }

/-! ## The Stream engine, modelled from the spec -/

/-- Modelled from the spec: §3, "`StreamState ∈ {Created, Opening, Open,
WriteClosed, Closed, Aborted}`".  The stream protocol is in no file of the
release. -/
inductive StreamState
  | Created
  | Opening
  | Open
  | WriteClosed
  | Closed
  | Aborted
deriving DecidableEq

/-- Modelled from the spec: what the Channel carries for the receive direction:
bytes of the peer's stream that start at the sequence number `offset`. -/
structure Segment where
  offset : Nat
  data : List Byte
deriving DecidableEq

/-- Modelled from the spec: an outstanding read: its Completion, whether it is
`read_all` or `read_some`, and the size of its buffer. -/
structure ReadRequest where
  completion : Nat
  all : Bool
  size : Nat
deriving DecidableEq

/-- Modelled from the spec: an outstanding write: its Completion and the bytes. -/
structure WriteRequest where
  completion : Nat
  data : List Byte
deriving DecidableEq

/-- Modelled from the spec: the resolution of a Completion of a Stream: the
result, and the bytes the operation put into the buffer of the caller (none
for an operation that is not a read). -/
structure Resolution where
  completion : Nat
  result : ErrorKind
  bytes : List Byte
deriving DecidableEq

/-- Modelled from the spec: the peer of a Stream: the concatenation of the
bytes passed to its writes so far, and whether it has closed. -/
structure Peer where
  written : List Byte
  closed : Bool
deriving DecidableEq

/-- Modelled from the spec: the receive direction of a Stream, §3: "a receive
sequence cursor" (the number of bytes received in order), the bytes received in
order and not yet read, the segments that arrived ahead of the cursor, the
length of the peer's stream once its close has arrived, and "at most one
outstanding read". -/
structure Receiver where
  cursor : Nat
  buffer : List Byte
  stash : List Segment
  fin : Option Nat
  read : Option ReadRequest
deriving DecidableEq

/-- Modelled from the spec: the send direction of a Stream, §3: "a send
sequence cursor" (the number of bytes queued into the send window), the number
of bytes the peer has acknowledged, "at most one outstanding write", and the
Completion of a close that waits for the acknowledgements. -/
structure Sender where
  cursor : Nat
  acked : Nat
  write : Option WriteRequest
  closing : Option Nat
deriving DecidableEq

/-- Modelled from the spec: §3, a Stream. -/
structure Stream where
  state : StreamState
  /-- the Completion of the open in progress -/
  opening : Option Nat
  peer : Peer
  recv : Receiver
  send : Sender
deriving DecidableEq

/-- Modelled from the spec: a Stream as the caller creates it. -/
def Stream.new : Stream :=
  { state := StreamState.Created, opening := none,
    peer := { written := [], closed := false },
    recv := { cursor := 0, buffer := [], stash := [], fin := none, read := none },
    send := { cursor := 0, acked := 0, write := none, closing := none } }

/-- Modelled from the spec: the receiver takes from a segment the bytes from
its cursor on, when the segment reaches the cursor and goes beyond it; a
segment wholly behind the cursor is a retransmission and adds nothing, a
segment ahead of the cursor cannot be taken yet. -/
def Receiver.absorb (cb : Nat × List Byte) (seg : Segment) : Nat × List Byte :=
  if seg.offset ≤ cb.1 ∧ cb.1 < seg.offset + seg.data.length then
    (seg.offset + seg.data.length, cb.2 ++ seg.data.drop (cb.1 - seg.offset))
  else cb

/-- Modelled from the spec: one pass over the stashed segments. -/
def Receiver.sweep (cb : Nat × List Byte) (stash : List Segment) : Nat × List Byte :=
  stash.foldl Receiver.absorb cb

/-- Modelled from the spec: passes over the stashed segments, as many as there
are segments, so that every segment that has become contiguous is taken. -/
def Receiver.drain : Nat → Nat × List Byte → List Segment → Nat × List Byte
  | 0, cb, _ => cb
  | n + 1, cb, stash => Receiver.drain n (Receiver.sweep cb stash) stash

/-- Modelled from the spec: §4.3, a segment arrives: "the engine must buffer,
reorder if the underlying channel may deliver out of order, and
retransmit-detect".  The segment is taken or, when ahead of the cursor,
stashed; stashed segments that have become contiguous are taken, and those now
wholly behind the cursor are dropped. -/
def Receiver.accept (r : Receiver) (seg : Segment) : Receiver :=
  let stash := if r.cursor < seg.offset then seg :: r.stash else r.stash
  let cb := Receiver.drain stash.length (Receiver.absorb (r.cursor, r.buffer) seg) stash
  { r with cursor := cb.1, buffer := cb.2,
           stash := stash.filter fun s => decide (cb.1 < s.offset + s.data.length) }

/-- Modelled from the spec: the outstanding read resolves with `bytes` taken
from the front of the receive buffer. -/
def Receiver.finish (r : Receiver) (rq : ReadRequest) (result : ErrorKind)
    (bytes : List Byte) : Receiver × List Resolution :=
  ({ r with buffer := r.buffer.drop bytes.length, read := none },
    [{ completion := rq.completion, result := result, bytes := bytes }])

/-- Modelled from the spec: §4.3, when the outstanding read resolves.
"`read_all` resolves only once the buffer is fully filled, the stream reaches
end-of-file (returns short count with an EOF result) ...  `read_some` resolves
as soon as at least one byte is available, or immediately with EOF".  The end
of file is reached when the peer's close has arrived and every byte before it
has been received. -/
def Receiver.serve (r : Receiver) : Receiver × List Resolution :=
  match r.read with
  | none => (r, [])
  | some rq =>
    if rq.all then
      if rq.size ≤ r.buffer.length then r.finish rq ErrorKind.Ok (r.buffer.take rq.size)
      else if r.fin = some r.cursor then r.finish rq ErrorKind.Eof r.buffer
      else (r, [])
    else
      if r.buffer ≠ [] then r.finish rq ErrorKind.Ok (r.buffer.take rq.size)
      else if r.fin = some r.cursor then r.finish rq ErrorKind.Eof []
      else (r, [])

/-- Modelled from the spec: a Completion that resolves at once with an error
and no bytes. -/
def Resolution.fail (completion : Nat) (result : ErrorKind) : List Resolution :=
  [{ completion := completion, result := result, bytes := [] }]

/-- Modelled from the spec: §4.3, `open(port)`: "Exactly one `open` call per
Stream; calling it twice, or interleaving with other operations before it
resolves, fails with operation-in-progress." -/
def Stream.open (s : Stream) (completion : Nat) : Stream × List Resolution :=
  match s.state with
  | .Created => ({ s with state := StreamState.Opening, opening := some completion }, [])
  | .Aborted => (s, Resolution.fail completion ErrorKind.Aborted)
  | _ => (s, Resolution.fail completion ErrorKind.OperationInProgress)

/-- Modelled from the spec: §4.3, `read_all(buffer)` (`all` true) and
`read_some(buffer)`: "exactly one outstanding read at a time"; a read that
violates this is "rejected rather than silently queued", with
operation-in-progress, as is a read during the open.  On an aborted Stream the
read fails with aborted, on a Stream never opened with invalid-state. -/
def Stream.read (s : Stream) (all : Bool) (completion size : Nat) : Stream × List Resolution :=
  if s.state = StreamState.Opening ∨ s.recv.read ≠ none then
    (s, Resolution.fail completion ErrorKind.OperationInProgress)
  else if s.state = StreamState.Aborted then (s, Resolution.fail completion ErrorKind.Aborted)
  else if s.state = StreamState.Created then
    (s, Resolution.fail completion ErrorKind.InvalidState)
  else
    let served := Receiver.serve
      { s.recv with read := some { completion := completion, all := all, size := size } }
    ({ s with recv := served.1 }, served.2)

/-- Modelled from the spec: §4.3, `read_some(buffer)`. -/
def Stream.read_some (s : Stream) (completion max : Nat) : Stream × List Resolution :=
  s.read false completion max

/-- Modelled from the spec: §4.3, `read_all(buffer)`. -/
def Stream.read_all (s : Stream) (completion n : Nat) : Stream × List Resolution :=
  s.read true completion n

/-- Modelled from the spec: §4.3, `write(buffer)`: "exactly one outstanding
write at a time"; the write stays outstanding until its bytes are queued.
Writing is legal on an `Open` Stream only. -/
def Stream.write (s : Stream) (completion : Nat) (data : List Byte) :
    Stream × List Resolution :=
  if s.state = StreamState.Opening ∨ s.send.write ≠ none then
    (s, Resolution.fail completion ErrorKind.OperationInProgress)
  else if s.state = StreamState.Aborted then (s, Resolution.fail completion ErrorKind.Aborted)
  else if s.state ≠ StreamState.Open then
    (s, Resolution.fail completion ErrorKind.InvalidState)
  else
    ({ s with send := { s.send with write := some { completion := completion, data := data } } },
      [])

/-- Modelled from the spec: §4.3, a pending close "resolves `Ok` only after all
previously written bytes are acknowledged by the peer". -/
def Stream.settle_close (s : Stream) : Stream × List Resolution :=
  match s.send.closing with
  | none => (s, [])
  | some completion =>
    if s.send.acked = s.send.cursor then
      ({ s with send := { s.send with closing := none } },
        [{ completion := completion, result := ErrorKind.Ok, bytes := [] }])
    else (s, [])

/-- Modelled from the spec: §4.3, `close()`: "half-close for writing; forbidden
while a write is outstanding (operation-in-progress error)"; a close during the
open or during another close is rejected the same way.  On an `Open` Stream it
moves to `WriteClosed` and waits for the acknowledgements. -/
def Stream.close (s : Stream) (completion : Nat) : Stream × List Resolution :=
  if s.state = StreamState.Opening ∨ s.send.write ≠ none ∨ s.send.closing ≠ none then
    (s, Resolution.fail completion ErrorKind.OperationInProgress)
  else if s.state = StreamState.Aborted then (s, Resolution.fail completion ErrorKind.Aborted)
  else if s.state ≠ StreamState.Open then
    (s, Resolution.fail completion ErrorKind.InvalidState)
  else
    Stream.settle_close
      { s with state := StreamState.WriteClosed,
               send := { s.send with closing := some completion } }

/-- Modelled from the spec: the Completions outstanding on a Stream. -/
def Stream.outstanding (s : Stream) : List Nat :=
  s.opening.toList ++ (s.recv.read.map fun rq => rq.completion).toList ++
    (s.send.write.map fun w => w.completion).toList ++ s.send.closing.toList

/-- Modelled from the spec: §4.3, `abort()`: "non-blocking, immediately marks
the Stream `Aborted`, and causes every outstanding and future operation on it
to resolve/fail with an aborted error". -/
def Stream.abort (s : Stream) : Stream × List Resolution :=
  ({ s with state := StreamState.Aborted, opening := none,
            recv := { s.recv with read := none },
            send := { s.send with write := none, closing := none } },
    s.outstanding.map fun completion =>
      { completion := completion, result := ErrorKind.Aborted, bytes := [] })

/-- Modelled from the spec: §4.3, the peer acknowledges the handshake: the open
"resolves `Ok` only once the peer acknowledges". -/
def Stream.opened (s : Stream) : Stream × List Resolution :=
  match s.state, s.opening with
  | .Opening, some completion =>
    ({ s with state := StreamState.Open, opening := none },
      [{ completion := completion, result := ErrorKind.Ok, bytes := [] }])
  | _, _ => (s, [])

/-- Modelled from the spec: §4.3, the outstanding write "resolves `Ok` once
bytes are queued into the stream's send window". -/
def Stream.queued (s : Stream) : Stream × List Resolution :=
  match s.send.write with
  | none => (s, [])
  | some w =>
    ({ s with send := { s.send with cursor := s.send.cursor + w.data.length, write := none } },
      [{ completion := w.completion, result := ErrorKind.Ok, bytes := [] }])

/-- Modelled from the spec: the peer acknowledges the bytes up to `n`. -/
def Stream.acknowledged (s : Stream) (n : Nat) : Stream × List Resolution :=
  Stream.settle_close { s with send := { s.send with acked := max s.send.acked (min n s.send.cursor) } }

/-- Modelled from the spec: whether segments and the peer's close are taken in:
the Stream is open for reading ("Reading remains legal after `close()`"). -/
def Stream.receiving (s : Stream) : Bool :=
  decide (s.state = StreamState.Open ∨ s.state = StreamState.WriteClosed ∨
    s.state = StreamState.Closed)

/-- Modelled from the spec: the Channel delivers the `len` bytes of the peer's
stream that start at `offset` (as far as the peer has written them).  It may
deliver any such segment at any time: out of order, and again. -/
def Stream.deliver (s : Stream) (offset len : Nat) : Stream × List Resolution :=
  if s.receiving then
    let seg : Segment := { offset := offset, data := (s.peer.written.drop offset).take len }
    let served := Receiver.serve (s.recv.accept seg)
    ({ s with recv := served.1 }, served.2)
  else (s, [])

/-- Modelled from the spec: the close of the peer arrives (after the peer has
closed): the length of its stream is known from then on. -/
def Stream.deliver_fin (s : Stream) : Stream × List Resolution :=
  if s.receiving ∧ s.peer.closed = true then
    let served := Receiver.serve { s.recv with fin := some s.peer.written.length }
    ({ s with recv := served.1 }, served.2)
  else (s, [])

/-- Modelled from the spec: the peer writes `data` (it cannot after its
close). -/
def Stream.peer_write (s : Stream) (data : List Byte) : Stream × List Resolution :=
  if s.peer.closed then (s, [])
  else ({ s with peer := { s.peer with written := s.peer.written ++ data } }, [])

/-- Modelled from the spec: the peer closes its side. -/
def Stream.peer_close (s : Stream) : Stream × List Resolution :=
  ({ s with peer := { s.peer with closed := true } }, [])

/-- Modelled from the spec: what can happen to a Stream: the calls of the
application, the events the dispatcher delivers, and the acts of the peer. -/
inductive StreamEvent
  | open (completion : Nat)
  | read_some (completion max : Nat)
  | read_all (completion n : Nat)
  | write (completion : Nat) (data : List Byte)
  | close (completion : Nat)
  | abort
  | opened
  | queued
  | acknowledged (n : Nat)
  | deliver (offset len : Nat)
  | deliver_fin
  | peer_write (data : List Byte)
  | peer_close

/-- Modelled from the spec: the Stream after one event, and the Completions
that resolve in it. -/
def Stream.step (s : Stream) : StreamEvent → Stream × List Resolution
  | .open completion => s.open completion
  | .read_some completion max => s.read_some completion max
  | .read_all completion n => s.read_all completion n
  | .write completion data => s.write completion data
  | .close completion => s.close completion
  | .abort => s.abort
  | .opened => s.opened
  | .queued => s.queued
  | .acknowledged n => s.acknowledged n
  | .deliver offset len => s.deliver offset len
  | .deliver_fin => s.deliver_fin
  | .peer_write data => s.peer_write data
  | .peer_close => s.peer_close

/-- Modelled from the spec: the Stream after a sequence of events, and the
resolutions of that sequence in order. -/
def Stream.run (s : Stream) : List StreamEvent → Stream × List Resolution
  | [] => (s, [])
  | e :: es =>
    let first := s.step e
    let rest := first.1.run es
    (rest.1, first.2 ++ rest.2)

/-- Modelled from the spec: the concatenation of the bytes that the
resolutions returned, in order. -/
def Resolution.returned (log : List Resolution) : List Byte :=
  (log.map fun r => r.bytes).flatten

/-- Modelled from the spec: a Stream reached from its creation, with the
resolutions so far. -/
inductive Stream.Trace : Stream → List Resolution → Prop
  | new : Stream.Trace Stream.new []
  | step {s : Stream} {log : List Resolution} (e : StreamEvent) :
      Stream.Trace s log → Stream.Trace (s.step e).1 (log ++ (s.step e).2)

/-- Modelled from the spec: a segment carries the bytes of the peer's stream
that stand at its offset. -/
def Segment.Valid (written : List Byte) (seg : Segment) : Prop :=
  seg.data = (written.drop seg.offset).take seg.data.length

/-- Modelled from the spec: the invariant of §3 and §4.3 the receive direction
keeps, given the resolutions so far: "a Stream's read cursor never exceeds
bytes actually delivered in order"; the bytes returned so far, followed by the
bytes buffered, are the bytes of the peer's stream before the cursor; stashed
segments carry bytes of the peer's stream; the close of the peer arrives with
the final length of its stream; after a read has resolved with `Eof` nothing
is left to read. -/
structure Receiver.Ordered (p : Peer) (r : Receiver) (log : List Resolution) : Prop where
  cursor_le : r.cursor ≤ p.written.length
  in_order : Resolution.returned log ++ r.buffer = p.written.take r.cursor
  stash_valid : ∀ seg ∈ r.stash, Segment.Valid p.written seg
  fin_length : ∀ n, r.fin = some n → n = p.written.length ∧ p.closed = true
  eof_all : (∃ x ∈ log, x.result = ErrorKind.Eof) → r.buffer = [] ∧ r.fin = some r.cursor

/-- An open Stream on which `read_some` (Completion 1, a buffer of 10 bytes) is
outstanding: the peer has written nothing yet. -/
def exampleReadOutstanding : Stream :=
  (Stream.new.run [StreamEvent.open 0, StreamEvent.opened, StreamEvent.read_some 1 10]).1

/-- An open Stream on which a write of the bytes 7, 8 (Completion 1) is
outstanding: its bytes are not yet queued. -/
def exampleWriteOutstanding : Stream :=
  (Stream.new.run [StreamEvent.open 0, StreamEvent.opened, StreamEvent.write 1 [7, 8]]).1

/-- Events of a Stream whose peer writes 1, 2, 3 and then 4, 5 and closes: the
bytes 4, 5 arrive before the bytes 1, 2, 3, which arrive twice; the
application reads with `read_all` (4 bytes), then `read_some`, then `read_all`
again, and issues one `read_some` too many while the first read is
outstanding. -/
def exampleStreamEvents : List StreamEvent :=
  [StreamEvent.open 0, StreamEvent.opened,
    StreamEvent.peer_write [1, 2, 3], StreamEvent.peer_write [4, 5],
    StreamEvent.read_all 1 4, StreamEvent.read_some 2 10,
    StreamEvent.deliver 3 2, StreamEvent.deliver 0 3, StreamEvent.deliver 0 3,
    StreamEvent.read_some 3 10,
    StreamEvent.peer_close, StreamEvent.deliver_fin, StreamEvent.read_all 4 10]

/-- The Stream after `exampleStreamEvents`, with the resolutions. -/
def exampleStream : Stream × List Resolution :=
  Stream.new.run exampleStreamEvents

/-! ## Calls of `nabto_client_future_free` -/

/-- The wrappers whose destructor has called `nabto_client_future_free` on
`future`, one entry for each call, in the order of the calls. -/
def freedBy (trace : List Event) (future : Nat) : List Nat :=
  trace.filterMap fun e =>
    match e with
    | .future_free self f => if f = future then some self else none
    | _ => none

/-- No call of `nabto_client_future_free` among the observations `es`. -/
def NoFree (es : List Event) : Prop :=
  ∀ self future, Event.future_free self future ∉ es

/-- What holds of the calls of `nabto_client_future_free` in every world a run
can reach: addresses and handles from `next` on are unused; a future has at
most one wrapper that is not destroyed; whoever has called
`nabto_client_future_free` on a future is a destroyed wrapper of that future
with `ended_` true, and no wrapper of that future is left; each future was
freed at most once. -/
structure FreeOnce (w : World) : Prop where
  fresh : ∀ a, w.next ≤ a → w.objs a = none
  future_lt : ∀ a o, w.objs a = some o → o.val.future_ < w.next
  holder_unique : ∀ a b oa ob, w.objs a = some oa → w.objs b = some ob →
    oa.val.future_ = ob.val.future_ → oa.destroyed = false → ob.destroyed = false → a = b
  freed_by_ended : ∀ self future, Event.future_free self future ∈ w.trace →
    ∃ o, w.objs self = some o ∧ o.val.future_ = future ∧ o.val.ended_ = true ∧
      o.destroyed = true
  freed_gone : ∀ self future, Event.future_free self future ∈ w.trace →
    ∀ b ob, w.objs b = some ob → ob.val.future_ = future → ob.destroyed = true
  free_once : ∀ future, (freedBy w.trace future).length ≤ 1

/-- A `FutureVoidImpl` (address 1, future 0): the library resolves the future
with code 0, the caller waits for the result and lets go of the wrapper. -/
def exampleWaitThenDrop : List Op :=
  [Op.makeFutureVoid none, Op.resolve 0 0 [] 0, Op.waitForResult 1, Op.drop 1]

/-- A `FutureVoidImpl` (address 1, future 0): the caller registers the
callback 9, the library resolves the future and fires the callback, the caller
lets go of the wrapper. -/
def exampleFireThenDrop : List Op :=
  [Op.makeFutureVoid none, Op.callback 1 (FutureCallback.user 9), Op.resolve 0 0 [] 0,
    Op.fire 0, Op.drop 1]

/-- A `FutureVoidImpl` (address 1, future 0): the caller lets go of the wrapper
while the future is pending (the destructor leaves a holder at address 2);
the library then resolves the future and fires the callback of the holder. -/
def exampleDropThenFire : List Op :=
  [Op.makeFutureVoid none, Op.drop 1, Op.resolve 0 0 [] 0, Op.fire 0]

/-- The world after the steps `ops` from the empty world (the empty world
itself when a step cannot be taken). -/
def runFromEmpty (ops : List Op) : World :=
  (run (World.init fun _ => 3) ops).getD (World.init fun _ => 3)

/-! ## Runs of the example programs

The tcptunnel examples (`examples/tcptunnel/src/tunnel_client.cpp` of release
4.0 and `examples/tcptunnel/src/tcptunnel_device.cpp` of release rc1) are
sequential programs.  A run is the list of the calls and outputs the program
has made so far, together with either the value a piece of it computed or the
way the run stopped.  What the library, the user and the file system answer is
an input of the run. -/

/-- A `nlohmann::json` value. -/
inductive Json
  | null
  | boolean (b : Bool)
  | number (n : Int)
  | string (s : String)
  | array (items : List Json)
  | object (members : List (String × Json))

/-- The exceptions of the example programs: `NabtoException` of the wrapper
(declared in `nabto_client.hpp`; the examples catch it as a `std::exception`),
the type error of `nlohmann::json` and the exception of `cxxopts` for an option
without a value. -/
inductive Thrown
  | nabto (e : NabtoException)
  | json_type_error
  | option_has_no_value

/-- Source: `e.what()`. -/
def Thrown.what : Thrown → String
  | .nabto e => "NabtoException " ++ toString e.ec
  | .json_type_error => "type_error"
  | .option_has_no_value => "option has no value"

/-- How a run stops before the end of the program text. -/
inductive Stop
  /-- Source: `exit(status)` -/
  | exit (status : Int)
  /-- an exception that nothing has caught so far -/
  | threw (e : Thrown)
  /-- undefined behaviour: a null or uninitialised pointer is dereferenced -/
  | fault
  /-- the program waits in `pause()` for a signal that does not come -/
  | blocked
  /-- the program turns in a loop without end, with the same output at every
  turn -/
  | endless

/-- A piece of a program over the actions `A`: from the actions so far to the
actions afterwards and the value computed, or the way the run stopped. -/
def Prog (A : Type) (α : Type) : Type := List A → List A × Except Stop α

/-- A piece that does nothing and has the value `a`. -/
def Prog.pure {A α : Type} (a : α) : Prog A α := fun t => (t, Except.ok a)

/-- One piece after the other; a run that has stopped does not go on. -/
def Prog.bind {A α β : Type} (m : Prog A α) (f : α → Prog A β) : Prog A β := fun t =>
  match m t with
  | (t1, Except.ok a) => f a t1
  | (t1, Except.error s) => (t1, Except.error s)

instance {A : Type} : Monad (Prog A) where
  pure := Prog.pure
  bind := Prog.bind

/-- The program makes the call or output `a`. -/
def Prog.act {A : Type} (a : A) : Prog A Unit := fun t => (t ++ [a], Except.ok ())

/-- The run stops. -/
def Prog.stop {A α : Type} (s : Stop) : Prog A α := fun t => (t, Except.error s)

/-- Source: `exit(status)`. -/
def Prog.exit {A α : Type} (status : Int) : Prog A α := Prog.stop (Stop.exit status)

/-- Source: `throw`. -/
def Prog.raise {A α : Type} (e : Thrown) : Prog A α := Prog.stop (Stop.threw e)

/-- The outcome of a method of the wrapper: its value, or its `NabtoException`
thrown. -/
def Prog.call {A α : Type} (r : Except NabtoException α) : Prog A α :=
  match r with
  | Except.ok a => Prog.pure a
  | Except.error e => Prog.raise (Thrown.nabto e)

/-- The outcome of an operation on a `nlohmann::json`, or of
`result[...].as<...>()`. -/
def Prog.lift {A α : Type} (r : Except Thrown α) : Prog A α :=
  match r with
  | Except.ok a => Prog.pure a
  | Except.error e => Prog.raise e

/-- Source: `try { m } catch (...) { handler }`; an `exit`, a fault, a blocked
run and a loop without end are not exceptions. -/
def Prog.tryCatch {A α : Type} (m : Prog A α) (handler : Thrown → Prog A α) : Prog A α :=
  fun t =>
    match m t with
    | (t1, Except.error (Stop.threw e)) => handler e t1
    | r => r

/-- The run of a program from its start. -/
def Prog.run {A α : Type} (m : Prog A α) : List A × Except Stop α := m []

/-- The piece `m` makes only calls and outputs for which `P` holds, and stops
only in a way for which `Q` holds. -/
def Prog.Only {A α : Type} (P : A → Prop) (Q : Stop → Prop) (m : Prog A α) : Prop :=
  ∀ t, ∃ es, (m t).1 = t ++ es ∧ (∀ a ∈ es, P a) ∧ ∀ s, (m t).2 = Except.error s → Q s

/-- Source: `config[key] = value` on a `nlohmann::json`: a null value becomes an
object; the member is replaced or added. -/
def Json.assign (j : Json) (key : String) (value : Json) : Except Thrown Json :=
  match j with
  | .null => Except.ok (Json.object [(key, value)])
  | .object members =>
    Except.ok (Json.object
      (if members.any (fun m => m.1 == key) then
        members.map fun m => if m.1 == key then (key, value) else m
      else members ++ [(key, value)]))
  | _ => Except.error Thrown.json_type_error

/-- Source: `config[key]` on a `nlohmann::json` that is not const: a member that
is missing is added with the value null. -/
def Json.index (j : Json) (key : String) : Except Thrown Json :=
  match j with
  | .null => Except.ok Json.null
  | .object members => Except.ok ((members.lookup key).getD Json.null)
  | _ => Except.error Thrown.json_type_error

/-- Source: `.get<std::string>()`. -/
def Json.get_string : Json → Except Thrown String
  | .string s => Except.ok s
  | _ => Except.error Thrown.json_type_error

/-- Source: `config[key].get<std::string>()`. -/
def Json.string_at (config : Json) (key : String) : Except Thrown String :=
  match config.index key with
  | Except.ok v => v.get_string
  | Except.error e => Except.error e

/-! ## The tunnel client (`tunnel_client.cpp`, release 4.0) -/

/-- Source: `enum { COAP_CONTENT_FORMAT_APPLICATION_CBOR = 60 };` -/
def COAP_CONTENT_FORMAT_APPLICATION_CBOR : Int := 60

/-- The calls and outputs of the tunnel client. -/
inductive ClientAction
  /-- Source: `std::cout << text << std::endl` -/
  | cout (text : String)
  /-- Source: `std::cerr << text << std::endl` -/
  | cerr (text : String)
  /-- Source: `nabto::client::Context::create()` -/
  | context_create
  /-- Source: `ctx->setLogger(...)` -/
  | set_logger
  /-- Source: `ctx->createConnection()` -/
  | create_connection
  /-- Source: `connection->setProductId(value)` and its siblings -/
  | set (field : ConfigField) (value : String)
  /-- Source: `ctx->createPrivateKey()` -/
  | create_private_key
  /-- Source: `connection->connect()->waitForResult()` -/
  | connect
  /-- Source: `connection->getDeviceFingerprintHex()` -/
  | get_device_fingerprint
  /-- Source: `std::cin >> input` has read the character `input` -/
  | cin (input : Char)
  /-- Source: `connection->createCoap(method, path)` -/
  | create_coap (method path : String)
  /-- Source: `coap->setRequestPayload(contentFormat, cbor)`, `cbor` being
  `json::to_cbor(payload)` -/
  | set_request_payload (contentFormat : Int) (payload : Json)
  /-- Source: `coap->execute()->waitForResult()` -/
  | execute
  /-- Source: `coap->getResponseStatusCode()` -/
  | get_response_status_code
  /-- Source: `coap->getResponsePayload()` -/
  | get_response_payload
  /-- Source: `json_config_load(file, config)` -/
  | json_config_load (file : String)
  /-- Source: `json_config_save(file, config)` -/
  | json_config_save (file : String) (config : Json)
  /-- Source: `connection->createTcpTunnel()` -/
  | create_tcp_tunnel
  /-- Source: `tunnel->open(localPort, remoteHost, remotePort)->waitForResult()` -/
  | tunnel_open (localPort : Nat) (remoteHost : String) (remotePort : Nat)
  /-- Source: `pause()` -/
  | pause
  /-- Source: `connection->close()` -/
  | close

/-- What the Nabto client library, the user and the file system answer in a
run of the tunnel client. -/
structure ClientInput where
  /-- the return value of `nabto_client_connection_set_product_id` and its
  siblings -/
  set : ConfigField → NabtoClientError
  /-- the return value of `nabto_client_create_private_key` and the key it
  stores -/
  create_private_key : NabtoClientError × String
  /-- the error code of the future of `connect()` once resolved -/
  connect : NabtoClientError
  /-- the return value of `nabto_client_connection_get_device_fingerprint_hex`
  and the array it fills -/
  fingerprint : NabtoClientError × (Fin 32 → Byte)
  /-- the characters the user types, white space left out, up to the end of
  the input -/
  answers : List Char
  /-- what the storage of the local `char input;` of the prompt loop holds when
  `std::cin >> input` fails at the end of the input and stores nothing: the
  variable has no initialiser -/
  uninitialised : Char
  /-- the result of `nabto_client_coap_new`, `none` for `NULL` -/
  coap_new : Option Nat
  /-- the return value of `nabto_client_coap_set_request_payload` -/
  set_request_payload : NabtoClientError
  /-- the error code of the future of `execute()` once resolved -/
  execute : NabtoClientError
  /-- the return value of `nabto_client_coap_get_response_status_code` and the
  status code it stores -/
  status_code : NabtoClientError × Nat
  /-- the result of `nabto_client_coap_get_response_payload`, `none` for
  `NULL` -/
  payload : Option NabtoClientBuffer
  /-- the file `json_config_load` finds, `none` when it returns false -/
  json_config_load : String → Option Json
  /-- the return value of `json_config_save` -/
  json_config_save : Bool
  /-- the error code of the future of `open(...)` once resolved -/
  tunnel_open : NabtoClientError
  /-- whether a signal ends `pause()` -/
  interrupted : Bool

/-- Method `ContextImpl::createPrivateKey()`:
```
auto ec = nabto_client_create_private_key(context_, &privateKey);
if (ec) { throw NabtoException(ec); }
auto ret = std::string(privateKey);
nabto_client_string_free(privateKey);
return ret;
```
-/
def ContextImpl.createPrivateKey (ec : NabtoClientError) (privateKey : String) :
    Except NabtoException String :=
  if ec ≠ 0 then Except.error ⟨ec⟩ else Except.ok privateKey

/-- Method `CoapImpl::setRequestPayload(contentFormat, payload)`:
```
ec = nabto_client_coap_set_request_payload(request_, contentFormat, payload->data(), payload->size());
if (ec) { throw NabtoException(ec); }
```
-/
def CoapImpl.setRequestPayload (ec : NabtoClientError) : Except NabtoException Unit :=
  if ec ≠ 0 then Except.error ⟨ec⟩ else Except.ok ()

/-- Source: `f->waitForResult()` on the `FutureVoidImpl` a call has just returned,
whose future the library resolves with the code `ec`: it returns after the
resolution, and `getResult` throws `NabtoException(ec)` when `ec` is not 0. -/
def FutureVoidImpl.waitForResult (ec : NabtoClientError) : Except NabtoException Unit :=
  if ec ≠ 0 then Except.error ⟨ec⟩ else Except.ok ()

/-- Source: `std::string(reinterpret_cast<char*>(buffer->data()), buffer->size())`,
and the same for an array of characters. -/
def bytesToString (bytes : List Byte) : String :=
  String.mk (bytes.map fun b => Char.ofNat b.val)

/-- Source: `connection->setProductId(value)` and its siblings, called by the
examples. -/
def connection_set (input : ClientInput) (field : ConfigField) (value : String) :
    Prog ClientAction Unit := do
  Prog.act (ClientAction.set field value)
  Prog.call (ConnectionImpl.set field (input.set field))

/-- Source: `createConnection(configFile)`, lines 32 to 57 of `tunnel_client.cpp`. -/
def createConnection (input : ClientInput) (configFile : String) : Prog ClientAction Unit := do
  Prog.act (ClientAction.json_config_load configFile)
  match input.json_config_load configFile with
  | none => do
    Prog.act (ClientAction.cerr "Could not read config file")
    Prog.exit 1
  | some config => do
    Prog.act ClientAction.context_create
    Prog.act ClientAction.set_logger
    Prog.act ClientAction.create_connection
    let productId ← Prog.lift (config.string_at "ProductId")
    connection_set input ConfigField.productId productId
    let deviceId ← Prog.lift (config.string_at "DeviceId")
    connection_set input ConfigField.deviceId deviceId
    let serverUrl ← Prog.lift (config.string_at "ServerUrl")
    connection_set input ConfigField.serverUrl serverUrl
    let serverKey ← Prog.lift (config.string_at "ServerKey")
    connection_set input ConfigField.serverKey serverKey
    let privateKey ← Prog.lift (config.string_at "PrivateKey")
    connection_set input ConfigField.privateKey privateKey
    Prog.tryCatch
      (do
        Prog.act ClientAction.connect
        Prog.call (FutureVoidImpl.waitForResult input.connect))
      (fun e => do
        Prog.act (ClientAction.cerr ("Connect failed" ++ e.what))
        Prog.exit 1)

/-- Source: `tcptunnel(configFile, localPort, remoteHost, remotePort)`, lines 59
to 81 of `tunnel_client.cpp`. -/
def tcptunnel (input : ClientInput) (configFile : String) (localPort : Nat)
    (remoteHost : String) (remotePort : Nat) : Prog ClientAction Unit := do
  Prog.act (ClientAction.cout ("Creating tunnel " ++ configFile))
  createConnection input configFile
  Prog.act ClientAction.create_tcp_tunnel
  Prog.act (ClientAction.tunnel_open localPort remoteHost remotePort)
  Prog.call (FutureVoidImpl.waitForResult input.tunnel_open)
  Prog.act (ClientAction.cout "tunnel is opened")
  Prog.act ClientAction.pause
  if input.interrupted then Prog.act ClientAction.close else Prog.stop Stop.blocked

/-- Source: lines 97 to 101 of `tunnel_client.cpp`, on `json config;`:
```
config["ProductId"] = productId;
config["DeviceId"] = deviceId;
config["ServerUrl"] = server;
config["ServerKey"] = serverKey;
config["PrivateKey"] = privateKey;
```
-/
def pairing_config (productId deviceId server serverKey privateKey : String) :
    Except Thrown Json := do
  let config ← Json.null.assign "ProductId" (Json.string productId)
  let config ← config.assign "DeviceId" (Json.string deviceId)
  let config ← config.assign "ServerUrl" (Json.string server)
  let config ← config.assign "ServerKey" (Json.string serverKey)
  config.assign "PrivateKey" (Json.string privateKey)

/-- Source: lines 85 to 111 of `tunnel_client.cpp`, the start of
`tcptunnel_pairing`: the connection is set up and connected, the fingerprint of
the device is shown.  The value is `config`. -/
def pairing_connect (input : ClientInput) (productId deviceId server serverKey : String) :
    Prog ClientAction Json := do
  Prog.act (ClientAction.cout ("Pairing with tcp tunnel " ++ productId ++ "." ++ deviceId))
  Prog.act ClientAction.context_create
  Prog.act ClientAction.create_connection
  connection_set input ConfigField.productId productId
  connection_set input ConfigField.deviceId deviceId
  connection_set input ConfigField.serverUrl server
  connection_set input ConfigField.serverKey serverKey
  Prog.act ClientAction.create_private_key
  let privateKey ← Prog.call
    (ContextImpl.createPrivateKey input.create_private_key.1 input.create_private_key.2)
  connection_set input ConfigField.privateKey privateKey
  let config ← Prog.lift (pairing_config productId deviceId server serverKey privateKey)
  Prog.tryCatch
    (do
      Prog.act ClientAction.connect
      Prog.call (FutureVoidImpl.waitForResult input.connect))
    (fun e => do
      Prog.act (ClientAction.cout ("Connect failed" ++ e.what))
      Prog.exit 1)
  Prog.act ClientAction.get_device_fingerprint
  let fingerprint ← Prog.call
    (ConnectionImpl.getDeviceFingerprintHex input.fingerprint.1 input.fingerprint.2)
  Prog.act (ClientAction.cout
    ("Connected to device with fingerprint " ++ bytesToString fingerprint))
  Prog.act (ClientAction.cout "Is the fingerprint valid [yn]")
  pure config

/-- Source: lines 113 to 124 of `tunnel_client.cpp`, the loop
```
for (;;) {
    char input;
    std::cin >> input;
    if (input == 'y') { break; }
    if (input == 'n') {
        std::cout << "Fingerprint not accepted, quitting" << std::endl;
        exit(1);
    }
    std::cout << "only y or n is accepted as answers" << std::endl;
}
```
on the characters `answers` the user types.  The state of `std::cin` is never
tested.  At the end of the input the extraction fails and stores nothing, and
the loop compares what the variable holds without having been given a value,
`uninitialised`: with `y` it leaves the loop, with `n` it prints and exits; with
any other value it prints the re-prompt and turns again, and as the extraction
fails at every further turn and nothing writes the variable, it turns without
end (the run is given up to the first of these re-prompts). -/
def pairing_prompt (uninitialised : Char) : List Char → Prog ClientAction Unit
  | [] =>
    if uninitialised = 'y' then pure ()
    else if uninitialised = 'n' then do
      Prog.act (ClientAction.cout "Fingerprint not accepted, quitting")
      Prog.exit 1
    else do
      Prog.act (ClientAction.cout "only y or n is accepted as answers")
      Prog.stop Stop.endless
  | input :: rest => do
    Prog.act (ClientAction.cin input)
    if input = 'y' then pure ()
    else if input = 'n' then do
      Prog.act (ClientAction.cout "Fingerprint not accepted, quitting")
      Prog.exit 1
    else do
      Prog.act (ClientAction.cout "only y or n is accepted as answers")
      pairing_prompt uninitialised rest

/-- Source: lines 126 to 132 of `tunnel_client.cpp`:
```
auto coap = connection->createCoap("POST", "/pairing/password");
json pwd = password;
auto cbor = std::make_shared<nabto::client::BufferImpl>(json::to_cbor(pwd));
coap->setRequestPayload(COAP_CONTENT_FORMAT_APPLICATION_CBOR, cbor);
coap->execute()->waitForResult();
```
`createCoap` returns a null pointer when the library makes no request; the
calls through it are then undefined. -/
def pairing_request (input : ClientInput) (password : String) : Prog ClientAction Unit := do
  Prog.act (ClientAction.create_coap "POST" "/pairing/password")
  match ConnectionImpl.createCoap input.coap_new with
  | none => Prog.stop Stop.fault
  | some _ => do
    Prog.act (ClientAction.set_request_payload COAP_CONTENT_FORMAT_APPLICATION_CBOR
      (Json.string password))
    Prog.call (CoapImpl.setRequestPayload input.set_request_payload)
    Prog.act ClientAction.execute
    Prog.call (FutureVoidImpl.waitForResult input.execute)

/-- Source: lines 134 to 147 of `tunnel_client.cpp`:
```
if (coap->getResponseStatusCode() == 205)
{
    std::cout << "Paired with the device, writing configuration to disk" << std::endl;
    if (!json_config_save(configFile, config)) {
        std::cerr << "Failed to write config to " << configFile << std::endl;
    }
    exit(0);
} else {
    std::string reason;
    auto buffer = coap->getResponsePayload();
    reason = std::string(reinterpret_cast<char*>(buffer->data()), buffer->size());
    std::cout << "Could not pair with the device status: " << coap->getResponseStatusCode() << " " << reason << std::endl;
    exit(1);
}
```
`buffer->data()` on the null pointer that `getResponsePayload` returns for a
response without payload is undefined. -/
def pairing_conclude (input : ClientInput) (configFile : String) (config : Json) :
    Prog ClientAction Unit := do
  Prog.act ClientAction.get_response_status_code
  let status ← Prog.call
    (CoapImpl.getResponseStatusCode input.status_code.1 input.status_code.2)
  if status = 205 then do
    Prog.act (ClientAction.cout "Paired with the device, writing configuration to disk")
    Prog.act (ClientAction.json_config_save configFile config)
    if input.json_config_save then pure ()
    else Prog.act (ClientAction.cerr ("Failed to write config to " ++ configFile))
    Prog.exit 0
  else do
    Prog.act ClientAction.get_response_payload
    let buffer ← Prog.call (CoapImpl.getResponsePayload input.payload)
    match buffer with
    | none => Prog.stop Stop.fault
    | some b => do
      let reason := bytesToString (b.data.take b.size)
      Prog.act ClientAction.get_response_status_code
      let status1 ← Prog.call
        (CoapImpl.getResponseStatusCode input.status_code.1 input.status_code.2)
      Prog.act (ClientAction.cout
        ("Could not pair with the device status: " ++ toString status1 ++ " " ++ reason))
      Prog.exit 1

/-- Source: `tcptunnel_pairing(configFile, productId, deviceId, server, serverKey, password)`,
lines 83 to 148 of `tunnel_client.cpp`. -/
def tcptunnel_pairing (input : ClientInput)
    (configFile productId deviceId server serverKey password : String) :
    Prog ClientAction Unit := do
  let config ← pairing_connect input productId deviceId server serverKey
  pairing_prompt input.uninitialised input.answers
  pairing_request input password
  pairing_conclude input configFile config

/-- The result of `options.parse(argc, argv)`: how often each mode option was
given, and the values of the other options (those without a default may be
missing). -/
structure ParseResult where
  help : Nat
  password_pairing : Nat
  tcptunnel : Nat
  config : String
  product : Option String
  device : Option String
  server : Option String
  server_key : Option String
  password : Option String
  local_port : Nat
  remote_host : String
  remote_port : Nat

/-- Source: `result[name].as<std::string>()` for an option without a default: an
exception when the option was not given. -/
def as_string (value : Option String) : Except Thrown String :=
  match value with
  | some s => Except.ok s
  | none => Except.error Thrown.option_has_no_value

/-- Source: `main`, lines 174 to 209 of `tunnel_client.cpp`; the value is the
exit status of a `main` that runs to its end. -/
def main (input : ClientInput) (result : ParseResult) : Prog ClientAction Int := do
  if result.help ≠ 0 then
    Prog.act (ClientAction.cout "options.help()")
    Prog.exit 0
  if result.password_pairing ≠ 0 then
    Prog.tryCatch
      (do
        let product ← Prog.lift (as_string result.product)
        let device ← Prog.lift (as_string result.device)
        let server ← Prog.lift (as_string result.server)
        let server_key ← Prog.lift (as_string result.server_key)
        let password ← Prog.lift (as_string result.password)
        tcptunnel_pairing input result.config product device server server_key password)
      (fun _ => do
        Prog.act (ClientAction.cout "Missing required option")
        Prog.act (ClientAction.cout "options.help()")
        Prog.exit 1)
  else if result.tcptunnel ≠ 0 then
    Prog.tryCatch
      (tcptunnel input result.config result.local_port result.remote_host result.remote_port)
      (fun e => do
        Prog.act (ClientAction.cout e.what)
        Prog.exit 1)
  else
    Prog.act (ClientAction.cout "Missing mode option")
    Prog.act (ClientAction.cout "options.help()")
    Prog.exit 1
  pure 0

/-- A run in which the library answers every call with success and the device
answers the pairing request with status 205: the user types `x`, then `y` (the
variable of the prompt loop holds `x` where it has no value); the key made is
`"key-1"`; the response has no payload. -/
def examplePaired : ClientInput :=
  { set := fun _ => 0, create_private_key := (0, "key-1"), connect := 0,
    fingerprint := (0, fun _ => 97), answers := ['x', 'y'], uninitialised := 'x',
    coap_new := some 7,
    set_request_payload := 0, execute := 0, status_code := (0, 205), payload := none,
    json_config_load := fun _ => none, json_config_save := true, tunnel_open := 0,
    interrupted := true }

/-- The same run, but the device answers the pairing request with status 403
and no payload. -/
def exampleRefused : ClientInput :=
  { examplePaired with status_code := (0, 403) }

/-- The command line `--password-pairing --tcptunnel -p pr-1 -d de-1 -s srv -k sk-1
--password secret`. -/
def examplePairingOptions : ParseResult :=
  { help := 0, password_pairing := 1, tcptunnel := 1, config := "tcptunnel_client.json",
    product := some "pr-1", device := some "de-1", server := some "srv",
    server_key := some "sk-1", password := some "secret", local_port := 0, remote_host := "",
    remote_port := 0 }

/-- The kinds of calls and outputs of the tunnel client. -/
inductive ActionKind
  | output
  | setup
  | prompt
  | request
  | response
  | save
  | load
  | tunnel
deriving DecidableEq

/-- The kind of a call or output: the pairing request is `create_coap`,
`set_request_payload` and `execute`; writing the configuration file is
`json_config_save`. -/
def ClientAction.kind : ClientAction → ActionKind
  | .cout _ => ActionKind.output
  | .cerr _ => ActionKind.output
  | .context_create => ActionKind.setup
  | .set_logger => ActionKind.setup
  | .create_connection => ActionKind.setup
  | .set _ _ => ActionKind.setup
  | .create_private_key => ActionKind.setup
  | .connect => ActionKind.setup
  | .get_device_fingerprint => ActionKind.setup
  | .cin _ => ActionKind.prompt
  | .create_coap _ _ => ActionKind.request
  | .set_request_payload _ _ => ActionKind.request
  | .execute => ActionKind.request
  | .get_response_status_code => ActionKind.response
  | .get_response_payload => ActionKind.response
  | .json_config_load _ => ActionKind.load
  | .json_config_save _ _ => ActionKind.save
  | .create_tcp_tunnel => ActionKind.tunnel
  | .tunnel_open _ _ _ => ActionKind.tunnel
  | .pause => ActionKind.tunnel
  | .close => ActionKind.tunnel

/-- The user has answered `y` to the fingerprint prompt: the first `y` or `n`
among the characters typed is a `y`. -/
def FingerprintAccepted (answers : List Char) : Prop :=
  ∃ pre rest, answers = pre ++ 'y' :: rest ∧ ∀ c ∈ pre, c ≠ 'y' ∧ c ≠ 'n'

/-- The user has answered neither `y` nor `n`: no character typed before the
end of the input is one of the two. -/
def Unanswered (answers : List Char) : Prop :=
  ∀ c ∈ answers, c ≠ 'y' ∧ c ≠ 'n'

/-- What the prompt loop does with characters that are neither `y` nor `n`:
it reads each and asks again. -/
def reprompts (pre : List Char) : List ClientAction :=
  pre.flatMap fun c =>
    [ClientAction.cin c, ClientAction.cout "only y or n is accepted as answers"]

/-- The run of `examplePaired` in which the user types `x` and then `n`. -/
def exampleRejected : ClientInput :=
  { examplePaired with answers := ['x', 'n'] }

/-- The run of `examplePaired` in which the standard input is at its end from
the start (nothing is typed) and the variable of the prompt loop holds `y`. -/
def exampleEndOfInput : ClientInput :=
  { examplePaired with answers := [], uninitialised := 'y' }

/-- The run of `examplePaired` in which the user types `x` and the input ends;
the variable of the prompt loop then still holds `x`. -/
def exampleInputEnds : ClientInput :=
  { examplePaired with answers := ['x'], uninitialised := 'x' }

/-- The run of `examplePaired` in which the future of `connect()` resolves
with the error code 5. -/
def exampleConnectFails : ClientInput :=
  { examplePaired with connect := 5 }

/-- The run of `examplePaired` in which the device answers the pairing
request with status 403 and the payload `no`. -/
def exampleRefusedWithReason : ClientInput :=
  { examplePaired with status_code := (0, 403), payload := some { data := [110, 111], size := 2 } }

/-! ## The tcptunnel device (`tcptunnel_device.cpp`, release rc1) -/

/-- Source: `typedef int NabtoDeviceError;` -/
abbrev NabtoDeviceError := Int

/-- Source: `const json defaultTcptunnelIam = R"(...)"_json;`, lines 68 to 117 of
`tcptunnel_device.cpp`. -/
def defaultTcptunnelIam : Json :=
  Json.object
    [("DefaultRole", Json.string "Unpaired"),
      ("Policies", Json.object
        [("PasswordPairing", Json.object
            [("Statements", Json.array
                [Json.object
                  [("Actions", Json.array [Json.string "Pairing:Password"]),
                    ("Allow", Json.boolean true)]]),
              ("Version", Json.number 1)]),
          ("TunnelAll", Json.object
            [("Statements", Json.array
                [Json.object
                  [("Actions", Json.array [Json.string "TcpTunnel:Create"]),
                    ("Allow", Json.boolean true)]]),
              ("Version", Json.number 1)]),
          ("P2P", Json.object
            [("Statements", Json.array
                [Json.object
                  [("Actions", Json.array [Json.string "P2P:Stun", Json.string "P2P:Rendezvous"]),
                    ("Allow", Json.boolean true)]]),
              ("Version", Json.number 1)])]),
      ("Roles", Json.object
        [("Unpaired", Json.array [Json.string "PasswordPairing", Json.string "P2P"]),
          ("Tunnelling", Json.array [Json.string "TunnelAll", Json.string "P2P"])]),
      ("Users", Json.object
        [("DefaultUser", Json.object
            [("Roles", Json.array [Json.string "Tunnelling"]),
              ("Fingerprints", Json.array [])])])]

/-- The calls into the Nabto device library whose return value the example
tests. -/
inductive DeviceCall
  | create_private_key
  | set_private_key
  | get_device_fingerprint_hex
  | iam_load
  | set_product_id
  | set_device_id
  | set_server_url
  | enable_mdns
  | enable_tcp_tunnelling
  | set_log_level
  | set_log_std_out_callback
  | set_server_port
  | start
deriving DecidableEq

/-- The calls and outputs of the tcptunnel device. -/
inductive DeviceAction
  /-- Source: `std::cout << text << std::endl` -/
  | cout (text : String)
  /-- Source: `std::cerr << text << std::endl` -/
  | cerr (text : String)
  /-- Source: `json_config_exists(file)` -/
  | json_config_exists (file : String)
  /-- Source: `json_config_load(file, config)` -/
  | json_config_load (file : String)
  /-- Source: `json_config_save(file, config)` -/
  | json_config_save (file : String) (config : Json)
  /-- Source: `nabto_device_new()` -/
  | device_new
  /-- a call `nabto_device_...(device, argument)` of the list `DeviceCall`; a
  call without an argument, or with an output parameter only, has the
  argument null; `iam_load` has the JSON whose CBOR form it is given -/
  | call (which : DeviceCall) (argument : Json)
  /-- a read of the string at a `char* p` that an output parameter of the call
  `of` was to set (`std::string s(p)`, `std::cout << p`): `pointer` is the
  string at `p`, `none` when the call has not set `p` -/
  | std_string (of : DeviceCall) (pointer : Option String)
  /-- Source: `nabto_device_string_free(p)` -/
  | string_free
  /-- Source: `nabto_device_future_new`, `nabto_device_close`,
  `nabto_device_future_wait`, `nabto_device_future_free` -/
  | close
  /-- Source: `nabto_device_free(device)` -/
  | device_free
  /-- Source: `TcpTunnel tcpTunnel(device, config, configFile); tcpTunnel.init();` -/
  | tcptunnel_init
  /-- Source: `pause()` -/
  | pause
  /-- Source: `tcpTunnel.deinit()` -/
  | tcptunnel_deinit
  /-- Source: `nabto_device_stop(device)` -/
  | stop

/-- What the Nabto device library, the file system and the user answer in a
run of the tcptunnel device. -/
structure DeviceInput where
  /-- the return value of `json_config_exists` -/
  json_config_exists : String → Bool
  /-- the file `json_config_load` finds, `none` when it returns false -/
  json_config_load : String → Option Json
  /-- whether `nabto_device_new` returns a device -/
  device_new : Bool
  /-- the return value of a call -/
  ec : DeviceCall → NabtoDeviceError
  /-- the string `nabto_device_create_private_key` stores through its output
  parameter, `none` when it leaves the pointer as it was (not initialised) -/
  private_key : Option String
  /-- the string `nabto_device_get_device_fingerprint_hex` stores through its
  output parameter, `none` when it leaves the pointer as it was -/
  fingerprint : Option String
  /-- Source: `extern const NabtoDeviceError NABTO_DEVICE_EC_OK;` (the value is in
  no file of the release) -/
  NABTO_DEVICE_EC_OK : NabtoDeviceError
  /-- whether a signal ends `pause()` -/
  interrupted : Bool

/-- Source: `std::string s(p)` and `std::cout << p` for a `char* p`: reading through
a pointer that was never set is undefined. -/
def std_string (of : DeviceCall) (pointer : Option String) : Prog DeviceAction String := do
  Prog.act (DeviceAction.std_string of pointer)
  match pointer with
  | some s => pure s
  | none => Prog.stop Stop.fault

/-- Source: lines 154 to 157 and 170 of `tcptunnel_device.cpp`, on `json config;`:
```
config["PrivateKey"] = privateKey;
config["ProductId"] = productId;
config["DeviceId"] = deviceId;
config["Server"] = server;
config["Iam"] = defaultTcptunnelIam;
```
-/
def init_config (privateKey productId deviceId server : String) : Except Thrown Json := do
  let config ← Json.null.assign "PrivateKey" (Json.string privateKey)
  let config ← config.assign "ProductId" (Json.string productId)
  let config ← config.assign "DeviceId" (Json.string deviceId)
  let config ← config.assign "Server" (Json.string server)
  config.assign "Iam" defaultTcptunnelIam

/-- Source: `init_tcptunnel(configFile, productId, deviceId, server)`, lines 119 to
181 of `tcptunnel_device.cpp`.  The string `privateKey` is made from `str`
before `ec` is tested. -/
def init_tcptunnel (input : DeviceInput) (configFile productId deviceId server : String) :
    Prog DeviceAction Bool := do
  Prog.act (DeviceAction.json_config_exists configFile)
  if input.json_config_exists configFile then
    Prog.act (DeviceAction.cerr
      ("The config already file exists, remove " ++ configFile ++ " and try again"))
    Prog.exit 2
  else
    Prog.act DeviceAction.device_new
    Prog.act (DeviceAction.call DeviceCall.create_private_key Json.null)
    let privateKey ← std_string DeviceCall.create_private_key input.private_key
    if input.ec DeviceCall.create_private_key ≠ 0 then
      Prog.act (DeviceAction.cerr "Error creating private key")
      pure false
    else
      Prog.act (DeviceAction.call DeviceCall.set_private_key (Json.string privateKey))
      if input.ec DeviceCall.set_private_key ≠ 0 then
        Prog.act (DeviceAction.cerr "Error setting private key")
        pure false
      else
        Prog.act (DeviceAction.call DeviceCall.get_device_fingerprint_hex Json.null)
        if input.ec DeviceCall.get_device_fingerprint_hex ≠ 0 then
          Prog.act (DeviceAction.cerr "Error getting Fingerprint")
          pure false
        else
          let fp ← std_string DeviceCall.get_device_fingerprint_hex input.fingerprint
          Prog.act (DeviceAction.cout ("Created new private key with fingerprint: " ++ fp))
          Prog.act DeviceAction.string_free
          Prog.act DeviceAction.string_free
          Prog.act (DeviceAction.cout "iam size")
          Prog.act (DeviceAction.call DeviceCall.iam_load defaultTcptunnelIam)
          if input.ec DeviceCall.iam_load ≠ 0 then
            Prog.act (DeviceAction.cerr "Error loading default iam")
            pure false
          else
            let config ← Prog.lift (init_config privateKey productId deviceId server)
            Prog.act (DeviceAction.json_config_save configFile config)
            Prog.act DeviceAction.close
            Prog.act DeviceAction.device_free
            pure true

/-- Source: the pattern `ec = nabto_device_...(device, argument); if (ec) { std::cerr << message << std::endl; }`
of `run_tcptunnel`: the run goes on after the message. -/
def device_check (input : DeviceInput) (which : DeviceCall) (argument : Json)
    (message : String) : Prog DeviceAction Unit := do
  Prog.act (DeviceAction.call which argument)
  if input.ec which ≠ 0 then Prog.act (DeviceAction.cerr message) else pure ()

/-- Source: `.get<uint16_t>()`. -/
def Json.get_uint16 : Json → Except Thrown Nat
  | .number n => Except.ok (n.toNat % 65536)
  | _ => Except.error Thrown.json_type_error

/-- Source: `run_tcptunnel(configFile, logLevel)`, lines 183 to 297 of
`tcptunnel_device.cpp`.  After a failed `nabto_device_get_device_fingerprint_hex`
the run goes on to `std::string fp(fpTemp)`. -/
def run_tcptunnel (input : DeviceInput) (configFile logLevel : String) :
    Prog DeviceAction Unit := do
  Prog.act (DeviceAction.json_config_load configFile)
  match input.json_config_load configFile with
  | none =>
    Prog.act (DeviceAction.cerr ("The config file " ++ configFile ++
      " does not exists, run with --init to create the config file"))
    Prog.exit (-1)
  | some config =>
    Prog.act DeviceAction.device_new
    if input.device_new then
      let productId ← Prog.lift (config.string_at "ProductId")
      let deviceId ← Prog.lift (config.string_at "DeviceId")
      let server ← Prog.lift (config.string_at "Server")
      let privateKey ← Prog.lift (config.string_at "PrivateKey")
      let iam ← Prog.lift (config.index "Iam")
      device_check input DeviceCall.set_product_id (Json.string productId)
        "Could not set product id"
      device_check input DeviceCall.set_device_id (Json.string deviceId)
        "Could not set device id"
      device_check input DeviceCall.set_server_url (Json.string server)
        "Could not set server url"
      device_check input DeviceCall.set_private_key (Json.string privateKey)
        "Could not set private key"
      device_check input DeviceCall.iam_load iam "failed to load iam"
      device_check input DeviceCall.enable_mdns Json.null "Failed to enable mdns"
      device_check input DeviceCall.enable_tcp_tunnelling Json.null
        "Failed to enable tcp tunnelling"
      device_check input DeviceCall.set_log_level (Json.string logLevel)
        "Failed to set loglevel"
      device_check input DeviceCall.set_log_std_out_callback Json.null
        "Failed to enable stdour logging"
      (match config.index "ServerPort" >>= Json.get_uint16 with
        | Except.ok serverPort =>
          device_check input DeviceCall.set_server_port (Json.number serverPort)
            "Failed to set server port"
        | Except.error _ => pure ())
      Prog.act (DeviceAction.call DeviceCall.start Json.null)
      if input.ec DeviceCall.start ≠ input.NABTO_DEVICE_EC_OK then
        Prog.act DeviceAction.device_free
        Prog.act (DeviceAction.cerr "Failed to start device")
      else
        Prog.act (DeviceAction.call DeviceCall.get_device_fingerprint_hex Json.null)
        (if input.ec DeviceCall.get_device_fingerprint_hex ≠ 0 then
          Prog.act (DeviceAction.cerr "Could not get fingerprint of the device")
        else pure ())
        let fp ← std_string DeviceCall.get_device_fingerprint_hex input.fingerprint
        Prog.act DeviceAction.string_free
        Prog.act (DeviceAction.cout
          ("Device " ++ productId ++ "." ++ deviceId ++ " Started with fingerprint " ++ fp))
        Prog.act DeviceAction.tcptunnel_init
        Prog.act DeviceAction.pause
        if input.interrupted then
          Prog.act DeviceAction.close
          Prog.act DeviceAction.tcptunnel_deinit
          Prog.act DeviceAction.stop
          Prog.act DeviceAction.device_free
        else Prog.stop Stop.blocked
    else
      Prog.act (DeviceAction.cerr "Could not create device")

/-- A run of the tcptunnel device in which no configuration file exists and the
library answers every call with success: the key made is `"key-7"`, the
fingerprint `"f00d"`. -/
def exampleDevice : DeviceInput :=
  { json_config_exists := fun _ => false, json_config_load := fun _ => none,
    device_new := true, ec := fun _ => 0, private_key := some "key-7",
    fingerprint := some "f00d", NABTO_DEVICE_EC_OK := 0, interrupted := true }

/-- The run of `exampleDevice` in which `nabto_device_create_private_key` fails
with the code 1 and leaves its output parameter as it was. -/
def exampleDeviceNoKey : DeviceInput :=
  { exampleDevice with
    ec := fun c => if c = DeviceCall.create_private_key then 1 else 0, private_key := none }

/-- The configuration file that `init_tcptunnel` writes in the run of
`exampleDevice` for the product `pr-1`, the device `de-1` and the server
`srv`. -/
def exampleDeviceConfig : Json :=
  Json.object
    [("PrivateKey", Json.string "key-7"), ("ProductId", Json.string "pr-1"),
      ("DeviceId", Json.string "de-1"), ("Server", Json.string "srv"),
      ("Iam", defaultTcptunnelIam)]

/-- A run of the tcptunnel device that finds the configuration file
`exampleDeviceConfig` and in which `nabto_device_get_device_fingerprint_hex`
fails with the code 1 and leaves its output parameter as it was. -/
def exampleDeviceNoFingerprint : DeviceInput :=
  { exampleDevice with
    json_config_exists := fun _ => true, json_config_load := fun _ => some exampleDeviceConfig,
    ec := fun c => if c = DeviceCall.get_device_fingerprint_hex then 1 else 0,
    fingerprint := none }

/-- A run of the tcptunnel device in which the configuration file exists. -/
def exampleDeviceConfigured : DeviceInput :=
  { exampleDevice with
    json_config_exists := fun _ => true, json_config_load := fun _ => some exampleDeviceConfig }

/-- The values a tunnel client is configured with, by field: product id,
device id, server url, server key and private key. -/
def clientValues (productId deviceId server serverKey privateKey : String) :
    ConfigField → Option String
  | .productId => some productId
  | .deviceId => some deviceId
  | .serverUrl => some server
  | .serverKey => some serverKey
  | .privateKey => some privateKey
  | _ => none

/-- The values a tcptunnel device is configured with, by call: product id,
device id, server, private key and IAM configuration. -/
def deviceValues (productId deviceId server privateKey : String) (iam : Json) :
    DeviceCall → Option Json
  | .set_product_id => some (Json.string productId)
  | .set_device_id => some (Json.string deviceId)
  | .set_server_url => some (Json.string server)
  | .set_private_key => some (Json.string privateKey)
  | .iam_load => some iam
  | _ => none

/-- A call or output of the tunnel client agrees with the values `values` and
the configuration `config` of the file `configFile`: a setter is called with
the value of its field, and what is saved is `config` to `configFile`. -/
def ClientAction.Agrees (values : ConfigField → Option String) (configFile : String)
    (config : Json) : ClientAction → Prop
  | .set field value => values field = some value
  | .json_config_save file saved => file = configFile ∧ saved = config
  | _ => True

/-- A call or output of the tcptunnel device agrees with the values `values`
and the configuration `config` of the file `configFile`: a call that
configures the device has the value of `values` as its argument, and what is
saved is `config` to `configFile`. -/
def DeviceAction.Agrees (values : DeviceCall → Option Json) (configFile : String)
    (config : Json) : DeviceAction → Prop
  | .call which argument => ∀ v, values which = some v → argument = v
  | .json_config_save file saved => file = configFile ∧ saved = config
  | _ => True

/-- The configuration file the tunnel client writes after pairing. -/
def clientConfig (productId deviceId server serverKey privateKey : String) : Json :=
  Json.object
    [("ProductId", Json.string productId), ("DeviceId", Json.string deviceId),
      ("ServerUrl", Json.string server), ("ServerKey", Json.string serverKey),
      ("PrivateKey", Json.string privateKey)]

/-- The configuration file the tcptunnel device writes at its initialisation. -/
def deviceConfig (privateKey productId deviceId server : String) : Json :=
  Json.object
    [("PrivateKey", Json.string privateKey), ("ProductId", Json.string productId),
      ("DeviceId", Json.string deviceId), ("Server", Json.string server),
      ("Iam", defaultTcptunnelIam)]

/-- A run of the tunnel client that finds the configuration file written by
the pairing of `examplePaired`. -/
def exampleReconnect : ClientInput :=
  { examplePaired with
    json_config_load := fun _ => some (clientConfig "pr-1" "de-1" "srv" "sk-1" "key-1") }

/-! ## The IAM configuration of the tcptunnel device -/

/-- The members of a JSON object; no member for any other value. -/
def Json.members : Json → List (String × Json)
  | .object members => members
  | _ => []

/-- The keys of a JSON object. -/
def Json.keys (j : Json) : List String :=
  j.members.map Prod.fst

/-- The member `key` of a JSON object, null when there is none. -/
def Json.member (j : Json) (key : String) : Json :=
  (j.members.lookup key).getD Json.null

/-- The strings among the items of a JSON array. -/
def Json.strings : Json → List String
  | .array items =>
    items.filterMap fun item =>
      match item with
      | .string s => some s
      | _ => none
  | _ => []

/-- The role that `DefaultRole` names. -/
def Iam.defaultRole (iam : Json) : Option String :=
  match iam.member "DefaultRole" with
  | .string s => some s
  | _ => none

/-- The roles defined under `Roles`. -/
def Iam.roles (iam : Json) : List String :=
  (iam.member "Roles").keys

/-- The policies defined under `Policies`. -/
def Iam.policies (iam : Json) : List String :=
  (iam.member "Policies").keys

/-- The policy names listed in the roles, role by role. -/
def Iam.rolePolicies (iam : Json) : List String :=
  ((iam.member "Roles").members.map fun role => role.2.strings).flatten

/-- The roles listed for the users, user by user. -/
def Iam.userRoles (iam : Json) : List String :=
  ((iam.member "Users").members.map fun user => (user.2.member "Roles").strings).flatten

/-- An IAM configuration is referentially closed: `DefaultRole` names a role
defined under `Roles`, every policy listed in a role is defined under
`Policies`, and every role listed for a user is defined under `Roles`. -/
def Iam.Closed (iam : Json) : Prop :=
  (∃ role, Iam.defaultRole iam = some role ∧ role ∈ Iam.roles iam) ∧
    (∀ policy ∈ Iam.rolePolicies iam, policy ∈ Iam.policies iam) ∧
    (∀ role ∈ Iam.userRoles iam, role ∈ Iam.roles iam)

/-! ## CoAP content formats -/

/-- Source: `NabtoClientCoapContentFormat` of `nabto_client.h` (release rc1). -/
inductive NabtoClientCoapContentFormat
  | NABTO_CLIENT_COAP_CONTENT_FORMAT_TEXT_PLAIN_UTF8
  | NABTO_CLIENT_COAP_CONTENT_FORMAT_APPLICATION_LINK_FORMAT
  | NABTO_CLIENT_COAP_CONTENT_FORMAT_XML
  | NABTO_CLIENT_COAP_CONTENT_FORMAT_APPLICATION_OCTET_STREAM
  | NABTO_CLIENT_COAP_CONTENT_FORMAT_APPLICATION_JSON
  | NABTO_CLIENT_COAP_CONTENT_FORMAT_APPLICATION_CBOR
deriving DecidableEq

/-- The value the enumeration gives each enumerator. -/
def NabtoClientCoapContentFormat.value : NabtoClientCoapContentFormat → Int
  | .NABTO_CLIENT_COAP_CONTENT_FORMAT_TEXT_PLAIN_UTF8 => 0
  | .NABTO_CLIENT_COAP_CONTENT_FORMAT_APPLICATION_LINK_FORMAT => 40
  | .NABTO_CLIENT_COAP_CONTENT_FORMAT_XML => 41
  | .NABTO_CLIENT_COAP_CONTENT_FORMAT_APPLICATION_OCTET_STREAM => 42
  | .NABTO_CLIENT_COAP_CONTENT_FORMAT_APPLICATION_JSON => 50
  | .NABTO_CLIENT_COAP_CONTENT_FORMAT_APPLICATION_CBOR => 60

/-- The name of an enumerator after `NABTO_CLIENT_COAP_CONTENT_FORMAT_`. -/
def NabtoClientCoapContentFormat.name : NabtoClientCoapContentFormat → String
  | .NABTO_CLIENT_COAP_CONTENT_FORMAT_TEXT_PLAIN_UTF8 => "TEXT_PLAIN_UTF8"
  | .NABTO_CLIENT_COAP_CONTENT_FORMAT_APPLICATION_LINK_FORMAT => "APPLICATION_LINK_FORMAT"
  | .NABTO_CLIENT_COAP_CONTENT_FORMAT_XML => "XML"
  | .NABTO_CLIENT_COAP_CONTENT_FORMAT_APPLICATION_OCTET_STREAM => "APPLICATION_OCTET_STREAM"
  | .NABTO_CLIENT_COAP_CONTENT_FORMAT_APPLICATION_JSON => "APPLICATION_JSON"
  | .NABTO_CLIENT_COAP_CONTENT_FORMAT_APPLICATION_CBOR => "APPLICATION_CBOR"

/-- Source: `nabto_device_coap_content_format` of `nabto_device.h` (release 4.0). -/
inductive nabto_device_coap_content_format
  | NABTO_DEVICE_COAP_CONTENT_FORMAT_TEXT_PLAIN_UTF8
  | NABTO_DEVICE_COAP_CONTENT_FORMAT_APPLICATION_OCTET_STREAM
  | NABTO_DEVICE_COAP_CONTENT_FORMAT_APPLICATION_JSON
  | NABTO_DEVICE_COAP_CONTENT_FORMAT_APPLICATION_CBOR
deriving DecidableEq

/-- The value the enumeration gives each enumerator. -/
def nabto_device_coap_content_format.value : nabto_device_coap_content_format → Int
  | .NABTO_DEVICE_COAP_CONTENT_FORMAT_TEXT_PLAIN_UTF8 => 0
  | .NABTO_DEVICE_COAP_CONTENT_FORMAT_APPLICATION_OCTET_STREAM => 42
  | .NABTO_DEVICE_COAP_CONTENT_FORMAT_APPLICATION_JSON => 50
  | .NABTO_DEVICE_COAP_CONTENT_FORMAT_APPLICATION_CBOR => 60

/-- The name of an enumerator after `NABTO_DEVICE_COAP_CONTENT_FORMAT_`. -/
def nabto_device_coap_content_format.name : nabto_device_coap_content_format → String
  | .NABTO_DEVICE_COAP_CONTENT_FORMAT_TEXT_PLAIN_UTF8 => "TEXT_PLAIN_UTF8"
  | .NABTO_DEVICE_COAP_CONTENT_FORMAT_APPLICATION_OCTET_STREAM => "APPLICATION_OCTET_STREAM"
  | .NABTO_DEVICE_COAP_CONTENT_FORMAT_APPLICATION_JSON => "APPLICATION_JSON"
  | .NABTO_DEVICE_COAP_CONTENT_FORMAT_APPLICATION_CBOR => "APPLICATION_CBOR"

/-- The values a run gives to the connection: the arguments of its setter
calls, in the order of the calls. -/
def settings (t : List ClientAction) : List (ConfigField × String) :=
  t.filterMap fun a =>
    match a with
    | .set field value => some (field, value)
    | _ => none

/-- The calls a run makes into the device library, with their arguments, in
the order of the calls. -/
def deviceCalls (t : List DeviceAction) : List (DeviceCall × Json) :=
  t.filterMap fun a =>
    match a with
    | .call which argument => some (which, argument)
    | _ => none

/-! ## Basic facts -/

theorem live_eq_some {w : World} {this : Nat} {o : Obj} (h : w.live this = some o) :
    w.objs this = some o ∧ o.destroyed = false := by
  unfold World.live at h
  cases hobj : w.objs this with
  | none => simp [hobj] at h
  | some o1 =>
    simp only [hobj] at h
    by_cases hd : o1.destroyed = true
    · simp [hd] at h
    · simp only [hd] at h
      simp at h
      subst h
      exact ⟨rfl, by simpa using hd⟩

theorem live_setObj_same (w : World) (this : Nat) (o : Obj) (h : o.destroyed = false) :
    (w.setObj this o).live this = some o := by
  simp [World.live, World.setObj, h]

/-- The outcome of `getResult` is decided by the error code alone. -/
theorem getResult_spec (w : World) (this : Nat) (o : Obj) (h : w.live this = some o) :
    ∃ out, getResult w this = some out ∧
      (w.error_code o.val.future_ ≠ 0 →
        out = (Except.error ⟨w.error_code o.val.future_⟩, w)) ∧
      (w.error_code o.val.future_ = 0 → ∃ r, out.1 = Except.ok r) := by
  unfold getResult
  simp only [h, nabto_client_future_error_code]
  by_cases hec : w.error_code o.val.future_ = 0
  · simp only [hec, ne_eq, not_true_eq_false, if_false]
    cases o.val.payload <;> simp
  · simp [hec]

theorem resize_size (b : BufferOut) (n : Nat) : (b.resize n).size = n := by
  simp [BufferOut.resize, BufferOut.size]
  omega

theorem resize_resize (b : BufferOut) (n : Nat) : (b.resize n).resize n = b.resize n := by
  have h := resize_size b n
  unfold BufferOut.size at h
  unfold BufferOut.resize at h ⊢
  simp only at h ⊢
  rw [h]
  simp
  omega

theorem write_ofCapacity (n : Nat) (written : List Byte) (h : written.length ≤ n) :
    ((BufferOut.ofCapacity n).write written).data_ =
      written ++ List.replicate (n - written.length) 0 := by
  simp [BufferOut.write, BufferOut.ofCapacity]
  omega

theorem getResult_buffer (w : World) (this : Nat) (o : Obj) (data transferred : Nat)
    (h : w.live this = some o) (hp : o.val.payload = Payload.buffer data transferred) :
    getResult w this = some (
      if w.error_code o.val.future_ ≠ 0 then (Except.error ⟨w.error_code o.val.future_⟩, w)
      else (Except.ok (Result.buffer data),
        { w with buffers :=
            Function.update w.buffers data ((w.buffers data).resize (w.sizes transferred)) })) := by
  unfold getResult
  simp only [h, nabto_client_future_error_code, hp]
  split <;> rfl

theorem waitForResult_eq (w : World) (this : Nat) (o : Obj) (h : w.live this = some o)
    (hres : w.resolved o.val.future_ = true) :
    waitForResult w this =
      getResult ((w.emit [Event.future_wait o.val.future_]).setObj this
        { o with val := { o.val with ended_ := true } }) this := by
  unfold waitForResult
  simp only [h, nabto_client_future_wait, hres, if_true]

/-- The world after a stream read was started and the library has resolved its
future: the wrapper, the error code, the count and the bytes in the buffer. -/
theorem read_then_resolve (w : World) (all : Bool) (stream n : Nat) (ec : NabtoClientError)
    (written : List Byte) (count : Nat) (hfresh : w.resolved (w.next + 2) = false)
    (hw : written.length ≤ n) :
    (StreamImpl.read all w stream n).1 = w.next + 3 ∧
    ∃ w1, resolve (StreamImpl.read all w stream n).2 (w.next + 2) ec written count = some w1 ∧
      w1.live (w.next + 3) = some
        { val := FutureImpl.new (w.next + 2) (Payload.buffer w.next (w.next + 1)),
          owners := 1, destroyed := false } ∧
      w1.error_code (w.next + 2) = ec ∧ w1.resolved (w.next + 2) = true ∧
      w1.sizes (w.next + 1) = count ∧
      w1.buffers w.next = ⟨written ++ List.replicate (n - written.length) 0⟩ := by
  refine ⟨by simp [StreamImpl.read, makeFuture, nabto_client_stream_read], ?_⟩
  have hsz : (BufferOut.ofCapacity n).size = n := by simp [BufferOut.ofCapacity, BufferOut.size]
  simp [StreamImpl.read, makeFuture, nabto_client_stream_read, resolve, World.setObj, hfresh,
    hsz, hw, World.live, write_ofCapacity n written hw]
  rw [← write_ofCapacity n written hw]

/-- After a read resolved with code 0, `getResult` and `waitForResult` hand out
the buffer cut down to the count. -/
theorem read_ok (w : World) (all : Bool) (stream n : Nat) (written : List Byte) (t : Nat)
    (hfresh : w.resolved (w.next + 2) = false) (hw : written.length ≤ n)
    (ht : t ≤ written.length) :
    ∃ w1, resolve (StreamImpl.read all w stream n).2 (w.next + 2) 0 written t = some w1 ∧
      (∃ w2, getResult w1 (StreamImpl.read all w stream n).1 =
          some (Except.ok (Result.buffer w.next), w2) ∧
        (w2.buffers w.next).size = t ∧ (w2.buffers w.next).data = written.take t) ∧
      (∃ w2, waitForResult w1 (StreamImpl.read all w stream n).1 =
          some (Except.ok (Result.buffer w.next), w2) ∧
        (w2.buffers w.next).size = t ∧ (w2.buffers w.next).data = written.take t) := by
  obtain ⟨hthis, w1, hres, hlive, hec, hr, hsz, hbuf⟩ :=
    read_then_resolve w all stream n 0 written t hfresh hw
  have hcut : (BufferOut.resize ⟨written ++ List.replicate (n - written.length) 0⟩ t).data_ =
      written.take t := by
    simp [BufferOut.resize, List.take_append_of_le_length ht]
    omega
  refine ⟨w1, hres, ?_, ?_⟩
  · rw [hthis, getResult_buffer w1 _ _ _ _ hlive rfl]
    simp only [FutureImpl.new, hec, ne_eq, not_true_eq_false, if_false]
    refine ⟨_, rfl, ?_, ?_⟩
    · simp only [Function.update_same, hsz, resize_size]
    · simp only [Function.update_same, hsz, hbuf, BufferOut.data, hcut]
  · rw [hthis, waitForResult_eq w1 _ _ hlive hr]
    rw [getResult_buffer _ _ _ w.next (w.next + 1) (live_setObj_same _ _ _ rfl) rfl]
    simp only [FutureImpl.new, World.setObj, World.emit, hec, ne_eq, not_true_eq_false, if_false]
    refine ⟨_, rfl, ?_, ?_⟩
    · simp only [Function.update_same, hsz, resize_size]
    · simp only [Function.update_same, hsz, hbuf, BufferOut.data, hcut]

/-- After a read resolved with a non-zero code, `getResult` and `waitForResult`
throw it and leave the buffer alone. -/
theorem read_failed (w : World) (all : Bool) (stream n : Nat) (ec : NabtoClientError)
    (written : List Byte) (count : Nat) (hfresh : w.resolved (w.next + 2) = false)
    (hw : written.length ≤ n) (hec : ec ≠ 0) :
    ∃ w1, resolve (StreamImpl.read all w stream n).2 (w.next + 2) ec written count = some w1 ∧
      getResult w1 (StreamImpl.read all w stream n).1 = some (Except.error ⟨ec⟩, w1) ∧
      (∃ w2, waitForResult w1 (StreamImpl.read all w stream n).1 =
          some (Except.error ⟨ec⟩, w2) ∧ w2.buffers = w1.buffers ∧ w2.sizes = w1.sizes) := by
  obtain ⟨hthis, w1, hres, hlive, hec1, hr, -, -⟩ :=
    read_then_resolve w all stream n ec written count hfresh hw
  refine ⟨w1, hres, ?_, ?_⟩
  · rw [hthis, getResult_buffer w1 _ _ _ _ hlive rfl]
    simp [FutureImpl.new, hec1, hec]
  · rw [hthis, waitForResult_eq w1 _ _ hlive hr]
    rw [getResult_buffer _ _ _ w.next (w.next + 1) (live_setObj_same _ _ _ rfl) rfl]
    simp [FutureImpl.new, World.setObj, World.emit, hec1, hec]

/-- A second `getResult` right after a first gives the same outcome and leaves
the world, the returned buffer included, as the first left it. -/
theorem getResult_idem (w : World) (this : Nat)
    (out : Except NabtoException Result × World) (h : getResult w this = some out) :
    getResult out.2 this = some out := by
  unfold getResult at h
  cases hl : w.live this with
  | none => simp [hl] at h
  | some o =>
    simp only [hl, nabto_client_future_error_code] at h
    by_cases hec : w.error_code o.val.future_ = 0
    · simp only [hec, ne_eq, not_true_eq_false, if_false] at h
      cases hp : o.val.payload with
      | buffer data transferred =>
        simp only [hp, Option.some.injEq] at h
        subst h
        rw [getResult_buffer _ this o data transferred (by exact hl) hp]
        simp [hec, resize_resize]
      | mdns result =>
        simp only [hp, Option.some.injEq] at h
        subst h
        unfold getResult
        simp [hl, nabto_client_future_error_code, hec, hp]
      | void data =>
        simp only [hp, Option.some.injEq] at h
        subst h
        unfold getResult
        simp [hl, nabto_client_future_error_code, hec, hp]
    · rw [if_pos hec, Option.some.injEq] at h
      subst h
      unfold getResult
      simp [hl, nabto_client_future_error_code, hec]

/-- The destructor of a wrapper that is not ended. -/
theorem destructor_not_ended (w : World) (this : Nat) (o : Obj) (h : w.live this = some o)
    (hended : o.val.ended_ = false) :
    destructor w this = some
      { w with
        objs := Function.update (Function.update w.objs this (some { o with destroyed := true }))
          w.next (some (holderFor o w.next)),
        registered := Function.update w.registered o.val.future_ (some w.next),
        next := w.next + 1,
        trace := w.trace ++ [Event.future_set_callback o.val.future_ w.next] } := by
  unfold destructor
  rw [h]
  simp [hended, callback, World.live, World.setObj, nabto_client_future_set_callback,
    FutureImpl.new, holderFor]

/-- The destructor of a wrapper that is ended. -/
theorem destructor_ended (w : World) (this : Nat) (o : Obj) (h : w.live this = some o)
    (hended : o.val.ended_ = true) :
    destructor w this = some
      { w with
        objs := Function.update w.objs this (some { o with destroyed := true }),
        trace := w.trace ++ [Event.future_free this o.val.future_] } := by
  unfold destructor
  rw [h]
  simp [hended, World.setObj, nabto_client_future_free, World.emit]

/-- The callback `doCallback` on a live wrapper whose `cb_` is set. -/
theorem doCallback_eq (w : World) (future this : Nat) (o : Obj) (cb : FutureCallback)
    (h : w.live this = some o) (hcb : o.val.cb_ = some cb) :
    doCallback w future this = some
      (if o.val.selfReference_.isSome ∧ o.owners = 0 then
        { w with
          objs := Function.update w.objs this (some
            { o with val := { o.val with ended_ := true, selfReference_ := none },
                     destroyed := true }),
          trace := w.trace ++ cb.run ⟨w.error_code o.val.future_⟩ ++
            [Event.future_free this o.val.future_] }
      else
        { w with
          objs := Function.update w.objs this (some
            { o with val := { o.val with ended_ := true, selfReference_ := none } }),
          trace := w.trace ++ cb.run ⟨w.error_code o.val.future_⟩ }) := by
  have hd := (live_eq_some h).2
  unfold doCallback
  simp only [h, hcb, nabto_client_future_error_code]
  by_cases hlast : o.val.selfReference_.isSome = true ∧ o.owners = 0
  · rw [if_pos (by simpa using hlast), if_pos hlast]
    rw [destructor_ended _ this
      { o with val := { o.val with ended_ := true, selfReference_ := none } }
      (by simp [World.live, World.setObj, World.emit, hd, hcb]) rfl]
    simp [World.setObj, World.emit, hcb]
  · rw [if_neg (by simpa using hlast), if_neg hlast]
    simp [World.setObj, World.emit]

theorem wellFormed_init (ec0 : Nat → NabtoClientError) : WellFormed (World.init ec0) :=
  ⟨fun _ _ => rfl, fun _ _ h => by simp [World.init] at h, fun _ _ h => by simp [World.init] at h⟩

/-- A step after which the wrappers are as they were. -/
theorem evolves_of_same_objs (P : Nat → Prop) (w w1 : World) (hobjs : w1.objs = w.objs)
    (hnext : w.next ≤ w1.next) (hres : ∀ f, w.resolved f = true → w1.resolved f = true)
    (hreg : w1.registered = w.registered) : Evolves P w w1 := by
  refine ⟨hnext, hres, ?_, ?_, ?_⟩
  · intro a o ha
    refine ⟨o, by rw [hobjs, ha], rfl, fun h => h, ?_⟩
    intro h0 h1
    rw [h0] at h1
    cases h1
  · intro a o1 h0 h1
    rw [hobjs, h0] at h1
    cases h1
  · intro f a h
    left
    rw [← hreg]
    exact h

/-- A step that makes one wrapper, not ended, at a new address. -/
theorem evolves_of_made (P : Nat → Prop) (w w1 : World) (c : Nat) (oc : Obj)
    (hw : WellFormed w) (hobjs : w1.objs = Function.update w.objs c (some oc))
    (hc : w.next ≤ c) (hc1 : c < w1.next) (hoc : oc.val.ended_ = false)
    (hres : w1.resolved = w.resolved) (hreg : w1.registered = w.registered) :
    Evolves P w w1 := by
  have hne : ∀ a o, w.objs a = some o → a ≠ c := by
    intro a o ha hac
    rw [hac, hw.fresh c hc] at ha
    cases ha
  refine ⟨by omega, fun f h => by rw [hres]; exact h, ?_, ?_, ?_⟩
  · intro a o ha
    refine ⟨o, by rw [hobjs, Function.update_noteq (hne a o ha), ha], rfl, fun h => h, ?_⟩
    intro h0 h1
    rw [h0] at h1
    cases h1
  · intro a o1 h0 h1
    by_cases hac : a = c
    · subst hac
      rw [hobjs, Function.update_same] at h1
      cases h1
      exact ⟨hc, hc1, hoc⟩
    · rw [hobjs, Function.update_noteq hac, h0] at h1
      cases h1
  · intro f a h
    left
    rw [← hreg]
    exact h

/-- A step that rewrites the wrapper at `this`, keeping its future. -/
theorem evolves_of_update (P : Nat → Prop) (w w1 : World) (this : Nat) (o o1 : Obj)
    (ho : w.objs this = some o) (hobjs : w1.objs = Function.update w.objs this (some o1))
    (hfut : o1.val.future_ = o.val.future_)
    (hended : o.val.ended_ = true → o1.val.ended_ = true)
    (hset : o.val.ended_ = false → o1.val.ended_ = true →
      P this ∧ w1.resolved o.val.future_ = true)
    (hnext : w.next ≤ w1.next) (hres : ∀ f, w.resolved f = true → w1.resolved f = true)
    (hreg : ∀ f a, w1.registered f = some a →
      w.registered f = some a ∨ ∃ o1, w1.objs a = some o1 ∧ o1.val.future_ = f) :
    Evolves P w w1 := by
  refine ⟨hnext, hres, ?_, ?_, hreg⟩
  · intro a oa ha
    by_cases hat : a = this
    · subst hat
      rw [ho] at ha
      cases ha
      exact ⟨o1, by rw [hobjs, Function.update_same], hfut, hended, hset⟩
    · refine ⟨oa, by rw [hobjs, Function.update_noteq hat, ha], rfl, fun h => h, ?_⟩
      intro h0 h1
      rw [h0] at h1
      cases h1
  · intro a oa h0 h1
    by_cases hat : a = this
    · subst hat
      rw [ho] at h0
      cases h0
    · rw [hobjs, Function.update_noteq hat, h0] at h1
      cases h1

/-- What `Evolves` gives for a well-formed world. -/
theorem wellFormed_of_evolves (P : Nat → Prop) (w w1 : World) (hw : WellFormed w)
    (he : Evolves P w w1) : WellFormed w1 := by
  refine ⟨?_, ?_, ?_⟩
  · intro a ha
    cases h1 : w1.objs a with
    | none => rfl
    | some o1 =>
      cases h0 : w.objs a with
      | none =>
        have := (he.made a o1 h0 h1).2.1
        omega
      | some o =>
        have := hw.fresh a (by have := he.next_le; omega)
        rw [h0] at this
        cases this
  · intro a o1 h1 hended
    cases h0 : w.objs a with
    | none =>
      have := (he.made a o1 h0 h1).2.2
      rw [hended] at this
      cases this
    | some o =>
      obtain ⟨o2, h2, hfut, hkeep, hset⟩ := he.kept a o h0
      rw [h1] at h2
      cases h2
      rw [hfut]
      cases hoe : o.val.ended_ with
      | true => exact he.resolved_mono _ (hw.ended_resolved a o h0 hoe)
      | false => exact (hset hoe hended).2
  · intro f a h
    rcases he.registered f a h with h0 | h1
    · obtain ⟨o, ho, hf⟩ := hw.registered_future f a h0
      obtain ⟨o1, h1, hfut, -, -⟩ := he.kept a o ho
      exact ⟨o1, h1, by rw [hfut, hf]⟩
    · exact h1

/-- A step that rewrites the wrapper at `this` without touching `ended_` and
makes a holder for its future at the new address `w.next`, registered on that
future: what a destructor does to a wrapper that is not ended. -/
theorem evolves_of_handover (P : Nat → Prop) (w w1 : World) (this : Nat) (o o1 oc : Obj)
    (hw : WellFormed w) (ho : w.objs this = some o)
    (hobjs : w1.objs =
      Function.update (Function.update w.objs this (some o1)) w.next (some oc))
    (hfut : o1.val.future_ = o.val.future_) (hended : o1.val.ended_ = o.val.ended_)
    (hocf : oc.val.future_ = o.val.future_) (hoce : oc.val.ended_ = false)
    (hnext : w1.next = w.next + 1) (hres : w1.resolved = w.resolved)
    (hreg : w1.registered = Function.update w.registered o.val.future_ (some w.next)) :
    Evolves P w w1 := by
  have hthis : this ≠ w.next := by
    intro h
    rw [h, hw.fresh w.next (Nat.le_refl _)] at ho
    cases ho
  have hne : ∀ a oa, w.objs a = some oa → a ≠ w.next := by
    intro a oa ha hac
    rw [hac, hw.fresh w.next (Nat.le_refl _)] at ha
    cases ha
  refine ⟨by omega, fun f h => by rw [hres]; exact h, ?_, ?_, ?_⟩
  · intro a oa ha
    by_cases hat : a = this
    · subst hat
      rw [ho] at ha
      cases ha
      refine ⟨o1, by rw [hobjs, Function.update_noteq hthis, Function.update_same], hfut,
        fun h => by rw [hended]; exact h, ?_⟩
      intro h0 h1
      rw [hended, h0] at h1
      cases h1
    · refine ⟨oa, ?_, rfl, fun h => h, ?_⟩
      · rw [hobjs, Function.update_noteq (hne a oa ha), Function.update_noteq hat, ha]
      · intro h0 h1
        rw [h0] at h1
        cases h1
  · intro a oa h0 h1
    by_cases hac : a = w.next
    · subst hac
      rw [hobjs, Function.update_same] at h1
      cases h1
      exact ⟨Nat.le_refl _, by omega, hoce⟩
    · by_cases hat : a = this
      · subst hat
        rw [ho] at h0
        cases h0
      · rw [hobjs, Function.update_noteq hac, Function.update_noteq hat, h0] at h1
        cases h1
  · intro f a h
    rw [hreg] at h
    by_cases hf : f = o.val.future_
    · subst hf
      rw [Function.update_same] at h
      cases h
      right
      exact ⟨oc, by rw [hobjs, Function.update_same], hocf⟩
    · rw [Function.update_noteq hf] at h
      exact Or.inl h

theorem getResult_frame (w : World) (this : Nat) (out : Except NabtoException Result × World)
    (h : getResult w this = some out) :
    out.2.objs = w.objs ∧ out.2.resolved = w.resolved ∧ out.2.registered = w.registered ∧
      out.2.next = w.next := by
  unfold getResult at h
  cases hl : w.live this with
  | none => simp [hl] at h
  | some o =>
    simp only [hl] at h
    split at h
    · cases h
      exact ⟨rfl, rfl, rfl, rfl⟩
    · split at h <;> cases h <;> exact ⟨rfl, rfl, rfl, rfl⟩

theorem waitForResult_frame (w : World) (this : Nat)
    (out : Except NabtoException Result × World) (h : waitForResult w this = some out) :
    ∃ o, w.objs this = some o ∧ w.resolved o.val.future_ = true ∧
      out.2.objs = Function.update w.objs this
        (some { o with val := { o.val with ended_ := true } }) ∧
      out.2.resolved = w.resolved ∧ out.2.registered = w.registered ∧ out.2.next = w.next := by
  cases hl : w.live this with
  | none => simp [waitForResult, hl] at h
  | some o =>
    have hres : w.resolved o.val.future_ = true := by
      by_contra hne
      simp [waitForResult, hl, nabto_client_future_wait, hne] at h
    rw [waitForResult_eq w this o hl hres] at h
    obtain ⟨h1, h2, h3, h4⟩ := getResult_frame _ this out h
    exact ⟨o, (live_eq_some hl).1, hres, h1, h2, h3, h4⟩

theorem drop_cases (w w1 : World) (this : Nat) (h : drop w this = some w1) :
    ∃ o, w.objs this = some o ∧ w1.resolved = w.resolved ∧
      ((∃ o1, w1.objs = Function.update w.objs this (some o1) ∧ o1.val = o.val ∧
          w1.next = w.next ∧ w1.registered = w.registered) ∨
        (∃ o1, o1.val = o.val ∧
          w1.objs = Function.update (Function.update w.objs this (some o1)) w.next
            (some (holderFor o w.next)) ∧
          w1.next = w.next + 1 ∧
          w1.registered = Function.update w.registered o.val.future_ (some w.next))) := by
  cases hl : w.live this with
  | none => simp [drop, hl] at h
  | some o =>
    have hd := (live_eq_some hl).2
    refine ⟨o, (live_eq_some hl).1, ?_⟩
    unfold drop at h
    simp only [hl] at h
    by_cases h0 : o.owners = 0
    · simp [h0] at h
    · rw [if_neg h0] at h
      by_cases hlast : o.owners = 1 ∧ o.val.selfReference_ = none
      · rw [if_pos hlast] at h
        have hl1 : (w.setObj this { o with owners := o.owners - 1 }).live this =
            some { o with owners := o.owners - 1 } := live_setObj_same _ _ _ hd
        cases hended : o.val.ended_ with
        | true =>
          rw [destructor_ended _ this _ hl1 hended] at h
          cases h
          exact ⟨rfl, Or.inl ⟨{ o with owners := o.owners - 1, destroyed := true },
            by simp [World.setObj], rfl, rfl, rfl⟩⟩
        | false =>
          rw [destructor_not_ended _ this _ hl1 hended] at h
          cases h
          exact ⟨rfl, Or.inr ⟨{ o with owners := o.owners - 1, destroyed := true }, rfl,
            by simp [World.setObj, holderFor], rfl, rfl⟩⟩
      · rw [if_neg hlast] at h
        cases h
        exact ⟨rfl, Or.inl ⟨_, rfl, rfl, rfl, rfl⟩⟩

theorem fire_cases (w w1 : World) (future : Nat) (h : fire w future = some w1) :
    ∃ data o o1, w.resolved future = true ∧ w.registered future = some data ∧
      w.objs data = some o ∧ w1.objs = Function.update w.objs data (some o1) ∧
      o1.val.future_ = o.val.future_ ∧ o1.val.ended_ = true ∧
      w1.resolved = w.resolved ∧ w1.registered = w.registered ∧ w1.next = w.next := by
  unfold fire at h
  by_cases hres : w.resolved future = true
  · rw [if_pos hres] at h
    cases hreg : w.registered future with
    | none => simp [hreg] at h
    | some data =>
      simp only [hreg] at h
      cases hl : w.live data with
      | none => simp [doCallback, hl] at h
      | some o =>
        cases hcb : o.val.cb_ with
        | none => simp [doCallback, hl, hcb] at h
        | some cb =>
          rw [doCallback_eq w future data o cb hl hcb] at h
          by_cases hlast : o.val.selfReference_.isSome = true ∧ o.owners = 0
          · rw [if_pos hlast] at h
            cases h
            exact ⟨data, o, { o with val := { o.val with ended_ := true, selfReference_ := none },
                                     destroyed := true },
              hres, rfl, (live_eq_some hl).1, rfl, rfl, rfl, rfl, rfl, rfl⟩
          · rw [if_neg hlast] at h
            cases h
            exact ⟨data, o, { o with val := { o.val with ended_ := true, selfReference_ := none } },
              hres, rfl, (live_eq_some hl).1, rfl, rfl, rfl, rfl, rfl, rfl⟩
  · rw [if_neg hres] at h
    cases h

/-- Every step changes the wrappers of a well-formed world as `Evolves` allows,
and marks a wrapper ended only as `EndsAt` says. -/
theorem step_evolves (w w1 : World) (op : Op) (hw : WellFormed w)
    (hs : step w op = some w1) : Evolves (EndsAt w op) w w1 := by
  cases op with
  | readAll stream n =>
    simp only [step, Option.some.injEq] at hs
    subst hs
    exact evolves_of_made _ w _ (w.next + 3) _ hw rfl (by omega)
      (by simp [StreamImpl.readAll, StreamImpl.read, makeFuture, nabto_client_stream_read,
        World.setObj]) rfl rfl rfl
  | readSome stream max =>
    simp only [step, Option.some.injEq] at hs
    subst hs
    exact evolves_of_made _ w _ (w.next + 3) _ hw rfl (by omega)
      (by simp [StreamImpl.readSome, StreamImpl.read, makeFuture, nabto_client_stream_read,
        World.setObj]) rfl rfl rfl
  | makeFutureVoid data =>
    simp only [step, Option.some.injEq] at hs
    subst hs
    exact evolves_of_made _ w _ (w.next + 1) _ hw rfl (by omega)
      (by simp [makeFutureVoid, makeFuture, future_from_library, World.setObj]) rfl rfl rfl
  | mdnsGetResult =>
    simp only [step, Option.some.injEq] at hs
    subst hs
    exact evolves_of_made _ w _ (w.next + 2) _ hw rfl (by omega)
      (by simp [MdnsResolverImpl.getResult, makeFuture, future_from_library, World.setObj])
      rfl rfl rfl
  | waitForResult this =>
    simp only [step, Option.map_eq_some'] at hs
    obtain ⟨out, hout, rfl⟩ := hs
    obtain ⟨o, ho, hres, hobjs, hr, hreg, hnext⟩ := waitForResult_frame w this out hout
    refine evolves_of_update _ w out.2 this o _ ho hobjs rfl (fun _ => rfl)
      (fun _ _ => ⟨Or.inl rfl, by rw [hr]; exact hres⟩) (by omega)
      (fun f h => by rw [hr]; exact h) (fun f a h => Or.inl (by rw [← hreg]; exact h))
  | getResult this =>
    simp only [step, Option.map_eq_some'] at hs
    obtain ⟨out, hout, rfl⟩ := hs
    obtain ⟨hobjs, hr, hreg, hnext⟩ := getResult_frame w this out hout
    exact evolves_of_same_objs _ w out.2 hobjs (by omega) (fun f h => by rw [hr]; exact h) hreg
  | callback this cb =>
    simp only [step] at hs
    cases hl : w.live this with
    | none => simp [callback, hl] at hs
    | some o =>
      simp only [callback, hl, Option.some.injEq] at hs
      subst hs
      refine evolves_of_update _ w _ this o _ (live_eq_some hl).1 rfl rfl (fun h => h) ?_
        (Nat.le_refl _) (fun f h => h) ?_
      · intro h0 h1
        rw [h0] at h1
        cases h1
      · intro f a h
        by_cases hf : f = o.val.future_
        · subst hf
          simp only [nabto_client_future_set_callback, World.setObj, Function.update_same,
            Option.some.injEq] at h
          subst h
          right
          exact ⟨{ o with val := { o.val with cb_ := some cb, selfReference_ := some this } },
            by simp [nabto_client_future_set_callback, World.setObj], rfl⟩
        · left
          simpa [nabto_client_future_set_callback, World.setObj, Function.update_noteq hf]
            using h
  | share this =>
    simp only [step] at hs
    cases hl : w.live this with
    | none => simp [share, hl] at hs
    | some o =>
      simp only [share, hl] at hs
      by_cases h0 : o.owners = 0
      · simp [h0] at hs
      · rw [if_neg h0, Option.some.injEq] at hs
        subst hs
        refine evolves_of_update _ w _ this o _ (live_eq_some hl).1 rfl rfl (fun h => h) ?_
          (Nat.le_refl _) (fun f h => h) (fun f a h => Or.inl h)
        intro h0 h1
        rw [h0] at h1
        cases h1
  | drop this =>
    simp only [step] at hs
    obtain ⟨o, ho, hr, hcase⟩ := drop_cases w w1 this hs
    rcases hcase with ⟨o1, hobjs, hval, hnext, hreg⟩ | ⟨o1, hval, hobjs, hnext, hreg⟩
    · refine evolves_of_update _ w w1 this o o1 ho hobjs (by rw [hval])
        (fun h => by rw [hval]; exact h) ?_ (by omega) (fun f h => by rw [hr]; exact h)
        (fun f a h => Or.inl (by rw [← hreg]; exact h))
      intro h0 h1
      rw [hval, h0] at h1
      cases h1
    · exact evolves_of_handover _ w w1 this o o1 _ hw ho hobjs (by rw [hval]) (by rw [hval])
        rfl rfl hnext hr hreg
  | resolve future ec written count =>
    simp only [step] at hs
    unfold resolve at hs
    by_cases hres : w.resolved future = true
    · simp [hres] at hs
    · rw [if_neg hres] at hs
      cases hreads : w.reads future with
      | none =>
        simp only [hreads, Option.some.injEq] at hs
        subst hs
        refine evolves_of_same_objs _ w _ rfl (Nat.le_refl _) ?_ rfl
        intro f h
        by_cases hf : f = future
        · subst hf
          simp
        · simpa [Function.update_noteq hf] using h
      | some rd =>
        simp only [hreads] at hs
        by_cases hlen : written.length ≤ rd.bufferLength
        · rw [if_pos hlen, Option.some.injEq] at hs
          subst hs
          refine evolves_of_same_objs _ w _ rfl (Nat.le_refl _) ?_ rfl
          intro f h
          by_cases hf : f = future
          · subst hf
            simp
          · simpa [Function.update_noteq hf] using h
        · rw [if_neg hlen] at hs
          cases hs
  | fire future =>
    simp only [step] at hs
    obtain ⟨data, o, o1, hres, hreg, ho, hobjs, hfut, hended, hr, hrg, hnext⟩ :=
      fire_cases w w1 future hs
    obtain ⟨o2, ho2, hf2⟩ := hw.registered_future future data hreg
    rw [ho] at ho2
    cases ho2
    refine evolves_of_update _ w w1 data o o1 ho hobjs hfut (fun _ => hended)
      (fun _ _ => ⟨Or.inr ⟨future, rfl, hreg⟩, by rw [hr, hf2]; exact hres⟩) (by omega)
      (fun f h => by rw [hr]; exact h) (fun f a h => Or.inl (by rw [← hrg]; exact h))

/-- Every world a run reaches is well formed. -/
theorem reachable_wellFormed (w : World) (h : Reachable w) : WellFormed w := by
  induction h with
  | init ec0 => exact wellFormed_init ec0
  | step op _ hs ih => exact wellFormed_of_evolves _ _ _ ih (step_evolves _ _ op ih hs)

/-- A later `getResult`, in any world in which the wrapper, the error code and
the count are as they were at an earlier call and the buffer is as that call
left it, gives the outcome of the earlier call and leaves the buffer as it is. -/
theorem getResult_stable (w w2 : World) (this : Nat) (o : Obj)
    (out : Except NabtoException Result × World) (hl : w.live this = some o)
    (h : getResult w this = some out) (hl2 : w2.live this = some o)
    (hec : w2.error_code o.val.future_ = w.error_code o.val.future_)
    (hbuf : ∀ d t, o.val.payload = Payload.buffer d t →
      w2.sizes t = w.sizes t ∧ w2.buffers d = out.2.buffers d) :
    ∃ w3, getResult w2 this = some (out.1, w3) ∧
      ∀ d t, o.val.payload = Payload.buffer d t → w3.buffers d = out.2.buffers d := by
  unfold getResult at h ⊢
  simp only [hl, hl2, nabto_client_future_error_code, hec] at h ⊢
  by_cases hz : w.error_code o.val.future_ = 0
  · simp only [hz, ne_eq, not_true_eq_false, if_false] at h ⊢
    cases hp : o.val.payload with
    | buffer data transferred =>
      simp only [hp, Option.some.injEq] at h ⊢
      subst h
      obtain ⟨hs, hb⟩ := hbuf data transferred hp
      simp only [Function.update_same] at hb
      refine ⟨_, rfl, ?_⟩
      intro d t hdt
      cases hdt
      simp only [Function.update_same, hs, hb, resize_resize]
    | mdns result =>
      simp only [hp, Option.some.injEq] at h ⊢
      subst h
      exact ⟨_, rfl, fun d t hdt => by cases hdt⟩
    | void data =>
      simp only [hp, Option.some.injEq] at h ⊢
      subst h
      exact ⟨_, rfl, fun d t hdt => by cases hdt⟩
  · rw [if_pos hz, Option.some.injEq] at h
    rw [if_pos hz]
    subst h
    exact ⟨_, rfl, fun d t hdt => (hbuf d t hdt).2⟩

theorem activeAt_set (l : List Channel) (i j : Nat) (x : Channel) :
    Connection.activeAt (l.set i x) j =
      if i = j ∧ i < l.length then x.active else Connection.activeAt l j := by
  unfold Connection.activeAt
  rw [List.getElem?_set]
  by_cases hij : i = j
  · subst hij
    by_cases hlen : i < l.length
    · simp [hlen]
    · simp [hlen]
      rw [List.getElem?_eq_none (by omega)]
  · simp [hij]

theorem activeAt_map_inactive (l : List Channel) (j : Nat) :
    Connection.activeAt (l.map fun old => { old with active := false }) j = false := by
  unfold Connection.activeAt
  rw [List.getElem?_map]
  cases l[j]? <;> rfl

theorem activeAt_append_inactive (l : List Channel) (x : Channel) (hx : x.active = false)
    (j : Nat) : Connection.activeAt (l ++ [x]) j = Connection.activeAt l j := by
  unfold Connection.activeAt
  by_cases hj : j < l.length
  · rw [List.getElem?_append_left hj]
  · rw [List.getElem?_append_right (by omega), List.getElem?_eq_none (l := l) (by omega)]
    cases h : [x][j - l.length]? with
    | none => rfl
    | some y =>
      have := List.getElem?_mem h
      simp at this
      subst this
      exact hx

theorem activeAt_of_getElem? (l : List Channel) (i : Nat) (ch : Channel)
    (h : l[i]? = some ch) : Connection.activeAt l i = ch.active := by
  simp [Connection.activeAt, h]

theorem activeAt_spawn (cfg : Configuration) (j : Nat) :
    Connection.activeAt (Connection.spawn cfg) j = false := by
  unfold Connection.activeAt
  cases h : (Connection.spawn cfg)[j]? with
  | none => rfl
  | some ch =>
    have hmem := List.getElem?_mem h
    unfold Connection.spawn at hmem
    simp only [List.mem_append, List.mem_map] at hmem
    rcases hmem with (h1 | h2) | ⟨_, _, h3⟩
    · split at h1
      · simp at h1
        subst h1
        rfl
      · simp at h1
    · split at h2
      · simp at h2
        subst h2
        rfl
      · simp at h2
    · subst h3
      rfl

theorem sound_new : Connection.Sound Connection.new := by
  refine ⟨?_, ?_, ?_, ?_, ?_, ?_, ?_⟩ <;> simp [Connection.new, Connection.activeAt]

theorem nodup_append_fresh (l : List (Nat × ErrorKind)) (h : Nat) (r : ErrorKind)
    (hn : (l.map Prod.fst).Nodup) (hf : h ∉ l.map Prod.fst) :
    ((l ++ [(h, r)]).map Prod.fst).Nodup := by
  rw [List.map_append, List.nodup_append]
  refine ⟨hn, by simp, ?_⟩
  intro a ha hb
  simp at hb
  subst hb
  exact hf ha

/-- A new Completion that resolves at once leaves a sound Connection sound. -/
theorem sound_resolve_new (c : Connection) (r : ErrorKind) (hs : c.Sound) :
    (({ c with nextCompletion := c.nextCompletion + 1 } : Connection).resolve
      c.nextCompletion r).Sound := by
  have hfresh : c.nextCompletion ∉ c.resolutions.map Prod.fst :=
    fun hmem => Nat.lt_irrefl _ (hs.resolved_below _ hmem)
  refine ⟨hs.active_unique, hs.idle_inactive, hs.unconfigured_no_channels,
    nodup_append_fresh _ _ _ hs.resolved_once hfresh, ?_, ?_, ?_⟩
  · intro h hmem
    simp only [Connection.resolve, List.map_append, List.mem_append, List.map_cons,
      List.map_nil, List.mem_singleton] at hmem
    rcases hmem with h1 | h2
    · exact Nat.lt_succ_of_lt (hs.resolved_below h h1)
    · subst h2
      exact Nat.lt_succ_self _
  · intro hst
    obtain ⟨h, hh, hlt, hnot⟩ := hs.connecting_pending hst
    refine ⟨h, hh, Nat.lt_succ_of_lt hlt, ?_⟩
    simp only [Connection.resolve, List.map_append, List.mem_append, List.map_cons,
      List.map_nil, List.mem_singleton, not_or]
    exact ⟨hnot, Nat.ne_of_lt hlt⟩
  · intro hst
    obtain ⟨h, hh, hlt, hnot⟩ := hs.closing_pending hst
    refine ⟨h, hh, Nat.lt_succ_of_lt hlt, ?_⟩
    simp only [Connection.resolve, List.map_append, List.mem_append, List.map_cons,
      List.map_nil, List.mem_singleton, not_or]
    exact ⟨hnot, Nat.ne_of_lt hlt⟩

/-- Resolving a pending Completion `h` while moving to `Connected` or `Closed`
with Channels among which at most one is active. -/
theorem sound_resolve_pending (c : Connection) (st : ConnectionState) (chs : List Channel)
    (h : Nat) (r : ErrorKind) (hs : c.Sound) (hlt : h < c.nextCompletion)
    (hnot : h ∉ c.resolutions.map Prod.fst)
    (hst : st = ConnectionState.Connected ∨ st = ConnectionState.Closed)
    (hu : ∀ i j, Connection.activeAt chs i = true → Connection.activeAt chs j = true → i = j) :
    (({ c with state := st, channels := chs } : Connection).resolve h r).Sound := by
  refine ⟨hu, ?_, ?_, nodup_append_fresh _ _ _ hs.resolved_once hnot, ?_, ?_, ?_⟩
  · intro h1
    rcases hst with rfl | rfl <;> rcases h1 with h1 | h1 <;> cases h1
  · intro h1
    rcases hst with rfl | rfl <;> cases h1
  · intro h1 hmem
    simp only [Connection.resolve, List.map_append, List.mem_append, List.map_cons,
      List.map_nil, List.mem_singleton] at hmem
    rcases hmem with h2 | h2
    · exact hs.resolved_below h1 h2
    · subst h2
      exact hlt
  · intro h1
    rcases hst with rfl | rfl <;> cases h1
  · intro h1
    rcases hst with rfl | rfl <;> cases h1

theorem sound_settle (c : Connection) (hs : c.Sound) : (Connection.settle c).Sound := by
  unfold Connection.settle
  split
  · rename_i hcond
    obtain ⟨h, hh, hlt, hnot⟩ := hs.connecting_pending hcond.1
    split
    · rename_i h1 hh1
      rw [hh] at hh1
      cases hh1
      exact sound_resolve_pending c ConnectionState.Closed c.channels h ErrorKind.NoChannels hs
        hlt hnot (Or.inr rfl) hs.active_unique
    · exact hs
  · exact hs

/-- Rewriting the Channel at `i` without touching its `active` flag. -/
theorem sound_set_channel (c : Connection) (i : Nat) (ch x : Channel) (hs : c.Sound)
    (hch : c.channels[i]? = some ch) (hx : x.active = ch.active) :
    ({ c with channels := c.channels.set i x } : Connection).Sound := by
  have hact : ∀ j, Connection.activeAt (c.channels.set i x) j = Connection.activeAt c.channels j := by
    intro j
    rw [activeAt_set]
    split
    · rename_i hij
      rw [← hij.1, activeAt_of_getElem? _ _ _ hch, hx]
    · rfl
  refine ⟨?_, ?_, ?_, hs.resolved_once, hs.resolved_below, hs.connecting_pending,
    hs.closing_pending⟩
  · intro a b ha hb
    simp only [hact] at ha hb
    exact hs.active_unique a b ha hb
  · intro hst j
    simp only [hact]
    exact hs.idle_inactive hst j
  · intro hst
    have := hs.unconfigured_no_channels hst
    simp only [this, List.set_nil]

theorem sound_config (c : Connection) (cfg : Configuration) (hs : c.Sound) :
    ({ c with config := cfg } : Connection).Sound :=
  ⟨hs.active_unique, hs.idle_inactive, hs.unconfigured_no_channels, hs.resolved_once,
    hs.resolved_below, hs.connecting_pending, hs.closing_pending⟩

/-- Channels of which only the one at `i` can be active. -/
theorem unique_of_only (chs : List Channel) (i : Nat)
    (h : ∀ j, Connection.activeAt chs j = true → j = i) :
    ∀ a b, Connection.activeAt chs a = true → Connection.activeAt chs b = true → a = b := by
  intro a b ha hb
  rw [h a ha, h b hb]

theorem sound_connect (c : Connection) (hs : c.Sound) : c.connect.2.Sound := by
  unfold Connection.connect
  dsimp only
  by_cases hst : c.state = ConnectionState.Unconfigured
  · rw [if_neg (not_not.mpr hst)]
    by_cases hcfg : c.config.complete = false
    · rw [if_pos hcfg]
      exact sound_resolve_new c _ hs
    · rw [if_neg hcfg]
      apply sound_settle
      have hfresh : c.nextCompletion ∉ c.resolutions.map Prod.fst :=
        fun hmem => Nat.lt_irrefl _ (hs.resolved_below _ hmem)
      refine ⟨?_, ?_, ?_, hs.resolved_once, ?_, ?_, ?_⟩
      · intro a b ha
        rw [activeAt_spawn] at ha
        cases ha
      · intro _ j
        exact activeAt_spawn _ j
      · intro h1
        cases h1
      · intro h hmem
        exact Nat.lt_succ_of_lt (hs.resolved_below h hmem)
      · intro _
        exact ⟨c.nextCompletion, rfl, Nat.lt_succ_self _, hfresh⟩
      · intro h1
        cases h1
  · rw [if_pos hst]
    exact sound_resolve_new c _ hs

theorem sound_close (c : Connection) (hs : c.Sound) : c.close.2.Sound := by
  unfold Connection.close
  dsimp only
  by_cases hst : c.state = ConnectionState.Connected
  · rw [if_pos hst]
    have hfresh : c.nextCompletion ∉ c.resolutions.map Prod.fst :=
      fun hmem => Nat.lt_irrefl _ (hs.resolved_below _ hmem)
    refine ⟨hs.active_unique, ?_, ?_, hs.resolved_once, ?_, ?_, ?_⟩
    · intro h1
      rcases h1 with h1 | h1 <;> cases h1
    · intro h1
      cases h1
    · intro h hmem
      exact Nat.lt_succ_of_lt (hs.resolved_below h hmem)
    · intro h1
      cases h1
    · intro _
      exact ⟨c.nextCompletion, rfl, Nat.lt_succ_self _, hfresh⟩
  · rw [if_neg hst]
    exact sound_resolve_new c _ hs

theorem sound_established (c : Connection) (i : Nat) (hs : c.Sound) :
    (c.established i).Sound := by
  unfold Connection.established
  cases hch : c.channels[i]? with
  | none => exact hs
  | some ch =>
    simp only
    by_cases hat : ch.state = ChannelState.Attempting
    · rw [if_pos hat]
      by_cases hst : c.state = ConnectionState.Connecting
      · rw [if_pos hst]
        obtain ⟨h, hh, hlt, hnot⟩ := hs.connecting_pending hst
        split
        · exact hs
        · rename_i h1 hh1
          rw [hh] at hh1
          cases hh1
          apply sound_resolve_pending c ConnectionState.Connected _ h ErrorKind.Ok hs hlt hnot
            (Or.inl rfl)
          apply unique_of_only _ i
          intro j hj
          rw [activeAt_set] at hj
          split at hj
          · rename_i hij
            exact hij.1.symm
          · rw [hs.idle_inactive (Or.inr hst) j] at hj
            cases hj
      · rw [if_neg hst]
        exact sound_set_channel c i ch _ hs hch rfl
    · rw [if_neg hat]
      exact hs

theorem sound_failed (c : Connection) (i : Nat) (hs : c.Sound) : (c.failed i).Sound := by
  unfold Connection.failed
  cases hch : c.channels[i]? with
  | none => exact hs
  | some ch =>
    simp only
    split
    · exact sound_settle _ (sound_set_channel c i ch _ hs hch rfl)
    · exact hs

theorem sound_begin_upgrade (c : Connection) (hs : c.Sound) : c.begin_upgrade.Sound := by
  unfold Connection.begin_upgrade
  split
  · rename_i hcond
    have hst := hcond.1
    refine ⟨?_, ?_, ?_, hs.resolved_once, hs.resolved_below, hs.connecting_pending,
      hs.closing_pending⟩
    · intro a b ha hb
      have key := activeAt_append_inactive c.channels
        { kind := ChannelKind.DirectCandidate, state := ChannelState.Upgrading, active := false }
        rfl
      rw [key] at ha hb
      exact hs.active_unique a b ha hb
    · intro h1
      rw [hst] at h1
      rcases h1 with h1 | h1 <;> cases h1
    · intro h1
      rw [hst] at h1
      cases h1
  · exact hs

theorem sound_upgraded (c : Connection) (i : Nat) (hs : c.Sound) : (c.upgraded i).Sound := by
  unfold Connection.upgraded
  cases hch : c.channels[i]? with
  | none => exact hs
  | some ch =>
    simp only
    split
    · rename_i hcond
      have hst := hcond.2.1
      refine ⟨?_, ?_, ?_, hs.resolved_once, hs.resolved_below, hs.connecting_pending,
        hs.closing_pending⟩
      · apply unique_of_only _ i
        intro j hj
        simp only [activeAt_set] at hj
        split at hj
        · rename_i hij
          exact hij.1.symm
        · rw [activeAt_map_inactive] at hj
          cases hj
      · intro h1
        rw [hst] at h1
        rcases h1 with h1 | h1 <;> cases h1
      · intro h1
        rw [hst] at h1
        cases h1
    · exact hs

theorem sound_closed (c : Connection) (hs : c.Sound) : c.closed.Sound := by
  unfold Connection.closed
  split
  · rename_i hst
    obtain ⟨h, hh, hlt, hnot⟩ := hs.closing_pending hst
    split
    · exact hs
    · rename_i h1 hh1
      rw [hh] at hh1
      cases hh1
      apply sound_resolve_pending c ConnectionState.Closed _ h ErrorKind.Ok hs hlt hnot
        (Or.inr rfl)
      intro a b ha
      rw [activeAt_map_inactive] at ha
      cases ha
  · exact hs

theorem sound_step (c : Connection) (e : ConnectionEvent) (hs : c.Sound) : (c.step e).Sound := by
  cases e with
  | set field value =>
    simp only [Connection.step, Connection.set]
    split
    · exact sound_config c _ hs
    · exact hs
  | set_flags directOnly localEnabled =>
    simp only [Connection.step, Connection.set_flags]
    split
    · exact sound_config c _ hs
    · exact hs
  | add_direct_candidate host port =>
    simp only [Connection.step, Connection.add_direct_candidate]
    split
    · exact sound_config c _ hs
    · exact hs
  | connect => exact sound_connect c hs
  | close => exact sound_close c hs
  | established i => exact sound_established c i hs
  | failed i => exact sound_failed c i hs
  | begin_upgrade => exact sound_begin_upgrade c hs
  | upgraded i => exact sound_upgraded c i hs
  | closed => exact sound_closed c hs

/-- Every Connection a run reaches is sound. -/
theorem reachable_sound (c : Connection) (h : Connection.Reachable c) : c.Sound := by
  induction h with
  | new => exact sound_new
  | step e _ ih => exact sound_step _ e ih

theorem reachable_run (c : Connection) (es : List ConnectionEvent)
    (h : Connection.Reachable c) : Connection.Reachable (c.run es) := by
  induction es generalizing c with
  | nil => exact h
  | cons e es ih => exact ih _ (Connection.Reachable.step e h)

/-- Each wrapper setter completes exactly on the code 0 and otherwise throws
the code it was given. -/
theorem setter_spec (field : ConfigField) (ec : NabtoClientError) :
    (ConnectionImpl.set field ec = Except.ok () ↔ ec = 0) ∧
    (ec ≠ 0 → ConnectionImpl.set field ec = Except.error ⟨ec⟩) := by
  cases field <;>
    simp only [ConnectionImpl.set, ConnectionImpl.setProductId, ConnectionImpl.setDeviceId,
      ConnectionImpl.setServerKey, ConnectionImpl.setApplicationName,
      ConnectionImpl.setApplicationVersion, ConnectionImpl.setServerUrl,
      ConnectionImpl.setPrivateKey] <;>
    by_cases h : ec = 0 <;> simp [h]

theorem settle_config (c : Connection) :
    (Connection.settle c).config = c.config ∧
      (c.state ≠ ConnectionState.Unconfigured →
        (Connection.settle c).state ≠ ConnectionState.Unconfigured) ∧
      (c.state = ConnectionState.Unconfigured → Connection.settle c = c) := by
  unfold Connection.settle
  by_cases hcond : c.state = ConnectionState.Connecting ∧
      c.channels.all (fun ch => decide (ch.state = ChannelState.Failed)) = true
  · rw [if_pos hcond]
    cases hc : c.connectCompletion with
    | none => exact ⟨rfl, fun h => h, fun _ => rfl⟩
    | some h =>
      refine ⟨rfl, ?_, ?_⟩
      · intro _ h1
        cases h1
      · intro h1
        rw [h1] at hcond
        cases hcond.1
  · rw [if_neg hcond]
    exact ⟨rfl, fun h => h, fun _ => rfl⟩

/-- A Connection that has left `Unconfigured` has its required configuration,
and one step keeps it so. -/
theorem configured_step (c : Connection) (e : ConnectionEvent)
    (h : c.state ≠ ConnectionState.Unconfigured → c.config.complete = true) :
    (c.step e).state ≠ ConnectionState.Unconfigured → (c.step e).config.complete = true := by
  cases e with
  | set field value =>
    simp only [Connection.step, Connection.set]
    split
    · rename_i hst
      intro hne
      exact absurd hst hne
    · exact h
  | set_flags directOnly localEnabled =>
    simp only [Connection.step, Connection.set_flags]
    split
    · rename_i hst
      intro hne
      exact absurd hst hne
    · exact h
  | add_direct_candidate host port =>
    simp only [Connection.step, Connection.add_direct_candidate]
    split
    · rename_i hst
      intro hne
      exact absurd hst hne
    · exact h
  | connect =>
    simp only [Connection.step, Connection.connect]
    by_cases hst : c.state = ConnectionState.Unconfigured
    · rw [if_neg (not_not.mpr hst)]
      by_cases hcfg : c.config.complete = false
      · rw [if_pos hcfg]
        intro hne
        exact absurd hst hne
      · rw [if_neg hcfg]
        intro _
        rw [(settle_config _).1]
        simpa using hcfg
    · rw [if_pos hst]
      intro _
      exact h hst
  | close =>
    simp only [Connection.step, Connection.close]
    split
    · rename_i hst
      intro _
      exact h (by rw [hst]; intro h1; cases h1)
    · exact h
  | established i =>
    simp only [Connection.step, Connection.established]
    cases hch : c.channels[i]? with
    | none => exact h
    | some ch =>
      simp only
      by_cases hat : ch.state = ChannelState.Attempting
      · rw [if_pos hat]
        by_cases hst : c.state = ConnectionState.Connecting
        · rw [if_pos hst]
          cases hc : c.connectCompletion with
          | none => exact h
          | some hd =>
            intro _
            exact h (by rw [hst]; intro h1; cases h1)
        · rw [if_neg hst]
          exact h
      · rw [if_neg hat]
        exact h
  | failed i =>
    simp only [Connection.step, Connection.failed]
    cases hch : c.channels[i]? with
    | none => exact h
    | some ch =>
      simp only
      split
      · intro hne
        have key := settle_config
          { c with channels := c.channels.set i { ch with state := ChannelState.Failed } }
        rw [key.1]
        by_cases hst : c.state = ConnectionState.Unconfigured
        · rw [key.2.2 hst] at hne
          exact absurd hst hne
        · exact h hst
      · exact h
  | begin_upgrade =>
    simp only [Connection.step, Connection.begin_upgrade]
    split
    · exact h
    · exact h
  | upgraded i =>
    simp only [Connection.step, Connection.upgraded]
    cases hch : c.channels[i]? with
    | none => exact h
    | some ch =>
      simp only
      split
      · exact h
      · exact h
  | closed =>
    simp only [Connection.step, Connection.closed]
    by_cases hst : c.state = ConnectionState.Closing
    · rw [if_pos hst]
      cases hc : c.closeCompletion with
      | none => exact h
      | some hd =>
        intro _
        exact h (by rw [hst]; intro h1; cases h1)
    · rw [if_neg hst]
      exact h

theorem reachable_configured (c : Connection) (hr : Connection.Reachable c) :
    c.state ≠ ConnectionState.Unconfigured → c.config.complete = true := by
  induction hr with
  | new => exact fun h => absurd rfl h
  | step e _ ih => exact configured_step _ e ih

theorem returned_append (a b : List Resolution) :
    Resolution.returned (a ++ b) = Resolution.returned a ++ Resolution.returned b := by
  simp [Resolution.returned]

theorem returned_quiet (res : List Resolution) (h : ∀ x ∈ res, x.bytes = []) :
    Resolution.returned res = [] := by
  induction res with
  | nil => rfl
  | cons x xs ih =>
    have hx := h x (List.mem_cons_self _ _)
    have hxs := ih fun y hy => h y (List.mem_cons_of_mem _ hy)
    unfold Resolution.returned at hxs ⊢
    rw [List.map_cons, List.flatten_cons, hx, hxs]
    rfl

theorem take_append_drop_length (k : Nat) (l : List Byte) :
    l.take k ++ l.drop (l.take k).length = l := by
  by_cases h : k ≤ l.length
  · rw [List.length_take, Nat.min_eq_left h]
    exact List.take_append_drop k l
  · have hk : l.length ≤ k := by omega
    rw [List.take_of_length_le hk, List.drop_eq_nil_of_le (Nat.le_refl _), List.append_nil]

theorem valid_length {written : List Byte} {seg : Segment} (hv : Segment.Valid written seg) :
    seg.data.length ≤ written.length - seg.offset := by
  have h := congrArg List.length hv
  simp only [List.length_take, List.length_drop] at h
  omega

theorem valid_append {written : List Byte} {seg : Segment} (hv : Segment.Valid written seg)
    (data : List Byte) : Segment.Valid (written ++ data) seg := by
  have hlen := valid_length hv
  unfold Segment.Valid at hv ⊢
  by_cases h : seg.offset ≤ written.length
  · rw [List.drop_append_of_le_length h, List.take_append_of_le_length]
    · exact hv
    · rw [List.length_drop]; exact hlen
  · have h0 : seg.data.length = 0 := by omega
    rw [h0, List.take_zero]
    exact List.length_eq_zero.mp h0

theorem absorb_ordered (written out : List Byte) (cb : Nat × List Byte) (seg : Segment)
    (hc : cb.1 ≤ written.length) (ho : out ++ cb.2 = written.take cb.1)
    (hv : Segment.Valid written seg) :
    (Receiver.absorb cb seg).1 ≤ written.length ∧
      out ++ (Receiver.absorb cb seg).2 = written.take (Receiver.absorb cb seg).1 := by
  have hlen := valid_length hv
  obtain ⟨c, buf⟩ := cb
  obtain ⟨off, data⟩ := seg
  unfold Segment.Valid at hv
  unfold Receiver.absorb
  dsimp only at hc ho hv hlen ⊢
  by_cases h : off ≤ c ∧ c < off + data.length
  · rw [if_pos h]
    dsimp only
    refine ⟨by omega, ?_⟩
    have e1 : off + (c - off) = c := by omega
    have e2 : off + data.length = c + (data.length - (c - off)) := by omega
    rw [congrArg (List.drop (c - off)) hv, List.drop_take, List.drop_drop, e1, e2, List.take_add,
      ← ho, List.append_assoc]
  · rw [if_neg h]
    exact ⟨hc, ho⟩

theorem absorb_full (written : List Byte) (cb : Nat × List Byte) (seg : Segment)
    (hc : cb.1 = written.length) (hv : Segment.Valid written seg) :
    Receiver.absorb cb seg = cb := by
  have hlen := valid_length hv
  unfold Receiver.absorb
  rw [if_neg]
  omega

theorem sweep_ordered (written out : List Byte) (stash : List Segment)
    (hs : ∀ seg ∈ stash, Segment.Valid written seg) :
    ∀ cb : Nat × List Byte, cb.1 ≤ written.length → out ++ cb.2 = written.take cb.1 →
      (Receiver.sweep cb stash).1 ≤ written.length ∧
        out ++ (Receiver.sweep cb stash).2 = written.take (Receiver.sweep cb stash).1 := by
  induction stash with
  | nil => intro cb hc ho; exact ⟨hc, ho⟩
  | cons seg rest ih =>
    intro cb hc ho
    have h1 := absorb_ordered written out cb seg hc ho (hs seg (List.mem_cons_self _ _))
    exact ih (fun x hx => hs x (List.mem_cons_of_mem _ hx)) _ h1.1 h1.2

theorem sweep_full (written : List Byte) (stash : List Segment)
    (hs : ∀ seg ∈ stash, Segment.Valid written seg) (cb : Nat × List Byte)
    (hc : cb.1 = written.length) : Receiver.sweep cb stash = cb := by
  induction stash with
  | nil => rfl
  | cons seg rest ih =>
    have h1 := absorb_full written cb seg hc (hs seg (List.mem_cons_self _ _))
    have h2 := ih fun x hx => hs x (List.mem_cons_of_mem _ hx)
    unfold Receiver.sweep at h2 ⊢
    rw [List.foldl_cons, h1]
    exact h2

theorem drain_ordered (written out : List Byte) (stash : List Segment)
    (hs : ∀ seg ∈ stash, Segment.Valid written seg) (n : Nat) :
    ∀ cb : Nat × List Byte, cb.1 ≤ written.length → out ++ cb.2 = written.take cb.1 →
      (Receiver.drain n cb stash).1 ≤ written.length ∧
        out ++ (Receiver.drain n cb stash).2 = written.take (Receiver.drain n cb stash).1 := by
  induction n with
  | zero => intro cb hc ho; exact ⟨hc, ho⟩
  | succ n ih =>
    intro cb hc ho
    have h1 := sweep_ordered written out stash hs cb hc ho
    exact ih _ h1.1 h1.2

theorem drain_full (written : List Byte) (stash : List Segment)
    (hs : ∀ seg ∈ stash, Segment.Valid written seg) (n : Nat) (cb : Nat × List Byte)
    (hc : cb.1 = written.length) : Receiver.drain n cb stash = cb := by
  induction n with
  | zero => rfl
  | succ n ih =>
    unfold Receiver.drain
    rw [sweep_full written stash hs cb hc]
    exact ih

theorem ordered_quiet {p : Peer} {r : Receiver} {log : List Resolution}
    (h : Receiver.Ordered p r log) (res : List Resolution)
    (hq : ∀ x ∈ res, x.bytes = [] ∧ x.result ≠ ErrorKind.Eof) :
    Receiver.Ordered p r (log ++ res) := by
  refine ⟨h.cursor_le, ?_, h.stash_valid, h.fin_length, ?_⟩
  · rw [returned_append, returned_quiet res fun x hx => (hq x hx).1, List.append_nil]
    exact h.in_order
  · rintro ⟨x, hx, he⟩
    rcases List.mem_append.mp hx with hx | hx
    · exact h.eof_all ⟨x, hx, he⟩
    · exact absurd he (hq x hx).2

theorem ordered_read {p : Peer} {r : Receiver} {log : List Resolution}
    (h : Receiver.Ordered p r log) (read : Option ReadRequest) :
    Receiver.Ordered p { r with read := read } log :=
  ⟨h.cursor_le, h.in_order, h.stash_valid, h.fin_length, h.eof_all⟩

theorem ordered_accept {p : Peer} {r : Receiver} {log : List Resolution}
    (h : Receiver.Ordered p r log) (seg : Segment) (hv : Segment.Valid p.written seg) :
    Receiver.Ordered p (r.accept seg) log := by
  have hs : ∀ x ∈ (if r.cursor < seg.offset then seg :: r.stash else r.stash),
      Segment.Valid p.written x := by
    intro x hx
    by_cases hlt : r.cursor < seg.offset
    · rw [if_pos hlt] at hx
      rcases List.mem_cons.mp hx with hx | hx
      · rw [hx]; exact hv
      · exact h.stash_valid x hx
    · rw [if_neg hlt] at hx
      exact h.stash_valid x hx
  have h1 := absorb_ordered p.written (Resolution.returned log) (r.cursor, r.buffer) seg
    h.cursor_le h.in_order hv
  have h2 := drain_ordered p.written (Resolution.returned log) _ hs
    (if r.cursor < seg.offset then seg :: r.stash else r.stash).length _ h1.1 h1.2
  refine ⟨h2.1, h2.2, ?_, h.fin_length, ?_⟩
  · intro x hx
    exact hs x (List.mem_filter.mp hx).1
  · intro he
    obtain ⟨hb, hf⟩ := h.eof_all he
    have hc : r.cursor = p.written.length := (h.fin_length _ hf).1
    have e1 : Receiver.absorb (r.cursor, r.buffer) seg = (r.cursor, r.buffer) :=
      absorb_full p.written _ seg hc hv
    have e2 := drain_full p.written _ hs
      (if r.cursor < seg.offset then seg :: r.stash else r.stash).length (r.cursor, r.buffer) hc
    unfold Receiver.accept
    dsimp only
    rw [e1, e2]
    exact ⟨hb, hf⟩

theorem ordered_finish {p : Peer} {r : Receiver} {log : List Resolution}
    (h : Receiver.Ordered p r log) (rq : ReadRequest) (result : ErrorKind) (bytes : List Byte)
    (k : Nat) (hb : bytes = r.buffer.take k)
    (he : result = ErrorKind.Eof → r.buffer.length ≤ k ∧ r.fin = some r.cursor) :
    Receiver.Ordered p (r.finish rq result bytes).1 (log ++ (r.finish rq result bytes).2) := by
  unfold Receiver.finish
  dsimp only
  refine ⟨h.cursor_le, ?_, h.stash_valid, h.fin_length, ?_⟩
  · dsimp only
    rw [returned_append, List.append_assoc]
    have e : Resolution.returned [(⟨rq.completion, result, bytes⟩ : Resolution)] = bytes := by
      simp [Resolution.returned]
    rw [e, hb, take_append_drop_length]
    exact h.in_order
  · rintro ⟨x, hx, hxe⟩
    dsimp only
    rcases List.mem_append.mp hx with hx | hx
    · obtain ⟨hbuf, hf⟩ := h.eof_all ⟨x, hx, hxe⟩
      rw [hbuf]
      exact ⟨List.drop_nil, hf⟩
    · rw [List.mem_singleton] at hx
      rw [hx] at hxe
      obtain ⟨hk, hf⟩ := he hxe
      refine ⟨?_, hf⟩
      rw [hb, List.take_of_length_le hk]
      exact List.drop_eq_nil_of_le (Nat.le_refl _)

theorem ordered_serve {p : Peer} {r : Receiver} {log : List Resolution}
    (h : Receiver.Ordered p r log) :
    Receiver.Ordered p r.serve.1 (log ++ r.serve.2) := by
  unfold Receiver.serve
  cases hr : r.read with
  | none =>
    dsimp only
    rw [List.append_nil]
    exact h
  | some rq =>
    dsimp only
    by_cases hall : rq.all = true
    · rw [if_pos hall]
      by_cases hsz : rq.size ≤ r.buffer.length
      · rw [if_pos hsz]
        exact ordered_finish h rq _ _ rq.size rfl (fun e => by cases e)
      · rw [if_neg hsz]
        by_cases hf : r.fin = some r.cursor
        · rw [if_pos hf]
          exact ordered_finish h rq _ _ r.buffer.length (List.take_length r.buffer).symm
            (fun _ => ⟨Nat.le_refl _, hf⟩)
        · rw [if_neg hf, List.append_nil]
          exact h
    · rw [if_neg hall]
      by_cases hne : r.buffer ≠ []
      · rw [if_pos hne]
        exact ordered_finish h rq _ _ rq.size rfl (fun e => by cases e)
      · rw [if_neg hne]
        have hnil : r.buffer = [] := not_not.mp hne
        by_cases hf : r.fin = some r.cursor
        · rw [if_pos hf]
          refine ordered_finish h rq _ _ 0 (List.take_zero _).symm (fun _ => ⟨?_, hf⟩)
          rw [hnil]
          exact Nat.le_refl _
        · rw [if_neg hf, List.append_nil]
          exact h

theorem take_min_length (k : Nat) (l : List Byte) : l.take k = l.take (min k l.length) := by
  by_cases h : k ≤ l.length
  · rw [Nat.min_eq_left h]
  · have hk : l.length ≤ k := by omega
    rw [Nat.min_eq_right hk, List.take_of_length_le hk, List.take_length]

theorem ordered_peer_write {p : Peer} {r : Receiver} {log : List Resolution}
    (h : Receiver.Ordered p r log) (hopen : p.closed = false) (data : List Byte) :
    Receiver.Ordered { p with written := p.written ++ data } r log := by
  refine ⟨?_, ?_, ?_, ?_, h.eof_all⟩
  · have := h.cursor_le
    dsimp only
    rw [List.length_append]
    omega
  · dsimp only
    rw [List.take_append_of_le_length h.cursor_le]
    exact h.in_order
  · intro seg hseg
    exact valid_append (h.stash_valid seg hseg) data
  · intro n hn
    have hc := (h.fin_length n hn).2
    rw [hopen] at hc
    cases hc

theorem ordered_peer_close {p : Peer} {r : Receiver} {log : List Resolution}
    (h : Receiver.Ordered p r log) :
    Receiver.Ordered { p with closed := true } r log :=
  ⟨h.cursor_le, h.in_order, h.stash_valid, fun n hn => ⟨(h.fin_length n hn).1, rfl⟩, h.eof_all⟩

theorem ordered_fin {p : Peer} {r : Receiver} {log : List Resolution}
    (h : Receiver.Ordered p r log) (hclosed : p.closed = true) :
    Receiver.Ordered p { r with fin := some p.written.length } log := by
  refine ⟨h.cursor_le, h.in_order, h.stash_valid, ?_, ?_⟩
  · intro n hn
    cases hn
    exact ⟨rfl, hclosed⟩
  · intro he
    obtain ⟨hb, hf⟩ := h.eof_all he
    have hc : r.cursor = p.written.length := (h.fin_length _ hf).1
    refine ⟨hb, ?_⟩
    dsimp only
    rw [hc]

theorem fail_quiet (completion : Nat) (result : ErrorKind) (hr : result ≠ ErrorKind.Eof) :
    ∀ x ∈ Resolution.fail completion result, x.bytes = [] ∧ x.result ≠ ErrorKind.Eof := by
  intro x hx
  unfold Resolution.fail at hx
  rw [List.mem_singleton] at hx
  rw [hx]
  exact ⟨rfl, hr⟩

theorem ordered_read_call (s : Stream) (log : List Resolution) (all : Bool)
    (completion size : Nat) (h : Receiver.Ordered s.peer s.recv log) :
    Receiver.Ordered (s.read all completion size).1.peer (s.read all completion size).1.recv
      (log ++ (s.read all completion size).2) := by
  unfold Stream.read
  by_cases h1 : s.state = StreamState.Opening ∨ s.recv.read ≠ none
  · rw [if_pos h1]
    exact ordered_quiet h _ (fail_quiet _ _ (fun e => by cases e))
  · rw [if_neg h1]
    by_cases h2 : s.state = StreamState.Aborted
    · rw [if_pos h2]
      exact ordered_quiet h _ (fail_quiet _ _ (fun e => by cases e))
    · rw [if_neg h2]
      by_cases h3 : s.state = StreamState.Created
      · rw [if_pos h3]
        exact ordered_quiet h _ (fail_quiet _ _ (fun e => by cases e))
      · rw [if_neg h3]
        exact ordered_serve (ordered_read h _)

theorem settle_close_frame (s : Stream) :
    s.settle_close.1.peer = s.peer ∧ s.settle_close.1.recv = s.recv ∧
      ∀ x ∈ s.settle_close.2, x.bytes = [] ∧ x.result ≠ ErrorKind.Eof := by
  unfold Stream.settle_close
  cases hc : s.send.closing with
  | none => exact ⟨rfl, rfl, fun x hx => by cases hx⟩
  | some completion =>
    dsimp only
    by_cases ha : s.send.acked = s.send.cursor
    · rw [if_pos ha]
      refine ⟨rfl, rfl, fun x hx => ?_⟩
      rw [List.mem_singleton] at hx
      rw [hx]
      exact ⟨rfl, fun e => by cases e⟩
    · rw [if_neg ha]
      exact ⟨rfl, rfl, fun x hx => by cases hx⟩

theorem ordered_settle_close (s : Stream) (log : List Resolution)
    (h : Receiver.Ordered s.peer s.recv log) :
    Receiver.Ordered s.settle_close.1.peer s.settle_close.1.recv (log ++ s.settle_close.2) := by
  obtain ⟨hp, hr, hq⟩ := settle_close_frame s
  rw [hp, hr]
  exact ordered_quiet h _ hq

theorem ordered_step (s : Stream) (log : List Resolution) (e : StreamEvent)
    (h : Receiver.Ordered s.peer s.recv log) :
    Receiver.Ordered (s.step e).1.peer (s.step e).1.recv (log ++ (s.step e).2) := by
  cases e with
  | «open» completion =>
    show Receiver.Ordered (s.open completion).1.peer (s.open completion).1.recv
      (log ++ (s.open completion).2)
    unfold Stream.open
    cases hst : s.state <;> dsimp only <;>
      first
        | exact ordered_quiet h _ (fail_quiet _ _ (fun e => by cases e))
        | exact ordered_quiet h [] (fun x hx => by cases hx)
  | read_some completion max => exact ordered_read_call s log false completion max h
  | read_all completion n => exact ordered_read_call s log true completion n h
  | write completion data =>
    show Receiver.Ordered (s.write completion data).1.peer (s.write completion data).1.recv
      (log ++ (s.write completion data).2)
    unfold Stream.write
    by_cases h1 : s.state = StreamState.Opening ∨ s.send.write ≠ none
    · rw [if_pos h1]
      exact ordered_quiet h _ (fail_quiet _ _ (fun e => by cases e))
    · rw [if_neg h1]
      by_cases h2 : s.state = StreamState.Aborted
      · rw [if_pos h2]
        exact ordered_quiet h _ (fail_quiet _ _ (fun e => by cases e))
      · rw [if_neg h2]
        by_cases h3 : s.state ≠ StreamState.Open
        · rw [if_pos h3]
          exact ordered_quiet h _ (fail_quiet _ _ (fun e => by cases e))
        · rw [if_neg h3]
          exact ordered_quiet h [] (fun x hx => by cases hx)
  | close completion =>
    show Receiver.Ordered (s.close completion).1.peer (s.close completion).1.recv
      (log ++ (s.close completion).2)
    unfold Stream.close
    by_cases h1 : s.state = StreamState.Opening ∨ s.send.write ≠ none ∨ s.send.closing ≠ none
    · rw [if_pos h1]
      exact ordered_quiet h _ (fail_quiet _ _ (fun e => by cases e))
    · rw [if_neg h1]
      by_cases h2 : s.state = StreamState.Aborted
      · rw [if_pos h2]
        exact ordered_quiet h _ (fail_quiet _ _ (fun e => by cases e))
      · rw [if_neg h2]
        by_cases h3 : s.state ≠ StreamState.Open
        · rw [if_pos h3]
          exact ordered_quiet h _ (fail_quiet _ _ (fun e => by cases e))
        · rw [if_neg h3]
          exact ordered_settle_close _ log h
  | abort =>
    show Receiver.Ordered s.abort.1.peer s.abort.1.recv (log ++ s.abort.2)
    unfold Stream.abort
    refine ordered_quiet (ordered_read h none) _ ?_
    intro x hx
    obtain ⟨c, _, hc⟩ := List.mem_map.mp hx
    rw [← hc]
    exact ⟨rfl, fun e => by cases e⟩
  | opened =>
    show Receiver.Ordered s.opened.1.peer s.opened.1.recv (log ++ s.opened.2)
    unfold Stream.opened
    cases hst : s.state <;> cases hop : s.opening <;> dsimp only <;>
      first
        | exact ordered_quiet h [] (fun x hx => by cases hx)
        | exact ordered_quiet h [_] (fun x hx => by
            rw [List.mem_singleton] at hx
            rw [hx]
            exact ⟨rfl, fun e => by cases e⟩)
  | queued =>
    show Receiver.Ordered s.queued.1.peer s.queued.1.recv (log ++ s.queued.2)
    unfold Stream.queued
    cases hw : s.send.write with
    | none => exact ordered_quiet h [] (fun x hx => by cases hx)
    | some w =>
      exact ordered_quiet h [_] (fun x hx => by
        rw [List.mem_singleton] at hx
        rw [hx]
        exact ⟨rfl, fun e => by cases e⟩)
  | acknowledged n =>
    show Receiver.Ordered (s.acknowledged n).1.peer (s.acknowledged n).1.recv
      (log ++ (s.acknowledged n).2)
    unfold Stream.acknowledged
    exact ordered_settle_close _ log h
  | deliver offset len =>
    show Receiver.Ordered (s.deliver offset len).1.peer (s.deliver offset len).1.recv
      (log ++ (s.deliver offset len).2)
    unfold Stream.deliver
    by_cases hrec : s.receiving = true
    · rw [if_pos hrec]
      refine ordered_serve (ordered_accept h _ ?_)
      unfold Segment.Valid
      dsimp only
      rw [List.length_take]
      exact take_min_length len _
    · rw [if_neg hrec, List.append_nil]
      exact h
  | deliver_fin =>
    show Receiver.Ordered s.deliver_fin.1.peer s.deliver_fin.1.recv (log ++ s.deliver_fin.2)
    unfold Stream.deliver_fin
    by_cases hrec : s.receiving = true ∧ s.peer.closed = true
    · rw [if_pos hrec]
      exact ordered_serve (ordered_fin h hrec.2)
    · rw [if_neg hrec, List.append_nil]
      exact h
  | peer_write data =>
    show Receiver.Ordered (s.peer_write data).1.peer (s.peer_write data).1.recv
      (log ++ (s.peer_write data).2)
    unfold Stream.peer_write
    by_cases hc : s.peer.closed = true
    · rw [if_pos hc, List.append_nil]
      exact h
    · rw [if_neg hc, List.append_nil]
      exact ordered_peer_write h (by simpa using hc) data
  | peer_close =>
    show Receiver.Ordered s.peer_close.1.peer s.peer_close.1.recv (log ++ s.peer_close.2)
    unfold Stream.peer_close
    rw [List.append_nil]
    exact ordered_peer_close h

theorem trace_ordered {s : Stream} {log : List Resolution} (h : Stream.Trace s log) :
    Receiver.Ordered s.peer s.recv log := by
  induction h with
  | new =>
    exact ⟨Nat.le_refl _, rfl, fun seg hseg => (by cases hseg), fun n hn => (by cases hn),
      fun ⟨x, hx, _⟩ => (by cases hx)⟩
  | step e _ ih => exact ordered_step _ _ e ih

theorem trace_run {s : Stream} {log : List Resolution} (h : Stream.Trace s log)
    (es : List StreamEvent) : Stream.Trace (s.run es).1 (log ++ (s.run es).2) := by
  induction es generalizing s log with
  | nil =>
    show Stream.Trace s (log ++ [])
    rw [List.append_nil]
    exact h
  | cons e es ih =>
    have h1 := ih (Stream.Trace.step e h)
    rw [List.append_assoc] at h1
    exact h1

theorem freedBy_append (t es : List Event) (future : Nat) :
    freedBy (t ++ es) future = freedBy t future ++ freedBy es future := by
  unfold freedBy
  exact List.filterMap_append _ _ _

theorem freedBy_noFree (es : List Event) (future : Nat) (h : NoFree es) :
    freedBy es future = [] := by
  unfold freedBy
  rw [List.filterMap_eq_nil_iff]
  intro e he
  cases e with
  | future_free self f => exact absurd he (h self f)
  | future_wait f => rfl
  | future_set_callback f d => rfl
  | run id status => rfl

theorem mem_freedBy (t : List Event) (self future : Nat) :
    self ∈ freedBy t future ↔ Event.future_free self future ∈ t := by
  unfold freedBy
  rw [List.mem_filterMap]
  constructor
  · rintro ⟨e, he, h⟩
    cases e with
    | future_free self1 f =>
      dsimp only at h
      by_cases hf : f = future
      · rw [if_pos hf] at h
        cases h
        rw [← hf]
        exact he
      · rw [if_neg hf] at h
        cases h
    | future_wait f => cases h
    | future_set_callback f d => cases h
    | run id status => cases h
  · intro h
    exact ⟨_, h, if_pos rfl⟩

theorem freedBy_single (self f future : Nat) :
    freedBy [Event.future_free self f] future = if f = future then [self] else [] := by
  unfold freedBy
  by_cases h : f = future
  · simp [h]
  · simp [h]

theorem noFree_nil : NoFree [] := fun _ _ h => by cases h

theorem noFree_run (cb : FutureCallback) (status : Status) : NoFree (cb.run status) := by
  intro self future h
  cases cb with
  | doNothing => cases h
  | user id =>
    unfold FutureCallback.run at h
    rw [List.mem_singleton] at h
    cases h

theorem mem_append_noFree {t es : List Event} (h : NoFree es) {self future : Nat}
    (hm : Event.future_free self future ∈ t ++ es) : Event.future_free self future ∈ t := by
  rcases List.mem_append.mp hm with hm | hm
  · exact hm
  · exact absurd hm (h self future)

theorem objs_update_cases {objs : Nat → Option Obj} {c a : Nat} {oc o : Obj}
    (h : Function.update objs c (some oc) a = some o) :
    (a = c ∧ o = oc) ∨ (a ≠ c ∧ objs a = some o) := by
  by_cases hac : a = c
  · rw [hac, Function.update_same] at h
    cases h
    exact Or.inl ⟨hac, rfl⟩
  · rw [Function.update_noteq hac] at h
    exact Or.inr ⟨hac, h⟩

theorem freeOnce_init (ec0 : Nat → NabtoClientError) : FreeOnce (World.init ec0) :=
  ⟨fun _ _ => rfl, fun _ _ h => (by cases h), fun _ _ _ _ h => (by cases h),
    fun _ _ h => (by cases h), fun _ _ h => (by cases h), fun _ => Nat.zero_le _⟩

theorem freeOnce_same (w w1 : World) (es : List Event) (hw : FreeOnce w)
    (hobjs : w1.objs = w.objs) (hnext : w.next ≤ w1.next)
    (htrace : w1.trace = w.trace ++ es) (hes : NoFree es) : FreeOnce w1 := by
  refine ⟨?_, ?_, ?_, ?_, ?_, ?_⟩
  · intro a ha
    rw [hobjs]
    exact hw.fresh a (by omega)
  · intro a o ho
    rw [hobjs] at ho
    have := hw.future_lt a o ho
    omega
  · intro a b oa ob ha hb
    rw [hobjs] at ha hb
    exact hw.holder_unique a b oa ob ha hb
  · intro self f hm
    rw [htrace] at hm
    rw [hobjs]
    exact hw.freed_by_ended self f (mem_append_noFree hes hm)
  · intro self f hm b ob hb
    rw [htrace] at hm
    rw [hobjs] at hb
    exact hw.freed_gone self f (mem_append_noFree hes hm) b ob hb
  · intro f
    rw [htrace, freedBy_append, freedBy_noFree es f hes, List.append_nil]
    exact hw.free_once f

theorem freeOnce_made (w w1 : World) (c : Nat) (oc : Obj) (hw : FreeOnce w)
    (hobjs : w1.objs = Function.update w.objs c (some oc)) (hc : w.next ≤ c)
    (hc1 : c < w1.next) (hf : w.next ≤ oc.val.future_) (hf1 : oc.val.future_ < w1.next)
    (htrace : w1.trace = w.trace) : FreeOnce w1 := by
  refine ⟨?_, ?_, ?_, ?_, ?_, ?_⟩
  · intro a ha
    rw [hobjs, Function.update_noteq (by omega)]
    exact hw.fresh a (by omega)
  · intro a o ho
    rw [hobjs] at ho
    rcases objs_update_cases ho with ⟨-, rfl⟩ | ⟨-, ho⟩
    · exact hf1
    · have := hw.future_lt a o ho
      omega
  · intro a b oa ob ha hb hfut hda hdb
    rw [hobjs] at ha hb
    rcases objs_update_cases ha with ⟨rfl, rfl⟩ | ⟨-, ha1⟩
    · rcases objs_update_cases hb with ⟨rfl, -⟩ | ⟨-, hb1⟩
      · rfl
      · have := hw.future_lt b ob hb1
        omega
    · rcases objs_update_cases hb with ⟨-, rfl⟩ | ⟨-, hb1⟩
      · have := hw.future_lt a oa ha1
        omega
      · exact hw.holder_unique a b oa ob ha1 hb1 hfut hda hdb
  · intro self f hm
    rw [htrace] at hm
    obtain ⟨o, ho, hrest⟩ := hw.freed_by_ended self f hm
    refine ⟨o, ?_, hrest⟩
    rw [hobjs, Function.update_noteq]
    · exact ho
    · rintro rfl
      rw [hw.fresh self hc] at ho
      cases ho
  · intro self f hm b ob hb hfb
    rw [htrace] at hm
    rw [hobjs] at hb
    rcases objs_update_cases hb with ⟨-, rfl⟩ | ⟨-, hb⟩
    · obtain ⟨o, ho, hfo, -⟩ := hw.freed_by_ended self f hm
      have := hw.future_lt self o ho
      omega
    · exact hw.freed_gone self f hm b ob hb hfb
  · intro f
    rw [htrace]
    exact hw.free_once f

theorem freeOnce_update (w w1 : World) (this : Nat) (o o1 : Obj) (es : List Event)
    (hw : FreeOnce w) (hlive : w.live this = some o)
    (hobjs : w1.objs = Function.update w.objs this (some o1))
    (hfut : o1.val.future_ = o.val.future_) (hd : o1.destroyed = false)
    (hnext : w1.next = w.next) (htrace : w1.trace = w.trace ++ es) (hes : NoFree es) :
    FreeOnce w1 := by
  obtain ⟨ho, hod⟩ := live_eq_some hlive
  have hother : ∀ self f, Event.future_free self f ∈ w.trace → self ≠ this := by
    rintro self f hm rfl
    obtain ⟨o2, ho2, -, -, hd2⟩ := hw.freed_by_ended self f hm
    rw [ho] at ho2
    cases ho2
    rw [hod] at hd2
    cases hd2
  refine ⟨?_, ?_, ?_, ?_, ?_, ?_⟩
  · intro a ha
    rw [hnext] at ha
    rw [hobjs, Function.update_noteq]
    · exact hw.fresh a ha
    · rintro rfl
      rw [hw.fresh a ha] at ho
      cases ho
  · intro a oa hoa
    rw [hobjs] at hoa
    rw [hnext]
    rcases objs_update_cases hoa with ⟨-, rfl⟩ | ⟨-, hoa⟩
    · rw [hfut]
      exact hw.future_lt this o ho
    · exact hw.future_lt a oa hoa
  · intro a b oa ob ha hb hfab hda hdb
    rw [hobjs] at ha hb
    rcases objs_update_cases ha with ⟨rfl, rfl⟩ | ⟨-, ha1⟩
    · rcases objs_update_cases hb with ⟨rfl, -⟩ | ⟨-, hb1⟩
      · rfl
      · exact hw.holder_unique _ b o ob ho hb1 (hfut ▸ hfab) hod hdb
    · rcases objs_update_cases hb with ⟨rfl, rfl⟩ | ⟨-, hb1⟩
      · exact hw.holder_unique a _ oa o ha1 ho (hfab.trans hfut) hda hod
      · exact hw.holder_unique a b oa ob ha1 hb1 hfab hda hdb
  · intro self f hm
    rw [htrace] at hm
    have hm1 := mem_append_noFree hes hm
    obtain ⟨o2, ho2, hrest⟩ := hw.freed_by_ended self f hm1
    refine ⟨o2, ?_, hrest⟩
    rw [hobjs, Function.update_noteq (hother self f hm1)]
    exact ho2
  · intro self f hm b ob hb hfb
    rw [htrace] at hm
    have hm1 := mem_append_noFree hes hm
    rw [hobjs] at hb
    rcases objs_update_cases hb with ⟨rfl, rfl⟩ | ⟨-, hb⟩
    · have := hw.freed_gone self f hm1 _ o ho (hfut ▸ hfb)
      rw [hod] at this
      cases this
    · exact hw.freed_gone self f hm1 b ob hb hfb
  · intro f
    rw [htrace, freedBy_append, freedBy_noFree es f hes, List.append_nil]
    exact hw.free_once f

theorem freeOnce_handover (w w1 : World) (this : Nat) (o o1 oc : Obj) (es : List Event)
    (hw : FreeOnce w) (hlive : w.live this = some o)
    (hobjs : w1.objs =
      Function.update (Function.update w.objs this (some o1)) w.next (some oc))
    (hfut : o1.val.future_ = o.val.future_) (hd : o1.destroyed = true)
    (hocf : oc.val.future_ = o.val.future_) (hnext : w1.next = w.next + 1)
    (htrace : w1.trace = w.trace ++ es) (hes : NoFree es) : FreeOnce w1 := by
  obtain ⟨ho, hod⟩ := live_eq_some hlive
  have hthis : this < w.next := by
    by_contra hge
    rw [hw.fresh this (by omega)] at ho
    cases ho
  have hnot : ∀ self f, Event.future_free self f ∈ w.trace → o.val.future_ ≠ f := by
    intro self f hm hf
    have := hw.freed_gone self f hm this o ho hf
    rw [hod] at this
    cases this
  refine ⟨?_, ?_, ?_, ?_, ?_, ?_⟩
  · intro a ha
    rw [hnext] at ha
    rw [hobjs, Function.update_noteq (by omega), Function.update_noteq (by omega)]
    exact hw.fresh a (by omega)
  · intro a oa hoa
    rw [hobjs] at hoa
    rw [hnext]
    have hlt := hw.future_lt this o ho
    rcases objs_update_cases hoa with ⟨-, rfl⟩ | ⟨-, hoa1⟩
    · omega
    · rcases objs_update_cases hoa1 with ⟨-, rfl⟩ | ⟨-, hoa2⟩
      · omega
      · have := hw.future_lt a oa hoa2
        omega
  · intro a b oa ob ha hb hfab hda hdb
    rw [hobjs] at ha hb
    rcases objs_update_cases ha with ⟨ha0, rfl⟩ | ⟨-, ha1⟩
    · rcases objs_update_cases hb with ⟨hb0, -⟩ | ⟨-, hb1⟩
      · rw [ha0, hb0]
      · rcases objs_update_cases hb1 with ⟨-, rfl⟩ | ⟨hbt, hb2⟩
        · rw [hd] at hdb
          cases hdb
        · exact absurd (hw.holder_unique b this ob o hb2 ho (by rw [← hfab, hocf]) hdb hod) hbt
    · rcases objs_update_cases ha1 with ⟨-, rfl⟩ | ⟨hat, ha2⟩
      · rw [hd] at hda
        cases hda
      · rcases objs_update_cases hb with ⟨-, rfl⟩ | ⟨-, hb1⟩
        · exact absurd (hw.holder_unique a this oa o ha2 ho (by rw [hfab, hocf]) hda hod) hat
        · rcases objs_update_cases hb1 with ⟨-, rfl⟩ | ⟨-, hb2⟩
          · rw [hd] at hdb
            cases hdb
          · exact hw.holder_unique a b oa ob ha2 hb2 hfab hda hdb
  · intro self f hm
    rw [htrace] at hm
    have hm1 := mem_append_noFree hes hm
    obtain ⟨o2, ho2, hf2, he2, hd2⟩ := hw.freed_by_ended self f hm1
    refine ⟨o2, ?_, hf2, he2, hd2⟩
    have hlt : self < w.next := by
      by_contra hge
      rw [hw.fresh self (by omega)] at ho2
      cases ho2
    rw [hobjs, Function.update_noteq (by omega), Function.update_noteq]
    · exact ho2
    · rintro rfl
      rw [ho] at ho2
      cases ho2
      rw [hod] at hd2
      cases hd2
  · intro self f hm b ob hb hfb
    rw [htrace] at hm
    have hm1 := mem_append_noFree hes hm
    rw [hobjs] at hb
    rcases objs_update_cases hb with ⟨-, rfl⟩ | ⟨-, hb1⟩
    · exact absurd (hocf.symm.trans hfb) (hnot self f hm1)
    · rcases objs_update_cases hb1 with ⟨-, rfl⟩ | ⟨-, hb2⟩
      · exact hd
      · exact hw.freed_gone self f hm1 b ob hb2 hfb
  · intro f
    rw [htrace, freedBy_append, freedBy_noFree es f hes, List.append_nil]
    exact hw.free_once f

theorem freeOnce_free (w w1 : World) (this : Nat) (o o1 : Obj) (es : List Event)
    (hw : FreeOnce w) (hlive : w.live this = some o)
    (hobjs : w1.objs = Function.update w.objs this (some o1))
    (hfut : o1.val.future_ = o.val.future_) (hended : o1.val.ended_ = true)
    (hd : o1.destroyed = true) (hnext : w1.next = w.next)
    (htrace : w1.trace = w.trace ++ es ++ [Event.future_free this o.val.future_])
    (hes : NoFree es) : FreeOnce w1 := by
  obtain ⟨ho, hod⟩ := live_eq_some hlive
  have hnot : ∀ self f, Event.future_free self f ∈ w.trace → o.val.future_ ≠ f := by
    intro self f hm hf
    have := hw.freed_gone self f hm this o ho hf
    rw [hod] at this
    cases this
  have hmem : ∀ self f, Event.future_free self f ∈ w1.trace →
      Event.future_free self f ∈ w.trace ∨ (self = this ∧ f = o.val.future_) := by
    intro self f hm
    rw [htrace] at hm
    rcases List.mem_append.mp hm with hm | hm
    · exact Or.inl (mem_append_noFree hes hm)
    · rw [List.mem_singleton] at hm
      cases hm
      exact Or.inr ⟨rfl, rfl⟩
  refine ⟨?_, ?_, ?_, ?_, ?_, ?_⟩
  · intro a ha
    rw [hnext] at ha
    rw [hobjs, Function.update_noteq]
    · exact hw.fresh a ha
    · rintro rfl
      rw [hw.fresh a ha] at ho
      cases ho
  · intro a oa hoa
    rw [hobjs] at hoa
    rw [hnext]
    rcases objs_update_cases hoa with ⟨-, rfl⟩ | ⟨-, hoa1⟩
    · rw [hfut]
      exact hw.future_lt this o ho
    · exact hw.future_lt a oa hoa1
  · intro a b oa ob ha hb hfab hda hdb
    rw [hobjs] at ha hb
    rcases objs_update_cases ha with ⟨-, rfl⟩ | ⟨-, ha1⟩
    · rw [hd] at hda
      cases hda
    · rcases objs_update_cases hb with ⟨-, rfl⟩ | ⟨-, hb1⟩
      · rw [hd] at hdb
        cases hdb
      · exact hw.holder_unique a b oa ob ha1 hb1 hfab hda hdb
  · intro self f hm
    rcases hmem self f hm with hm1 | ⟨rfl, rfl⟩
    · obtain ⟨o2, ho2, hf2, he2, hd2⟩ := hw.freed_by_ended self f hm1
      refine ⟨o2, ?_, hf2, he2, hd2⟩
      rw [hobjs, Function.update_noteq]
      · exact ho2
      · rintro rfl
        rw [ho] at ho2
        cases ho2
        rw [hod] at hd2
        cases hd2
    · refine ⟨o1, ?_, hfut, hended, hd⟩
      rw [hobjs, Function.update_same]
  · intro self f hm b ob hb hfb
    rw [hobjs] at hb
    rcases objs_update_cases hb with ⟨-, rfl⟩ | ⟨hbt, hb1⟩
    · exact hd
    · rcases hmem self f hm with hm1 | ⟨-, rfl⟩
      · exact hw.freed_gone self f hm1 b ob hb1 hfb
      · cases hdb : ob.destroyed with
        | true => rfl
        | false => exact absurd (hw.holder_unique b this ob o hb1 ho hfb hdb hod) hbt
  · intro f
    rw [htrace, freedBy_append, freedBy_append, freedBy_noFree es f hes, List.append_nil,
      freedBy_single]
    by_cases hf : o.val.future_ = f
    · rw [if_pos hf]
      have hnil : freedBy w.trace f = [] := by
        rw [List.eq_nil_iff_forall_not_mem]
        intro self hself
        exact hnot self f ((mem_freedBy _ _ _).mp hself) hf
      rw [hnil]
      exact Nat.le_refl _
    · rw [if_neg hf, List.append_nil]
      exact hw.free_once f

theorem getResult_same (w : World) (this : Nat) (out : Except NabtoException Result × World)
    (h : getResult w this = some out) :
    out.2.objs = w.objs ∧ out.2.next = w.next ∧ out.2.trace = w.trace := by
  unfold getResult at h
  cases hl : w.live this with
  | none =>
    simp only [hl] at h
    cases h
  | some o =>
    simp only [hl] at h
    by_cases hec : nabto_client_future_error_code w o.val.future_ ≠ 0
    · rw [if_pos hec] at h
      cases h
      exact ⟨rfl, rfl, rfl⟩
    · rw [if_neg hec] at h
      cases hp : o.val.payload with
      | buffer d t =>
        simp only [hp] at h
        cases h
        exact ⟨rfl, rfl, rfl⟩
      | mdns r =>
        simp only [hp] at h
        cases h
        exact ⟨rfl, rfl, rfl⟩
      | void d =>
        simp only [hp] at h
        cases h
        exact ⟨rfl, rfl, rfl⟩

theorem noFree_single_wait (future : Nat) : NoFree [Event.future_wait future] := by
  intro self f h
  rw [List.mem_singleton] at h
  cases h

theorem noFree_single_set (future data : Nat) :
    NoFree [Event.future_set_callback future data] := by
  intro self f h
  rw [List.mem_singleton] at h
  cases h

theorem waitForResult_freeOnce (w : World) (this : Nat)
    (out : Except NabtoException Result × World) (hw : FreeOnce w)
    (h : waitForResult w this = some out) : FreeOnce out.2 := by
  unfold waitForResult at h
  cases hl : w.live this with
  | none =>
    simp only [hl] at h
    cases h
  | some o =>
    simp only [hl] at h
    unfold nabto_client_future_wait at h
    by_cases hres : w.resolved o.val.future_ = true
    · simp only [hres, if_true] at h
      obtain ⟨hobjs, hnext, htrace⟩ := getResult_same _ _ _ h
      exact freeOnce_update w out.2 this o _ [Event.future_wait o.val.future_] hw hl hobjs rfl
        (live_eq_some hl).2 hnext htrace (noFree_single_wait _)
    · simp only [hres] at h
      cases h

theorem destructor_freeOnce (w w0 w1 : World) (this : Nat) (o o0 : Obj) (es : List Event)
    (hw : FreeOnce w) (hlive : w.live this = some o)
    (hobjs : w0.objs = Function.update w.objs this (some o0))
    (hfut : o0.val.future_ = o.val.future_) (hd : o0.destroyed = false)
    (hnext : w0.next = w.next) (htrace : w0.trace = w.trace ++ es) (hes : NoFree es)
    (h : destructor w0 this = some w1) : FreeOnce w1 := by
  have hl0 : w0.live this = some o0 := by
    unfold World.live
    rw [hobjs, Function.update_same]
    simp [hd]
  cases he : o0.val.ended_ with
  | false =>
    rw [destructor_not_ended w0 this o0 hl0 he] at h
    cases h
    refine freeOnce_handover w _ this o { o0 with destroyed := true } (holderFor o0 w0.next)
      (es ++ [Event.future_set_callback o0.val.future_ w0.next]) hw hlive ?_ hfut rfl hfut ?_ ?_ ?_
    · show Function.update (Function.update w0.objs this _) w0.next _ = _
      rw [hobjs, Function.update_idem, hnext]
    · show w0.next + 1 = w.next + 1
      rw [hnext]
    · show w0.trace ++ _ = _
      rw [htrace, List.append_assoc]
    · intro self f hm
      rcases List.mem_append.mp hm with hm | hm
      · exact hes self f hm
      · exact noFree_single_set _ _ self f hm
  | true =>
    rw [destructor_ended w0 this o0 hl0 he] at h
    cases h
    refine freeOnce_free w _ this o { o0 with destroyed := true } es hw hlive ?_ hfut he rfl
      hnext ?_ hes
    · show Function.update w0.objs this _ = _
      rw [hobjs, Function.update_idem]
    · show w0.trace ++ _ = _
      rw [htrace, hfut]

theorem doCallback_freeOnce (w w1 : World) (future data : Nat) (hw : FreeOnce w)
    (h : doCallback w future data = some w1) : FreeOnce w1 := by
  cases hl : w.live data with
  | none =>
    unfold doCallback at h
    simp only [hl] at h
    cases h
  | some o =>
    have hod := (live_eq_some hl).2
    cases hcb : o.val.cb_ with
    | none =>
      unfold doCallback at h
      simp only [hl] at h
      simp only [hcb] at h
      cases h
    | some cb =>
      rw [doCallback_eq w future data o cb hl hcb] at h
      by_cases hlast : o.val.selfReference_.isSome ∧ o.owners = 0
      · rw [if_pos hlast] at h
        cases h
        exact freeOnce_free w _ data o _ (cb.run ⟨w.error_code o.val.future_⟩) hw hl rfl rfl rfl
          rfl rfl rfl (noFree_run _ _)
      · rw [if_neg hlast] at h
        cases h
        exact freeOnce_update w _ data o _ (cb.run ⟨w.error_code o.val.future_⟩) hw hl rfl rfl
          hod rfl rfl (noFree_run _ _)

theorem drop_freeOnce (w w1 : World) (this : Nat) (hw : FreeOnce w)
    (h : drop w this = some w1) : FreeOnce w1 := by
  unfold drop at h
  cases hl : w.live this with
  | none =>
    simp only [hl] at h
    cases h
  | some o =>
    simp only [hl] at h
    have hod := (live_eq_some hl).2
    by_cases h0 : o.owners = 0
    · rw [if_pos h0] at h
      cases h
    · rw [if_neg h0] at h
      by_cases hlast : o.owners = 1 ∧ o.val.selfReference_ = none
      · rw [if_pos hlast] at h
        exact destructor_freeOnce w (w.setObj this { o with owners := o.owners - 1 }) w1 this o
          { o with owners := o.owners - 1 } [] hw hl rfl rfl hod rfl (List.append_nil _).symm
          noFree_nil h
      · rw [if_neg hlast] at h
        cases h
        exact freeOnce_update w _ this o { o with owners := o.owners - 1 } [] hw hl rfl rfl hod
          rfl (List.append_nil _).symm noFree_nil

theorem resolve_freeOnce (w w1 : World) (future : Nat) (ec : NabtoClientError)
    (written : List Byte) (count : Nat) (hw : FreeOnce w)
    (h : resolve w future ec written count = some w1) : FreeOnce w1 := by
  unfold resolve at h
  by_cases hres : w.resolved future = true
  · rw [if_pos hres] at h
    cases h
  · rw [if_neg hres] at h
    cases hr : w.reads future with
    | none =>
      simp only [hr] at h
      cases h
      exact freeOnce_same w _ [] hw rfl (Nat.le_refl _) (List.append_nil _).symm noFree_nil
    | some op =>
      simp only [hr] at h
      by_cases hlen : written.length ≤ op.bufferLength
      · rw [if_pos hlen] at h
        cases h
        exact freeOnce_same w _ [] hw rfl (Nat.le_refl _) (List.append_nil _).symm noFree_nil
      · rw [if_neg hlen] at h
        cases h

theorem step_freeOnce (w w1 : World) (op : Op) (hw : FreeOnce w)
    (hs : step w op = some w1) : FreeOnce w1 := by
  cases op with
  | readAll stream n =>
    cases hs
    exact freeOnce_made w _ (w.next + 3)
      { val := FutureImpl.new (w.next + 2) (Payload.buffer w.next (w.next + 1)), owners := 1,
        destroyed := false } hw rfl (by omega) (Nat.lt_succ_self _) (Nat.le_add_right _ _)
      (Nat.lt_succ_of_lt (Nat.lt_succ_self _)) rfl
  | readSome stream max =>
    cases hs
    exact freeOnce_made w _ (w.next + 3)
      { val := FutureImpl.new (w.next + 2) (Payload.buffer w.next (w.next + 1)), owners := 1,
        destroyed := false } hw rfl (by omega) (Nat.lt_succ_self _) (Nat.le_add_right _ _)
      (Nat.lt_succ_of_lt (Nat.lt_succ_self _)) rfl
  | makeFutureVoid data =>
    cases hs
    exact freeOnce_made w _ (w.next + 1)
      { val := FutureImpl.new w.next (Payload.void data), owners := 1, destroyed := false } hw
      rfl (by omega) (Nat.lt_succ_self _) (Nat.le_refl _)
      (Nat.lt_succ_of_lt (Nat.lt_succ_self _)) rfl
  | mdnsGetResult =>
    cases hs
    exact freeOnce_made w _ (w.next + 2)
      { val := FutureImpl.new (w.next + 1) (Payload.mdns w.next), owners := 1,
        destroyed := false } hw rfl (by omega) (Nat.lt_succ_self _) (Nat.le_add_right _ _)
      (Nat.lt_succ_of_lt (Nat.lt_succ_self _)) rfl
  | waitForResult this =>
    cases hout : waitForResult w this with
    | none =>
      have hs1 : (waitForResult w this).map Prod.snd = some w1 := hs
      rw [hout] at hs1
      cases hs1
    | some out =>
      have hs1 : (waitForResult w this).map Prod.snd = some w1 := hs
      rw [hout] at hs1
      cases hs1
      exact waitForResult_freeOnce w this out hw hout
  | getResult this =>
    cases hout : getResult w this with
    | none =>
      have hs1 : (getResult w this).map Prod.snd = some w1 := hs
      rw [hout] at hs1
      cases hs1
    | some out =>
      have hs1 : (getResult w this).map Prod.snd = some w1 := hs
      rw [hout] at hs1
      cases hs1
      obtain ⟨hobjs, hnext, htrace⟩ := getResult_same w this out hout
      exact freeOnce_same w _ [] hw hobjs (Nat.le_of_eq hnext.symm)
        (by rw [htrace, List.append_nil]) noFree_nil
  | callback this cb =>
    have hs1 : callback w this cb = some w1 := hs
    unfold callback at hs1
    cases hl : w.live this with
    | none =>
      simp only [hl] at hs1
      cases hs1
    | some o =>
      simp only [hl] at hs1
      cases hs1
      exact freeOnce_update w _ this o
        { o with val := { o.val with cb_ := some cb, selfReference_ := some this } }
        [Event.future_set_callback o.val.future_ this] hw hl rfl rfl (live_eq_some hl).2 rfl
        rfl (noFree_single_set _ _)
  | share this =>
    have hs1 : share w this = some w1 := hs
    unfold share at hs1
    cases hl : w.live this with
    | none =>
      simp only [hl] at hs1
      cases hs1
    | some o =>
      simp only [hl] at hs1
      by_cases h0 : o.owners = 0
      · rw [if_pos h0] at hs1
        cases hs1
      · rw [if_neg h0] at hs1
        cases hs1
        exact freeOnce_update w _ this o { o with owners := o.owners + 1 } [] hw hl rfl rfl
          (live_eq_some hl).2 rfl (List.append_nil _).symm noFree_nil
  | drop this => exact drop_freeOnce w w1 this hw hs
  | resolve future ec written count => exact resolve_freeOnce w w1 future ec written count hw hs
  | fire future =>
    have hs1 : fire w future = some w1 := hs
    unfold fire at hs1
    by_cases hres : w.resolved future = true
    · rw [if_pos hres] at hs1
      cases hreg : w.registered future with
      | none =>
        simp only [hreg] at hs1
        cases hs1
      | some data =>
        simp only [hreg] at hs1
        exact doCallback_freeOnce w w1 future data hw hs1
    · rw [if_neg hres] at hs1
      cases hs1

theorem reachable_freeOnce (w : World) (h : Reachable w) : FreeOnce w := by
  induction h with
  | init ec0 => exact freeOnce_init ec0
  | step op _ hs ih => exact step_freeOnce _ _ op ih hs

theorem reachable_of_run (w w1 : World) (ops : List Op) (h : Reachable w)
    (hrun : run w ops = some w1) : Reachable w1 := by
  induction ops generalizing w with
  | nil =>
    cases hrun
    exact h
  | cons op ops ih =>
    unfold run at hrun
    cases hstep : step w op with
    | none =>
      rw [hstep] at hrun
      cases hrun
    | some w2 =>
      rw [hstep] at hrun
      exact ih w2 (Reachable.step op h hstep) hrun

theorem bind_apply {A α β : Type} (m : Prog A α) (f : α → Prog A β) (t : List A) :
    (m >>= f) t = Prog.bind m f t := rfl

theorem pure_apply {A α : Type} (a : α) (t : List A) :
    (pure a : Prog A α) t = (t, Except.ok a) := rfl

theorem bind_of_ok {A α β : Type} {m : Prog A α} {f : α → Prog A β} {t t1 : List A} {a : α}
    (h : m t = (t1, Except.ok a)) : (m >>= f) t = f a t1 := by
  rw [bind_apply]
  unfold Prog.bind
  rw [h]

theorem bind_of_error {A α β : Type} {m : Prog A α} {f : α → Prog A β} {t t1 : List A}
    {s : Stop} (h : m t = (t1, Except.error s)) : (m >>= f) t = (t1, Except.error s) := by
  rw [bind_apply]
  unfold Prog.bind
  rw [h]

theorem only_pure {A α : Type} (P : A → Prop) (Q : Stop → Prop) (a : α) :
    Prog.Only P Q (pure a : Prog A α) := by
  intro t
  exact ⟨[], (List.append_nil t).symm, fun _ h => (by cases h), fun _ h => (by cases h)⟩

theorem only_act {A : Type} {P : A → Prop} (Q : Stop → Prop) {a : A} (hP : P a) :
    Prog.Only P Q (Prog.act a) := by
  intro t
  refine ⟨[a], rfl, ?_, fun _ h => (by cases h)⟩
  intro b hb
  rw [List.mem_singleton] at hb
  rw [hb]
  exact hP

theorem only_stop {A α : Type} (P : A → Prop) {Q : Stop → Prop} {s : Stop} (hQ : Q s) :
    Prog.Only P Q (Prog.stop s : Prog A α) := by
  intro t
  refine ⟨[], (List.append_nil t).symm, fun _ h => (by cases h), ?_⟩
  intro s1 h
  cases h
  exact hQ

theorem only_exit {A α : Type} (P : A → Prop) {Q : Stop → Prop} {status : Int}
    (hQ : Q (Stop.exit status)) : Prog.Only P Q (Prog.exit status : Prog A α) :=
  only_stop P hQ

theorem only_call {A α : Type} (P : A → Prop) {Q : Stop → Prop}
    (hQ : ∀ e, Q (Stop.threw e)) (r : Except NabtoException α) :
    Prog.Only P Q (Prog.call r : Prog A α) := by
  cases r with
  | ok a => exact only_pure P Q a
  | error e => exact only_stop P (hQ _)

theorem only_lift {A α : Type} (P : A → Prop) {Q : Stop → Prop}
    (hQ : ∀ e, Q (Stop.threw e)) (r : Except Thrown α) :
    Prog.Only P Q (Prog.lift r : Prog A α) := by
  cases r with
  | ok a => exact only_pure P Q a
  | error e => exact only_stop P (hQ _)

theorem only_bind {A α β : Type} {P : A → Prop} {Q : Stop → Prop} {m : Prog A α}
    {f : α → Prog A β} (hm : Prog.Only P Q m) (hf : ∀ a, Prog.Only P Q (f a)) :
    Prog.Only P Q (m >>= f) := by
  intro t
  obtain ⟨es, htr, hes, hstop⟩ := hm t
  cases hres : m t with
  | mk t1 res =>
    rw [hres] at htr hstop
    cases res with
    | error s =>
      rw [bind_of_error hres]
      refine ⟨es, htr, hes, ?_⟩
      intro s1 h
      cases h
      exact hstop _ rfl
    | ok a =>
      rw [bind_of_ok hres]
      obtain ⟨es1, htr1, hes1, hstop1⟩ := hf a t1
      refine ⟨es ++ es1, ?_, ?_, hstop1⟩
      · rw [htr1]
        dsimp only at htr
        rw [htr, List.append_assoc]
      · intro b hb
        rcases List.mem_append.mp hb with hb | hb
        · exact hes b hb
        · exact hes1 b hb

theorem only_tryCatch {A α : Type} {P : A → Prop} {Q : Stop → Prop} {m : Prog A α}
    {handler : Thrown → Prog A α}
    (hm : Prog.Only P (fun s => Q s ∨ ∃ e, s = Stop.threw e) m)
    (hh : ∀ e, Prog.Only P Q (handler e)) : Prog.Only P Q (Prog.tryCatch m handler) := by
  intro t
  obtain ⟨es, htr, hes, hstop⟩ := hm t
  unfold Prog.tryCatch
  cases hres : m t with
  | mk t1 res =>
    rw [hres] at htr hstop
    dsimp only at htr
    cases res with
    | ok a => exact ⟨es, htr, hes, fun _ h => (by cases h)⟩
    | error s =>
      cases s with
      | threw e =>
        obtain ⟨es1, htr1, hes1, hstop1⟩ := hh e t1
        refine ⟨es ++ es1, ?_, ?_, hstop1⟩
        · dsimp only
          rw [htr1, htr, List.append_assoc]
        · intro b hb
          rcases List.mem_append.mp hb with hb | hb
          · exact hes b hb
          · exact hes1 b hb
      | exit status =>
        refine ⟨es, htr, hes, ?_⟩
        intro s1 h
        cases h
        rcases hstop _ rfl with hq | ⟨e, he⟩
        · exact hq
        · cases he
      | fault =>
        refine ⟨es, htr, hes, ?_⟩
        intro s1 h
        cases h
        rcases hstop _ rfl with hq | ⟨e, he⟩
        · exact hq
        · cases he
      | blocked =>
        refine ⟨es, htr, hes, ?_⟩
        intro s1 h
        cases h
        rcases hstop _ rfl with hq | ⟨e, he⟩
        · exact hq
        · cases he
      | endless =>
        refine ⟨es, htr, hes, ?_⟩
        intro s1 h
        cases h
        rcases hstop _ rfl with hq | ⟨e, he⟩
        · exact hq
        · cases he

theorem only_mem {A α : Type} {P : A → Prop} {Q : Stop → Prop} {m : Prog A α}
    (hm : Prog.Only P Q m) : ∀ a ∈ (Prog.run m).1, P a := by
  obtain ⟨es, htr, hes, -⟩ := hm []
  intro a ha
  unfold Prog.run at ha
  rw [htr, List.nil_append] at ha
  exact hes a ha

theorem only_stops {A α : Type} {P : A → Prop} {Q : Stop → Prop} {m : Prog A α}
    (hm : Prog.Only P Q m) : ∀ s, (Prog.run m).2 = Except.error s → Q s := by
  obtain ⟨es, -, -, hstop⟩ := hm []
  exact hstop

theorem only_connection_set {P : ClientAction → Prop} {Q : Stop → Prop}
    (hP : ∀ a, a.kind = ActionKind.setup → P a) (hQ : ∀ e, Q (Stop.threw e))
    (input : ClientInput) (field : ConfigField) (value : String) :
    Prog.Only P Q (connection_set input field value) :=
  only_bind (only_act Q (hP _ rfl)) fun _ => only_call P hQ _

theorem only_pairing_connect {P : ClientAction → Prop} {Q : Stop → Prop}
    (hout : ∀ a, a.kind = ActionKind.output → P a) (hP : ∀ a, a.kind = ActionKind.setup → P a)
    (hQ : ∀ e, Q (Stop.threw e)) (hexit : Q (Stop.exit 1))
    (input : ClientInput) (productId deviceId server serverKey : String) :
    Prog.Only P Q (pairing_connect input productId deviceId server serverKey) := by
  unfold pairing_connect
  refine only_bind (only_act Q (hout _ rfl)) fun _ => ?_
  refine only_bind (only_act Q (hP _ rfl)) fun _ => ?_
  refine only_bind (only_act Q (hP _ rfl)) fun _ => ?_
  refine only_bind (only_connection_set hP hQ _ _ _) fun _ => ?_
  refine only_bind (only_connection_set hP hQ _ _ _) fun _ => ?_
  refine only_bind (only_connection_set hP hQ _ _ _) fun _ => ?_
  refine only_bind (only_connection_set hP hQ _ _ _) fun _ => ?_
  refine only_bind (only_act Q (hP _ rfl)) fun _ => ?_
  refine only_bind (only_call P hQ _) fun _ => ?_
  refine only_bind (only_connection_set hP hQ _ _ _) fun _ => ?_
  refine only_bind (only_lift P hQ _) fun _ => ?_
  refine only_bind (only_tryCatch ?_ ?_) fun _ => ?_
  · exact only_bind (only_act _ (hP _ rfl)) fun _ => only_call P (fun e => Or.inr ⟨e, rfl⟩) _
  · intro e
    exact only_bind (only_act Q (hout _ rfl)) fun _ => only_exit P hexit
  refine only_bind (only_act Q (hP _ rfl)) fun _ => ?_
  refine only_bind (only_call P hQ _) fun _ => ?_
  refine only_bind (only_act Q (hout _ rfl)) fun _ => ?_
  refine only_bind (only_act Q (hout _ rfl)) fun _ => ?_
  exact only_pure P Q _

theorem only_pairing_prompt {P : ClientAction → Prop} {Q : Stop → Prop}
    (hout : ∀ a, a.kind = ActionKind.output → P a) (hP : ∀ a, a.kind = ActionKind.prompt → P a)
    (hendless : Q Stop.endless) (hexit : Q (Stop.exit 1)) (uninitialised : Char)
    (answers : List Char) :
    Prog.Only P Q (pairing_prompt uninitialised answers) := by
  induction answers with
  | nil =>
    unfold pairing_prompt
    by_cases hy : uninitialised = 'y'
    · rw [if_pos hy]
      exact only_pure P Q _
    · rw [if_neg hy]
      by_cases hn : uninitialised = 'n'
      · rw [if_pos hn]
        exact only_bind (only_act Q (hout _ rfl)) fun _ => only_exit P hexit
      · rw [if_neg hn]
        exact only_bind (only_act Q (hout _ rfl)) fun _ => only_stop P hendless
  | cons input rest ih =>
    unfold pairing_prompt
    refine only_bind (only_act Q (hP _ rfl)) fun _ => ?_
    by_cases hy : input = 'y'
    · rw [if_pos hy]
      exact only_pure P Q _
    · rw [if_neg hy]
      by_cases hn : input = 'n'
      · rw [if_pos hn]
        exact only_bind (only_act Q (hout _ rfl)) fun _ => only_exit P hexit
      · rw [if_neg hn]
        exact only_bind (only_act Q (hout _ rfl)) fun _ => ih

theorem only_pairing_request {P : ClientAction → Prop} {Q : Stop → Prop}
    (hP : ∀ a, a.kind = ActionKind.request → P a) (hQ : ∀ e, Q (Stop.threw e))
    (hfault : Q Stop.fault) (input : ClientInput) (password : String) :
    Prog.Only P Q (pairing_request input password) := by
  unfold pairing_request
  refine only_bind (only_act Q (hP _ rfl)) fun _ => ?_
  cases ConnectionImpl.createCoap input.coap_new with
  | none => exact only_stop P hfault
  | some coap =>
    refine only_bind (only_act Q (hP _ rfl)) fun _ => ?_
    refine only_bind (only_call P hQ _) fun _ => ?_
    refine only_bind (only_act Q (hP _ rfl)) fun _ => ?_
    exact only_call P hQ _

theorem prompt_accepted (uninitialised : Char) (answers : List Char)
    (t t1 : List ClientAction)
    (h : pairing_prompt uninitialised answers t = (t1, Except.ok ())) :
    FingerprintAccepted answers ∨ (Unanswered answers ∧ uninitialised = 'y') := by
  induction answers generalizing t with
  | nil =>
    unfold pairing_prompt at h
    by_cases hy : uninitialised = 'y'
    · exact Or.inr ⟨fun _ hc => (by cases hc), hy⟩
    · by_cases hn : uninitialised = 'n'
      · simp [bind_apply, Prog.bind, Prog.act, Prog.exit, Prog.stop, hy, hn] at h
      · simp [bind_apply, Prog.bind, Prog.act, Prog.exit, Prog.stop, hy, hn] at h
  | cons input rest ih =>
    unfold pairing_prompt at h
    by_cases hy : input = 'y'
    · exact Or.inl ⟨[], rest, by rw [hy]; rfl, fun _ hc => (by cases hc)⟩
    · by_cases hn : input = 'n'
      · simp [bind_apply, Prog.bind, Prog.act, Prog.exit, Prog.stop, hy, hn] at h
      · simp only [bind_apply, Prog.bind, Prog.act, if_neg hy, if_neg hn] at h
        rcases ih _ h with ⟨pre, rest1, heq, hpre⟩ | ⟨hun, hu⟩
        · refine Or.inl ⟨input :: pre, rest1, by rw [heq]; rfl, ?_⟩
          intro c hc
          rcases List.mem_cons.mp hc with hc | hc
          · rw [hc]
            exact ⟨hy, hn⟩
          · exact hpre c hc
        · refine Or.inr ⟨?_, hu⟩
          intro c hc
          rcases List.mem_cons.mp hc with hc | hc
          · rw [hc]
            exact ⟨hy, hn⟩
          · exact hun c hc

theorem prompt_other (uninitialised c : Char) (rest : List Char) (t : List ClientAction)
    (hy : c ≠ 'y') (hn : c ≠ 'n') :
    pairing_prompt uninitialised (c :: rest) t =
      pairing_prompt uninitialised rest
        (t ++ [ClientAction.cin c, ClientAction.cout "only y or n is accepted as answers"]) := by
  rw [pairing_prompt]
  simp [bind_apply, Prog.bind, Prog.act, hy, hn]

theorem prompt_yes (uninitialised : Char) (pre rest : List Char) (t : List ClientAction)
    (hpre : ∀ c ∈ pre, c ≠ 'y' ∧ c ≠ 'n') :
    pairing_prompt uninitialised (pre ++ 'y' :: rest) t =
      (t ++ reprompts pre ++ [ClientAction.cin 'y'], Except.ok ()) := by
  induction pre generalizing t with
  | nil =>
    rw [List.nil_append, pairing_prompt]
    simp [bind_apply, Prog.bind, Prog.act, pure_apply, reprompts]
  | cons c pre ih =>
    have hc := hpre c (List.mem_cons_self _ _)
    rw [List.cons_append, prompt_other uninitialised c _ t hc.1 hc.2,
      ih _ fun x hx => hpre x (List.mem_cons_of_mem _ hx)]
    simp [reprompts]

theorem prompt_no (uninitialised : Char) (pre rest : List Char) (t : List ClientAction)
    (hpre : ∀ c ∈ pre, c ≠ 'y' ∧ c ≠ 'n') :
    pairing_prompt uninitialised (pre ++ 'n' :: rest) t =
      (t ++ reprompts pre ++
        [ClientAction.cin 'n', ClientAction.cout "Fingerprint not accepted, quitting"],
        Except.error (Stop.exit 1)) := by
  induction pre generalizing t with
  | nil =>
    rw [List.nil_append, pairing_prompt]
    simp [bind_apply, Prog.bind, Prog.act, Prog.exit, Prog.stop, reprompts]
  | cons c pre ih =>
    have hc := hpre c (List.mem_cons_self _ _)
    rw [List.cons_append, prompt_other uninitialised c _ t hc.1 hc.2,
      ih _ fun x hx => hpre x (List.mem_cons_of_mem _ hx)]
    simp [reprompts]

theorem prompt_nil (uninitialised : Char) (t : List ClientAction) :
    pairing_prompt uninitialised [] t =
      if uninitialised = 'y' then (t, Except.ok ())
      else if uninitialised = 'n' then
        (t ++ [ClientAction.cout "Fingerprint not accepted, quitting"],
          Except.error (Stop.exit 1))
      else
        (t ++ [ClientAction.cout "only y or n is accepted as answers"],
          Except.error Stop.endless) := by
  rw [pairing_prompt]
  by_cases hy : uninitialised = 'y'
  · rw [if_pos hy, if_pos hy]
    rfl
  · rw [if_neg hy, if_neg hy]
    by_cases hn : uninitialised = 'n'
    · rw [if_pos hn, if_pos hn]
      rfl
    · rw [if_neg hn, if_neg hn]
      rfl

theorem prompt_end (uninitialised : Char) (answers : List Char) (t : List ClientAction)
    (hpre : Unanswered answers) :
    pairing_prompt uninitialised answers t =
      pairing_prompt uninitialised [] (t ++ reprompts answers) := by
  induction answers generalizing t with
  | nil => simp [reprompts]
  | cons c pre ih =>
    have hc := hpre c (List.mem_cons_self _ _)
    rw [prompt_other uninitialised c _ t hc.1 hc.2,
      ih _ fun x hx => hpre x (List.mem_cons_of_mem _ hx)]
    simp [reprompts]

theorem conclude_paired (input : ClientInput) (configFile : String) (config : Json)
    (t : List ClientAction)
    (h : CoapImpl.getResponseStatusCode input.status_code.1 input.status_code.2 =
      Except.ok 205) :
    pairing_conclude input configFile config t =
      (t ++ [ClientAction.get_response_status_code,
          ClientAction.cout "Paired with the device, writing configuration to disk",
          ClientAction.json_config_save configFile config] ++
        (if input.json_config_save then []
          else [ClientAction.cerr ("Failed to write config to " ++ configFile)]),
        Except.error (Stop.exit 0)) := by
  unfold pairing_conclude
  rw [h]
  cases hs : input.json_config_save <;>
    simp [bind_apply, Prog.bind, Prog.act, Prog.call, Prog.pure, pure_apply, Prog.exit,
      Prog.stop, hs]

theorem call_error_bind {A α β : Type} (e : NabtoException) (f : α → Prog A β) :
    (Prog.call (Except.error e) >>= f) = Prog.stop (Stop.threw (Thrown.nabto e)) := rfl

theorem call_ok_bind {A α β : Type} (a : α) (f : α → Prog A β) :
    (Prog.call (Except.ok a) >>= f) = f a := rfl

theorem conclude_refused (input : ClientInput) (configFile : String) (config : Json)
    (h : CoapImpl.getResponseStatusCode input.status_code.1 input.status_code.2 ≠
      Except.ok 205) :
    Prog.Only (fun a => a.kind = ActionKind.response ∨ a.kind = ActionKind.output)
      (fun s => s = Stop.exit 1 ∨ s = Stop.fault ∨ ∃ e, s = Stop.threw e)
      (pairing_conclude input configFile config) := by
  unfold pairing_conclude
  refine only_bind (only_act _ (Or.inl rfl)) fun _ => ?_
  cases hst : CoapImpl.getResponseStatusCode input.status_code.1 input.status_code.2 with
  | error e =>
    rw [call_error_bind]
    exact only_stop _ (Or.inr (Or.inr ⟨_, rfl⟩))
  | ok status =>
    have hne : status ≠ 205 := by
      rintro rfl
      exact h hst
    rw [call_ok_bind, if_neg hne]
    refine only_bind (only_act _ (Or.inl rfl)) fun _ => ?_
    refine only_bind (only_call _ (fun e => Or.inr (Or.inr ⟨e, rfl⟩)) _) fun buffer => ?_
    cases buffer with
    | none => exact only_stop _ (Or.inr (Or.inl rfl))
    | some b =>
      refine only_bind (only_act _ (Or.inl rfl)) fun _ => ?_
      refine only_bind (only_call _ (fun e => Or.inr (Or.inr ⟨e, rfl⟩)) _) fun _ => ?_
      refine only_bind (only_act _ (Or.inr rfl)) fun _ => ?_
      exact only_exit _ (Or.inl rfl)

theorem conclude_no_payload (input : ClientInput) (configFile : String) (config : Json)
    (t : List ClientAction) (hec : input.status_code.1 = 0)
    (hst : uint16_to_int input.status_code.2 ≠ 205) (hp : input.payload = none) :
    pairing_conclude input configFile config t =
      (t ++ [ClientAction.get_response_status_code, ClientAction.get_response_payload],
        Except.error Stop.fault) := by
  simp [pairing_conclude, bind_apply, Prog.bind, Prog.act, Prog.call, Prog.pure, Prog.stop,
    CoapImpl.getResponseStatusCode, CoapImpl.getResponsePayload, hec, hst, hp]

theorem conclude_payload (input : ClientInput) (configFile : String) (config : Json)
    (t : List ClientAction) (b : NabtoClientBuffer) (hec : input.status_code.1 = 0)
    (hst : uint16_to_int input.status_code.2 ≠ 205) (hp : input.payload = some b) :
    pairing_conclude input configFile config t =
      (t ++ [ClientAction.get_response_status_code, ClientAction.get_response_payload,
          ClientAction.get_response_status_code,
          ClientAction.cout ("Could not pair with the device status: " ++
            toString (uint16_to_int input.status_code.2) ++ " " ++
            bytesToString
              ((BufferOut.ofData (nabto_client_buffer_data b) (nabto_client_buffer_size b)).data.take
                (BufferOut.ofData (nabto_client_buffer_data b)
                  (nabto_client_buffer_size b)).size))],
        Except.error (Stop.exit 1)) := by
  simp [pairing_conclude, bind_apply, Prog.bind, Prog.act, Prog.call, Prog.pure, Prog.stop,
    Prog.exit, CoapImpl.getResponseStatusCode, CoapImpl.getResponsePayload, hec, hst, hp]

theorem pairing_cases (input : ClientInput)
    (configFile productId deviceId server serverKey password : String) :
    (∃ st,
        (tcptunnel_pairing input configFile productId deviceId server serverKey password).run.2 =
          Except.error st ∧
        (st = Stop.exit 1 ∨ st = Stop.endless ∨ st = Stop.fault ∨ ∃ e, st = Stop.threw e) ∧
        (∀ a ∈
          (tcptunnel_pairing input configFile productId deviceId server serverKey password).run.1,
          a.kind = ActionKind.output ∨ a.kind = ActionKind.setup ∨ a.kind = ActionKind.prompt ∨
            a.kind = ActionKind.request) ∧
        ((∃ a ∈
          (tcptunnel_pairing input configFile productId deviceId server serverKey password).run.1,
          a.kind = ActionKind.request) →
          FingerprintAccepted input.answers ∨
            (Unanswered input.answers ∧ input.uninitialised = 'y'))) ∨
    (∃ t config,
        (tcptunnel_pairing input configFile productId deviceId server serverKey password).run =
          pairing_conclude input configFile config t ∧
        (∀ a ∈ t, a.kind = ActionKind.output ∨ a.kind = ActionKind.setup ∨
          a.kind = ActionKind.prompt ∨ a.kind = ActionKind.request) ∧
        (FingerprintAccepted input.answers ∨
          (Unanswered input.answers ∧ input.uninitialised = 'y'))) := by
  unfold tcptunnel_pairing Prog.run
  obtain ⟨es1, h1tr, h1es, h1stop⟩ :=
    only_pairing_connect (P := fun a => a.kind = ActionKind.output ∨ a.kind = ActionKind.setup)
      (Q := fun s => s = Stop.exit 1 ∨ ∃ e, s = Stop.threw e)
      (fun _ h => Or.inl h) (fun _ h => Or.inr h) (fun e => Or.inr ⟨e, rfl⟩) (Or.inl rfl)
      input productId deviceId server serverKey []
  cases hres1 : pairing_connect input productId deviceId server serverKey [] with
  | mk t1 res1 =>
  rw [hres1] at h1tr h1stop
  dsimp only at h1tr h1stop
  rw [List.nil_append] at h1tr
  have hk1 : ∀ a ∈ t1, a.kind = ActionKind.output ∨ a.kind = ActionKind.setup := by
    rw [h1tr]
    exact h1es
  cases res1 with
  | error s =>
    rw [bind_of_error hres1]
    refine Or.inl ⟨s, rfl, ?_, ?_, ?_⟩
    · rcases h1stop s rfl with h | ⟨e, h⟩
      · exact Or.inl h
      · exact Or.inr (Or.inr (Or.inr ⟨e, h⟩))
    · intro a ha
      rcases hk1 a ha with h | h
      · exact Or.inl h
      · exact Or.inr (Or.inl h)
    · rintro ⟨a, ha, hreq⟩
      rcases hk1 a ha with h | h <;> rw [hreq] at h <;> cases h
  | ok config =>
    rw [bind_of_ok hres1]
    obtain ⟨es2, h2tr, h2es, h2stop⟩ :=
      only_pairing_prompt
        (P := fun a => a.kind = ActionKind.output ∨ a.kind = ActionKind.prompt)
        (Q := fun s => s = Stop.exit 1 ∨ s = Stop.endless)
        (fun _ h => Or.inl h) (fun _ h => Or.inr h) (Or.inr rfl) (Or.inl rfl)
        input.uninitialised input.answers t1
    cases hres2 : pairing_prompt input.uninitialised input.answers t1 with
    | mk t2 res2 =>
    rw [hres2] at h2tr h2stop
    dsimp only at h2tr h2stop
    have hk2 : ∀ a ∈ t2, a.kind = ActionKind.output ∨ a.kind = ActionKind.setup ∨
        a.kind = ActionKind.prompt := by
      rw [h2tr]
      intro a ha
      rcases List.mem_append.mp ha with ha | ha
      · rcases hk1 a ha with h | h
        · exact Or.inl h
        · exact Or.inr (Or.inl h)
      · rcases h2es a ha with h | h
        · exact Or.inl h
        · exact Or.inr (Or.inr h)
    cases res2 with
    | error s =>
      rw [bind_of_error hres2]
      refine Or.inl ⟨s, rfl, ?_, ?_, ?_⟩
      · rcases h2stop s rfl with h | h
        · exact Or.inl h
        · exact Or.inr (Or.inl h)
      · intro a ha
        rcases hk2 a ha with h | h | h
        · exact Or.inl h
        · exact Or.inr (Or.inl h)
        · exact Or.inr (Or.inr (Or.inl h))
      · rintro ⟨a, ha, hreq⟩
        rcases hk2 a ha with h | h | h <;> rw [hreq] at h <;> cases h
    | ok u =>
      have hacc : FingerprintAccepted input.answers ∨
          (Unanswered input.answers ∧ input.uninitialised = 'y') :=
        prompt_accepted _ _ _ _ hres2
      rw [bind_of_ok hres2]
      obtain ⟨es3, h3tr, h3es, h3stop⟩ :=
        only_pairing_request (P := fun a => a.kind = ActionKind.request)
          (Q := fun s => s = Stop.fault ∨ ∃ e, s = Stop.threw e)
          (fun _ h => h) (fun e => Or.inr ⟨e, rfl⟩) (Or.inl rfl) input password t2
      cases hres3 : pairing_request input password t2 with
      | mk t3 res3 =>
      rw [hres3] at h3tr h3stop
      dsimp only at h3tr h3stop
      have hk3 : ∀ a ∈ t3, a.kind = ActionKind.output ∨ a.kind = ActionKind.setup ∨
          a.kind = ActionKind.prompt ∨ a.kind = ActionKind.request := by
        rw [h3tr]
        intro a ha
        rcases List.mem_append.mp ha with ha | ha
        · rcases hk2 a ha with h | h | h
          · exact Or.inl h
          · exact Or.inr (Or.inl h)
          · exact Or.inr (Or.inr (Or.inl h))
        · exact Or.inr (Or.inr (Or.inr (h3es a ha)))
      cases res3 with
      | error s =>
        rw [bind_of_error hres3]
        refine Or.inl ⟨s, rfl, ?_, hk3, fun _ => hacc⟩
        rcases h3stop s rfl with h | ⟨e, h⟩
        · exact Or.inr (Or.inr (Or.inl h))
        · exact Or.inr (Or.inr (Or.inr ⟨e, h⟩))
      | ok u3 =>
        rw [bind_of_ok hres3]
        exact Or.inr ⟨t3, config, rfl, hk3, hacc⟩

theorem only_pairing_conclude {P : ClientAction → Prop} {Q : Stop → Prop}
    (input : ClientInput) (configFile : String) (config : Json)
    (hout : ∀ a, a.kind = ActionKind.output → P a)
    (hresp : ∀ a, a.kind = ActionKind.response → P a)
    (hsave : P (ClientAction.json_config_save configFile config))
    (hQ : ∀ e, Q (Stop.threw e)) (hfault : Q Stop.fault) (hexit0 : Q (Stop.exit 0))
    (hexit1 : Q (Stop.exit 1)) :
    Prog.Only P Q (pairing_conclude input configFile config) := by
  unfold pairing_conclude
  refine only_bind (only_act Q (hresp _ rfl)) fun _ => ?_
  refine only_bind (only_call P hQ _) fun status => ?_
  by_cases h : status = 205
  · rw [if_pos h]
    refine only_bind (only_act Q (hout _ rfl)) fun _ => ?_
    refine only_bind (only_act Q hsave) fun _ => ?_
    cases input.json_config_save with
    | true => exact only_bind (only_pure P Q _) fun _ => only_exit P hexit0
    | false => exact only_bind (only_act Q (hout _ rfl)) fun _ => only_exit P hexit0
  · rw [if_neg h]
    refine only_bind (only_act Q (hresp _ rfl)) fun _ => ?_
    refine only_bind (only_call P hQ _) fun buffer => ?_
    cases buffer with
    | none => exact only_stop P hfault
    | some b =>
      refine only_bind (only_act Q (hresp _ rfl)) fun _ => ?_
      refine only_bind (only_call P hQ _) fun _ => ?_
      refine only_bind (only_act Q (hout _ rfl)) fun _ => ?_
      exact only_exit P hexit1

theorem only_tcptunnel_pairing (input : ClientInput)
    (configFile productId deviceId server serverKey password : String) :
    Prog.Only (fun a => a.kind ≠ ActionKind.load ∧ a.kind ≠ ActionKind.tunnel)
      (fun _ => True)
      (tcptunnel_pairing input configFile productId deviceId server serverKey password) := by
  unfold tcptunnel_pairing
  refine only_bind (only_pairing_connect ?_ ?_ ?_ ?_ _ _ _ _ _) fun _ => ?_
  · intro a h
    rw [h]
    exact ⟨by decide, by decide⟩
  · intro a h
    rw [h]
    exact ⟨by decide, by decide⟩
  · exact fun _ => trivial
  · exact trivial
  refine only_bind (only_pairing_prompt ?_ ?_ ?_ ?_ _ _) fun _ => ?_
  · intro a h
    rw [h]
    exact ⟨by decide, by decide⟩
  · intro a h
    rw [h]
    exact ⟨by decide, by decide⟩
  · exact trivial
  · exact trivial
  refine only_bind (only_pairing_request ?_ ?_ ?_ _ _) fun _ => ?_
  · intro a h
    rw [h]
    exact ⟨by decide, by decide⟩
  · exact fun _ => trivial
  · exact trivial
  refine only_pairing_conclude _ _ _ ?_ ?_ ?_ ?_ ?_ ?_ ?_
  · intro a h
    rw [h]
    exact ⟨by decide, by decide⟩
  · intro a h
    rw [h]
    exact ⟨by decide, by decide⟩
  · exact ⟨fun h => (by cases h), fun h => (by cases h)⟩
  · exact fun _ => trivial
  · exact trivial
  · exact trivial
  · exact trivial

theorem only_main_pairing (input : ClientInput) (result : ParseResult)
    (hhelp : result.help = 0) (hpp : result.password_pairing ≠ 0) :
    Prog.Only (fun a => a.kind ≠ ActionKind.load ∧ a.kind ≠ ActionKind.tunnel) (fun _ => True)
      (main input result) := by
  unfold main
  simp only [hhelp, hpp, ne_eq, not_true_eq_false, not_false_eq_true, if_true, if_false]
  refine only_bind (only_pure _ _ _) fun _ => ?_
  refine only_bind (only_tryCatch ?_ ?_) fun _ => only_pure _ _ _
  · refine only_bind (only_lift _ (fun e => Or.inl trivial) _) fun _ => ?_
    refine only_bind (only_lift _ (fun e => Or.inl trivial) _) fun _ => ?_
    refine only_bind (only_lift _ (fun e => Or.inl trivial) _) fun _ => ?_
    refine only_bind (only_lift _ (fun e => Or.inl trivial) _) fun _ => ?_
    refine only_bind (only_lift _ (fun e => Or.inl trivial) _) fun _ => ?_
    intro t
    obtain ⟨es, htr, hes, -⟩ := only_tcptunnel_pairing input result.config _ _ _ _ _ t
    exact ⟨es, htr, hes, fun _ _ => Or.inl trivial⟩
  · intro e
    refine only_bind (only_act _ ⟨by decide, by decide⟩) fun _ => ?_
    refine only_bind (only_act _ ⟨by decide, by decide⟩) fun _ => ?_
    exact only_exit _ trivial

theorem main_help (input : ClientInput) (result : ParseResult) (h : result.help ≠ 0) :
    (main input result).run =
      ([ClientAction.cout "options.help()"], Except.error (Stop.exit 0)) := by
  simp [main, Prog.run, bind_apply, Prog.bind, Prog.act, Prog.exit, Prog.stop, h]

theorem main_no_mode (input : ClientInput) (result : ParseResult) (h : result.help = 0)
    (h1 : result.password_pairing = 0) (h2 : result.tcptunnel = 0) :
    (main input result).run =
      ([ClientAction.cout "Missing mode option", ClientAction.cout "options.help()"],
        Except.error (Stop.exit 1)) := by
  simp [main, Prog.run, bind_apply, Prog.bind, Prog.act, Prog.exit, Prog.stop, pure_apply, h,
    h1, h2]

theorem main_pairing_first (input : ClientInput) (result : ParseResult)
    (hpp : result.password_pairing ≠ 0) :
    main input result = main input { result with tcptunnel := 0 } := by
  simp [main, hpp]

theorem main_pairing_missing (input : ClientInput) (result : ParseResult)
    (hhelp : result.help = 0) (hpp : result.password_pairing ≠ 0)
    (hmissing : result.product = none ∨ result.device = none ∨ result.server = none ∨
      result.server_key = none ∨ result.password = none) :
    (main input result).run =
      ([ClientAction.cout "Missing required option", ClientAction.cout "options.help()"],
        Except.error (Stop.exit 1)) := by
  unfold main Prog.run
  simp only [hhelp, hpp, ne_eq, not_true_eq_false, not_false_eq_true, if_true, if_false]
  cases hp : result.product <;> cases hd : result.device <;> cases hs : result.server <;>
    cases hk : result.server_key <;> cases hw : result.password <;>
    simp [hp, hd, hs, hk, hw] at hmissing <;>
    simp [as_string, Prog.lift, Prog.raise, Prog.stop, Prog.tryCatch, bind_apply, Prog.bind,
      Prog.act, Prog.exit, Prog.pure, pure_apply]

theorem main_pairing_run (input : ClientInput) (result : ParseResult)
    (product device server server_key password : String)
    (hhelp : result.help = 0) (hpp : result.password_pairing ≠ 0)
    (hp : result.product = some product) (hd : result.device = some device)
    (hs : result.server = some server) (hk : result.server_key = some server_key)
    (hw : result.password = some password) :
    (main input result).run =
      match (tcptunnel_pairing input result.config product device server server_key
        password).run with
      | (t, Except.error (Stop.threw _)) =>
        (t ++ [ClientAction.cout "Missing required option", ClientAction.cout "options.help()"],
          Except.error (Stop.exit 1))
      | (t, Except.error s) => (t, Except.error s)
      | (t, Except.ok _) => (t, Except.ok 0) := by
  unfold main Prog.run
  simp only [hhelp, hpp, hp, hd, hs, hk, hw, ne_eq, not_true_eq_false, not_false_eq_true,
    if_true, if_false]
  cases hres : tcptunnel_pairing input result.config product device server server_key
      password [] with
  | mk t res =>
    cases res with
    | ok u =>
      simp [as_string, Prog.lift, Prog.tryCatch, bind_apply, Prog.bind, Prog.pure, pure_apply,
        hres]
    | error s =>
      cases s <;>
        simp [as_string, Prog.lift, Prog.tryCatch, bind_apply, Prog.bind, Prog.pure, pure_apply,
          Prog.act, Prog.exit, Prog.stop, hres]

theorem main_tunnel_run (input : ClientInput) (result : ParseResult)
    (hhelp : result.help = 0) (hpp : result.password_pairing = 0)
    (ht : result.tcptunnel ≠ 0) :
    (main input result).run =
      match (tcptunnel input result.config result.local_port result.remote_host
        result.remote_port).run with
      | (t, Except.error (Stop.threw e)) =>
        (t ++ [ClientAction.cout e.what], Except.error (Stop.exit 1))
      | (t, Except.error s) => (t, Except.error s)
      | (t, Except.ok _) => (t, Except.ok 0) := by
  unfold main Prog.run
  simp only [hhelp, hpp, ht, ne_eq, not_true_eq_false, not_false_eq_true, if_true, if_false]
  cases hres : tcptunnel input result.config result.local_port result.remote_host
      result.remote_port [] with
  | mk t res =>
    cases res with
    | ok u =>
      simp [Prog.tryCatch, bind_apply, Prog.bind, Prog.pure, pure_apply, hres]
    | error s =>
      cases s <;>
        simp [Prog.tryCatch, bind_apply, Prog.bind, Prog.pure, pure_apply, Prog.act, Prog.exit,
          Prog.stop, hres]

theorem init_exists (input : DeviceInput) (configFile productId deviceId server : String)
    (h : input.json_config_exists configFile = true) :
    (init_tcptunnel input configFile productId deviceId server).run =
      ([DeviceAction.json_config_exists configFile,
          DeviceAction.cerr
            ("The config already file exists, remove " ++ configFile ++ " and try again")],
        Except.error (Stop.exit 2)) := by
  simp [init_tcptunnel, Prog.run, bind_apply, Prog.bind, Prog.act, Prog.exit, Prog.stop, h]

theorem init_key_fails (input : DeviceInput) (configFile productId deviceId server : String)
    (h : input.json_config_exists configFile = false)
    (hec : input.ec DeviceCall.create_private_key ≠ 0) :
    (init_tcptunnel input configFile productId deviceId server).run =
      match input.private_key with
      | none =>
        ([DeviceAction.json_config_exists configFile, DeviceAction.device_new,
            DeviceAction.call DeviceCall.create_private_key Json.null,
            DeviceAction.std_string DeviceCall.create_private_key none],
          Except.error Stop.fault)
      | some key =>
        ([DeviceAction.json_config_exists configFile, DeviceAction.device_new,
            DeviceAction.call DeviceCall.create_private_key Json.null,
            DeviceAction.std_string DeviceCall.create_private_key (some key),
            DeviceAction.cerr "Error creating private key"],
          Except.ok false) := by
  cases hk : input.private_key <;>
    simp [init_tcptunnel, std_string, Prog.run, bind_apply, Prog.bind, Prog.act, Prog.exit,
      Prog.stop, pure_apply, h, hec, hk]

theorem only_bind_of {A α β : Type} {P : A → Prop} {Q : Stop → Prop} {m : Prog A α}
    {f : α → Prog A β} (hm : Prog.Only P Q m)
    (hf : ∀ a, (∃ t t1, m t = (t1, Except.ok a)) → Prog.Only P Q (f a)) :
    Prog.Only P Q (m >>= f) := by
  intro t
  obtain ⟨es, htr, hes, hstop⟩ := hm t
  cases hres : m t with
  | mk t1 res =>
    rw [hres] at htr hstop
    cases res with
    | error s =>
      rw [bind_of_error hres]
      refine ⟨es, htr, hes, ?_⟩
      intro s1 h
      cases h
      exact hstop _ rfl
    | ok a =>
      rw [bind_of_ok hres]
      obtain ⟨es1, htr1, hes1, hstop1⟩ := hf a ⟨t, t1, hres⟩ t1
      refine ⟨es ++ es1, ?_, ?_, hstop1⟩
      · rw [htr1]
        dsimp only at htr
        rw [htr, List.append_assoc]
      · intro b hb
        rcases List.mem_append.mp hb with hb | hb
        · exact hes b hb
        · exact hes1 b hb

theorem call_ok_inv {A α : Type} {r : Except NabtoException α} {a : α}
    (h : ∃ t t1 : List A, (Prog.call r : Prog A α) t = (t1, Except.ok a)) : r = Except.ok a := by
  obtain ⟨t, t1, h⟩ := h
  cases r with
  | error e => cases h
  | ok b =>
    cases h
    rfl

theorem lift_ok_inv {A α : Type} {r : Except Thrown α} {a : α}
    (h : ∃ t t1 : List A, (Prog.lift r : Prog A α) t = (t1, Except.ok a)) : r = Except.ok a := by
  obtain ⟨t, t1, h⟩ := h
  cases r with
  | error e => cases h
  | ok b =>
    cases h
    rfl

theorem std_string_ok_inv {of : DeviceCall} {pointer : Option String} {a : String}
    (h : ∃ t t1, std_string of pointer t = (t1, Except.ok a)) : pointer = some a := by
  obtain ⟨t, t1, h⟩ := h
  cases pointer with
  | none => cases h
  | some s =>
    cases h
    rfl

theorem pairing_config_eq (productId deviceId server serverKey privateKey : String) :
    pairing_config productId deviceId server serverKey privateKey =
      Except.ok (Json.object
        [("ProductId", Json.string productId), ("DeviceId", Json.string deviceId),
          ("ServerUrl", Json.string server), ("ServerKey", Json.string serverKey),
          ("PrivateKey", Json.string privateKey)]) := by
  rfl

theorem init_config_eq (privateKey productId deviceId server : String) :
    init_config privateKey productId deviceId server =
      Except.ok (Json.object
        [("PrivateKey", Json.string privateKey), ("ProductId", Json.string productId),
          ("DeviceId", Json.string deviceId), ("Server", Json.string server),
          ("Iam", defaultTcptunnelIam)]) := by
  rfl

theorem agrees_of_kind (values : ConfigField → Option String) (configFile : String)
    (config : Json) (a : ClientAction) (h1 : a.kind ≠ ActionKind.setup)
    (h2 : a.kind ≠ ActionKind.save) : a.Agrees values configFile config := by
  cases a <;> trivial

theorem only_connection_set_value {values : ConfigField → Option String} {configFile : String}
    {config : Json} (input : ClientInput) (field : ConfigField) (value : String)
    (h : values field = some value) :
    Prog.Only (ClientAction.Agrees values configFile config) (fun _ => True)
      (connection_set input field value) :=
  only_bind (only_act _ h) fun _ => only_call _ (fun _ => trivial) _

theorem createPrivateKey_ok {ec : NabtoClientError} {privateKey key : String}
    (h : ContextImpl.createPrivateKey ec privateKey = Except.ok key) : key = privateKey := by
  unfold ContextImpl.createPrivateKey at h
  by_cases hec : ec ≠ 0
  · rw [if_pos hec] at h
    cases h
  · rw [if_neg hec] at h
    cases h
    rfl

theorem only_pairing_connect_values (input : ClientInput)
    (configFile productId deviceId server serverKey : String) (config : Json) :
    Prog.Only
      (ClientAction.Agrees
        (clientValues productId deviceId server serverKey input.create_private_key.2)
        configFile config)
      (fun _ => True) (pairing_connect input productId deviceId server serverKey) := by
  unfold pairing_connect
  refine only_bind (only_act _ trivial) fun _ => ?_
  refine only_bind (only_act _ trivial) fun _ => ?_
  refine only_bind (only_act _ trivial) fun _ => ?_
  refine only_bind (only_connection_set_value _ _ _ rfl) fun _ => ?_
  refine only_bind (only_connection_set_value _ _ _ rfl) fun _ => ?_
  refine only_bind (only_connection_set_value _ _ _ rfl) fun _ => ?_
  refine only_bind (only_connection_set_value _ _ _ rfl) fun _ => ?_
  refine only_bind (only_act _ trivial) fun _ => ?_
  refine only_bind_of (only_call _ (fun _ => trivial) _) fun key hkey => ?_
  have hk := createPrivateKey_ok (call_ok_inv hkey)
  rw [hk]
  refine only_bind (only_connection_set_value _ _ _ rfl) fun _ => ?_
  refine only_bind (only_lift _ (fun _ => trivial) _) fun _ => ?_
  refine only_bind (only_tryCatch ?_ ?_) fun _ => ?_
  · exact only_bind (only_act _ trivial) fun _ => only_call _ (fun e => Or.inl trivial) _
  · intro e
    exact only_bind (only_act _ trivial) fun _ => only_exit _ trivial
  refine only_bind (only_act _ trivial) fun _ => ?_
  refine only_bind (only_call _ (fun _ => trivial) _) fun _ => ?_
  refine only_bind (only_act _ trivial) fun _ => ?_
  refine only_bind (only_act _ trivial) fun _ => ?_
  exact only_pure _ _ _

theorem bind_ok_inv {A α β : Type} {m : Prog A α} {f : α → Prog A β} {t t2 : List A} {b : β}
    (h : (m >>= f) t = (t2, Except.ok b)) :
    ∃ t1 a, m t = (t1, Except.ok a) ∧ f a t1 = (t2, Except.ok b) := by
  cases hres : m t with
  | mk t1 res =>
    cases res with
    | error s =>
      rw [bind_of_error hres] at h
      cases h
    | ok a =>
      rw [bind_of_ok hres] at h
      exact ⟨t1, a, rfl, h⟩

theorem pairing_connect_value (input : ClientInput)
    (productId deviceId server serverKey : String) (config : Json)
    (h : ∃ t t1, pairing_connect input productId deviceId server serverKey t =
      (t1, Except.ok config)) :
    config = clientConfig productId deviceId server serverKey input.create_private_key.2 := by
  obtain ⟨t, t1, h⟩ := h
  unfold pairing_connect at h
  obtain ⟨_, _, -, h⟩ := bind_ok_inv h
  obtain ⟨_, _, -, h⟩ := bind_ok_inv h
  obtain ⟨_, _, -, h⟩ := bind_ok_inv h
  obtain ⟨_, _, -, h⟩ := bind_ok_inv h
  obtain ⟨_, _, -, h⟩ := bind_ok_inv h
  obtain ⟨_, _, -, h⟩ := bind_ok_inv h
  obtain ⟨_, _, -, h⟩ := bind_ok_inv h
  obtain ⟨_, _, -, h⟩ := bind_ok_inv h
  obtain ⟨t2, key, hkey, h⟩ := bind_ok_inv h
  have hk := createPrivateKey_ok (call_ok_inv ⟨_, _, hkey⟩)
  obtain ⟨_, _, -, h⟩ := bind_ok_inv h
  obtain ⟨t3, config1, hcfg, h⟩ := bind_ok_inv h
  have hc := lift_ok_inv ⟨_, _, hcfg⟩
  obtain ⟨_, _, -, h⟩ := bind_ok_inv h
  obtain ⟨_, _, -, h⟩ := bind_ok_inv h
  obtain ⟨_, _, -, h⟩ := bind_ok_inv h
  obtain ⟨_, _, -, h⟩ := bind_ok_inv h
  obtain ⟨_, _, -, h⟩ := bind_ok_inv h
  cases h
  rw [hk, pairing_config_eq] at hc
  cases hc
  rfl

theorem only_pairing_values (input : ClientInput)
    (configFile productId deviceId server serverKey password : String) :
    Prog.Only
      (ClientAction.Agrees
        (clientValues productId deviceId server serverKey input.create_private_key.2)
        configFile
        (clientConfig productId deviceId server serverKey input.create_private_key.2))
      (fun _ => True)
      (tcptunnel_pairing input configFile productId deviceId server serverKey password) := by
  unfold tcptunnel_pairing
  refine only_bind_of (only_pairing_connect_values _ _ _ _ _ _ _) fun config hconfig => ?_
  rw [pairing_connect_value input productId deviceId server serverKey config hconfig]
  refine only_bind (only_pairing_prompt ?_ ?_ trivial trivial _ _) fun _ => ?_
  · intro a h
    exact agrees_of_kind _ _ _ a (by rw [h]; decide) (by rw [h]; decide)
  · intro a h
    exact agrees_of_kind _ _ _ a (by rw [h]; decide) (by rw [h]; decide)
  refine only_bind (only_pairing_request ?_ (fun _ => trivial) trivial _ _) fun _ => ?_
  · intro a h
    exact agrees_of_kind _ _ _ a (by rw [h]; decide) (by rw [h]; decide)
  refine only_pairing_conclude _ _ _ ?_ ?_ ⟨rfl, rfl⟩ (fun _ => trivial) trivial trivial trivial
  · intro a h
    exact agrees_of_kind _ _ _ a (by rw [h]; decide) (by rw [h]; decide)
  · intro a h
    exact agrees_of_kind _ _ _ a (by rw [h]; decide) (by rw [h]; decide)

theorem only_createConnection_values (input : ClientInput)
    (configFile productId deviceId server serverKey privateKey : String)
    (file : String) (saved : Json)
    (hload : input.json_config_load configFile =
      some (clientConfig productId deviceId server serverKey privateKey)) :
    Prog.Only
      (ClientAction.Agrees (clientValues productId deviceId server serverKey privateKey) file
        saved)
      (fun _ => True) (createConnection input configFile) := by
  unfold createConnection
  rw [hload]
  refine only_bind (only_act _ trivial) fun _ => ?_
  refine only_bind (only_act _ trivial) fun _ => ?_
  refine only_bind (only_act _ trivial) fun _ => ?_
  refine only_bind (only_act _ trivial) fun _ => ?_
  refine only_bind_of (only_lift _ (fun _ => trivial) _) fun v hv => ?_
  have h1 : Except.ok productId = Except.ok v := lift_ok_inv hv
  cases h1
  refine only_bind (only_connection_set_value _ _ _ rfl) fun _ => ?_
  refine only_bind_of (only_lift _ (fun _ => trivial) _) fun v hv => ?_
  have h2 : Except.ok deviceId = Except.ok v := lift_ok_inv hv
  cases h2
  refine only_bind (only_connection_set_value _ _ _ rfl) fun _ => ?_
  refine only_bind_of (only_lift _ (fun _ => trivial) _) fun v hv => ?_
  have h3 : Except.ok server = Except.ok v := lift_ok_inv hv
  cases h3
  refine only_bind (only_connection_set_value _ _ _ rfl) fun _ => ?_
  refine only_bind_of (only_lift _ (fun _ => trivial) _) fun v hv => ?_
  have h4 : Except.ok serverKey = Except.ok v := lift_ok_inv hv
  cases h4
  refine only_bind (only_connection_set_value _ _ _ rfl) fun _ => ?_
  refine only_bind_of (only_lift _ (fun _ => trivial) _) fun v hv => ?_
  have h5 : Except.ok privateKey = Except.ok v := lift_ok_inv hv
  cases h5
  refine only_bind (only_connection_set_value _ _ _ rfl) fun _ => ?_
  refine only_tryCatch ?_ ?_
  · exact only_bind (only_act _ trivial) fun _ => only_call _ (fun e => Or.inl trivial) _
  · intro e
    exact only_bind (only_act _ trivial) fun _ => only_exit _ trivial

theorem only_std_string {P : DeviceAction → Prop} (of : DeviceCall) (pointer : Option String)
    (hP : P (DeviceAction.std_string of pointer)) :
    Prog.Only P (fun _ => True) (std_string of pointer) := by
  unfold std_string
  refine only_bind (only_act _ hP) fun _ => ?_
  cases pointer with
  | none => exact only_stop _ trivial
  | some s => exact only_pure _ _ _

theorem only_device_check {P : DeviceAction → Prop} (input : DeviceInput) (which : DeviceCall)
    (argument : Json) (message : String) (hP : P (DeviceAction.call which argument))
    (hcerr : P (DeviceAction.cerr message)) :
    Prog.Only P (fun _ => True) (device_check input which argument message) := by
  unfold device_check
  refine only_bind (only_act _ hP) fun _ => ?_
  by_cases h : input.ec which ≠ 0
  · rw [if_pos h]
    exact only_act _ hcerr
  · rw [if_neg h]
    exact only_pure _ _ _

theorem only_init_values (input : DeviceInput)
    (configFile productId deviceId server key : String) (hkey : input.private_key = some key) :
    Prog.Only
      (DeviceAction.Agrees (deviceValues productId deviceId server key defaultTcptunnelIam)
        configFile (deviceConfig key productId deviceId server))
      (fun _ => True) (init_tcptunnel input configFile productId deviceId server) := by
  unfold init_tcptunnel
  refine only_bind (only_act _ trivial) fun _ => ?_
  by_cases hex : input.json_config_exists configFile = true
  · rw [if_pos hex]
    exact only_bind (only_act _ trivial) fun _ => only_exit _ trivial
  rw [if_neg hex]
  refine only_bind (only_act _ trivial) fun _ => ?_
  refine only_bind (only_act _ (fun v hv => (by cases hv))) fun _ => ?_
  refine only_bind_of (only_std_string _ _ trivial) fun privateKey hp => ?_
  have hp1 := std_string_ok_inv hp
  rw [hkey] at hp1
  cases hp1
  by_cases h1 : input.ec DeviceCall.create_private_key ≠ 0
  · rw [if_pos h1]
    exact only_bind (only_act _ trivial) fun _ => only_pure _ _ _
  rw [if_neg h1]
  refine only_bind (only_act _ ?_) fun _ => ?_
  · intro v hv
    cases hv
    rfl
  by_cases h2 : input.ec DeviceCall.set_private_key ≠ 0
  · rw [if_pos h2]
    exact only_bind (only_act _ trivial) fun _ => only_pure _ _ _
  rw [if_neg h2]
  refine only_bind (only_act _ (fun v hv => (by cases hv))) fun _ => ?_
  by_cases h3 : input.ec DeviceCall.get_device_fingerprint_hex ≠ 0
  · rw [if_pos h3]
    exact only_bind (only_act _ trivial) fun _ => only_pure _ _ _
  rw [if_neg h3]
  refine only_bind (only_std_string _ _ trivial) fun _ => ?_
  refine only_bind (only_act _ trivial) fun _ => ?_
  refine only_bind (only_act _ trivial) fun _ => ?_
  refine only_bind (only_act _ trivial) fun _ => ?_
  refine only_bind (only_act _ trivial) fun _ => ?_
  refine only_bind (only_act _ ?_) fun _ => ?_
  · intro v hv
    cases hv
    rfl
  by_cases h4 : input.ec DeviceCall.iam_load ≠ 0
  · rw [if_pos h4]
    exact only_bind (only_act _ trivial) fun _ => only_pure _ _ _
  rw [if_neg h4]
  refine only_bind_of (only_lift _ (fun _ => trivial) _) fun config hconfig => ?_
  have hc := lift_ok_inv hconfig
  rw [init_config_eq] at hc
  cases hc
  refine only_bind (only_act _ ⟨rfl, rfl⟩) fun _ => ?_
  refine only_bind (only_act _ trivial) fun _ => ?_
  refine only_bind (only_act _ trivial) fun _ => ?_
  exact only_pure _ _ _

theorem only_run_values (input : DeviceInput)
    (configFile logLevel productId deviceId server key : String) (file : String)
    (saved : Json)
    (hload : input.json_config_load configFile =
      some (deviceConfig key productId deviceId server)) :
    Prog.Only
      (DeviceAction.Agrees (deviceValues productId deviceId server key defaultTcptunnelIam) file
        saved)
      (fun _ => True) (run_tcptunnel input configFile logLevel) := by
  unfold run_tcptunnel
  rw [hload]
  refine only_bind (only_act _ trivial) fun _ => ?_
  refine only_bind (only_act _ trivial) fun _ => ?_
  by_cases hdev : input.device_new = true
  swap
  · rw [if_neg hdev]
    exact only_act _ trivial
  rw [if_pos hdev]
  refine only_bind_of (only_lift _ (fun _ => trivial) _) fun v hv => ?_
  have h1 : Except.ok productId = Except.ok v := lift_ok_inv hv
  cases h1
  refine only_bind_of (only_lift _ (fun _ => trivial) _) fun v hv => ?_
  have h2 : Except.ok deviceId = Except.ok v := lift_ok_inv hv
  cases h2
  refine only_bind_of (only_lift _ (fun _ => trivial) _) fun v hv => ?_
  have h3 : Except.ok server = Except.ok v := lift_ok_inv hv
  cases h3
  refine only_bind_of (only_lift _ (fun _ => trivial) _) fun v hv => ?_
  have h4 : Except.ok key = Except.ok v := lift_ok_inv hv
  cases h4
  refine only_bind_of (only_lift _ (fun _ => trivial) _) fun v hv => ?_
  have h5 : Except.ok defaultTcptunnelIam = Except.ok v := lift_ok_inv hv
  cases h5
  refine only_bind (only_device_check _ _ _ _ (fun v hv => (by cases hv; rfl)) trivial)
    fun _ => ?_
  refine only_bind (only_device_check _ _ _ _ (fun v hv => (by cases hv; rfl)) trivial)
    fun _ => ?_
  refine only_bind (only_device_check _ _ _ _ (fun v hv => (by cases hv; rfl)) trivial)
    fun _ => ?_
  refine only_bind (only_device_check _ _ _ _ (fun v hv => (by cases hv; rfl)) trivial)
    fun _ => ?_
  refine only_bind (only_device_check _ _ _ _ (fun v hv => (by cases hv; rfl)) trivial)
    fun _ => ?_
  refine only_bind (only_device_check _ _ _ _ (fun v hv => (by cases hv)) trivial) fun _ => ?_
  refine only_bind (only_device_check _ _ _ _ (fun v hv => (by cases hv)) trivial) fun _ => ?_
  refine only_bind (only_device_check _ _ _ _ (fun v hv => (by cases hv)) trivial) fun _ => ?_
  refine only_bind (only_device_check _ _ _ _ (fun v hv => (by cases hv)) trivial) fun _ => ?_
  refine only_bind (only_pure _ _ ()) fun _ => ?_
  refine only_bind (only_act _ (fun v hv => (by cases hv))) fun _ => ?_
  by_cases hstart : input.ec DeviceCall.start ≠ input.NABTO_DEVICE_EC_OK
  · rw [if_pos hstart]
    exact only_bind (only_act _ trivial) fun _ => only_act _ trivial
  rw [if_neg hstart]
  refine only_bind (only_act _ (fun v hv => (by cases hv))) fun _ => ?_
  refine only_bind ?_ fun _ => ?_
  · by_cases hfp : input.ec DeviceCall.get_device_fingerprint_hex ≠ 0
    · rw [if_pos hfp]
      exact only_act _ trivial
    · rw [if_neg hfp]
      exact only_pure _ _ _
  refine only_bind (only_std_string _ _ trivial) fun _ => ?_
  refine only_bind (only_act _ trivial) fun _ => ?_
  refine only_bind (only_act _ trivial) fun _ => ?_
  refine only_bind (only_act _ trivial) fun _ => ?_
  refine only_bind (only_act _ trivial) fun _ => ?_
  by_cases hint : input.interrupted = true
  · rw [if_pos hint]
    refine only_bind (only_act _ trivial) fun _ => ?_
    refine only_bind (only_act _ trivial) fun _ => ?_
    refine only_bind (only_act _ trivial) fun _ => ?_
    exact only_act _ trivial
  · rw [if_neg hint]
    exact only_stop _ trivial

theorem settings_append (t es : List ClientAction) :
    settings (t ++ es) = settings t ++ settings es := by
  unfold settings
  exact List.filterMap_append _ _ _

theorem settings_eq_nil (es : List ClientAction)
    (h : ∀ a ∈ es, a.kind ≠ ActionKind.setup) : settings es = [] := by
  induction es with
  | nil => rfl
  | cons a es ih =>
    have ha := h a (List.mem_cons_self _ _)
    have ih1 := ih fun b hb => h b (List.mem_cons_of_mem _ hb)
    cases a <;> first | exact ih1 | exact absurd rfl ha

theorem act_ok_inv {A : Type} {a : A} {t t1 : List A} {u : Unit}
    (h : Prog.act a t = (t1, Except.ok u)) : t1 = t ++ [a] := by
  cases h
  rfl

theorem call_ok_trace {A α : Type} {r : Except NabtoException α} {a : α} {t t1 : List A}
    (h : (Prog.call r : Prog A α) t = (t1, Except.ok a)) : t1 = t := by
  cases r with
  | error e => cases h
  | ok b =>
    cases h
    rfl

theorem lift_ok_trace {A α : Type} {r : Except Thrown α} {a : α} {t t1 : List A}
    (h : (Prog.lift r : Prog A α) t = (t1, Except.ok a)) : t1 = t := by
  cases r with
  | error e => cases h
  | ok b =>
    cases h
    rfl

theorem connection_set_ok_inv {input : ClientInput} {field : ConfigField} {value : String}
    {t t1 : List ClientAction} {u : Unit}
    (h : connection_set input field value t = (t1, Except.ok u)) :
    t1 = t ++ [ClientAction.set field value] := by
  unfold connection_set at h
  obtain ⟨ta, _, h1, h2⟩ := bind_ok_inv h
  rw [call_ok_trace h2, act_ok_inv h1]

theorem tryCatch_ok_inv {A α : Type} {m : Prog A α} {handler : Thrown → Prog A α}
    {t t1 : List A} {a : α} (hh : ∀ e t t1 a, handler e t ≠ (t1, Except.ok a))
    (h : Prog.tryCatch m handler t = (t1, Except.ok a)) : m t = (t1, Except.ok a) := by
  unfold Prog.tryCatch at h
  cases hm : m t with
  | mk t2 res =>
    rw [hm] at h
    cases res with
    | ok b => exact h
    | error s =>
      cases s with
      | threw e => exact absurd h (hh e _ _ _)
      | exit st => exact h
      | fault => exact h
      | blocked => exact h
      | endless => exact h

theorem act_exit_ne_ok {A α : Type} (a : A) (status : Int) (t t1 : List A) (x : α) :
    (Prog.act a >>= fun _ => (Prog.exit status : Prog A α)) t ≠ (t1, Except.ok x) := by
  intro h
  obtain ⟨_, _, -, h2⟩ := bind_ok_inv h
  have h3 := congrArg Prod.snd h2
  cases h3

theorem pairing_connect_settings (input : ClientInput)
    (productId deviceId server serverKey : String) (config : Json) (t t1 : List ClientAction)
    (h : pairing_connect input productId deviceId server serverKey t = (t1, Except.ok config)) :
    settings t1 = settings t ++
      [(ConfigField.productId, productId), (ConfigField.deviceId, deviceId),
        (ConfigField.serverUrl, server), (ConfigField.serverKey, serverKey),
        (ConfigField.privateKey, input.create_private_key.2)] := by
  unfold pairing_connect at h
  obtain ⟨ta, _, h1, h⟩ := bind_ok_inv h
  obtain ⟨tb, _, h2, h⟩ := bind_ok_inv h
  obtain ⟨tc, _, h3, h⟩ := bind_ok_inv h
  obtain ⟨td, _, h4, h⟩ := bind_ok_inv h
  obtain ⟨te, _, h5, h⟩ := bind_ok_inv h
  obtain ⟨tf, _, h6, h⟩ := bind_ok_inv h
  obtain ⟨tg, _, h7, h⟩ := bind_ok_inv h
  obtain ⟨th, _, h8, h⟩ := bind_ok_inv h
  obtain ⟨ti, key, hkey, h⟩ := bind_ok_inv h
  have hk := createPrivateKey_ok (call_ok_inv ⟨_, _, hkey⟩)
  obtain ⟨tj, _, h10, h⟩ := bind_ok_inv h
  obtain ⟨tk, config1, hcfg, h⟩ := bind_ok_inv h
  obtain ⟨tl, _, h12, h⟩ := bind_ok_inv h
  obtain ⟨tm, _, h13, h⟩ := bind_ok_inv h
  obtain ⟨tn, _, h14, h⟩ := bind_ok_inv h
  obtain ⟨tr, _, h15, h⟩ := bind_ok_inv h
  obtain ⟨tp, _, h16, h⟩ := bind_ok_inv h
  cases h
  have h12a := tryCatch_ok_inv (fun e t t1 a => act_exit_ne_ok _ _ t t1 a) h12
  obtain ⟨tq, _, h12b, h12c⟩ := bind_ok_inv h12a
  rw [act_ok_inv h16, act_ok_inv h15, call_ok_trace h14, act_ok_inv h13, call_ok_trace h12c,
    act_ok_inv h12b, lift_ok_trace hcfg, connection_set_ok_inv h10, call_ok_trace hkey,
    act_ok_inv h8, connection_set_ok_inv h7, connection_set_ok_inv h6,
    connection_set_ok_inv h5, connection_set_ok_inv h4, act_ok_inv h3, act_ok_inv h2,
    act_ok_inv h1, hk]
  simp [settings, List.filterMap_append]

theorem pairing_settings (input : ClientInput)
    (configFile productId deviceId server serverKey password : String) (file : String)
    (c : Json)
    (h : ClientAction.json_config_save file c ∈
      (tcptunnel_pairing input configFile productId deviceId server serverKey password).run.1) :
    settings
        (tcptunnel_pairing input configFile productId deviceId server serverKey password).run.1 =
      [(ConfigField.productId, productId), (ConfigField.deviceId, deviceId),
        (ConfigField.serverUrl, server), (ConfigField.serverKey, serverKey),
        (ConfigField.privateKey, input.create_private_key.2)] := by
  unfold tcptunnel_pairing Prog.run at h ⊢
  cases hres1 : pairing_connect input productId deviceId server serverKey [] with
  | mk t1 res1 =>
    cases res1 with
    | error s =>
      rw [bind_of_error hres1] at h
      obtain ⟨es1, h1tr, h1es, -⟩ :=
        only_pairing_connect
          (P := fun a => a.kind = ActionKind.output ∨ a.kind = ActionKind.setup)
          (Q := fun _ => True)
          (fun _ h => Or.inl h) (fun _ h => Or.inr h) (fun _ => trivial) trivial
          input productId deviceId server serverKey []
      rw [hres1] at h1tr
      dsimp only at h1tr h
      rw [h1tr, List.nil_append] at h
      rcases h1es _ h with hk | hk <;> cases hk
    | ok config =>
      rw [bind_of_ok hres1]
      have hrest : Prog.Only (fun a => a.kind ≠ ActionKind.setup) (fun _ => True)
          (pairing_prompt input.uninitialised input.answers >>= fun _ =>
            pairing_request input password >>= fun _ =>
              pairing_conclude input configFile config) := by
        refine only_bind (only_pairing_prompt ?_ ?_ trivial trivial _ _) fun _ => ?_
        · intro a h
          rw [h]
          decide
        · intro a h
          rw [h]
          decide
        refine only_bind (only_pairing_request ?_ (fun _ => trivial) trivial _ _) fun _ => ?_
        · intro a h
          rw [h]
          decide
        refine only_pairing_conclude _ _ _ ?_ ?_ ?_ (fun _ => trivial) trivial trivial trivial
        · intro a h
          rw [h]
          decide
        · intro a h
          rw [h]
          decide
        · intro h
          cases h
      obtain ⟨es, htr, hes, -⟩ := hrest t1
      have hs := pairing_connect_settings input productId deviceId server serverKey config []
        t1 hres1
      rw [htr, settings_append, settings_eq_nil es hes, hs]
      rfl

theorem act_apply {A : Type} (a : A) (t : List A) :
    Prog.act a t = (t ++ [a], Except.ok ()) := rfl

theorem lift_ok_apply {A α : Type} (a : α) (t : List A) :
    (Prog.lift (Except.ok a) : Prog A α) t = (t, Except.ok a) := rfl

theorem set_ok (field : ConfigField) : ConnectionImpl.set field 0 = Except.ok () := by
  cases field <;> rfl

theorem connection_set_apply (input : ClientInput) (field : ConfigField) (value : String)
    (t : List ClientAction) (h : input.set field = 0) :
    connection_set input field value t = (t ++ [ClientAction.set field value], Except.ok ()) := by
  unfold connection_set
  rw [h, set_ok]
  rfl

theorem createConnection_settings (input : ClientInput)
    (configFile productId deviceId server serverKey privateKey : String)
    (hload : input.json_config_load configFile =
      some (clientConfig productId deviceId server serverKey privateKey))
    (hset : ∀ field, input.set field = 0) :
    settings (createConnection input configFile).run.1 =
      [(ConfigField.productId, productId), (ConfigField.deviceId, deviceId),
        (ConfigField.serverUrl, server), (ConfigField.serverKey, serverKey),
        (ConfigField.privateKey, privateKey)] := by
  have h1 : (clientConfig productId deviceId server serverKey privateKey).string_at
      "ProductId" = Except.ok productId := rfl
  have h2 : (clientConfig productId deviceId server serverKey privateKey).string_at
      "DeviceId" = Except.ok deviceId := rfl
  have h3 : (clientConfig productId deviceId server serverKey privateKey).string_at
      "ServerUrl" = Except.ok server := rfl
  have h4 : (clientConfig productId deviceId server serverKey privateKey).string_at
      "ServerKey" = Except.ok serverKey := rfl
  have h5 : (clientConfig productId deviceId server serverKey privateKey).string_at
      "PrivateKey" = Except.ok privateKey := rfl
  unfold createConnection Prog.run
  rw [hload]
  simp only [h1, h2, h3, h4, h5]
  rw [bind_of_ok (act_apply _ _), bind_of_ok (act_apply _ _), bind_of_ok (act_apply _ _),
    bind_of_ok (act_apply _ _), bind_of_ok (lift_ok_apply _ _),
    bind_of_ok (connection_set_apply input _ _ _ (hset _)), bind_of_ok (lift_ok_apply _ _),
    bind_of_ok (connection_set_apply input _ _ _ (hset _)), bind_of_ok (lift_ok_apply _ _),
    bind_of_ok (connection_set_apply input _ _ _ (hset _)), bind_of_ok (lift_ok_apply _ _),
    bind_of_ok (connection_set_apply input _ _ _ (hset _)), bind_of_ok (lift_ok_apply _ _),
    bind_of_ok (connection_set_apply input _ _ _ (hset _))]
  have htail : Prog.Only (fun a : ClientAction => a.kind ≠ ActionKind.setup ∨ a = ClientAction.connect)
      (fun _ => True)
      (Prog.tryCatch
        (do
          Prog.act ClientAction.connect
          Prog.call (FutureVoidImpl.waitForResult input.connect))
        (fun e => do
          Prog.act (ClientAction.cerr ("Connect failed" ++ e.what))
          Prog.exit 1)) := by
    refine only_tryCatch ?_ ?_
    · exact only_bind (only_act _ (Or.inr rfl)) fun _ => only_call _ (fun e => Or.inl trivial) _
    · intro e
      exact only_bind (only_act _ (Or.inl (fun h => (by cases h)))) fun _ =>
        only_exit _ trivial
  obtain ⟨es, htr, hes, -⟩ := htail
    ([] ++ [ClientAction.json_config_load configFile] ++ [ClientAction.context_create] ++
      [ClientAction.set_logger] ++ [ClientAction.create_connection] ++
      [ClientAction.set ConfigField.productId productId] ++
      [ClientAction.set ConfigField.deviceId deviceId] ++
      [ClientAction.set ConfigField.serverUrl server] ++
      [ClientAction.set ConfigField.serverKey serverKey] ++
      [ClientAction.set ConfigField.privateKey privateKey])
  rw [htr, settings_append]
  have hes1 : settings es = [] := by
    unfold settings
    rw [List.filterMap_eq_nil_iff]
    intro a ha
    rcases hes a ha with hk | hk
    · cases a <;> first | rfl | exact absurd rfl hk
    · rw [hk]
  rw [hes1]
  rfl

theorem pairing_exit_saves (input : ClientInput)
    (configFile productId deviceId server serverKey password : String)
    (h : (tcptunnel_pairing input configFile productId deviceId server serverKey password).run.2 =
      Except.error (Stop.exit 0)) :
    ClientAction.json_config_save configFile
        (clientConfig productId deviceId server serverKey input.create_private_key.2) ∈
      (tcptunnel_pairing input configFile productId deviceId server serverKey password).run.1 := by
  rcases pairing_cases input configFile productId deviceId server serverKey password with
    ⟨st, hst, hkind, -, -⟩ | ⟨t, config, hrun, -, -⟩
  · rw [hst] at h
    cases h
    rcases hkind with h1 | h1 | h1 | ⟨e, h1⟩ <;> simp at h1
  · by_cases hcode : CoapImpl.getResponseStatusCode input.status_code.1
        input.status_code.2 = Except.ok 205
    · have hc := conclude_paired input configFile config t hcode
      have hmem : ClientAction.json_config_save configFile config ∈
          (tcptunnel_pairing input configFile productId deviceId server serverKey
            password).run.1 := by
        rw [hrun, hc]
        simp
      have hag := only_mem
        (only_pairing_values input configFile productId deviceId server serverKey password)
        _ hmem
      have hcfg : config =
          clientConfig productId deviceId server serverKey input.create_private_key.2 := hag.2
      rw [← hcfg]
      exact hmem
    · obtain ⟨es, -, -, hstop⟩ := conclude_refused input configFile config hcode t
      rw [hrun] at h
      rcases hstop _ h with h1 | h1 | ⟨e, h1⟩ <;> simp at h1

theorem init_cases (input : DeviceInput) (configFile productId deviceId server : String) :
    ((∀ file c, DeviceAction.json_config_save file c ∉
          (init_tcptunnel input configFile productId deviceId server).run.1) ∧
        (init_tcptunnel input configFile productId deviceId server).run.2 ≠ Except.ok true) ∨
    (∃ key fp, input.private_key = some key ∧ input.fingerprint = some fp ∧
      (init_tcptunnel input configFile productId deviceId server).run =
        ([DeviceAction.json_config_exists configFile, DeviceAction.device_new,
            DeviceAction.call DeviceCall.create_private_key Json.null,
            DeviceAction.std_string DeviceCall.create_private_key (some key),
            DeviceAction.call DeviceCall.set_private_key (Json.string key),
            DeviceAction.call DeviceCall.get_device_fingerprint_hex Json.null,
            DeviceAction.std_string DeviceCall.get_device_fingerprint_hex (some fp),
            DeviceAction.cout ("Created new private key with fingerprint: " ++ fp),
            DeviceAction.string_free, DeviceAction.string_free, DeviceAction.cout "iam size",
            DeviceAction.call DeviceCall.iam_load defaultTcptunnelIam,
            DeviceAction.json_config_save configFile
              (deviceConfig key productId deviceId server),
            DeviceAction.close, DeviceAction.device_free],
          Except.ok true)) := by
  by_cases hex : input.json_config_exists configFile = true
  · left
    simp [init_tcptunnel, Prog.run, bind_apply, Prog.bind, Prog.act, Prog.exit, Prog.stop, hex]
  cases hk : input.private_key with
  | none =>
    left
    simp [init_tcptunnel, std_string, Prog.run, bind_apply, Prog.bind, Prog.act, Prog.exit,
      Prog.stop, pure_apply, hex, hk]
  | some key =>
    by_cases h1 : input.ec DeviceCall.create_private_key = 0
    swap
    · left
      simp [init_tcptunnel, std_string, Prog.run, bind_apply, Prog.bind, Prog.act, Prog.exit,
        Prog.stop, pure_apply, hex, hk, h1]
    by_cases h2 : input.ec DeviceCall.set_private_key = 0
    swap
    · left
      simp [init_tcptunnel, std_string, Prog.run, bind_apply, Prog.bind, Prog.act, Prog.exit,
        Prog.stop, pure_apply, hex, hk, h1, h2]
    by_cases h3 : input.ec DeviceCall.get_device_fingerprint_hex = 0
    swap
    · left
      simp [init_tcptunnel, std_string, Prog.run, bind_apply, Prog.bind, Prog.act, Prog.exit,
        Prog.stop, pure_apply, hex, hk, h1, h2, h3]
    cases hf : input.fingerprint with
    | none =>
      left
      simp [init_tcptunnel, std_string, Prog.run, bind_apply, Prog.bind, Prog.act, Prog.exit,
        Prog.stop, pure_apply, hex, hk, h1, h2, h3, hf]
    | some fp =>
      by_cases h4 : input.ec DeviceCall.iam_load = 0
      swap
      · left
        simp [init_tcptunnel, std_string, Prog.run, bind_apply, Prog.bind, Prog.act, Prog.exit,
          Prog.stop, pure_apply, hex, hk, h1, h2, h3, hf, h4]
      right
      refine ⟨key, fp, rfl, rfl, ?_⟩
      simp [init_tcptunnel, std_string, Prog.run, bind_apply, Prog.bind, Prog.act, Prog.exit,
        Prog.stop, pure_apply, hex, hk, h1, h2, h3, hf, h4, init_config_eq, Prog.lift,
        Prog.pure, deviceConfig]

theorem deviceCalls_append (t es : List DeviceAction) :
    deviceCalls (t ++ es) = deviceCalls t ++ deviceCalls es := by
  unfold deviceCalls
  exact List.filterMap_append _ _ _

theorem device_check_apply (input : DeviceInput) (which : DeviceCall) (argument : Json)
    (message : String) (t : List DeviceAction) :
    device_check input which argument message t =
      (t ++ DeviceAction.call which argument ::
          (if input.ec which ≠ 0 then [DeviceAction.cerr message] else []),
        Except.ok ()) := by
  unfold device_check
  by_cases h : input.ec which ≠ 0
  · rw [if_pos h, if_pos h]
    simp [bind_apply, Prog.bind, Prog.act]
  · rw [if_neg h, if_neg h]
    simp [bind_apply, Prog.bind, Prog.act, pure_apply]

theorem deviceCalls_check (input : DeviceInput) (which : DeviceCall) (argument : Json)
    (message : String) :
    deviceCalls (DeviceAction.call which argument ::
      (if input.ec which ≠ 0 then [DeviceAction.cerr message] else [])) =
      [(which, argument)] := by
  by_cases h : input.ec which ≠ 0
  · rw [if_pos h]
    rfl
  · rw [if_neg h]
    rfl

theorem calls_take_of_only {α : Type} {m : Prog DeviceAction α}
    (hm : Prog.Only (fun _ => True) (fun _ => True) m) (t : List DeviceAction)
    (calls : List (DeviceCall × Json)) (h : deviceCalls t = calls) :
    (deviceCalls (m t).1).take calls.length = calls := by
  obtain ⟨es, htr, -, -⟩ := hm t
  rw [htr, deviceCalls_append, h, List.take_left]

theorem run_calls (input : DeviceInput)
    (configFile logLevel productId deviceId server key : String)
    (hload : input.json_config_load configFile =
      some (deviceConfig key productId deviceId server))
    (hdev : input.device_new = true) :
    (deviceCalls (run_tcptunnel input configFile logLevel).run.1).take 5 =
      [(DeviceCall.set_product_id, Json.string productId),
        (DeviceCall.set_device_id, Json.string deviceId),
        (DeviceCall.set_server_url, Json.string server),
        (DeviceCall.set_private_key, Json.string key),
        (DeviceCall.iam_load, defaultTcptunnelIam)] := by
  have h1 : (deviceConfig key productId deviceId server).string_at "ProductId" =
      Except.ok productId := rfl
  have h2 : (deviceConfig key productId deviceId server).string_at "DeviceId" =
      Except.ok deviceId := rfl
  have h3 : (deviceConfig key productId deviceId server).string_at "Server" =
      Except.ok server := rfl
  have h4 : (deviceConfig key productId deviceId server).string_at "PrivateKey" =
      Except.ok key := rfl
  have h5 : (deviceConfig key productId deviceId server).index "Iam" =
      Except.ok defaultTcptunnelIam := rfl
  unfold run_tcptunnel Prog.run
  rw [hload]
  dsimp only
  rw [bind_of_ok (act_apply _ _), bind_of_ok (act_apply _ _), if_pos hdev]
  simp only [h1, h2, h3, h4, h5]
  rw [bind_of_ok (lift_ok_apply _ _), bind_of_ok (lift_ok_apply _ _),
    bind_of_ok (lift_ok_apply _ _), bind_of_ok (lift_ok_apply _ _),
    bind_of_ok (lift_ok_apply _ _), bind_of_ok (device_check_apply _ _ _ _ _),
    bind_of_ok (device_check_apply _ _ _ _ _), bind_of_ok (device_check_apply _ _ _ _ _),
    bind_of_ok (device_check_apply _ _ _ _ _), bind_of_ok (device_check_apply _ _ _ _ _)]
  refine calls_take_of_only ?_ _
    [(DeviceCall.set_product_id, Json.string productId),
      (DeviceCall.set_device_id, Json.string deviceId),
      (DeviceCall.set_server_url, Json.string server),
      (DeviceCall.set_private_key, Json.string key),
      (DeviceCall.iam_load, defaultTcptunnelIam)] ?_
  · refine only_bind (only_device_check _ _ _ _ trivial trivial) fun _ => ?_
    refine only_bind (only_device_check _ _ _ _ trivial trivial) fun _ => ?_
    refine only_bind (only_device_check _ _ _ _ trivial trivial) fun _ => ?_
    refine only_bind (only_device_check _ _ _ _ trivial trivial) fun _ => ?_
    refine only_bind (only_pure _ _ ()) fun _ => ?_
    refine only_bind (only_act _ trivial) fun _ => ?_
    by_cases hstart : input.ec DeviceCall.start ≠ input.NABTO_DEVICE_EC_OK
    · rw [if_pos hstart]
      exact only_bind (only_act _ trivial) fun _ => only_act _ trivial
    rw [if_neg hstart]
    refine only_bind (only_act _ trivial) fun _ => ?_
    refine only_bind ?_ fun _ => ?_
    · by_cases hfp : input.ec DeviceCall.get_device_fingerprint_hex ≠ 0
      · rw [if_pos hfp]
        exact only_act _ trivial
      · rw [if_neg hfp]
        exact only_pure _ _ _
    refine only_bind (only_std_string _ _ trivial) fun _ => ?_
    refine only_bind (only_act _ trivial) fun _ => ?_
    refine only_bind (only_act _ trivial) fun _ => ?_
    refine only_bind (only_act _ trivial) fun _ => ?_
    refine only_bind (only_act _ trivial) fun _ => ?_
    by_cases hint : input.interrupted = true
    · rw [if_pos hint]
      refine only_bind (only_act _ trivial) fun _ => ?_
      refine only_bind (only_act _ trivial) fun _ => ?_
      refine only_bind (only_act _ trivial) fun _ => ?_
      exact only_act _ trivial
    · rw [if_neg hint]
      exact only_stop _ trivial
  · simp only [deviceCalls_append, deviceCalls_check]
    rfl

/-! ## Claims -/

/-- C1: for a future wrapper of any of the three classes and whatever error
code `ec` the underlying future reports, `getResult` returns (it is defined on
every live wrapper), it throws `NabtoException(ec)` if and only if `ec` is not 0
and returns normally if and only if `ec` is 0; the same holds for
`waitForResult` once the future is resolved, so that the wait returns. -/
theorem C1_error_code_raised_iff_nonzero (w : World) (this : Nat) (o : Obj)
    (h : w.live this = some o) :
    (∃ out, getResult w this = some out ∧
      (out.1 = Except.error ⟨w.error_code o.val.future_⟩ ↔ w.error_code o.val.future_ ≠ 0) ∧
      ((∃ r, out.1 = Except.ok r) ↔ w.error_code o.val.future_ = 0)) ∧
    (w.resolved o.val.future_ = true →
      ∃ out, waitForResult w this = some out ∧
        (out.1 = Except.error ⟨w.error_code o.val.future_⟩ ↔ w.error_code o.val.future_ ≠ 0) ∧
        ((∃ r, out.1 = Except.ok r) ↔ w.error_code o.val.future_ = 0)) := by
  have key : ∀ (w1 : World) (o1 : Obj), w1.live this = some o1 →
      o1.val.future_ = o.val.future_ → w1.error_code = w.error_code →
      ∃ out, getResult w1 this = some out ∧
        (out.1 = Except.error ⟨w.error_code o.val.future_⟩ ↔ w.error_code o.val.future_ ≠ 0) ∧
        ((∃ r, out.1 = Except.ok r) ↔ w.error_code o.val.future_ = 0) := by
    intro w1 o1 h1 hf hec
    obtain ⟨out, hout, herr, hok⟩ := getResult_spec w1 this o1 h1
    rw [hf, hec] at herr hok
    refine ⟨out, hout, ?_, ?_⟩
    · constructor
      · intro he hz
        obtain ⟨r, hr⟩ := hok hz
        rw [hr] at he
        cases he
      · intro hne
        rw [herr hne]
    · constructor
      · rintro ⟨r, hr⟩
        by_contra hne
        rw [herr hne] at hr
        cases hr
      · exact hok
  refine ⟨key w o h rfl rfl, ?_⟩
  intro hres
  unfold waitForResult
  simp only [h, nabto_client_future_wait, hres, if_true]
  exact key _ _ (live_setObj_same _ _ _ (live_eq_some h).2) rfl rfl

/-- C1 at a concrete input: a `FutureVoidImpl` whose future was resolved with
error code 7. -/
theorem C1_error_code_raised_iff_nonzero_witness :
    exampleFailedVoid.live 1 =
        some { val := FutureImpl.new 0 (Payload.void none), owners := 1, destroyed := false } ∧
      exampleFailedVoid.resolved 0 = true ∧
      ∃ out, waitForResult exampleFailedVoid 1 = some out ∧
        (out.1 = Except.error ⟨exampleFailedVoid.error_code 0⟩ ↔
          exampleFailedVoid.error_code 0 ≠ 0) ∧
        ((∃ r, out.1 = Except.ok r) ↔ exampleFailedVoid.error_code 0 = 0) :=
  ⟨by rfl, by rfl,
    (C1_error_code_raised_iff_nonzero exampleFailedVoid 1
      { val := FutureImpl.new 0 (Payload.void none), owners := 1, destroyed := false }
      (by rfl)).2 (by rfl)⟩

/-- C2, as stated, fails: `readAll(4)` whose future the library resolved with
the non-zero code 5 (standing for end-of-file; every non-zero code takes the
same path) after two bytes were transferred.  The two bytes and the count 2 are
in the storage of the wrapper, and yet `getResult` and `waitForResult` give the
caller the exception alone. -/
theorem C2_short_read_bytes_not_returned :
    (exampleShortRead.buffers 0).data = [10, 20, 0, 0] ∧ exampleShortRead.sizes 1 = 2 ∧
      (getResult exampleShortRead 3).map Prod.fst = some (Except.error ⟨5⟩) ∧
      (waitForResult exampleShortRead 3).map Prod.fst = some (Except.error ⟨5⟩) := by
  refine ⟨by rfl, by rfl, by rfl, by rfl⟩

/-- C2, amended: when the future of `readAll(n)` is resolved after `k < n`
bytes were transferred, a non-zero code `ec` (such as end-of-file) makes
`getResult` and `waitForResult` throw `NabtoException(ec)` without returning or
resizing the buffer, and the code 0 makes them return the buffer holding
exactly the `k` bytes.  The buffer is at address `w.next`, the future is
`w.next + 2`. -/
theorem C2_short_read_outcome (w : World) (stream n : Nat) (ec : NabtoClientError)
    (written : List Byte) (hfresh : w.resolved (w.next + 2) = false)
    (hk : written.length < n) :
    ∃ w1, resolve (StreamImpl.readAll w stream n).2 (w.next + 2) ec written written.length
        = some w1 ∧
      (ec ≠ 0 →
        getResult w1 (StreamImpl.readAll w stream n).1 = some (Except.error ⟨ec⟩, w1) ∧
        ∃ w2, waitForResult w1 (StreamImpl.readAll w stream n).1 =
            some (Except.error ⟨ec⟩, w2) ∧ w2.buffers = w1.buffers) ∧
      (ec = 0 →
        (∃ w2, getResult w1 (StreamImpl.readAll w stream n).1 =
            some (Except.ok (Result.buffer w.next), w2) ∧
          (w2.buffers w.next).size = written.length ∧ (w2.buffers w.next).data = written) ∧
        (∃ w2, waitForResult w1 (StreamImpl.readAll w stream n).1 =
            some (Except.ok (Result.buffer w.next), w2) ∧
          (w2.buffers w.next).size = written.length ∧ (w2.buffers w.next).data = written)) := by
  by_cases hec : ec = 0
  · subst hec
    obtain ⟨w1, hres, hg, hwt⟩ :=
      read_ok w true stream n written written.length hfresh (Nat.le_of_lt hk) (Nat.le_refl _)
    refine ⟨w1, hres, fun h => absurd rfl h, fun _ => ?_⟩
    simpa [List.take_length] using And.intro hg hwt
  · obtain ⟨w1, hres, hg, w2, hwt, hb, -⟩ :=
      read_failed w true stream n ec written written.length hfresh (Nat.le_of_lt hk) hec
    exact ⟨w1, hres, fun _ => ⟨hg, w2, hwt, hb⟩, fun h => absurd h hec⟩

/-- C2 amended, at a concrete input: `readAll(4)` on the empty world, two bytes
transferred, code 5. -/
theorem C2_short_read_outcome_witness :
    (World.init fun _ => 3).resolved ((World.init fun _ => 3).next + 2) = false ∧
      [(10 : Byte), 20].length < 4 ∧
      ∃ w1, resolve (StreamImpl.readAll (World.init fun _ => 3) 0 4).2 2 5 [10, 20] 2 = some w1 ∧
        getResult w1 3 = some (Except.error ⟨5⟩, w1) :=
  ⟨by rfl, by decide,
    (C2_short_read_outcome (World.init fun _ => 3) 0 4 5 [10, 20] (by rfl) (by decide)).elim
      fun w1 h => ⟨w1, h.1, (h.2.1 (by decide)).1⟩⟩

/-- C3: for `readAll(n)` and `readSome(n)`, when the library has written
`written` (at most `n` bytes) into the read buffer and resolves the future with
error code 0 and a count `t` of at most that many bytes, `getResult` and
`waitForResult` return the buffer, its size is exactly `t` and its bytes are the
first `t` bytes written.  The buffer is at address `w.next`, the future is
`w.next + 2`. -/
theorem C3_read_returns_transferred_bytes (w : World) (stream n : Nat) (written : List Byte)
    (t : Nat) (hfresh : w.resolved (w.next + 2) = false) (hw : written.length ≤ n)
    (ht : t ≤ written.length) :
    (∃ w1, resolve (StreamImpl.readAll w stream n).2 (w.next + 2) 0 written t = some w1 ∧
      (∃ w2, getResult w1 (StreamImpl.readAll w stream n).1 =
          some (Except.ok (Result.buffer w.next), w2) ∧
        (w2.buffers w.next).size = t ∧ (w2.buffers w.next).data = written.take t) ∧
      (∃ w2, waitForResult w1 (StreamImpl.readAll w stream n).1 =
          some (Except.ok (Result.buffer w.next), w2) ∧
        (w2.buffers w.next).size = t ∧ (w2.buffers w.next).data = written.take t)) ∧
    (∃ w1, resolve (StreamImpl.readSome w stream n).2 (w.next + 2) 0 written t = some w1 ∧
      (∃ w2, getResult w1 (StreamImpl.readSome w stream n).1 =
          some (Except.ok (Result.buffer w.next), w2) ∧
        (w2.buffers w.next).size = t ∧ (w2.buffers w.next).data = written.take t) ∧
      (∃ w2, waitForResult w1 (StreamImpl.readSome w stream n).1 =
          some (Except.ok (Result.buffer w.next), w2) ∧
        (w2.buffers w.next).size = t ∧ (w2.buffers w.next).data = written.take t)) :=
  ⟨read_ok w true stream n written t hfresh hw ht, read_ok w false stream n written t hfresh hw ht⟩

/-- C3 at a concrete input: `readSome(4)` on the empty world, the library
writes 10, 20, 30 and reports the count 2. -/
theorem C3_read_returns_transferred_bytes_witness :
    (World.init fun _ => 3).resolved ((World.init fun _ => 3).next + 2) = false ∧
      [(10 : Byte), 20, 30].length ≤ 4 ∧ 2 ≤ [(10 : Byte), 20, 30].length ∧
      ∃ w1, resolve (StreamImpl.readSome (World.init fun _ => 3) 0 4).2 2 0 [10, 20, 30] 2
          = some w1 ∧
        ∃ w2, getResult w1 3 = some (Except.ok (Result.buffer 0), w2) ∧
          (w2.buffers 0).size = 2 ∧ (w2.buffers 0).data = [10, 20] :=
  ⟨by rfl, by decide, by decide,
    (C3_read_returns_transferred_bytes (World.init fun _ => 3) 0 4 [10, 20, 30] 2 (by rfl)
      (by decide) (by decide)).2.elim fun w1 h => ⟨w1, h.1, h.2.1⟩⟩

/-- C4: when the last owner drops a wrapper (of any of the three classes) that
has not ended, the underlying future is not freed.  If no callback was
registered, the destructor runs and its only call into the library is
`nabto_client_future_set_callback` on the same future, for a fresh holder (at
the new address `w.next`) that has the same future and the same payload (data
buffer and count storage), the do-nothing callback, and a reference to itself
as its only owner, so that it is live and no owner can drop it; when the
library later fires the callback of that holder, no callback of the caller is
run, the holder ends and is destroyed, and only then is the future freed.  If a
callback was registered and has not fired, the wrapper itself stays alive
through its `selfReference_` and nothing is called. -/
theorem C4_drop_pending_hands_future_over (w : World) (this : Nat) (o : Obj)
    (h : w.live this = some o) (hended : o.val.ended_ = false) (howner : o.owners = 1)
    (hthis : this ≠ w.next) :
    (o.val.selfReference_ = none →
      ∃ w1, drop w this = some w1 ∧
        destructor (w.setObj this { o with owners := 0 }) this = some w1 ∧
        w1.trace = w.trace ++ [Event.future_set_callback o.val.future_ w.next] ∧
        w1.objs this = some { o with owners := 0, destroyed := true } ∧
        w1.live w.next = some (holderFor o w.next) ∧
        (holderFor o w.next).val.future_ = o.val.future_ ∧
        (holderFor o w.next).val.payload = o.val.payload ∧
        w1.registered o.val.future_ = some w.next ∧
        drop w1 w.next = none ∧
        ∀ w2, w2.live w.next = some (holderFor o w.next) →
          w2.registered o.val.future_ = some w.next → w2.resolved o.val.future_ = true →
          ∃ w3 o3, fire w2 o.val.future_ = some w3 ∧
            w3.trace = w2.trace ++ [Event.future_free w.next o.val.future_] ∧
            w3.objs w.next = some o3 ∧ o3.val.ended_ = true ∧ o3.destroyed = true) ∧
    (o.val.selfReference_ ≠ none →
      drop w this = some (w.setObj this { o with owners := 0 }) ∧
      (w.setObj this { o with owners := 0 }).live this = some { o with owners := 0 } ∧
      (w.setObj this { o with owners := 0 }).trace = w.trace) := by
  have hd := (live_eq_some h).2
  have hl1 : (w.setObj this { o with owners := 0 }).live this = some { o with owners := 0 } :=
    live_setObj_same _ _ _ hd
  constructor
  · intro hself
    have hdrop : drop w this = destructor (w.setObj this { o with owners := 0 }) this := by
      unfold drop
      simp [h, howner, hself]
    rw [hdrop, destructor_not_ended _ this _ hl1 hended]
    refine ⟨_, rfl, rfl, rfl, ?_, ?_, rfl, rfl, ?_, ?_, ?_⟩
    · simp [World.setObj, Function.update_noteq hthis]
    · simp [World.live, World.setObj, holderFor]
    · simp [World.setObj]
    · simp [drop, World.live, World.setObj, holderFor]
    · intro w2 hl2 hreg hres
      have hcb : (holderFor o w.next).val.cb_ = some FutureCallback.doNothing := rfl
      have hfire : fire w2 o.val.future_ = doCallback w2 o.val.future_ w.next := by
        unfold fire
        rw [if_pos hres]
        simp only [hreg]
      rw [hfire, doCallback_eq w2 _ _ _ _ hl2 hcb, if_pos (by simp [holderFor])]
      refine ⟨_, { holderFor o w.next with
        val := { (holderFor o w.next).val with ended_ := true, selfReference_ := none },
        destroyed := true }, rfl, ?_, ?_, rfl, rfl⟩
      · simp [FutureCallback.run, holderFor]
      · simp only [Function.update_same]
  · intro hself
    refine ⟨?_, hl1, rfl⟩
    unfold drop
    simp [h, howner, hself]

/-- C4 at a concrete input: the caller drops the wrapper of a pending
`readAll(4)`; the holder at address 4 takes over future 2, buffer 0 and
count 1. -/
theorem C4_drop_pending_hands_future_over_witness :
    examplePendingRead.live 3 = some
        { val := FutureImpl.new 2 (Payload.buffer 0 1), owners := 1, destroyed := false } ∧
      (3 : Nat) ≠ examplePendingRead.next ∧
      ∃ w1, drop examplePendingRead 3 = some w1 ∧
        w1.trace = [Event.future_set_callback 2 4] ∧
        w1.live 4 = some
          { val := { future_ := 2, payload := Payload.buffer 0 1, selfReference_ := some 4,
                     cb_ := some FutureCallback.doNothing, ended_ := false },
            owners := 0, destroyed := false } :=
  ⟨by rfl, by decide,
    ((C4_drop_pending_hands_future_over examplePendingRead 3
      { val := FutureImpl.new 2 (Payload.buffer 0 1), owners := 1, destroyed := false }
      (by rfl) (by rfl) (by rfl) (by decide)).1 rfl).elim
        fun w1 h => ⟨w1, h.1, h.2.2.1, h.2.2.2.2.1⟩⟩

/-- C5: when the library fires the callback registered on the future of a live
wrapper whose `cb_` is the callback `id` of the caller, that callback is run
exactly once, with `Status(ec)` for the error code `ec` the future reports, and
that status is `ok()` if and only if `ec = 0`; afterwards the wrapper is marked
ended and its `selfReference_` is null (and if that was its last reference, the
destructor has run and freed the future, after the callback). -/
theorem C5_callback_runs_once_with_status (w : World) (this id : Nat) (o : Obj)
    (h : w.live this = some o) (hcb : o.val.cb_ = some (FutureCallback.user id))
    (hreg : w.registered o.val.future_ = some this) (hres : w.resolved o.val.future_ = true) :
    ∃ w1 o1, fire w o.val.future_ = some w1 ∧
      w1.trace = w.trace ++ [Event.run id ⟨w.error_code o.val.future_⟩] ++
        (if o.val.selfReference_.isSome ∧ o.owners = 0
          then [Event.future_free this o.val.future_] else []) ∧
      (Status.ok ⟨w.error_code o.val.future_⟩ = true ↔ w.error_code o.val.future_ = 0) ∧
      w1.objs this = some o1 ∧ o1.val.ended_ = true ∧ o1.val.selfReference_ = none := by
  have hfire : fire w o.val.future_ = doCallback w o.val.future_ this := by
    unfold fire
    rw [if_pos hres]
    simp only [hreg]
  rw [hfire, doCallback_eq w _ this o _ h hcb]
  by_cases hlast : o.val.selfReference_.isSome = true ∧ o.owners = 0
  · rw [if_pos hlast, if_pos hlast]
    exact ⟨_, { o with val := { o.val with ended_ := true, selfReference_ := none },
                       destroyed := true },
      rfl, by simp [FutureCallback.run], by simp [Status.ok],
      by simp only [Function.update_same], rfl, rfl⟩
  · rw [if_neg hlast, if_neg hlast]
    exact ⟨_, { o with val := { o.val with ended_ := true, selfReference_ := none } },
      rfl, by simp [FutureCallback.run], by simp [Status.ok],
      by simp only [Function.update_same], rfl, rfl⟩

/-- C5 at a concrete input: callback 9 registered on a `FutureVoidImpl` whose
future is then resolved with code 7; the firing runs callback 9 once with
`Status(7)`. -/
theorem C5_callback_runs_once_with_status_witness :
    exampleRegistered.live 1 = some
        { val := { future_ := 0, payload := Payload.void none, selfReference_ := some 1,
                   cb_ := some (FutureCallback.user 9), ended_ := false },
          owners := 1, destroyed := false } ∧
      exampleRegistered.registered 0 = some 1 ∧ exampleRegistered.resolved 0 = true ∧
      ∃ w1 o1, fire exampleRegistered 0 = some w1 ∧
        w1.trace = exampleRegistered.trace ++ [Event.run 9 ⟨7⟩] ++ [] ∧
        w1.objs 1 = some o1 ∧ o1.val.ended_ = true ∧ o1.val.selfReference_ = none :=
  ⟨by rfl, by rfl, by rfl,
    (C5_callback_runs_once_with_status exampleRegistered 1 9
      { val := { future_ := 0, payload := Payload.void none, selfReference_ := some 1,
                 cb_ := some (FutureCallback.user 9), ended_ := false },
        owners := 1, destroyed := false }
      (by rfl) (by rfl) (by rfl) (by rfl)).elim fun w1 h1 => h1.elim fun o1 h =>
        ⟨w1, o1, h.1, h.2.1, h.2.2.2⟩⟩

/-- C6: on a live wrapper, every further `getResult` gives what the first
gave.  Called again at once, any number of times, it gives the same exception,
or the same buffer address, and the world after it, the bytes and size of the
returned buffer included, is the world the first call left.  Called in any
later world in which the wrapper, the error code of its future and the count
are unchanged and the buffer is as the first call left it, it gives the same
outcome and leaves that buffer with the same bytes. -/
theorem C6_getResult_idempotent (w : World) (this : Nat) (o : Obj) (h : w.live this = some o) :
    ∃ out, getResult w this = some out ∧
      (∀ n, getResultAgain w this n = some out) ∧
      ∀ w2, w2.live this = some o →
        w2.error_code o.val.future_ = w.error_code o.val.future_ →
        (∀ d t, o.val.payload = Payload.buffer d t →
          w2.sizes t = w.sizes t ∧ w2.buffers d = out.2.buffers d) →
        ∃ w3, getResult w2 this = some (out.1, w3) ∧
          ∀ d t, o.val.payload = Payload.buffer d t → w3.buffers d = out.2.buffers d := by
  obtain ⟨out, hout, -⟩ := getResult_spec w this o h
  refine ⟨out, hout, ?_, ?_⟩
  · intro n
    induction n with
    | zero => exact hout
    | succ k ih =>
      simp only [getResultAgain, ih, Option.some_bind]
      exact getResult_idem w this out hout
  · intro w2 hl2 hec hbuf
    exact getResult_stable w w2 this o out h hout hl2 hec hbuf

/-- C6 at a concrete input: the read of two bytes resolved with code 0; three
further calls return the buffer at address 0 holding 10, 20. -/
theorem C6_getResult_idempotent_witness :
    exampleGoodRead.live 3 = some
        { val := FutureImpl.new 2 (Payload.buffer 0 1), owners := 1, destroyed := false } ∧
      ∃ out, getResult exampleGoodRead 3 = some out ∧
        getResultAgain exampleGoodRead 3 3 = some out ∧
        out.1 = Except.ok (Result.buffer 0) ∧ (out.2.buffers 0).data = [10, 20] :=
  ⟨by rfl,
    (C6_getResult_idempotent exampleGoodRead 3 _ (by rfl)).elim fun out h =>
      ⟨out, h.1, h.2.1 3, by
        have h1 : getResult exampleGoodRead 3 = some (Except.ok (Result.buffer 0),
          (getResult exampleGoodRead 3).get (by rfl) |>.2) := by rfl
        rw [h1] at h
        have h2 := Option.some.inj h.1
        subst h2
        exact ⟨rfl, by rfl⟩⟩⟩

/-- C7: in every world a run can reach, one further step (any call on a
wrapper, or any act of the library) never clears the `ended_` flag of a wrapper;
it marks a wrapper at address `a` ended only if the step is `waitForResult` on
`a`, where the blocking wait has returned, or the library firing the callback
registered for `a`; and after the step every wrapper marked ended, of any of
the three classes, has a resolved future. -/
theorem C7_ended_flag_one_way (w w1 : World) (op : Op) (hr : Reachable w)
    (hs : step w op = some w1) :
    (∀ a o, w.objs a = some o → o.val.ended_ = true →
      ∃ o1, w1.objs a = some o1 ∧ o1.val.ended_ = true) ∧
    (∀ a o1, w1.objs a = some o1 → o1.val.ended_ = true →
      (∀ o, w.objs a = some o → o.val.ended_ = false) →
      (op = Op.waitForResult a ∨ ∃ f, op = Op.fire f ∧ w.registered f = some a)) ∧
    (∀ a o1, w1.objs a = some o1 → o1.val.ended_ = true →
      w1.resolved o1.val.future_ = true) := by
  have hw := reachable_wellFormed w hr
  have he := step_evolves w w1 op hw hs
  have hw1 := wellFormed_of_evolves _ w w1 hw he
  refine ⟨?_, ?_, hw1.ended_resolved⟩
  · intro a o ha hended
    obtain ⟨o1, h1, -, hkeep, -⟩ := he.kept a o ha
    exact ⟨o1, h1, hkeep hended⟩
  · intro a o1 h1 hended hbefore
    cases h0 : w.objs a with
    | none =>
      have := (he.made a o1 h0 h1).2.2
      rw [hended] at this
      cases this
    | some o =>
      obtain ⟨o2, h2, -, -, hset⟩ := he.kept a o h0
      rw [h1] at h2
      cases h2
      exact (hset (hbefore o h0) hended).1

/-- C7 at a concrete input: a `FutureVoidImpl` whose future was resolved with
code 7; `waitForResult` on it marks it ended, and its future is resolved. -/
theorem C7_ended_flag_one_way_witness :
    Reachable exampleFailedVoid ∧
      step exampleFailedVoid (Op.waitForResult 1) = some exampleWaited ∧
      (∃ o1, exampleWaited.objs 1 = some o1 ∧ o1.val.ended_ = true ∧
        exampleWaited.resolved o1.val.future_ = true) :=
  have hr : Reachable exampleFailedVoid :=
    Reachable.step (Op.resolve 0 7 [] 0)
      (Reachable.step (Op.makeFutureVoid none) (Reachable.init fun _ => 3) rfl) (by rfl)
  ⟨hr, by rfl,
    ⟨{ val := { future_ := 0, payload := Payload.void none, selfReference_ := none,
                cb_ := none, ended_ := true },
       owners := 1, destroyed := false }, by rfl, rfl,
      (C7_ended_flag_one_way exampleFailedVoid exampleWaited (Op.waitForResult 1) hr
        (by rfl)).2.2 1 _ (by rfl) rfl⟩⟩

/-- C8, as stated, fails for the payload accessor: `getResponsePayload` has no
path that throws.  For a request without a response, where the underlying call
has no buffer to return, it returns the null result, and no answer of the
underlying call makes it throw. -/
theorem C8_payload_accessor_never_raises :
    CoapImpl.getResponsePayload none = Except.ok none ∧
      ¬ ∃ buffer e, CoapImpl.getResponsePayload buffer = Except.error e := by
  refine ⟨rfl, ?_⟩
  rintro ⟨buffer, e, h⟩
  cases buffer <;> simp [CoapImpl.getResponsePayload] at h

/-- C8, amended: when the underlying call answers with the invalid-state code
(which `nabto_client.h` documents for a request that has no response yet; the
code is not 0 and is not the no-content-format code), `getResponseStatusCode`
and `getResponseContentFormat` throw `NabtoException` with that code, whatever
is in the out-parameter; `getResponsePayload` does not throw, and returns the
null result when the underlying call returns no buffer. -/
theorem C8_accessors_before_response (NO_CONTENT_FORMAT INVALID_STATE : NabtoClientError)
    (statusCode contentFormat : Nat) (buffer : Option NabtoClientBuffer)
    (h0 : INVALID_STATE ≠ 0) (hne : INVALID_STATE ≠ NO_CONTENT_FORMAT) :
    CoapImpl.getResponseStatusCode INVALID_STATE statusCode = Except.error ⟨INVALID_STATE⟩ ∧
    CoapImpl.getResponseContentFormat NO_CONTENT_FORMAT INVALID_STATE contentFormat =
      Except.error ⟨INVALID_STATE⟩ ∧
    (∀ e, CoapImpl.getResponsePayload buffer ≠ Except.error e) ∧
    (buffer = none → CoapImpl.getResponsePayload buffer = Except.ok none) := by
  refine ⟨by simp [CoapImpl.getResponseStatusCode, h0],
    by simp [CoapImpl.getResponseContentFormat, h0, hne], ?_, ?_⟩
  · intro e
    cases buffer <;> simp [CoapImpl.getResponsePayload]
  · rintro rfl
    rfl

/-- C8 amended, at a concrete input: invalid-state code 9, no-content-format
code 4, no buffer. -/
theorem C8_accessors_before_response_witness :
    (9 : NabtoClientError) ≠ 0 ∧ (9 : NabtoClientError) ≠ 4 ∧
      CoapImpl.getResponseStatusCode 9 0 = Except.error ⟨9⟩ ∧
      CoapImpl.getResponseContentFormat 4 9 0 = Except.error ⟨9⟩ ∧
      CoapImpl.getResponsePayload none = Except.ok none :=
  ⟨by decide, by decide,
    (C8_accessors_before_response 4 9 0 0 none (by decide) (by decide)).1,
    (C8_accessors_before_response 4 9 0 0 none (by decide) (by decide)).2.1,
    (C8_accessors_before_response 4 9 0 0 none (by decide) (by decide)).2.2.2 rfl⟩

/-- C9: `getResponsePayload` never throws; it returns the null result exactly
when the underlying call returns no buffer, and otherwise a `BufferOut` whose
bytes are the `size` bytes at `data` of the returned buffer, and whose size is
that `size` (the buffer being readable over its whole size). -/
theorem C9_payload_null_iff_no_buffer (buffer : Option NabtoClientBuffer) :
    (∀ e, CoapImpl.getResponsePayload buffer ≠ Except.error e) ∧
    (CoapImpl.getResponsePayload buffer = Except.ok none ↔ buffer = none) ∧
    (∀ b, buffer = some b →
      ∃ out, CoapImpl.getResponsePayload buffer = Except.ok (some out) ∧
        out.data = (nabto_client_buffer_data b).take (nabto_client_buffer_size b) ∧
        (nabto_client_buffer_size b ≤ (nabto_client_buffer_data b).length →
          out.size = nabto_client_buffer_size b)) := by
  refine ⟨?_, ?_, ?_⟩
  · intro e
    cases buffer <;> simp [CoapImpl.getResponsePayload]
  · cases buffer <;> simp [CoapImpl.getResponsePayload]
  · rintro b rfl
    refine ⟨_, rfl, rfl, ?_⟩
    intro hsize
    simp [BufferOut.ofData, BufferOut.size, hsize]

/-- C9 at a concrete input: a payload of the three bytes 1, 2, 3. -/
theorem C9_payload_null_iff_no_buffer_witness :
    CoapImpl.getResponsePayload (some ⟨[1, 2, 3], 3⟩) = Except.ok (some ⟨[1, 2, 3]⟩) ∧
      ∃ out, CoapImpl.getResponsePayload (some ⟨[1, 2, 3], 3⟩) = Except.ok (some out) ∧
        out.size = 3 :=
  ⟨by rfl,
    ((C9_payload_null_iff_no_buffer (some ⟨[1, 2, 3], 3⟩)).2.2 ⟨[1, 2, 3], 3⟩ rfl).elim
      fun out h => ⟨out, h.1, h.2.2 (by decide)⟩⟩

/-- C10: `getResponseContentFormat` returns -1 exactly when the underlying call
answers with the no-content-format code, throws `NabtoException(ec)` for every
other non-zero code `ec`, and on success (code 0; the no-content-format code is
an error code, not 0) returns the 16-bit content format, a value from 0 to
65535, which is never -1. -/
theorem C10_content_format_no_data_distinct (NO_CONTENT_FORMAT ec : NabtoClientError)
    (contentFormat : Nat) (hno : NO_CONTENT_FORMAT ≠ 0) :
    (CoapImpl.getResponseContentFormat NO_CONTENT_FORMAT ec contentFormat = Except.ok (-1) ↔
      ec = NO_CONTENT_FORMAT) ∧
    (ec ≠ NO_CONTENT_FORMAT → ec ≠ 0 →
      CoapImpl.getResponseContentFormat NO_CONTENT_FORMAT ec contentFormat =
        Except.error ⟨ec⟩) ∧
    (ec = 0 →
      ∃ v, CoapImpl.getResponseContentFormat NO_CONTENT_FORMAT ec contentFormat = Except.ok v ∧
        v = uint16_to_int contentFormat ∧ 0 ≤ v ∧ v ≤ 65535 ∧ v ≠ -1) := by
  have hrange : 0 ≤ uint16_to_int contentFormat ∧ uint16_to_int contentFormat ≤ 65535 := by
    unfold uint16_to_int
    omega
  refine ⟨?_, ?_, ?_⟩
  · constructor
    · intro h
      by_contra hne
      unfold CoapImpl.getResponseContentFormat at h
      rw [if_neg hne] at h
      by_cases h0 : ec = 0
      · simp only [h0, ne_eq, not_true_eq_false, if_false, Except.ok.injEq] at h
        omega
      · simp [h0] at h
    · rintro rfl
      simp [CoapImpl.getResponseContentFormat]
  · intro hne h0
    simp [CoapImpl.getResponseContentFormat, hne, h0]
  · rintro rfl
    refine ⟨uint16_to_int contentFormat, ?_, rfl, hrange.1, hrange.2, by omega⟩
    simp [CoapImpl.getResponseContentFormat, Ne.symm hno]

/-- C10 at a concrete input: no-content-format code 4; the answers 4 (no
content format), 0 with content format 60, and the error 9. -/
theorem C10_content_format_no_data_distinct_witness :
    (4 : NabtoClientError) ≠ 0 ∧
      CoapImpl.getResponseContentFormat 4 4 0 = Except.ok (-1) ∧
      CoapImpl.getResponseContentFormat 4 0 60 = Except.ok 60 ∧
      CoapImpl.getResponseContentFormat 4 9 0 = Except.error ⟨9⟩ :=
  ⟨by decide,
    (C10_content_format_no_data_distinct 4 4 0 (by decide)).1.2 rfl,
    by rfl,
    (C10_content_format_no_data_distinct 4 9 0 (by decide)).2.1 (by decide) (by decide)⟩

/-- C11: each of the seven setters of `ConnectionImpl` completes normally if
and only if the underlying set call returned 0 and otherwise throws
`NabtoException` with exactly the returned code.  On a Connection on which
connecting has begun, the underlying set call of the core fails with
invalid-state and leaves the configuration as it was, so every setter throws
the invalid-state code; in the set-up phase the call succeeds and the setter
completes normally. -/
theorem C11_setters_after_connect_fail (codes : ErrorCodes) (c : Connection)
    (field : ConfigField) (value : String) (ec : NabtoClientError)
    (hbegun : c.state ≠ ConnectionState.Unconfigured) :
    (∀ setter ∈ [ConnectionImpl.setProductId, ConnectionImpl.setDeviceId,
        ConnectionImpl.setServerKey, ConnectionImpl.setApplicationName,
        ConnectionImpl.setApplicationVersion, ConnectionImpl.setServerUrl,
        ConnectionImpl.setPrivateKey],
      (setter ec = Except.ok () ↔ ec = 0) ∧ (ec ≠ 0 → setter ec = Except.error ⟨ec⟩)) ∧
    c.set field value = (ErrorKind.InvalidState, c) ∧
    ConnectionImpl.set field (codes.code (c.set field value).1) =
      Except.error ⟨codes.code ErrorKind.InvalidState⟩ ∧
    (∀ c0 : Connection, c0.state = ConnectionState.Unconfigured →
      (c0.set field value).1 = ErrorKind.Ok ∧
      ConnectionImpl.set field (codes.code (c0.set field value).1) = Except.ok ()) := by
  have hset : c.set field value = (ErrorKind.InvalidState, c) := by
    unfold Connection.set
    rw [if_neg hbegun]
  refine ⟨?_, hset, ?_, ?_⟩
  · intro setter hmem
    simp only [List.mem_cons, List.mem_singleton, List.not_mem_nil, or_false] at hmem
    rcases hmem with rfl | rfl | rfl | rfl | rfl | rfl | rfl
    · exact setter_spec ConfigField.productId ec
    · exact setter_spec ConfigField.deviceId ec
    · exact setter_spec ConfigField.serverKey ec
    · exact setter_spec ConfigField.applicationName ec
    · exact setter_spec ConfigField.applicationVersion ec
    · exact setter_spec ConfigField.serverUrl ec
    · exact setter_spec ConfigField.privateKey ec
  · rw [hset]
    exact (setter_spec field _).2 (codes.error_nonzero _ (fun h => by cases h))
  · intro c0 h0
    have h1 : (c0.set field value).1 = ErrorKind.Ok := by
      unfold Connection.set
      rw [if_pos h0]
    refine ⟨h1, ?_⟩
    rw [h1]
    exact (setter_spec field _).1.2 codes.ok_zero

/-- C11 at a concrete input: `setDeviceId` on a Connection that is
`Connecting`. -/
theorem C11_setters_after_connect_fail_witness :
    exampleConnecting.state ≠ ConnectionState.Unconfigured ∧
      exampleConnecting.set ConfigField.deviceId "de-2"
        = (ErrorKind.InvalidState, exampleConnecting) ∧
      ConnectionImpl.set ConfigField.deviceId
          (exampleCodes.code (exampleConnecting.set ConfigField.deviceId "de-2").1) =
        Except.error ⟨1⟩ :=
  ⟨by decide,
    (C11_setters_after_connect_fail exampleCodes exampleConnecting ConfigField.deviceId "de-2" 0
      (by decide)).2.1,
    (C11_setters_after_connect_fail exampleCodes exampleConnecting ConfigField.deviceId "de-2" 0
      (by decide)).2.2.1⟩

/-- C12: when `nabto_client_stream_new` returns `NULL`, `createStream` does not
fail: it returns a non-null `Stream` whose `stream_` is the null handle.  The
sibling `createCoap` does fail fast on a null handle, returning a null
pointer. -/
theorem C12_createStream_wraps_null_handle :
    ConnectionImpl.createStream none = some ⟨none⟩ ∧
      (∀ handle, ConnectionImpl.createStream handle ≠ none) ∧
      ConnectionImpl.createCoap none = none := by
  refine ⟨rfl, ?_, rfl⟩
  intro handle h
  cases h

/-- C13: on success (error code 0) `getDeviceFingerprintHex` and
`getClientFingerprintHex` each return a string of exactly 32 characters,
whatever the connection left in the array; on a non-zero error code they throw
`NabtoException` with that code and return no string. -/
theorem C13_fingerprint_hex_length (ec : NabtoClientError) (fp : Fin 32 → Byte) :
    (ec = 0 →
      (∃ s, ConnectionImpl.getDeviceFingerprintHex ec fp = Except.ok s ∧ s.length = 32) ∧
      (∃ s, ConnectionImpl.getClientFingerprintHex ec fp = Except.ok s ∧ s.length = 32)) ∧
    (ec ≠ 0 →
      ConnectionImpl.getDeviceFingerprintHex ec fp = Except.error ⟨ec⟩ ∧
      ConnectionImpl.getClientFingerprintHex ec fp = Except.error ⟨ec⟩) := by
  constructor
  · rintro rfl
    exact ⟨⟨_, rfl, List.length_ofFn fp⟩, ⟨_, rfl, List.length_ofFn fp⟩⟩
  · intro h
    simp [ConnectionImpl.getDeviceFingerprintHex, ConnectionImpl.getClientFingerprintHex, h]

/-- C13 at a concrete input: an array of 32 characters `'a'` (97). -/
theorem C13_fingerprint_hex_length_witness :
    ConnectionImpl.getDeviceFingerprintHex 0 (fun _ => 97) = Except.ok (List.replicate 32 97) ∧
      ∃ s, ConnectionImpl.getClientFingerprintHex 0 (fun _ => 97) = Except.ok s ∧
        s.length = 32 :=
  ⟨by rfl, ((C13_fingerprint_hex_length 0 (fun _ => 97)).1 rfl).2⟩

/-- C14: on a Stream with a read outstanding (the first read, still Pending), a
`read_some` resolves its own Completion at once with `OperationInProgress` and
no bytes, and leaves the Stream as it was: the first read is still the
outstanding read, and whatever events follow, the Stream ends in the same
state and the same Completions resolve with the same results and bytes as
without the second call. -/
theorem C14_second_read_some_rejected (s : Stream) (first : ReadRequest)
    (hpending : s.recv.read = some first) (completion max : Nat) (es : List StreamEvent) :
    s.read_some completion max =
        (s, [{ completion := completion, result := ErrorKind.OperationInProgress, bytes := [] }]) ∧
      (s.read_some completion max).1.recv.read = some first ∧
      s.run (StreamEvent.read_some completion max :: es) =
        ((s.run es).1,
          { completion := completion, result := ErrorKind.OperationInProgress, bytes := [] } ::
            (s.run es).2) := by
  have hcall : s.read_some completion max =
      (s, [{ completion := completion, result := ErrorKind.OperationInProgress, bytes := [] }]) := by
    unfold Stream.read_some Stream.read
    rw [if_pos (Or.inr (by rw [hpending]; exact Option.some_ne_none first))]
    rfl
  refine ⟨hcall, ?_, ?_⟩
  · rw [hcall]
    exact hpending
  · show (((s.read_some completion max).1.run es).1,
      (s.read_some completion max).2 ++ ((s.read_some completion max).1.run es).2) = _
    rw [hcall]
    rfl

/-- C14 at a concrete input: on an open Stream with `read_some` (Completion 1)
outstanding, a second `read_some` (Completion 2) is rejected; the peer then
writes the byte 7 and it arrives: the first read resolves `Ok` with that byte,
with and without the second call. -/
theorem C14_second_read_some_rejected_witness :
    exampleReadOutstanding.recv.read = some { completion := 1, all := false, size := 10 } ∧
      exampleReadOutstanding.read_some 2 10 =
        (exampleReadOutstanding,
          [{ completion := 2, result := ErrorKind.OperationInProgress, bytes := [] }]) ∧
      (exampleReadOutstanding.run
          [StreamEvent.read_some 2 10, StreamEvent.peer_write [7], StreamEvent.deliver 0 1]).2 =
        [{ completion := 2, result := ErrorKind.OperationInProgress, bytes := [] },
          { completion := 1, result := ErrorKind.Ok, bytes := [7] }] ∧
      (exampleReadOutstanding.run [StreamEvent.peer_write [7], StreamEvent.deliver 0 1]).2 =
        [{ completion := 1, result := ErrorKind.Ok, bytes := [7] }] :=
  ⟨rfl,
    (C14_second_read_some_rejected exampleReadOutstanding _ rfl 2 10 []).1,
    (congrArg Prod.snd (C14_second_read_some_rejected exampleReadOutstanding
      { completion := 1, all := false, size := 10 } rfl 2 10
      [StreamEvent.peer_write [7], StreamEvent.deliver 0 1]).2.2).trans rfl,
    rfl⟩

/-- C15: on a Stream with a write outstanding, `close()` resolves its own
Completion with `OperationInProgress` and changes nothing of the Stream (the
write is still outstanding, the Stream is not half-closed). -/
theorem C15_close_during_write_rejected (s : Stream) (w : WriteRequest)
    (houtstanding : s.send.write = some w) (completion : Nat) :
    s.close completion =
        (s, [{ completion := completion, result := ErrorKind.OperationInProgress, bytes := [] }]) ∧
      (s.close completion).1.send.write = some w ∧
      (s.close completion).1.state = s.state := by
  have hcall : s.close completion =
      (s, [{ completion := completion, result := ErrorKind.OperationInProgress, bytes := [] }]) := by
    unfold Stream.close
    rw [if_pos (Or.inr (Or.inl (by rw [houtstanding]; exact Option.some_ne_none w)))]
    rfl
  refine ⟨hcall, ?_, ?_⟩
  · rw [hcall]
    exact houtstanding
  · rw [hcall]

/-- C15 at a concrete input: `close()` with Completion 2 while the write of the
bytes 7, 8 (Completion 1) is outstanding on an open Stream. -/
theorem C15_close_during_write_rejected_witness :
    exampleWriteOutstanding.send.write = some { completion := 1, data := [7, 8] } ∧
      exampleWriteOutstanding.close 2 =
        (exampleWriteOutstanding,
          [{ completion := 2, result := ErrorKind.OperationInProgress, bytes := [] }]) ∧
      (exampleWriteOutstanding.close 2).1.state = StreamState.Open :=
  ⟨rfl, (C15_close_during_write_rejected exampleWriteOutstanding _ rfl 2).1,
    (C15_close_during_write_rejected exampleWriteOutstanding { completion := 1, data := [7, 8] }
      rfl 2).2.2.trans rfl⟩

/-- C16: for every Stream reached from its creation by any sequence of calls,
deliveries (out of order and repeated ones included) and acts of the peer, the
concatenation of the bytes its reads have returned so far, followed by the
bytes received in order and not yet read, is the concatenation of the peer's
writes up to the receive cursor; so the bytes returned are the first bytes of
the peer's stream, in order, none twice and none missing; and once a read has
resolved with `Eof` they are all the bytes the peer has written. -/
theorem C16_reads_return_peer_bytes_in_order (s : Stream) (log : List Resolution)
    (htrace : Stream.Trace s log) :
    Resolution.returned log ++ s.recv.buffer = s.peer.written.take s.recv.cursor ∧
      Resolution.returned log = s.peer.written.take (Resolution.returned log).length ∧
      ((∃ x ∈ log, x.result = ErrorKind.Eof) → Resolution.returned log = s.peer.written) := by
  have h := trace_ordered htrace
  refine ⟨h.in_order, ?_, ?_⟩
  · have hlen := congrArg List.length h.in_order
    rw [List.length_append, List.length_take] at hlen
    have h1 := congrArg (List.take (Resolution.returned log).length) h.in_order
    rw [List.take_left', List.take_take] at h1
    · rw [Nat.min_eq_left (by omega)] at h1
      exact h1
    · rfl
  · intro he
    obtain ⟨hb, hf⟩ := h.eof_all he
    have hc : s.recv.cursor = s.peer.written.length := (h.fin_length _ hf).1
    have h1 := h.in_order
    rw [hb, List.append_nil, hc, List.take_length] at h1
    exact h1

/-- C16 at a concrete input: the peer writes 1, 2, 3 and then 4, 5 and closes;
the bytes 4, 5 arrive first and the bytes 1, 2, 3 arrive twice; the reads
return 1, 2, 3, 4, then 5, then `Eof`. -/
theorem C16_reads_return_peer_bytes_in_order_witness :
    Stream.Trace exampleStream.1 exampleStream.2 ∧
      exampleStream.2 =
        [{ completion := 0, result := ErrorKind.Ok, bytes := [] },
          { completion := 2, result := ErrorKind.OperationInProgress, bytes := [] },
          { completion := 1, result := ErrorKind.Ok, bytes := [1, 2, 3, 4] },
          { completion := 3, result := ErrorKind.Ok, bytes := [5] },
          { completion := 4, result := ErrorKind.Eof, bytes := [] }] ∧
      exampleStream.1.peer.written = [1, 2, 3, 4, 5] ∧
      Resolution.returned exampleStream.2 = exampleStream.1.peer.written :=
  ⟨trace_run Stream.Trace.new exampleStreamEvents, rfl, rfl,
    (C16_reads_return_peer_bytes_in_order exampleStream.1 exampleStream.2
      (trace_run Stream.Trace.new exampleStreamEvents)).2.2
      ⟨{ completion := 4, result := ErrorKind.Eof, bytes := [] }, by decide, rfl⟩⟩

/-- C17: in every state a Connection can reach, at most one Channel is active
and every Completion, the connect Completion included, has resolved at most
once.  While the Connection is `Connecting`, the first attempt to reach
`Established` becomes the one active Channel, the Connection becomes
`Connected` and the connect Completion resolves `Ok`; once the Connection is no
longer `Connecting`, an attempt that reaches `Established` resolves nothing and
changes neither the state nor which Channel is active. -/
theorem C17_first_established_commits_once (c : Connection) (hr : Connection.Reachable c) :
    (∀ i j, Connection.activeAt c.channels i = true →
      Connection.activeAt c.channels j = true → i = j) ∧
    (∀ h, (c.resolutions.map Prod.fst).count h ≤ 1) ∧
    (∀ i ch, c.state = ConnectionState.Connecting → c.channels[i]? = some ch →
      ch.state = ChannelState.Attempting →
      ∃ h, c.connectCompletion = some h ∧ h ∉ c.resolutions.map Prod.fst ∧
        (c.established i).resolutions = c.resolutions ++ [(h, ErrorKind.Ok)] ∧
        (c.established i).state = ConnectionState.Connected ∧
        ∀ j, Connection.activeAt (c.established i).channels j = true ↔ j = i) ∧
    (∀ i, c.state ≠ ConnectionState.Connecting →
      (c.established i).resolutions = c.resolutions ∧
      (c.established i).state = c.state ∧
      ∀ j, Connection.activeAt (c.established i).channels j =
        Connection.activeAt c.channels j) := by
  have hs := reachable_sound c hr
  refine ⟨hs.active_unique, ?_, ?_, ?_⟩
  · intro h
    exact List.nodup_iff_count_le_one.mp hs.resolved_once h
  · intro i ch hst hch hat
    obtain ⟨h, hh, -, hnot⟩ := hs.connecting_pending hst
    refine ⟨h, hh, hnot, ?_⟩
    have hlen : i < c.channels.length := (List.getElem?_eq_some.mp hch).1
    unfold Connection.established
    simp only [hch, hat, hst, hh, if_true, Connection.resolve, true_and]
    intro j
    rw [activeAt_set]
    constructor
    · intro hj
      split at hj
      · rename_i hij
        exact hij.1.symm
      · rw [hs.idle_inactive (Or.inr hst) j] at hj
        cases hj
    · rintro rfl
      rw [if_pos ⟨rfl, hlen⟩]
  · intro i hst
    unfold Connection.established
    cases hch : c.channels[i]? with
    | none => exact ⟨rfl, rfl, fun _ => rfl⟩
    | some ch =>
      simp only
      by_cases hat : ch.state = ChannelState.Attempting
      · rw [if_pos hat, if_neg hst]
        refine ⟨rfl, rfl, ?_⟩
        intro j
        simp only
        rw [activeAt_set]
        split
        · rename_i hij
          rw [← hij.1, activeAt_of_getElem? _ _ _ hch]
        · rfl
      · rw [if_neg hat]
        exact ⟨rfl, rfl, fun _ => rfl⟩

/-- C17 at a concrete input: the Relay attempt (index 1) is established first
and then the Local attempt (index 0): the Relay Channel alone is active and the
connect Completion 0 has resolved once, `Ok`. -/
theorem C17_first_established_commits_once_witness :
    Connection.Reachable exampleRaced ∧
      exampleRaced.resolutions = [(0, ErrorKind.Ok)] ∧
      exampleRaced.channels.map (fun ch => ch.active) = [false, true] ∧
      (∀ i j, Connection.activeAt exampleRaced.channels i = true →
        Connection.activeAt exampleRaced.channels j = true → i = j) :=
  ⟨reachable_run _ _ (reachable_run _ _ Connection.Reachable.new), by rfl, by rfl,
    (C17_first_established_commits_once exampleRaced
      (reachable_run _ _ (reachable_run _ _ Connection.Reachable.new))).1⟩

/-- C18: on a reachable Connection whose required configuration is missing
(product id, device id, server key, private key or server endpoint is not set),
`connect()` hands out a new Completion that is resolved, with invalid-state, in
the state the call returns; no Channel attempt is started (the Connection has
no Channel at all) and the Connection stays `Unconfigured`. -/
theorem C18_connect_missing_configuration (c : Connection) (hr : Connection.Reachable c)
    (hmissing : c.config.productId = none ∨ c.config.deviceId = none ∨
      c.config.serverKey = none ∨ c.config.privateKey = none ∨ c.config.serverUrl = none) :
    c.connect.1 ∉ c.resolutions.map Prod.fst ∧
    c.connect.2.resolutions = c.resolutions ++ [(c.connect.1, ErrorKind.InvalidState)] ∧
    c.connect.2.channels = [] ∧
    c.state = ConnectionState.Unconfigured ∧
    c.connect.2.state = ConnectionState.Unconfigured := by
  have hs := reachable_sound c hr
  have hcfg : c.config.complete = false := by
    unfold Configuration.complete
    rcases hmissing with h | h | h | h | h <;> simp [h]
  have hst : c.state = ConnectionState.Unconfigured := by
    by_contra hne
    have := reachable_configured c hr hne
    rw [hcfg] at this
    cases this
  have hconnect : c.connect = (c.nextCompletion,
      ({ c with nextCompletion := c.nextCompletion + 1 } : Connection).resolve c.nextCompletion
        ErrorKind.InvalidState) := by
    unfold Connection.connect
    dsimp only
    rw [if_neg (not_not.mpr hst), if_pos hcfg]
  rw [hconnect]
  refine ⟨?_, rfl, hs.unconfigured_no_channels hst, hst, hst⟩
  intro hmem
  exact Nat.lt_irrefl _ (hs.resolved_below _ hmem)

/-- C18 at a concrete input: a Connection with only its product id set;
`connect()` resolves its Completion 0 with invalid-state and starts nothing. -/
theorem C18_connect_missing_configuration_witness :
    Connection.Reachable exampleHalfConfigured ∧
      exampleHalfConfigured.config.deviceId = none ∧
      exampleHalfConfigured.connect.2.resolutions = [(0, ErrorKind.InvalidState)] ∧
      exampleHalfConfigured.connect.2.channels = [] :=
  ⟨reachable_run _ _ Connection.Reachable.new, by rfl,
    (C18_connect_missing_configuration exampleHalfConfigured
      (reachable_run _ _ Connection.Reachable.new) (Or.inr (Or.inl rfl))).2.1,
    (C18_connect_missing_configuration exampleHalfConfigured
      (reachable_run _ _ Connection.Reachable.new) (Or.inr (Or.inl rfl))).2.2.1⟩

/-- C19: a `timed_wait` on a Pending handle whose deadline comes before the
operation finishes returns the distinguished not-yet-resolved status, leaves
the handle as it was (Pending, `ready()` still reports Pending) and the
operation under way, not cancelled; afterwards a `wait()` returns the result
the operation ends with, the same an untimed `wait()` would have returned
instead, a poll after the operation has finished reports it, and so does a
second `timed_wait` whose deadline is late enough. -/
theorem C19_timed_wait_deadline_elapses (c : Completion) (op : Operation) (duration : Nat)
    (hpending : c.handle.state = CompletionState.Pending) (hop : c.operation = some op)
    (hdeadline : c.now + duration < op.finishAt) :
    (c.timed_wait duration).1 = WaitStatus.NotYetResolved ∧
    (c.timed_wait duration).2.handle = c.handle ∧
    (c.timed_wait duration).2.operation = some op ∧
    (c.timed_wait duration).2.invoked = c.invoked ∧
    (c.timed_wait duration).2.ready = none ∧
    (∃ c2, (c.timed_wait duration).2.wait = some (op.outcome, c2) ∧
      c2.handle.state = CompletionState.Resolved ∧ c2.ready = some op.outcome) ∧
    ((c.timed_wait duration).2.wait.map Prod.fst = c.wait.map Prod.fst) ∧
    (∀ t, op.finishAt ≤ t → ((c.timed_wait duration).2.advance t).ready = some op.outcome) ∧
    (∀ d2, op.finishAt ≤ c.now + duration + d2 →
      ((c.timed_wait duration).2.timed_wait d2).1 = WaitStatus.Result op.outcome) := by
  have htw : c.timed_wait duration =
      (WaitStatus.NotYetResolved, { c with now := c.now + duration }) := by
    unfold Completion.timed_wait
    simp only [hpending, hop]
    rw [if_neg (by omega)]
  rw [htw]
  refine ⟨rfl, rfl, hop, rfl, ?_, ?_, ?_, ?_, ?_⟩
  · simp [Completion.ready, hpending]
  · refine ⟨Completion.advance { c with now := c.now + duration }
      (max (c.now + duration) op.finishAt), ?_, ?_, ?_⟩
    · simp only [Completion.wait, hpending, hop]
    · simp [Completion.advance, hop, Completion.resolve, hpending]
    · simp [Completion.advance, hop, Completion.resolve, hpending, Completion.ready]
  · simp [Completion.wait, hpending, hop]
  · intro t ht
    simp [Completion.advance, hop, ht, Completion.resolve, hpending, Completion.ready]
  · intro d2 hd2
    simp [Completion.timed_wait, hpending, hop, hd2]

/-- C19 at a concrete input: an operation that finishes at time 50 with `Eof`;
a `timed_wait` of 10 from time 0 gives not-yet-resolved, a later `wait()` gives
`Eof`. -/
theorem C19_timed_wait_deadline_elapses_witness :
    exampleCompletion.handle.state = CompletionState.Pending ∧
      exampleCompletion.now + 10 < 50 ∧
      (exampleCompletion.timed_wait 10).1 = WaitStatus.NotYetResolved ∧
      (exampleCompletion.timed_wait 10).2.wait.map Prod.fst = some ErrorKind.Eof :=
  ⟨rfl, by decide,
    (C19_timed_wait_deadline_elapses exampleCompletion ⟨50, ErrorKind.Eof⟩ 10 rfl rfl
      (by decide)).1,
    by
      have h := (C19_timed_wait_deadline_elapses exampleCompletion ⟨50, ErrorKind.Eof⟩ 10 rfl rfl
        (by decide)).2.2.2.2.2.2.1
      rw [h]
      rfl⟩

/-- C20: the enumeration `NabtoClientLogSeverity` gives error, warn, info,
debug, trace the values 0, 1, 2, 3, 4, strictly increasing in that order, the
level names select them in the same order, and so a level includes every
severity its left neighbours include: selecting a level further right never
drops a message, and each level includes the severities of all levels to its
left and its own. -/
theorem C20_log_levels_increasing :
    NabtoClientLogSeverity.enumerators.map NabtoClientLogSeverity.value = [0, 1, 2, 3, 4] ∧
    logLevelNames.map logLevelOfName =
      [some .NABTO_CLIENT_LOG_SEVERITY_ERROR, some .NABTO_CLIENT_LOG_SEVERITY_WARN,
       some .NABTO_CLIENT_LOG_SEVERITY_INFO, some .NABTO_CLIENT_LOG_SEVERITY_DEBUG,
       some .NABTO_CLIENT_LOG_SEVERITY_TRACE] ∧
    (∀ a b : NabtoClientLogSeverity, a.value < b.value ↔
      ∃ i j, i < j ∧ NabtoClientLogSeverity.enumerators.get? i = some a ∧
        NabtoClientLogSeverity.enumerators.get? j = some b) ∧
    (∀ level level1 s : NabtoClientLogSeverity, level.value ≤ level1.value →
      logLevelIncludes level s = true → logLevelIncludes level1 s = true) ∧
    (∀ level s : NabtoClientLogSeverity,
      logLevelIncludes level s = true ↔ s.value ≤ level.value) := by
  refine ⟨by decide, by decide, ?_, ?_, ?_⟩
  · intro a b
    constructor
    · intro h
      refine ⟨a.value, b.value, h, ?_, ?_⟩
      · cases a <;> rfl
      · cases b <;> rfl
    · rintro ⟨i, j, hij, hi, hj⟩
      have hi4 : i < 5 := by
        by_contra hge
        have : NabtoClientLogSeverity.enumerators.get? i = none :=
          List.get?_eq_none.mpr (by simp [NabtoClientLogSeverity.enumerators]; omega)
        rw [this] at hi
        cases hi
      have hj4 : j < 5 := by
        by_contra hge
        have : NabtoClientLogSeverity.enumerators.get? j = none :=
          List.get?_eq_none.mpr (by simp [NabtoClientLogSeverity.enumerators]; omega)
        rw [this] at hj
        cases hj
      interval_cases i <;> interval_cases j <;>
        simp [NabtoClientLogSeverity.enumerators] at hi hj hij <;>
        subst hi <;> subst hj <;> decide
  · intro level level1 s h hs
    simp only [logLevelIncludes, decide_eq_true_eq] at hs ⊢
    omega
  · intro level s
    simp [logLevelIncludes]

/-- C21: for a response whose status code is not 205 and that has no payload,
`tcptunnel_pairing` does not report the failure and does not exit with status
1: after `getResponsePayload` has returned the null pointer, the program reads
`data()` and `size()` through it, which is undefined, and nothing is printed.
This holds wherever the status is read as a code other than 205 and the library
has no payload; in the run of `exampleRefused` (status 403) the last two calls
are `getResponseStatusCode` and `getResponsePayload`. -/
theorem C21_no_payload_dereferenced :
    (∀ (input : ClientInput) (configFile : String) (config : Json) (t : List ClientAction),
      input.status_code.1 = 0 → uint16_to_int input.status_code.2 ≠ 205 →
      input.payload = none →
      pairing_conclude input configFile config t =
        (t ++ [ClientAction.get_response_status_code, ClientAction.get_response_payload],
          Except.error Stop.fault)) ∧
    CoapImpl.getResponsePayload exampleRefused.payload = Except.ok none ∧
    (main exampleRefused examplePairingOptions).run.2 = Except.error Stop.fault ∧
    (main exampleRefused examplePairingOptions).run.1 =
      [ClientAction.cout "Pairing with tcp tunnel pr-1.de-1", ClientAction.context_create,
        ClientAction.create_connection, ClientAction.set ConfigField.productId "pr-1",
        ClientAction.set ConfigField.deviceId "de-1", ClientAction.set ConfigField.serverUrl "srv",
        ClientAction.set ConfigField.serverKey "sk-1", ClientAction.create_private_key,
        ClientAction.set ConfigField.privateKey "key-1", ClientAction.connect,
        ClientAction.get_device_fingerprint,
        ClientAction.cout
          "Connected to device with fingerprint aaaaaaaaaaaaaaaaaaaaaaaaaaaaaaaa",
        ClientAction.cout "Is the fingerprint valid [yn]", ClientAction.cin 'x',
        ClientAction.cout "only y or n is accepted as answers", ClientAction.cin 'y',
        ClientAction.create_coap "POST" "/pairing/password",
        ClientAction.set_request_payload 60 (Json.string "secret"), ClientAction.execute,
        ClientAction.get_response_status_code, ClientAction.get_response_payload] :=
  ⟨fun input configFile config t hec hst hp =>
      conclude_no_payload input configFile config t hec hst hp,
    rfl, by rfl, by rfl⟩

/-- C22: in every world a run of wrapper calls and library acts can reach (the
library invokes a registered callback on its live wrapper only, so no callback
fires again on a wrapper it has already released), every call of
`nabto_client_future_free` was made by the destructor of a wrapper of that very
future whose `ended_` flag is true, and each underlying future was freed at
most once, by whichever wrapper. -/
theorem C22_future_free_once_by_ended_holder (w : World) (hr : Reachable w) :
    (∀ self future, Event.future_free self future ∈ w.trace →
      ∃ o, w.objs self = some o ∧ o.val.future_ = future ∧ o.val.ended_ = true ∧
        o.destroyed = true) ∧
    (∀ future, (freedBy w.trace future).length ≤ 1) ∧
    (∀ self self1 future, Event.future_free self future ∈ w.trace →
      Event.future_free self1 future ∈ w.trace → self = self1) := by
  have hw := reachable_freeOnce w hr
  refine ⟨hw.freed_by_ended, hw.free_once, ?_⟩
  intro self self1 future h h1
  have hlen := hw.free_once future
  have hm := (mem_freedBy w.trace self future).mpr h
  have hm1 := (mem_freedBy w.trace self1 future).mpr h1
  cases hl : freedBy w.trace future with
  | nil =>
    rw [hl] at hm
    cases hm
  | cons a rest =>
    rw [hl] at hm hm1 hlen
    cases rest with
    | nil =>
      rw [List.mem_singleton] at hm hm1
      rw [hm, hm1]
    | cons b rest1 =>
      simp only [List.length_cons] at hlen
      omega

/-- C22 at concrete inputs, the three sequences of the claim on a
`FutureVoidImpl` at address 1 with future 0: wait then drop; register a
callback, fire, then drop; drop while pending (the holder is made at address
2), then fire.  In each the future is freed once, by an ended wrapper. -/
theorem C22_future_free_once_by_ended_holder_witness :
    Reachable (runFromEmpty exampleDropThenFire) ∧
      (runFromEmpty exampleWaitThenDrop).trace =
        [Event.future_wait 0, Event.future_free 1 0] ∧
      (runFromEmpty exampleFireThenDrop).trace =
        [Event.future_set_callback 0 1, Event.run 9 ⟨0⟩, Event.future_free 1 0] ∧
      (runFromEmpty exampleDropThenFire).trace =
        [Event.future_set_callback 0 2, Event.future_free 2 0] ∧
      (freedBy (runFromEmpty exampleDropThenFire).trace 0).length ≤ 1 ∧
      (∃ o, (runFromEmpty exampleDropThenFire).objs 2 = some o ∧ o.val.future_ = 0 ∧
        o.val.ended_ = true ∧ o.destroyed = true) :=
  have hr : Reachable (runFromEmpty exampleDropThenFire) :=
    reachable_of_run _ _ exampleDropThenFire (Reachable.init fun _ => 3) (by rfl)
  ⟨hr, by rfl, by rfl, by rfl,
    (C22_future_free_once_by_ended_holder (runFromEmpty exampleDropThenFire) hr).2.1 0,
    (C22_future_free_once_by_ended_holder (runFromEmpty exampleDropThenFire) hr).1 2 0
      (by decide)⟩

/-- C23: the tcptunnel device reads the string output of a failing call.  In
`init_tcptunnel`, whenever `nabto_device_create_private_key` fails, the string
`privateKey` is made from `str` all the same, before `ec` is tested: with the
pointer never set the read is undefined, and otherwise the error is reported
only after the read.  In `run_tcptunnel`, after a failing
`nabto_device_get_device_fingerprint_hex` the message is printed and the run
goes on to make the string `fp` from `fpTemp` (`exampleDeviceNoFingerprint`). -/
theorem C23_failed_call_output_is_read :
    (∀ (input : DeviceInput) (configFile productId deviceId server : String),
      input.json_config_exists configFile = false →
      input.ec DeviceCall.create_private_key ≠ 0 →
      (init_tcptunnel input configFile productId deviceId server).run =
        match input.private_key with
        | none =>
          ([DeviceAction.json_config_exists configFile, DeviceAction.device_new,
              DeviceAction.call DeviceCall.create_private_key Json.null,
              DeviceAction.std_string DeviceCall.create_private_key none],
            Except.error Stop.fault)
        | some key =>
          ([DeviceAction.json_config_exists configFile, DeviceAction.device_new,
              DeviceAction.call DeviceCall.create_private_key Json.null,
              DeviceAction.std_string DeviceCall.create_private_key (some key),
              DeviceAction.cerr "Error creating private key"],
            Except.ok false)) ∧
    (exampleDeviceNoKey.ec DeviceCall.create_private_key = 1 ∧
      (init_tcptunnel exampleDeviceNoKey "tcptunnel_device.json" "pr-1" "de-1" "srv").run =
        ([DeviceAction.json_config_exists "tcptunnel_device.json", DeviceAction.device_new,
            DeviceAction.call DeviceCall.create_private_key Json.null,
            DeviceAction.std_string DeviceCall.create_private_key none],
          Except.error Stop.fault)) ∧
    (exampleDeviceNoFingerprint.ec DeviceCall.get_device_fingerprint_hex = 1 ∧
      (run_tcptunnel exampleDeviceNoFingerprint "tcptunnel_device.json" "info").run =
        ([DeviceAction.json_config_load "tcptunnel_device.json", DeviceAction.device_new,
            DeviceAction.call DeviceCall.set_product_id (Json.string "pr-1"),
            DeviceAction.call DeviceCall.set_device_id (Json.string "de-1"),
            DeviceAction.call DeviceCall.set_server_url (Json.string "srv"),
            DeviceAction.call DeviceCall.set_private_key (Json.string "key-7"),
            DeviceAction.call DeviceCall.iam_load defaultTcptunnelIam,
            DeviceAction.call DeviceCall.enable_mdns Json.null,
            DeviceAction.call DeviceCall.enable_tcp_tunnelling Json.null,
            DeviceAction.call DeviceCall.set_log_level (Json.string "info"),
            DeviceAction.call DeviceCall.set_log_std_out_callback Json.null,
            DeviceAction.call DeviceCall.start Json.null,
            DeviceAction.call DeviceCall.get_device_fingerprint_hex Json.null,
            DeviceAction.cerr "Could not get fingerprint of the device",
            DeviceAction.std_string DeviceCall.get_device_fingerprint_hex none],
          Except.error Stop.fault)) :=
  ⟨fun input configFile productId deviceId server h hec =>
      init_key_fails input configFile productId deviceId server h hec,
    ⟨rfl, by rfl⟩, ⟨rfl, by rfl⟩⟩

/-- C24: the pairing request of `tcptunnel_pairing` (`createCoap` for
`POST /pairing/password`, its payload, `execute`) is not made only after a `y` of
the user.  When the input ends before a `y` or an `n` was typed, `std::cin >> input`
fails and stores nothing, the loop compares the variable `input` that was given
no value, and where that holds `y` the request is made though the user has
answered nothing: in the run of `exampleEndOfInput` nothing is typed, the
password is sent and the pairing is concluded with exit status 0.  (Where the
variable holds neither `y` nor `n`, as in `exampleInputEnds`, the re-prompt is
printed without end and no request is made.)  This is the only way around the
answer: in every run in which a part of the request is made, the first `y` or
`n` typed is a `y`, or none was typed and the variable holds `y`; so whenever a
`y` or an `n` was typed the claim holds.  The rest of the claim holds in every
run: when the first of them is an `n` the program prints that the fingerprint is
not accepted and exits with status 1, and no part of the request is made; a
character that is neither is read, answered with the re-prompt, and the loop
goes on with the next character. -/
theorem C24_password_sent_at_end_of_input :
    (exampleEndOfInput.answers = [] ∧ ¬ FingerprintAccepted exampleEndOfInput.answers ∧
      (main exampleEndOfInput examplePairingOptions).run =
        ([ClientAction.cout "Pairing with tcp tunnel pr-1.de-1", ClientAction.context_create,
            ClientAction.create_connection, ClientAction.set ConfigField.productId "pr-1",
            ClientAction.set ConfigField.deviceId "de-1",
            ClientAction.set ConfigField.serverUrl "srv",
            ClientAction.set ConfigField.serverKey "sk-1", ClientAction.create_private_key,
            ClientAction.set ConfigField.privateKey "key-1", ClientAction.connect,
            ClientAction.get_device_fingerprint,
            ClientAction.cout
              "Connected to device with fingerprint aaaaaaaaaaaaaaaaaaaaaaaaaaaaaaaa",
            ClientAction.cout "Is the fingerprint valid [yn]",
            ClientAction.create_coap "POST" "/pairing/password",
            ClientAction.set_request_payload 60 (Json.string "secret"), ClientAction.execute,
            ClientAction.get_response_status_code,
            ClientAction.cout "Paired with the device, writing configuration to disk",
            ClientAction.json_config_save "tcptunnel_client.json"
              (clientConfig "pr-1" "de-1" "srv" "sk-1" "key-1")],
          Except.error (Stop.exit 0))) ∧
    ((main exampleInputEnds examplePairingOptions).run.2 = Except.error Stop.endless ∧
      (main exampleInputEnds examplePairingOptions).run.1.getLast? =
        some (ClientAction.cout "only y or n is accepted as answers") ∧
      ActionKind.request ∉
        (main exampleInputEnds examplePairingOptions).run.1.map ClientAction.kind) ∧
    (∀ (input : ClientInput) (configFile productId deviceId server serverKey password : String),
      ((∃ a ∈
          (tcptunnel_pairing input configFile productId deviceId server serverKey
            password).run.1, a.kind = ActionKind.request) →
        FingerprintAccepted input.answers ∨
          (Unanswered input.answers ∧ input.uninitialised = 'y')) ∧
      (¬ Unanswered input.answers →
        (∃ a ∈
          (tcptunnel_pairing input configFile productId deviceId server serverKey
            password).run.1, a.kind = ActionKind.request) →
        FingerprintAccepted input.answers) ∧
      (∀ pre rest, input.answers = pre ++ 'n' :: rest → (∀ c ∈ pre, c ≠ 'y' ∧ c ≠ 'n') →
        (∀ a ∈
          (tcptunnel_pairing input configFile productId deviceId server serverKey
            password).run.1, a.kind ≠ ActionKind.request) ∧
        (∀ t, pairing_prompt input.uninitialised input.answers t =
          (t ++ reprompts pre ++
            [ClientAction.cin 'n', ClientAction.cout "Fingerprint not accepted, quitting"],
            Except.error (Stop.exit 1))) ∧
        (∀ t1 config,
          pairing_connect input productId deviceId server serverKey [] =
            (t1, Except.ok config) →
          (tcptunnel_pairing input configFile productId deviceId server serverKey
              password).run =
            (t1 ++ reprompts pre ++
              [ClientAction.cin 'n', ClientAction.cout "Fingerprint not accepted, quitting"],
              Except.error (Stop.exit 1))))) ∧
    (∀ (uninitialised c : Char) (rest : List Char) (t : List ClientAction),
      c ≠ 'y' → c ≠ 'n' →
      pairing_prompt uninitialised (c :: rest) t =
        pairing_prompt uninitialised rest
          (t ++ [ClientAction.cin c,
            ClientAction.cout "only y or n is accepted as answers"])) ∧
    (∀ (uninitialised : Char) (answers : List Char) (t : List ClientAction),
      Unanswered answers →
      pairing_prompt uninitialised answers t =
        if uninitialised = 'y' then (t ++ reprompts answers, Except.ok ())
        else if uninitialised = 'n' then
          (t ++ reprompts answers ++ [ClientAction.cout "Fingerprint not accepted, quitting"],
            Except.error (Stop.exit 1))
        else
          (t ++ reprompts answers ++ [ClientAction.cout "only y or n is accepted as answers"],
            Except.error Stop.endless)) := by
  refine ⟨⟨rfl, ?_, by rfl⟩, ⟨by rfl, by rfl, by decide⟩, ?_,
    fun u c rest t hy hn => prompt_other u c rest t hy hn, ?_⟩
  · rintro ⟨pre, rest, h, -⟩
    have h1 : ([] : List Char) = pre ++ 'y' :: rest := h
    cases pre <;> cases h1
  · intro input configFile productId deviceId server serverKey password
    have hreq : (∃ a ∈
        (tcptunnel_pairing input configFile productId deviceId server serverKey password).run.1,
        a.kind = ActionKind.request) →
        FingerprintAccepted input.answers ∨
          (Unanswered input.answers ∧ input.uninitialised = 'y') := by
      intro h
      rcases pairing_cases input configFile productId deviceId server serverKey password with
        ⟨st, -, -, -, hacc⟩ | ⟨t, config, -, -, hacc⟩
      · exact hacc h
      · exact hacc
    refine ⟨hreq, ?_, ?_⟩
    · intro hun h
      rcases hreq h with hacc | ⟨hu, -⟩
      · exact hacc
      · exact absurd hu hun
    intro pre rest hans hpre
    have hno : ∀ t, pairing_prompt input.uninitialised input.answers t =
        (t ++ reprompts pre ++
          [ClientAction.cin 'n', ClientAction.cout "Fingerprint not accepted, quitting"],
          Except.error (Stop.exit 1)) := by
      intro t
      rw [hans]
      exact prompt_no _ pre rest t hpre
    refine ⟨?_, hno, ?_⟩
    · intro a ha hk
      rcases hreq ⟨a, ha, hk⟩ with ⟨pre1, rest1, hans1, hpre1⟩ | ⟨hun, -⟩
      · have h1 := hno []
        rw [hans1, prompt_yes _ pre1 rest1 [] hpre1] at h1
        have h2 := congrArg Prod.snd h1
        cases h2
      · have hmem : 'n' ∈ input.answers := by
          rw [hans]
          simp
        exact (hun 'n' hmem).2 rfl
    · intro t1 config hconn
      unfold tcptunnel_pairing Prog.run
      rw [bind_of_ok hconn, bind_of_error (hno t1)]
  · intro u answers t hun
    rw [prompt_end u answers t hun, prompt_nil]

/-- C25: in every run of `tcptunnel_pairing` the exit status 0 and the attempt
to write the configuration file occur only when the status code of the pairing
response is 205, and with that status code the program writes and exits with
status 0.  A failed connect, a rejected fingerprint and a status 403 with a
payload end with exit status 1 and nothing written.  But a status other than
205 without a payload (`exampleRefused`) does not end with exit status 1: the
null pointer of `getResponsePayload` is dereferenced. -/
theorem C25_pairing_exit_status :
    (∀ (input : ClientInput)
        (configFile productId deviceId server serverKey password : String),
      ((tcptunnel_pairing input configFile productId deviceId server serverKey password).run.2 =
          Except.error (Stop.exit 0) →
        CoapImpl.getResponseStatusCode input.status_code.1 input.status_code.2 =
          Except.ok 205) ∧
      ((∃ a ∈
          (tcptunnel_pairing input configFile productId deviceId server serverKey
            password).run.1, a.kind = ActionKind.save) →
        CoapImpl.getResponseStatusCode input.status_code.1 input.status_code.2 =
            Except.ok 205 ∧
          (tcptunnel_pairing input configFile productId deviceId server serverKey
            password).run.2 = Except.error (Stop.exit 0))) ∧
    (∀ (input : ClientInput) (configFile : String) (config : Json) (t : List ClientAction),
      CoapImpl.getResponseStatusCode input.status_code.1 input.status_code.2 = Except.ok 205 →
      (pairing_conclude input configFile config t).2 = Except.error (Stop.exit 0) ∧
        ClientAction.json_config_save configFile config ∈
          (pairing_conclude input configFile config t).1) ∧
    ((main examplePaired examplePairingOptions).run.2 = Except.error (Stop.exit 0) ∧
      ActionKind.save ∈ (main examplePaired examplePairingOptions).run.1.map ClientAction.kind) ∧
    ((main exampleConnectFails examplePairingOptions).run.2 = Except.error (Stop.exit 1) ∧
      ActionKind.save ∉
        (main exampleConnectFails examplePairingOptions).run.1.map ClientAction.kind) ∧
    ((main exampleRejected examplePairingOptions).run.2 = Except.error (Stop.exit 1) ∧
      ActionKind.save ∉
        (main exampleRejected examplePairingOptions).run.1.map ClientAction.kind) ∧
    ((main exampleRefusedWithReason examplePairingOptions).run.2 = Except.error (Stop.exit 1) ∧
      ActionKind.save ∉
        (main exampleRefusedWithReason examplePairingOptions).run.1.map ClientAction.kind) ∧
    ((main exampleRefused examplePairingOptions).run.2 = Except.error Stop.fault ∧
      (main exampleRefused examplePairingOptions).run.2 ≠ Except.error (Stop.exit 1) ∧
      ActionKind.save ∉
        (main exampleRefused examplePairingOptions).run.1.map ClientAction.kind) := by
  refine ⟨?_, ?_, ⟨by rfl, by decide⟩, ⟨by rfl, by decide⟩, ⟨by rfl, by decide⟩,
    ⟨by rfl, by decide⟩, ⟨by rfl, ?_, by decide⟩⟩
  · intro input configFile productId deviceId server serverKey password
    rcases pairing_cases input configFile productId deviceId server serverKey password with
      ⟨st, hst, hkind, hacts, -⟩ | ⟨t, config, hrun, hacts, -⟩
    · constructor
      · intro h
        rw [hst] at h
        cases h
        rcases hkind with h | h | h | ⟨e, h⟩ <;> simp at h
      · rintro ⟨a, ha, hk⟩
        rcases hacts a ha with h | h | h | h <;> rw [hk] at h <;> cases h
    · by_cases hcode : CoapImpl.getResponseStatusCode input.status_code.1
          input.status_code.2 = Except.ok 205
      · have hc := conclude_paired input configFile config t hcode
        constructor
        · exact fun _ => hcode
        · intro _
          refine ⟨hcode, ?_⟩
          rw [hrun, hc]
      · obtain ⟨es, htr, hes, hstop⟩ := conclude_refused input configFile config hcode t
        constructor
        · intro h
          rw [hrun] at h
          rcases hstop _ h with h1 | h1 | ⟨e, h1⟩ <;> simp at h1
        · rintro ⟨a, ha, hk⟩
          rw [hrun, htr] at ha
          rcases List.mem_append.mp ha with ha | ha
          · rcases hacts a ha with h | h | h | h <;> rw [hk] at h <;> cases h
          · rcases hes a ha with h | h <;> rw [hk] at h <;> cases h
  · intro input configFile config t hcode
    rw [conclude_paired input configFile config t hcode]
    refine ⟨rfl, ?_⟩
    simp
  · intro h
    have h1 : (main exampleRefused examplePairingOptions).run.2 = Except.error Stop.fault := by
      rfl
    rw [h1] at h
    cases h

/-- C26: `main` of the tunnel client dispatches with a fixed precedence.  With
`--help` it prints the help and exits with status 0, whatever else is given.
Otherwise with `--password-pairing` it runs `tcptunnel_pairing` (an exception
that leaves it ends in the message and exit status 1): the run is the same
with and without `--tcptunnel`, it loads no configuration and makes no tunnel
call; with a pairing option missing it exits with status 1 at once.  Otherwise
with `--tcptunnel` it runs `tcptunnel`.  With neither mode option it prints
two messages and exits with status 1, and does nothing else: no context and no
connection is created. -/
theorem C26_mode_dispatch (input : ClientInput) (result : ParseResult) :
    (result.help ≠ 0 →
      (main input result).run =
        ([ClientAction.cout "options.help()"], Except.error (Stop.exit 0))) ∧
    (result.help = 0 → result.password_pairing ≠ 0 →
      main input result = main input { result with tcptunnel := 0 } ∧
      (∀ a ∈ (main input result).run.1,
        a.kind ≠ ActionKind.load ∧ a.kind ≠ ActionKind.tunnel) ∧
      ((result.product = none ∨ result.device = none ∨ result.server = none ∨
          result.server_key = none ∨ result.password = none) →
        (main input result).run =
          ([ClientAction.cout "Missing required option", ClientAction.cout "options.help()"],
            Except.error (Stop.exit 1))) ∧
      (∀ product device server server_key password,
        result.product = some product → result.device = some device →
        result.server = some server → result.server_key = some server_key →
        result.password = some password →
        (main input result).run =
          match (tcptunnel_pairing input result.config product device server server_key
            password).run with
          | (t, Except.error (Stop.threw _)) =>
            (t ++ [ClientAction.cout "Missing required option",
              ClientAction.cout "options.help()"], Except.error (Stop.exit 1))
          | (t, Except.error s) => (t, Except.error s)
          | (t, Except.ok _) => (t, Except.ok 0))) ∧
    (result.help = 0 → result.password_pairing = 0 → result.tcptunnel ≠ 0 →
      (main input result).run =
        match (tcptunnel input result.config result.local_port result.remote_host
          result.remote_port).run with
        | (t, Except.error (Stop.threw e)) =>
          (t ++ [ClientAction.cout e.what], Except.error (Stop.exit 1))
        | (t, Except.error s) => (t, Except.error s)
        | (t, Except.ok _) => (t, Except.ok 0)) ∧
    (result.help = 0 → result.password_pairing = 0 → result.tcptunnel = 0 →
      (main input result).run =
        ([ClientAction.cout "Missing mode option", ClientAction.cout "options.help()"],
          Except.error (Stop.exit 1))) := by
  refine ⟨main_help input result, ?_, main_tunnel_run input result,
    main_no_mode input result⟩
  intro hhelp hpp
  refine ⟨main_pairing_first input result hpp,
    only_mem (only_main_pairing input result hhelp hpp),
    main_pairing_missing input result hhelp hpp, ?_⟩
  intro product device server server_key password hp hd hs hk hw
  exact main_pairing_run input result product device server server_key password hhelp hpp hp
    hd hs hk hw

/-- C26 at a concrete input: with both `--password-pairing` and `--tcptunnel`
given, the pairing runs (to its exit status 0) and no tunnel call is made; with
`--help` added the program exits with status 0 at once. -/
theorem C26_mode_dispatch_witness :
    (main examplePaired examplePairingOptions).run.2 = Except.error (Stop.exit 0) ∧
      (∀ a ∈ (main examplePaired examplePairingOptions).run.1,
        a.kind ≠ ActionKind.load ∧ a.kind ≠ ActionKind.tunnel) ∧
      (main examplePaired { examplePairingOptions with help := 1 }).run =
        ([ClientAction.cout "options.help()"], Except.error (Stop.exit 0)) :=
  ⟨by rfl,
    ((C26_mode_dispatch examplePaired examplePairingOptions).2.1 rfl (by decide)).2.1,
    (C26_mode_dispatch examplePaired { examplePairingOptions with help := 1 }).1 (by decide)⟩

/-- C27: when the configuration file already exists, `init_tcptunnel` tests for
it, prints the message and exits with status 2, and that is the whole run: no
device is created, no private key is generated and no file is written. -/
theorem C27_init_keeps_existing_config (input : DeviceInput)
    (configFile productId deviceId server : String)
    (hexists : input.json_config_exists configFile = true) :
    (init_tcptunnel input configFile productId deviceId server).run =
      ([DeviceAction.json_config_exists configFile,
          DeviceAction.cerr
            ("The config already file exists, remove " ++ configFile ++ " and try again")],
        Except.error (Stop.exit 2)) :=
  init_exists input configFile productId deviceId server hexists

/-- C27 at a concrete input: the file `tcptunnel_device.json` exists. -/
theorem C27_init_keeps_existing_config_witness :
    exampleDeviceConfigured.json_config_exists "tcptunnel_device.json" = true ∧
      (init_tcptunnel exampleDeviceConfigured "tcptunnel_device.json" "pr-1" "de-1" "srv").run =
        ([DeviceAction.json_config_exists "tcptunnel_device.json",
            DeviceAction.cerr
              "The config already file exists, remove tcptunnel_device.json and try again"],
          Except.error (Stop.exit 2)) :=
  ⟨rfl,
    (C27_init_keeps_existing_config exampleDeviceConfigured "tcptunnel_device.json" "pr-1" "de-1"
      "srv" rfl).trans (by rfl)⟩

/-- C28: the saved configuration round-trips in both tcptunnel examples.
Client: whenever a run of `tcptunnel_pairing` writes a file, it is the
configuration file, what is written holds the five values under the keys
`ProductId`, `DeviceId`, `ServerUrl`, `ServerKey` and `PrivateKey`, and the run has
called the five setters with these values; a run of `createConnection` that
loads what was written, and whose setters succeed, calls the same setters with
the same values in the same order.  A pairing that exits with status 0 has
written the file.  Device: whenever a run of `init_tcptunnel` writes a file, it is
the configuration file, what is written holds the key generated, the product
id, device id and server given and the default IAM configuration under
`PrivateKey`, `ProductId`, `DeviceId`, `Server` and `Iam`, and the run has set that
private key and loaded that IAM configuration; in a run of `run_tcptunnel` that
loads what was written and gets a device, the first five calls into the device
give it that product id, device id, server, private key and IAM configuration.
An initialisation that returns true has written the file.  Moreover in every
run of either path each setter or device call carries the value of the saved
file, and the saved file answers each of the keys read with the value
written. -/
theorem C28_saved_configuration_round_trips
    (productId deviceId server serverKey privateKey : String) :
    ((clientConfig productId deviceId server serverKey privateKey).string_at "ProductId" =
        Except.ok productId ∧
      (clientConfig productId deviceId server serverKey privateKey).string_at "DeviceId" =
        Except.ok deviceId ∧
      (clientConfig productId deviceId server serverKey privateKey).string_at "ServerUrl" =
        Except.ok server ∧
      (clientConfig productId deviceId server serverKey privateKey).string_at "ServerKey" =
        Except.ok serverKey ∧
      (clientConfig productId deviceId server serverKey privateKey).string_at "PrivateKey" =
        Except.ok privateKey) ∧
    (∀ (input : ClientInput) (configFile password : String),
      input.create_private_key.2 = privateKey →
      ∀ a ∈ (tcptunnel_pairing input configFile productId deviceId server serverKey
          password).run.1,
        a.Agrees (clientValues productId deviceId server serverKey privateKey) configFile
          (clientConfig productId deviceId server serverKey privateKey)) ∧
    (∀ (input : ClientInput) (configFile : String),
      input.json_config_load configFile =
        some (clientConfig productId deviceId server serverKey privateKey) →
      ∀ a ∈ (createConnection input configFile).run.1,
        a.Agrees (clientValues productId deviceId server serverKey privateKey) configFile
          (clientConfig productId deviceId server serverKey privateKey)) ∧
    ((deviceConfig privateKey productId deviceId server).string_at "ProductId" =
        Except.ok productId ∧
      (deviceConfig privateKey productId deviceId server).string_at "DeviceId" =
        Except.ok deviceId ∧
      (deviceConfig privateKey productId deviceId server).string_at "Server" =
        Except.ok server ∧
      (deviceConfig privateKey productId deviceId server).string_at "PrivateKey" =
        Except.ok privateKey ∧
      (deviceConfig privateKey productId deviceId server).index "Iam" =
        Except.ok defaultTcptunnelIam) ∧
    (∀ (input : DeviceInput) (configFile : String), input.private_key = some privateKey →
      ∀ a ∈ (init_tcptunnel input configFile productId deviceId server).run.1,
        a.Agrees (deviceValues productId deviceId server privateKey defaultTcptunnelIam)
          configFile (deviceConfig privateKey productId deviceId server)) ∧
    (∀ (input : DeviceInput) (configFile logLevel : String),
      input.json_config_load configFile =
        some (deviceConfig privateKey productId deviceId server) →
      ∀ a ∈ (run_tcptunnel input configFile logLevel).run.1,
        a.Agrees (deviceValues productId deviceId server privateKey defaultTcptunnelIam)
          configFile (deviceConfig privateKey productId deviceId server)) ∧
    (∀ (input : ClientInput) (configFile password file : String) (saved : Json),
      ClientAction.json_config_save file saved ∈
        (tcptunnel_pairing input configFile productId deviceId server serverKey
          password).run.1 →
      file = configFile ∧
      saved = clientConfig productId deviceId server serverKey input.create_private_key.2 ∧
      settings
          (tcptunnel_pairing input configFile productId deviceId server serverKey
            password).run.1 =
        [(ConfigField.productId, productId), (ConfigField.deviceId, deviceId),
          (ConfigField.serverUrl, server), (ConfigField.serverKey, serverKey),
          (ConfigField.privateKey, input.create_private_key.2)] ∧
      ∀ (reader : ClientInput) (readFile : String),
        reader.json_config_load readFile = some saved → (∀ field, reader.set field = 0) →
        settings (createConnection reader readFile).run.1 =
          settings
            (tcptunnel_pairing input configFile productId deviceId server serverKey
              password).run.1) ∧
    (∀ (input : ClientInput) (configFile password : String),
      (tcptunnel_pairing input configFile productId deviceId server serverKey password).run.2 =
        Except.error (Stop.exit 0) →
      ClientAction.json_config_save configFile
          (clientConfig productId deviceId server serverKey input.create_private_key.2) ∈
        (tcptunnel_pairing input configFile productId deviceId server serverKey
          password).run.1) ∧
    (∀ (input : DeviceInput) (configFile file : String) (saved : Json),
      DeviceAction.json_config_save file saved ∈
        (init_tcptunnel input configFile productId deviceId server).run.1 →
      ∃ key, input.private_key = some key ∧ file = configFile ∧
        saved = deviceConfig key productId deviceId server ∧
        deviceCalls (init_tcptunnel input configFile productId deviceId server).run.1 =
          [(DeviceCall.create_private_key, Json.null),
            (DeviceCall.set_private_key, Json.string key),
            (DeviceCall.get_device_fingerprint_hex, Json.null),
            (DeviceCall.iam_load, defaultTcptunnelIam)] ∧
        ∀ (reader : DeviceInput) (readFile logLevel : String),
          reader.json_config_load readFile = some saved → reader.device_new = true →
          (deviceCalls (run_tcptunnel reader readFile logLevel).run.1).take 5 =
            [(DeviceCall.set_product_id, Json.string productId),
              (DeviceCall.set_device_id, Json.string deviceId),
              (DeviceCall.set_server_url, Json.string server),
              (DeviceCall.set_private_key, Json.string key),
              (DeviceCall.iam_load, defaultTcptunnelIam)]) ∧
    (∀ (input : DeviceInput) (configFile : String),
      (init_tcptunnel input configFile productId deviceId server).run.2 = Except.ok true →
      ∃ key, input.private_key = some key ∧
        DeviceAction.json_config_save configFile (deviceConfig key productId deviceId server) ∈
          (init_tcptunnel input configFile productId deviceId server).run.1) := by
  refine ⟨⟨rfl, rfl, rfl, rfl, rfl⟩, ?_, ?_, ⟨rfl, rfl, rfl, rfl, rfl⟩, ?_, ?_, ?_, ?_, ?_, ?_⟩
  · intro input configFile password hkey
    rw [← hkey]
    exact only_mem (only_pairing_values input configFile productId deviceId server serverKey
      password)
  · intro input configFile hload
    exact only_mem (only_createConnection_values input configFile productId deviceId server
      serverKey privateKey configFile _ hload)
  · intro input configFile hkey
    exact only_mem (only_init_values input configFile productId deviceId server privateKey hkey)
  · intro input configFile logLevel hload
    exact only_mem (only_run_values input configFile logLevel productId deviceId server
      privateKey configFile _ hload)
  · intro input configFile password file saved hmem
    have hag := only_mem
      (only_pairing_values input configFile productId deviceId server serverKey password)
      _ hmem
    have hfile : file = configFile := hag.1
    have hsaved : saved =
        clientConfig productId deviceId server serverKey input.create_private_key.2 := hag.2
    have hset := pairing_settings input configFile productId deviceId server serverKey password
      file saved hmem
    refine ⟨hfile, hsaved, hset, ?_⟩
    intro reader readFile hload hok
    rw [hsaved] at hload
    rw [hset]
    exact createConnection_settings reader readFile productId deviceId server serverKey
      input.create_private_key.2 hload hok
  · intro input configFile password hexit
    exact pairing_exit_saves input configFile productId deviceId server serverKey password hexit
  · intro input configFile file saved hmem
    rcases init_cases input configFile productId deviceId server with
      ⟨hnone, -⟩ | ⟨key, fp, hkey, -, hrun⟩
    · exact absurd hmem (hnone file saved)
    · refine ⟨key, hkey, ?_⟩
      have hag := only_mem
        (only_init_values input configFile productId deviceId server key hkey) _ hmem
      have hfile : file = configFile := hag.1
      have hsaved : saved = deviceConfig key productId deviceId server := hag.2
      refine ⟨hfile, hsaved, ?_, ?_⟩
      · rw [hrun]
        rfl
      · intro reader readFile logLevel hload hdev
        rw [hsaved] at hload
        exact run_calls reader readFile logLevel productId deviceId server key hload hdev
  · intro input configFile htrue
    rcases init_cases input configFile productId deviceId server with
      ⟨-, hne⟩ | ⟨key, fp, hkey, -, hrun⟩
    · exact absurd htrue hne
    · refine ⟨key, hkey, ?_⟩
      rw [hrun]
      simp

/-- C28 at concrete inputs: the pairing of `examplePaired` saves the product
`pr-1`, the device `de-1`, the server `srv`, the server key `sk-1` and the key
`key-1`, and a connection made from that file (`exampleReconnect`) is set up with
the same five values by the same setter calls; the device initialised in
`exampleDevice` saves the key `key-7`, and the device run from that file
(`exampleDeviceConfigured`) is given the same product, device, server, key and
IAM configuration by its first five calls. -/
theorem C28_saved_configuration_round_trips_witness :
    (tcptunnel_pairing examplePaired "tcptunnel_client.json" "pr-1" "de-1" "srv" "sk-1"
        "secret").run.1.getLast? =
      some (ClientAction.json_config_save "tcptunnel_client.json"
        (clientConfig "pr-1" "de-1" "srv" "sk-1" "key-1")) ∧
    (createConnection exampleReconnect "tcptunnel_client.json").run =
      ([ClientAction.json_config_load "tcptunnel_client.json", ClientAction.context_create,
          ClientAction.set_logger, ClientAction.create_connection,
          ClientAction.set ConfigField.productId "pr-1",
          ClientAction.set ConfigField.deviceId "de-1",
          ClientAction.set ConfigField.serverUrl "srv",
          ClientAction.set ConfigField.serverKey "sk-1",
          ClientAction.set ConfigField.privateKey "key-1", ClientAction.connect],
        Except.ok ()) ∧
    (∀ a ∈ (createConnection exampleReconnect "tcptunnel_client.json").run.1,
      a.Agrees (clientValues "pr-1" "de-1" "srv" "sk-1" "key-1") "tcptunnel_client.json"
        (clientConfig "pr-1" "de-1" "srv" "sk-1" "key-1")) ∧
    settings (createConnection exampleReconnect "tcptunnel_client.json").run.1 =
      settings
        (tcptunnel_pairing examplePaired "tcptunnel_client.json" "pr-1" "de-1" "srv" "sk-1"
          "secret").run.1 ∧
    (init_tcptunnel exampleDevice "tcptunnel_device.json" "pr-1" "de-1" "srv").run =
      ([DeviceAction.json_config_exists "tcptunnel_device.json", DeviceAction.device_new,
          DeviceAction.call DeviceCall.create_private_key Json.null,
          DeviceAction.std_string DeviceCall.create_private_key (some "key-7"),
          DeviceAction.call DeviceCall.set_private_key (Json.string "key-7"),
          DeviceAction.call DeviceCall.get_device_fingerprint_hex Json.null,
          DeviceAction.std_string DeviceCall.get_device_fingerprint_hex (some "f00d"),
          DeviceAction.cout "Created new private key with fingerprint: f00d",
          DeviceAction.string_free, DeviceAction.string_free, DeviceAction.cout "iam size",
          DeviceAction.call DeviceCall.iam_load defaultTcptunnelIam,
          DeviceAction.json_config_save "tcptunnel_device.json"
            (deviceConfig "key-7" "pr-1" "de-1" "srv"),
          DeviceAction.close, DeviceAction.device_free],
        Except.ok true) ∧
    (run_tcptunnel exampleDeviceConfigured "tcptunnel_device.json" "info").run.1.take 7 =
      [DeviceAction.json_config_load "tcptunnel_device.json", DeviceAction.device_new,
        DeviceAction.call DeviceCall.set_product_id (Json.string "pr-1"),
        DeviceAction.call DeviceCall.set_device_id (Json.string "de-1"),
        DeviceAction.call DeviceCall.set_server_url (Json.string "srv"),
        DeviceAction.call DeviceCall.set_private_key (Json.string "key-7"),
        DeviceAction.call DeviceCall.iam_load defaultTcptunnelIam] ∧
    (deviceCalls
        (run_tcptunnel exampleDeviceConfigured "tcptunnel_device.json" "info").run.1).take 5 =
      [(DeviceCall.set_product_id, Json.string "pr-1"),
        (DeviceCall.set_device_id, Json.string "de-1"),
        (DeviceCall.set_server_url, Json.string "srv"),
        (DeviceCall.set_private_key, Json.string "key-7"),
        (DeviceCall.iam_load, defaultTcptunnelIam)] := by
  refine ⟨by rfl, by rfl,
    (C28_saved_configuration_round_trips "pr-1" "de-1" "srv" "sk-1" "key-1").2.2.1
      exampleReconnect "tcptunnel_client.json" rfl, ?_, by rfl, by rfl, ?_⟩
  · have hmem :=
      (C28_saved_configuration_round_trips "pr-1" "de-1" "srv" "sk-1" "key-1").2.2.2.2.2.2.2.1
        examplePaired "tcptunnel_client.json" "secret" (by rfl)
    exact ((C28_saved_configuration_round_trips "pr-1" "de-1" "srv" "sk-1"
      "key-1").2.2.2.2.2.2.1 examplePaired "tcptunnel_client.json" "secret" _ _ hmem).2.2.2
      exampleReconnect "tcptunnel_client.json" rfl (fun _ => rfl)
  · obtain ⟨key, hkey, hmem⟩ :=
      (C28_saved_configuration_round_trips "pr-1" "de-1" "srv" "sk-1"
        "key-1").2.2.2.2.2.2.2.2.2 exampleDevice "tcptunnel_device.json" (by rfl)
    have hk : some "key-7" = some key := hkey
    cases hk
    obtain ⟨key1, hkey1, -, -, -, hread⟩ :=
      (C28_saved_configuration_round_trips "pr-1" "de-1" "srv" "sk-1"
        "key-1").2.2.2.2.2.2.2.2.1 exampleDevice "tcptunnel_device.json" _ _ hmem
    have hk1 : some "key-7" = some key1 := hkey1
    cases hk1
    exact hread exampleDeviceConfigured "tcptunnel_device.json" "info" rfl rfl

/-- C29: the default IAM configuration of the tcptunnel device is referentially
closed.  `DefaultRole` is `Unpaired`, a role defined under `Roles` (`Unpaired`,
`Tunnelling`); the policies listed in the roles (`PasswordPairing`, `P2P`,
`TunnelAll`, `P2P`) are all defined under `Policies` (`PasswordPairing`,
`TunnelAll`, `P2P`); the one role listed for a user, `Tunnelling`, is defined
under `Roles`. -/
theorem C29_default_iam_closed :
    Iam.Closed defaultTcptunnelIam ∧
      Iam.defaultRole defaultTcptunnelIam = some "Unpaired" ∧
      Iam.roles defaultTcptunnelIam = ["Unpaired", "Tunnelling"] ∧
      Iam.policies defaultTcptunnelIam = ["PasswordPairing", "TunnelAll", "P2P"] ∧
      Iam.rolePolicies defaultTcptunnelIam = ["PasswordPairing", "P2P", "TunnelAll", "P2P"] ∧
      Iam.userRoles defaultTcptunnelIam = ["Tunnelling"] := by
  have hd : Iam.defaultRole defaultTcptunnelIam = some "Unpaired" := by rfl
  have hr : Iam.roles defaultTcptunnelIam = ["Unpaired", "Tunnelling"] := by rfl
  have hp : Iam.policies defaultTcptunnelIam = ["PasswordPairing", "TunnelAll", "P2P"] := by rfl
  have hrp : Iam.rolePolicies defaultTcptunnelIam =
      ["PasswordPairing", "P2P", "TunnelAll", "P2P"] := by rfl
  have hur : Iam.userRoles defaultTcptunnelIam = ["Tunnelling"] := by rfl
  refine ⟨⟨⟨"Unpaired", hd, ?_⟩, ?_, ?_⟩, hd, hr, hp, hrp, hur⟩
  · rw [hr]
    decide
  · rw [hrp, hp]
    decide
  · rw [hur, hr]
    decide

/-- C30: the CoAP content-format codes agree wherever they are defined.  An
enumerator of the client header and one of the device header that have the
same name have the same value; the names they share are text/plain (0),
octet-stream (42), JSON (50) and CBOR (60); and the constant
`COAP_CONTENT_FORMAT_APPLICATION_CBOR` of the tunnel client, which it passes with
the pairing payload, is the CBOR value of both, 60. -/
theorem C30_content_formats_agree :
    (∀ (c : NabtoClientCoapContentFormat) (d : nabto_device_coap_content_format),
      c.name = d.name → c.value = d.value) ∧
    (∀ d : nabto_device_coap_content_format,
      ∃ c : NabtoClientCoapContentFormat, c.name = d.name ∧ c.value = d.value) ∧
    [nabto_device_coap_content_format.NABTO_DEVICE_COAP_CONTENT_FORMAT_TEXT_PLAIN_UTF8,
        nabto_device_coap_content_format.NABTO_DEVICE_COAP_CONTENT_FORMAT_APPLICATION_OCTET_STREAM,
        nabto_device_coap_content_format.NABTO_DEVICE_COAP_CONTENT_FORMAT_APPLICATION_JSON,
        nabto_device_coap_content_format.NABTO_DEVICE_COAP_CONTENT_FORMAT_APPLICATION_CBOR].map
        nabto_device_coap_content_format.value = [0, 42, 50, 60] ∧
    COAP_CONTENT_FORMAT_APPLICATION_CBOR =
      NabtoClientCoapContentFormat.NABTO_CLIENT_COAP_CONTENT_FORMAT_APPLICATION_CBOR.value ∧
    COAP_CONTENT_FORMAT_APPLICATION_CBOR =
      nabto_device_coap_content_format.NABTO_DEVICE_COAP_CONTENT_FORMAT_APPLICATION_CBOR.value ∧
    COAP_CONTENT_FORMAT_APPLICATION_CBOR = 60 ∧
    (∀ (input : ClientInput) (password : String) (contentFormat : Int) (payload : Json),
      ClientAction.set_request_payload contentFormat payload ∈
        (pairing_request input password).run.1 → contentFormat = 60) := by
  refine ⟨?_, ?_, rfl, rfl, rfl, rfl, ?_⟩
  · intro c d h
    cases c <;> cases d <;> first | rfl | exact absurd h (by decide)
  · intro d
    cases d
    · exact ⟨.NABTO_CLIENT_COAP_CONTENT_FORMAT_TEXT_PLAIN_UTF8, rfl, rfl⟩
    · exact ⟨.NABTO_CLIENT_COAP_CONTENT_FORMAT_APPLICATION_OCTET_STREAM, rfl, rfl⟩
    · exact ⟨.NABTO_CLIENT_COAP_CONTENT_FORMAT_APPLICATION_JSON, rfl, rfl⟩
    · exact ⟨.NABTO_CLIENT_COAP_CONTENT_FORMAT_APPLICATION_CBOR, rfl, rfl⟩
  · intro input password contentFormat payload hmem
    have hall : ∀ a ∈ (pairing_request input password).run.1,
        ∀ cfmt pl, a = ClientAction.set_request_payload cfmt pl → cfmt = 60 := by
      refine only_mem (Q := fun _ => True) ?_
      unfold pairing_request
      refine only_bind (only_act _ (fun _ _ h => (by cases h))) fun _ => ?_
      cases ConnectionImpl.createCoap input.coap_new with
      | none => exact only_stop _ trivial
      | some coap =>
        refine only_bind (only_act _ ?_) fun _ => ?_
        · intro cfmt pl h
          cases h
          rfl
        refine only_bind (only_call _ (fun _ => trivial) _) fun _ => ?_
        refine only_bind (only_act _ (fun _ _ h => (by cases h))) fun _ => ?_
        exact only_call _ (fun _ => trivial) _
    exact hall _ hmem contentFormat payload rfl

end Nabto
